import Mathlib

/-!
DeviceAccess, TransferGroup.

A shallow embedding of `device/src/TransferGroup.cc` (namespace `ChimeraTK`).

Transfer elements and backends are shared objects; they are identified here by
natural numbers (the order of the numbers is the order of the shared pointers
in a `std::set` / `std::map`).  The fields of a `TransferElement` that the
group touches directly (`_activeException`, `_isInTransferGroup`) are explicit
fields of `World`; everything else that elements and backends own (buffers,
device state, the decorator graph) is the component `ext` of an arbitrary type.

The member functions of `TransferElement`, `TransferElementAbstractor` and
`DeviceBackend` are declared in headers that are not among the sources.  They
are taken as parameters (`Behaviour`): every theorem below holds for every
choice of them, under the hypotheses it states.
-/

namespace ChimeraTK

/-- Identity of a `boost::shared_ptr<TransferElement>`. -/
abbrev ElemId := Nat

/-- Identity of a `boost::shared_ptr<DeviceBackend>`. -/
abbrev BackendId := Nat

/-- The value carried by `VersionNumber`. -/
abbrev VersionNumber := Nat

/-- The exception objects a `std::exception_ptr` can point to, by dynamic type,
with the `what()` text. -/
inductive Exc where
  | logic_error (what : String)
  | runtime_error (what : String)
  | bad_numeric_cast (what : String)
  | thread_interrupted
  | other (what : String)
  deriving DecidableEq, Repr

/-- Dynamic type test used by `catch(ChimeraTK::runtime_error&)`. -/
def Exc.isRuntimeError : Exc → Bool
  | .runtime_error _ => true
  | _ => false

/-- Dynamic type test used by `catch(boost::numeric::bad_numeric_cast&)`. -/
def Exc.isBadNumericCast : Exc → Bool
  | .bad_numeric_cast _ => true
  | _ => false

/-- The state shared between the user, the groups and the backends. -/
structure World (X : Type) where
  /-- Models `TransferElement::_activeException` of every element (`none` is `nullptr`). -/
  activeException : ElemId → Option Exc
  /-- Models `TransferElement::_isInTransferGroup` of every element. -/
  isInTransferGroup : ElemId → Bool
  /-- Everything else: buffers, backend state, the graph of internal elements. -/
  ext : X

/-- Assignment `elem->_activeException = ex`. -/
def World.setActiveException {X : Type} (w : World X) (e : ElemId) (ex : Option Exc) : World X :=
  { w with activeException := fun x => if x = e then ex else w.activeException x }

/-- Assignment `elem->_isInTransferGroup = b`. -/
def World.setInTransferGroup {X : Type} (w : World X) (e : ElemId) (b : Bool) : World X :=
  { w with isInTransferGroup := fun x => if x = e then b else w.isInTransferGroup x }

/-- The member functions of `DeviceBackend`, `TransferElement` and
`TransferElementAbstractor` that `TransferGroup.cc` calls.  Their definitions are
not among the sources, so they are parameters.  A function that can throw returns
the exception it throws (`none`: it returns normally) together with the state it
leaves behind. -/
structure Behaviour (X : Type) where
  /-- Models `DeviceBackend::isOpen()`. -/
  backendIsOpen : BackendId → World X → Bool
  /-- Models `DeviceBackend::readDeviceInfo()`. -/
  backendReadDeviceInfo : BackendId → World X → String
  /-- Models `TransferElement::getName()`. -/
  getName : ElemId → World X → String
  /-- Models `TransferElement::isReadable()`. -/
  isReadable : ElemId → World X → Bool
  /-- Models `TransferElement::isWriteable()`. -/
  isWriteable : ElemId → World X → Bool
  /-- Models `TransferElement::isReadOnly()`. -/
  isReadOnly : ElemId → World X → Bool
  /-- Models `getAccessModeFlags().has(AccessMode::wait_for_new_data)`. -/
  hasWaitForNewData : ElemId → World X → Bool
  /-- Models `TransferElement::getExceptionBackend()`. -/
  getExceptionBackend : ElemId → World X → BackendId
  /-- Models `TransferElement::getHardwareAccessingElements()` (a `std::vector`). -/
  getHardwareAccessingElements : ElemId → World X → List ElemId
  /-- Models `TransferElement::getInternalElements()` (a `std::list`). -/
  getInternalElements : ElemId → World X → List ElemId
  /-- Whether the dynamic type of the element derives from `CopyRegisterDecoratorTrait`. -/
  isCopyDecorator : ElemId → Bool
  /-- Models `TransferElement::replaceTransferElement(newElement)`: first the element it is
  called on, then the replacement. -/
  replaceTransferElement : ElemId → ElemId → World X → World X
  /-- Models `TransferElementAbstractor::replaceTransferElement(newElement)` on an abstractor
  holding `_impl`: returns the new `_impl`. -/
  abstractorReplaceTransferElement : ElemId → ElemId → World X → ElemId × World X
  /-- Models `TransferElement::preReadAndHandleExceptions(TransferType::read)`: the wrapper
  that runs `preRead` and keeps what it throws inside the element. -/
  preReadAndHandleExceptions : ElemId → World X → World X
  /-- Models `TransferElement::readTransfer()`. -/
  readTransfer : ElemId → World X → Option Exc × World X
  /-- Models `TransferElement::postRead(TransferType::read, updateDataBuffer)`. -/
  postRead : ElemId → Bool → World X → Option Exc × World X
  /-- Models `TransferElement::preWriteAndHandleExceptions(TransferType::write, versionNumber)`. -/
  preWriteAndHandleExceptions : ElemId → VersionNumber → World X → World X
  /-- Models `TransferElement::writeTransfer(versionNumber)`. -/
  writeTransfer : ElemId → VersionNumber → World X → Option Exc × World X
  /-- Models `TransferElement::postWrite(TransferType::write, versionNumber)`. -/
  postWrite : ElemId → VersionNumber → World X → Option Exc × World X

/-- Build options: whether `assert` is compiled in (`NDEBUG` not defined). -/
structure Config where
  assertsEnabled : Bool
  deriving DecidableEq, Repr

/-- A call that `TransferGroup::read` or `TransferGroup::write` makes on an element
or a backend, in the order of the calls, with what the group observed of it. -/
inductive Event where
  /-- Models `backend->isOpen()` and its result. -/
  | backendIsOpen (b : BackendId) (result : Bool)
  /-- Models `backend->readDeviceInfo()`. -/
  | backendReadDeviceInfo (b : BackendId)
  /-- Models `elem->isReadable()` and its result. -/
  | isReadable (e : ElemId) (result : Bool)
  /-- Models `elem->getName()`. -/
  | getName (e : ElemId)
  /-- Models `elem->getHardwareAccessingElements()`. -/
  | getHardwareAccessingElements (e : ElemId)
  /-- Models `elem->preReadAndHandleExceptions(TransferType::read)`. -/
  | preRead (e : ElemId)
  /-- Models `elem->handleTransferException([&] { elem->readTransfer(); })`, with the value
  of `elem->_activeException` when the wrapper is left. -/
  | readTransfer (e : ElemId) (latched : Option Exc)
  /-- Models `elem->postRead(TransferType::read, updateDataBuffer)` and what it threw. -/
  | postRead (e : ElemId) (updateDataBuffer : Bool) (thrown : Option Exc)
  /-- Models `elem->preWriteAndHandleExceptions(TransferType::write, versionNumber)`. -/
  | preWrite (e : ElemId) (v : VersionNumber)
  /-- Models `elem->handleTransferException([&] { elem->writeTransfer(versionNumber); })`,
  with the value of `elem->_activeException` when the wrapper is left. -/
  | writeTransfer (e : ElemId) (v : VersionNumber) (latched : Option Exc)
  /-- Models `elem->postWrite(TransferType::write, versionNumber)` and what it threw. -/
  | postWrite (e : ElemId) (v : VersionNumber) (thrown : Option Exc)
  deriving DecidableEq, Repr

/-- How a call of a `TransferGroup` member function ends, by the statement that
ends it. -/
inductive Outcome where
  /-- The function returns normally. -/
  | returned
  /-- A `throw ChimeraTK::logic_error(...)` of the function's own checks. -/
  | guardFailed (ex : Exc)
  /-- An `assert` failed (only with asserts compiled in). -/
  | assertFailed
  /-- An exception left a transfer: `handleTransferException` did not keep it. -/
  | transferEscaped (ex : Exc)
  /-- An exception left `postWrite` and no `catch` clause of `write` matched it. -/
  | postEscaped (ex : Exc)
  /-- Models `std::terminate()` in the `catch(...)` clause of `runPostReads`. -/
  | terminated
  /-- Models `std::rethrow_exception` of an exception collected during the cycle. -/
  | rethrown (ex : Exc)
  deriving DecidableEq, Repr

/-- The exception that the caller of the member function sees, if any. -/
def Outcome.exception : Outcome → Option Exc
  | .guardFailed ex => some ex
  | .transferEscaped ex => some ex
  | .postEscaped ex => some ex
  | .rethrown ex => some ex
  | _ => none

/-- The cycle ran through all of its phases: it ended normally or by re-raising a
collected error. -/
def Outcome.completed : Outcome → Bool
  | .returned => true
  | .rethrown _ => true
  | _ => false

/-- Insertion into a `std::set` of shared pointers, kept in iteration order. -/
def setInsert (x : Nat) : List Nat → List Nat
  | [] => [x]
  | y :: ys => if x < y then x :: y :: ys else if x = y then y :: ys else y :: setInsert x ys

/-- Models `std::map::insert` of `{key, flag}`, kept in iteration order: an entry whose key
is already present stays as it is. -/
def mapInsert (k : Nat) (flag : Bool) : List (Nat × Bool) → List (Nat × Bool)
  | [] => [(k, flag)]
  | p :: ps =>
    if k < p.1 then (k, flag) :: p :: ps else if k = p.1 then p :: ps else p :: mapInsert k flag ps

/-- The data members of `TransferGroup`; every container is listed in its iteration
order. -/
structure TransferGroup where
  /-- Models `_highLevelElements`. -/
  highLevelElements : List ElemId
  /-- Models `_copyDecorators`. -/
  copyDecorators : List ElemId
  /-- Models `_lowLevelElementsAndExceptionFlags`. -/
  lowLevelElementsAndExceptionFlags : List (ElemId × Bool)
  /-- Models `_exceptionBackends`. -/
  exceptionBackends : List BackendId
  /-- Models `readOnly`. -/
  readOnly : Bool
  deriving DecidableEq, Repr

/-- A default-constructed group. -/
def TransferGroup.empty : TransferGroup :=
  { highLevelElements := [], copyDecorators := [], lowLevelElementsAndExceptionFlags := [],
    exceptionBackends := [], readOnly := false }

/-- The keys of `_lowLevelElementsAndExceptionFlags`: the leaf set `L`. -/
def TransferGroup.leaves (g : TransferGroup) : List ElemId :=
  g.lowLevelElementsAndExceptionFlags.map Prod.fst

/-- The loop `for(auto& it : _lowLevelElementsAndExceptionFlags) it.second = false;`. -/
def TransferGroup.resetExceptionFlags (g : TransferGroup) : TransferGroup :=
  { g with lowLevelElementsAndExceptionFlags :=
      g.lowLevelElementsAndExceptionFlags.map fun it => (it.1, false) }

/-- Models `TransferGroup::isReadOnly`. -/
def TransferGroup.isReadOnly (g : TransferGroup) : Bool := g.readOnly

/-- What a call of `read` or `write` leaves behind. -/
structure Result (X : Type) where
  outcome : Outcome
  group : TransferGroup
  world : World X
  /-- The calls made on elements and backends, in order. -/
  events : List Event


/-- The loop over `_exceptionBackends` at the top of `read` and `write`: the
`logic_error` thrown for the first backend that is not open, and the calls made. -/
def checkBackends {X : Type} (B : Behaviour X) (w : World X) :
    List BackendId → Option Exc × List Event
  | [] => (none, [])
  | b :: bs =>
    if B.backendIsOpen b w then
      ((checkBackends B w bs).1, Event.backendIsOpen b true :: (checkBackends B w bs).2)
    else
      (some (Exc.logic_error ("DeviceBackend " ++ B.backendReadDeviceInfo b w ++ "is not opened!")),
        [Event.backendIsOpen b false, Event.backendReadDeviceInfo b])

/-- The loop over `_highLevelElements` that follows in `read` and in `write`: the
`logic_error` thrown for the first element whose `isReadable()` is false, and the
calls made. -/
def checkReadable {X : Type} (B : Behaviour X) (w : World X) :
    List ElemId → Option Exc × List Event
  | [] => (none, [])
  | e :: es =>
    if B.isReadable e w then
      ((checkReadable B w es).1, Event.isReadable e true :: (checkReadable B w es).2)
    else
      (some (Exc.logic_error (B.getName e w ++ "is not readable!")),
        [Event.isReadable e false, Event.getName e])

/-- State after a loop of pre-calls: whether an `assert` stopped it. -/
structure PrePhase (X : Type) where
  assertFailed : Bool
  world : World X
  events : List Event

/-- The loops `elem->preReadAndHandleExceptions(TransferType::read);
assert(elem->_activeException == nullptr);` of `read`. -/
def preReadAll {X : Type} (B : Behaviour X) (cfg : Config) : List ElemId → World X → PrePhase X
  | [], w => ⟨false, w, []⟩
  | e :: es, w =>
    if cfg.assertsEnabled && ((B.preReadAndHandleExceptions e w).activeException e).isSome then
      ⟨true, B.preReadAndHandleExceptions e w, [Event.preRead e]⟩
    else
      ⟨(preReadAll B cfg es (B.preReadAndHandleExceptions e w)).assertFailed,
        (preReadAll B cfg es (B.preReadAndHandleExceptions e w)).world,
        Event.preRead e :: (preReadAll B cfg es (B.preReadAndHandleExceptions e w)).events⟩

/-- The loop `elem->preWriteAndHandleExceptions(TransferType::write, versionNumber);
assert(elem->_activeException == nullptr);` of `write`. -/
def preWriteAll {X : Type} (B : Behaviour X) (cfg : Config) (v : VersionNumber) :
    List ElemId → World X → PrePhase X
  | [], w => ⟨false, w, []⟩
  | e :: es, w =>
    if cfg.assertsEnabled && ((B.preWriteAndHandleExceptions e v w).activeException e).isSome then
      ⟨true, B.preWriteAndHandleExceptions e v w, [Event.preWrite e v]⟩
    else
      ⟨(preWriteAll B cfg v es (B.preWriteAndHandleExceptions e v w)).assertFailed,
        (preWriteAll B cfg v es (B.preWriteAndHandleExceptions e v w)).world,
        Event.preWrite e v :: (preWriteAll B cfg v es (B.preWriteAndHandleExceptions e v w)).events⟩

/-- Modelled from the spec: `TransferElement::handleTransferException` (declared in
`TransferElement.h`, which is not among the sources).  A runtime failure of the
transfer is captured into the `_activeException` of the element and does not
propagate; an exception of another type is not captured and propagates.  The
argument is what the wrapped transfer threw and the state it left. -/
def handleTransferException {X : Type} (e : ElemId) (r : Option Exc × World X) :
    Option Exc × World X :=
  match r.1 with
  | none => (none, r.2)
  | some ex =>
    if ex.isRuntimeError then (none, r.2.setActiveException e (some ex)) else (some ex, r.2)

/-- State after the loop of transfers. -/
structure TransferPhase (X : Type) where
  /-- The exception that left a transfer and ended the loop. -/
  escaped : Option Exc
  world : World X
  events : List Event
  /-- The local variable `firstDetectedRuntimeError`. -/
  firstDetectedRuntimeError : Option Exc

/-- The loops over `_lowLevelElementsAndExceptionFlags` of `read` (`transfer` is
`readTransfer`) and of `write` (`transfer` is `writeTransfer(versionNumber)`):
the transfer wrapped in `handleTransferException`, then
`if((elem->_activeException != nullptr) && (firstDetectedRuntimeError == nullptr))
firstDetectedRuntimeError = elem->_activeException;`. -/
def transferLoop {X : Type} (transfer : ElemId → World X → Option Exc × World X)
    (call : ElemId → Option Exc → Event) :
    List ElemId → World X → Option Exc → TransferPhase X
  | [], w, first => ⟨none, w, [], first⟩
  | e :: es, w, first =>
    match (handleTransferException e (transfer e w)).1 with
    | some ex =>
      ⟨some ex, (handleTransferException e (transfer e w)).2,
        [call e ((handleTransferException e (transfer e w)).2.activeException e)], first⟩
    | none =>
      let w1 := (handleTransferException e (transfer e w)).2
      let first1 := if (w1.activeException e).isSome && first.isNone then w1.activeException e
        else first
      ⟨(transferLoop transfer call es w1 first1).escaped,
        (transferLoop transfer call es w1 first1).world,
        call e (w1.activeException e) :: (transferLoop transfer call es w1 first1).events,
        (transferLoop transfer call es w1 first1).firstDetectedRuntimeError⟩

/-- The inner loop of `runPostReads` over `elem->getHardwareAccessingElements()`:
the final value of `lowLevelElementException`, started at `acc`.  The warning that
the loop writes to `std::cout` when a second element carries an exception, and the
`elem->getName()` call that builds its text, are left out: they change neither the
value nor the state of an element. -/
def lowLevelElementException {X : Type} (w : World X) : List ElemId → Option Exc → Option Exc
  | [], acc => acc
  | l :: ls, acc =>
    if (w.activeException l).isSome then
      if acc.isSome then lowLevelElementException w ls acc
      else lowLevelElementException w ls (w.activeException l)
    else lowLevelElementException w ls acc

/-- State after a pass of `runPostReads`. -/
structure PostPhase (X : Type) where
  /-- The `catch(...)` clause called `std::terminate()`. -/
  terminated : Bool
  world : World X
  events : List Event
  /-- The local variable `badNumericCast`, the return value. -/
  badNumericCast : Option Exc

/-- Models `TransferGroup::runPostReads(elements, firstDetectedRuntimeError)`, with the
local variable `badNumericCast` as last argument (`none` at the call). -/
def runPostReads {X : Type} (B : Behaviour X) (firstDetectedRuntimeError : Option Exc) :
    List ElemId → World X → Option Exc → PostPhase X
  | [], w, bnc => ⟨false, w, [], bnc⟩
  | e :: es, w, bnc =>
    let w1 := w.setActiveException e
      (lowLevelElementException w (B.getHardwareAccessingElements e w) none)
    let upd := firstDetectedRuntimeError.isNone
    let evs := [Event.getHardwareAccessingElements e, Event.postRead e upd (B.postRead e upd w1).1]
    match (B.postRead e upd w1).1 with
    | none =>
      ⟨(runPostReads B firstDetectedRuntimeError es (B.postRead e upd w1).2 bnc).terminated,
        (runPostReads B firstDetectedRuntimeError es (B.postRead e upd w1).2 bnc).world,
        evs ++ (runPostReads B firstDetectedRuntimeError es (B.postRead e upd w1).2 bnc).events,
        (runPostReads B firstDetectedRuntimeError es (B.postRead e upd w1).2 bnc).badNumericCast⟩
    | some (Exc.runtime_error _) =>
      ⟨(runPostReads B firstDetectedRuntimeError es (B.postRead e upd w1).2 bnc).terminated,
        (runPostReads B firstDetectedRuntimeError es (B.postRead e upd w1).2 bnc).world,
        evs ++ (runPostReads B firstDetectedRuntimeError es (B.postRead e upd w1).2 bnc).events,
        (runPostReads B firstDetectedRuntimeError es (B.postRead e upd w1).2 bnc).badNumericCast⟩
    | some (Exc.bad_numeric_cast m) =>
      let bnc1 := if bnc.isNone then some (Exc.bad_numeric_cast m) else bnc
      ⟨(runPostReads B firstDetectedRuntimeError es (B.postRead e upd w1).2 bnc1).terminated,
        (runPostReads B firstDetectedRuntimeError es (B.postRead e upd w1).2 bnc1).world,
        evs ++ (runPostReads B firstDetectedRuntimeError es (B.postRead e upd w1).2 bnc1).events,
        (runPostReads B firstDetectedRuntimeError es (B.postRead e upd w1).2 bnc1).badNumericCast⟩
    | some _ => ⟨true, (B.postRead e upd w1).2, evs, bnc⟩


/-- Models `TransferGroup::read()`. -/
def TransferGroup.read {X : Type} (B : Behaviour X) (cfg : Config) (g : TransferGroup)
    (w : World X) : Result X :=
  -- reset exception flags
  let g1 := g.resetExceptionFlags
  -- check pre-conditions so preRead() does not throw logic errors
  let c1 := checkBackends B w g1.exceptionBackends
  match c1.1 with
  | some ex => ⟨Outcome.guardFailed ex, g1, w, c1.2⟩
  | none =>
    let c2 := checkReadable B w g1.highLevelElements
    match c2.1 with
    | some ex => ⟨Outcome.guardFailed ex, g1, w, c1.2 ++ c2.2⟩
    | none =>
      let p1 := preReadAll B cfg g1.highLevelElements w
      if p1.assertFailed then ⟨Outcome.assertFailed, g1, p1.world, c1.2 ++ c2.2 ++ p1.events⟩
      else
        let p2 := preReadAll B cfg g1.copyDecorators p1.world
        if p2.assertFailed then
          ⟨Outcome.assertFailed, g1, p2.world, c1.2 ++ c2.2 ++ p1.events ++ p2.events⟩
        else
          let t := transferLoop B.readTransfer Event.readTransfer g1.leaves p2.world none
          match t.escaped with
          | some ex =>
            ⟨Outcome.transferEscaped ex, g1, t.world,
              c1.2 ++ c2.2 ++ p1.events ++ p2.events ++ t.events⟩
          | none =>
            let q1 := runPostReads B t.firstDetectedRuntimeError g1.copyDecorators t.world none
            if q1.terminated then
              ⟨Outcome.terminated, g1, q1.world,
                c1.2 ++ c2.2 ++ p1.events ++ p2.events ++ t.events ++ q1.events⟩
            else
              let q2 := runPostReads B t.firstDetectedRuntimeError g1.highLevelElements
                q1.world none
              let evs := c1.2 ++ c2.2 ++ p1.events ++ p2.events ++ t.events ++ q1.events
                ++ q2.events
              if q2.terminated then ⟨Outcome.terminated, g1, q2.world, evs⟩
              else
                -- re-throw exceptions in the order of occurence
                match t.firstDetectedRuntimeError with
                | some ex => ⟨Outcome.rethrown ex, g1, q2.world, evs⟩
                | none =>
                  match q1.badNumericCast with
                  | some ex => ⟨Outcome.rethrown ex, g1, q2.world, evs⟩
                  | none =>
                    match q2.badNumericCast with
                    | some ex => ⟨Outcome.rethrown ex, g1, q2.world, evs⟩
                    | none => ⟨Outcome.returned, g1, q2.world, evs⟩

/-- State after the loop of `postWrite` calls of `write`. -/
structure PostWritePhase (X : Type) where
  /-- The exception that left a `postWrite` past the `catch` clause. -/
  escaped : Option Exc
  world : World X
  events : List Event

/-- The loop `try { elem->postWrite(TransferType::write, versionNumber); }
catch(ChimeraTK::runtime_error&) { }` of `write`. -/
def postWriteAll {X : Type} (B : Behaviour X) (v : VersionNumber) :
    List ElemId → World X → PostWritePhase X
  | [], w => ⟨none, w, []⟩
  | e :: es, w =>
    match (B.postWrite e v w).1 with
    | none =>
      ⟨(postWriteAll B v es (B.postWrite e v w).2).escaped,
        (postWriteAll B v es (B.postWrite e v w).2).world,
        Event.postWrite e v none :: (postWriteAll B v es (B.postWrite e v w).2).events⟩
    | some (Exc.runtime_error m) =>
      ⟨(postWriteAll B v es (B.postWrite e v w).2).escaped,
        (postWriteAll B v es (B.postWrite e v w).2).world,
        Event.postWrite e v (some (Exc.runtime_error m)) ::
          (postWriteAll B v es (B.postWrite e v w).2).events⟩
    | some ex => ⟨some ex, (B.postWrite e v w).2, [Event.postWrite e v (some ex)]⟩

/-- Models `TransferGroup::write(versionNumber)`. -/
def TransferGroup.write {X : Type} (B : Behaviour X) (cfg : Config) (g : TransferGroup)
    (versionNumber : VersionNumber) (w : World X) : Result X :=
  if g.isReadOnly then
    ⟨Outcome.guardFailed
      (Exc.logic_error "TransferGroup::write() called, but the TransferGroup is read-only."),
      g, w, []⟩
  else
    -- check pre-conditions so preRead() does not throw logic errors
    let c1 := checkBackends B w g.exceptionBackends
    match c1.1 with
    | some ex => ⟨Outcome.guardFailed ex, g, w, c1.2⟩
    | none =>
      let c2 := checkReadable B w g.highLevelElements
      match c2.1 with
      | some ex => ⟨Outcome.guardFailed ex, g, w, c1.2 ++ c2.2⟩
      | none =>
        let g1 := g.resetExceptionFlags
        let p1 := preWriteAll B cfg versionNumber g1.highLevelElements w
        if p1.assertFailed then ⟨Outcome.assertFailed, g1, p1.world, c1.2 ++ c2.2 ++ p1.events⟩
        else
          let t := transferLoop (fun e => B.writeTransfer e versionNumber)
            (fun e => Event.writeTransfer e versionNumber) g1.leaves p1.world none
          match t.escaped with
          | some ex =>
            ⟨Outcome.transferEscaped ex, g1, t.world, c1.2 ++ c2.2 ++ p1.events ++ t.events⟩
          | none =>
            let q := postWriteAll B versionNumber g1.highLevelElements t.world
            let evs := c1.2 ++ c2.2 ++ p1.events ++ t.events ++ q.events
            match q.escaped with
            | some ex => ⟨Outcome.postEscaped ex, g1, q.world, evs⟩
            | none =>
              match t.firstDetectedRuntimeError with
              | some ex => ⟨Outcome.rethrown ex, g1, q.world, evs⟩
              | none => ⟨Outcome.returned, g1, q.world, evs⟩

/-- The loop `for(auto& hlElem : highLevelElementsWithNewAccessor)
hlElem->replaceTransferElement(replacement);` of `addAccessor`. -/
def replaceInHighLevel {X : Type} (B : Behaviour X) (replacement : ElemId) :
    List ElemId → World X → World X
  | [], w => w
  | hlElem :: rest, w =>
    replaceInHighLevel B replacement rest (B.replaceTransferElement hlElem replacement w)

/-- The loop `for(auto& replacement : list)` of `addAccessor`: first the abstractor
(whose `_impl` is threaded through), then every high-level element. -/
def replaceWithList {X : Type} (B : Behaviour X) (highLevelElementsWithNewAccessor : List ElemId) :
    List ElemId → ElemId → World X → ElemId × World X
  | [], impl, w => (impl, w)
  | replacement :: rest, impl, w =>
    let a := B.abstractorReplaceTransferElement impl replacement w
    replaceWithList B highLevelElementsWithNewAccessor rest a.1
      (replaceInHighLevel B replacement highLevelElementsWithNewAccessor a.2)

/-- The loop `for(auto& hlElem1 : highLevelElementsWithNewAccessor)` of `addAccessor`;
the first list is the whole set, the second what is left to iterate. -/
def replaceAll {X : Type} (B : Behaviour X) (highLevelElementsWithNewAccessor : List ElemId) :
    List ElemId → ElemId → World X → ElemId × World X
  | [], impl, w => (impl, w)
  | hlElem1 :: rest, impl, w =>
    let list := hlElem1 :: B.getInternalElements hlElem1 w
    let r := replaceWithList B highLevelElementsWithNewAccessor list impl w
    replaceAll B highLevelElementsWithNewAccessor rest r.1 r.2

/-- The rebuild of `_lowLevelElementsAndExceptionFlags` in `addAccessor`, after
`clear()`. -/
def rebuildLowLevelElements {X : Type} (B : Behaviour X) (w : World X)
    (highLevelElements : List ElemId) : List (ElemId × Bool) :=
  highLevelElements.foldl
    (fun m hlElem =>
      (B.getHardwareAccessingElements hlElem w).foldl (fun m1 hwElem => mapInsert hwElem false m1) m)
    []

/-- The rebuild of `_copyDecorators` in `addAccessor`, after `clear()`. -/
def rebuildCopyDecorators {X : Type} (B : Behaviour X) (w : World X)
    (highLevelElements : List ElemId) : List ElemId :=
  highLevelElements.foldl
    (fun s hlElem =>
      (B.getInternalElements hlElem w).foldl
        (fun s1 hwElem => if B.isCopyDecorator hwElem then setInsert hwElem s1 else s1)
        (if B.isCopyDecorator hlElem then setInsert hlElem s else s))
    []

/-- What a call of `addAccessor` leaves behind. -/
structure AddResult (X : Type) where
  outcome : Outcome
  group : TransferGroup
  /-- The `_impl` of the abstractor passed by reference. -/
  impl : ElemId
  world : World X

/-- Models `TransferGroup::addAccessor(TransferElementAbstractor& accessor)`; `impl` is
what `accessor.getHighLevelImplElement()` returns at the call.  The abstractor forwards
`getAccessModeFlags()` and `isReadOnly()` to that element. -/
def TransferGroup.addAccessor {X : Type} (B : Behaviour X) (g : TransferGroup) (impl : ElemId)
    (w : World X) : AddResult X :=
  -- check if accessor is already in a transfer group
  if w.isInTransferGroup impl then
    ⟨Outcome.guardFailed (Exc.logic_error
      "The given accessor is already in a TransferGroup and cannot be added to another."),
      g, impl, w⟩
  -- Only accessors without wait_for_new_data can be used in a transfer group.
  else if B.hasWaitForNewData impl w then
    ⟨Outcome.guardFailed (Exc.logic_error
      "A TransferGroup can only be used with transfer elements that don't have aAccessMode::wait_for_new_data."),
      g, impl, w⟩
  else
    -- set flag on the accessors that it is now in a transfer group
    let w1 := w.setInTransferGroup impl true
    let exceptionBackends := setInsert (B.getExceptionBackend impl w1) g.exceptionBackends
    let highLevelElementsWithNewAccessor := setInsert impl g.highLevelElements
    -- try replacing all internal elements in all high-level elements
    let r := replaceAll B highLevelElementsWithNewAccessor highLevelElementsWithNewAccessor impl w1
    -- store the accessor in the list of high-level elements
    let highLevelElements := setInsert r.1 g.highLevelElements
    ⟨Outcome.returned,
      { highLevelElements := highLevelElements
        copyDecorators := rebuildCopyDecorators B r.2 highLevelElements
        lowLevelElementsAndExceptionFlags := rebuildLowLevelElements B r.2 highLevelElements
        exceptionBackends := exceptionBackends
        -- Update read-only flag
        readOnly := if B.isReadOnly r.1 r.2 then true else g.readOnly },
      r.1, r.2⟩


/-- Several groups living over one world of elements. -/
structure System (X : Type) where
  /-- The groups, by number. -/
  groups : Nat → TransferGroup
  world : World X

/-- The call `groups[gid].addAccessor(accessor)` inside a system: the outcome, the
`_impl` of the abstractor afterwards, and the system afterwards. -/
def System.addAccessor {X : Type} (B : Behaviour X) (s : System X) (gid : Nat) (impl : ElemId) :
    Outcome × ElemId × System X :=
  ((s.groups gid).addAccessor B impl s.world |>.outcome,
    (s.groups gid).addAccessor B impl s.world |>.impl,
    { groups := fun i => if i = gid then ((s.groups gid).addAccessor B impl s.world).group
        else s.groups i
      world := ((s.groups gid).addAccessor B impl s.world).world })

/-- One group together with the world of its elements. -/
structure GroupState (X : Type) where
  group : TransferGroup
  world : World X

/-- What can happen to a group and its elements between two calls. -/
inductive Op (X : Type) where
  /-- A call of `addAccessor` with an abstractor holding `impl`. -/
  | addAccessor (impl : ElemId)
  /-- A call of `read`. -/
  | read
  /-- A call of `write`. -/
  | write (v : VersionNumber)
  /-- Anything done to the elements and backends from outside the group. -/
  | external (f : World X → World X)

/-- The state after one operation. -/
def GroupState.step {X : Type} (B : Behaviour X) (cfg : Config) (s : GroupState X) :
    Op X → GroupState X
  | Op.addAccessor impl =>
    ⟨(s.group.addAccessor B impl s.world).group, (s.group.addAccessor B impl s.world).world⟩
  | Op.read => ⟨(s.group.read B cfg s.world).group, (s.group.read B cfg s.world).world⟩
  | Op.write v => ⟨(s.group.write B cfg v s.world).group, (s.group.write B cfg v s.world).world⟩
  | Op.external f => ⟨s.group, f s.world⟩

/-- The state after a sequence of operations. -/
def GroupState.run {X : Type} (B : Behaviour X) (cfg : Config) (s : GroupState X)
    (ops : List (Op X)) : GroupState X :=
  ops.foldl (GroupState.step B cfg) s

/-- A world without latched exceptions in which no element is in a group. -/
def World.initial : World Unit :=
  { activeException := fun _ => none, isInTransferGroup := fun _ => false, ext := () }

/-- Example elements.  Element `e` is a hardware-accessing element of itself unless
`hw` lists others for it; the elements in `failing` fail their transfers with a
runtime error; the elements in `unreadable` are write-only, those in `readOnly`
read-only, those in `pushType` have `wait_for_new_data`.  A pre-call clears the
latched exception of the element and of its hardware-accessing elements, `postRead`
throws the latched exception of the element and clears it, `postWrite` throws the
first exception latched on the element or on one of its hardware-accessing elements. -/
def exampleBehaviour (hw : ElemId → List ElemId) (failing unreadable readOnly pushType :
    List ElemId) : Behaviour Unit :=
  { backendIsOpen := fun _ _ => true
    backendReadDeviceInfo := fun _ _ => "dummy"
    getName := fun _ _ => "/REG"
    isReadable := fun e _ => !unreadable.contains e
    isWriteable := fun e _ => !readOnly.contains e
    isReadOnly := fun e _ => readOnly.contains e
    hasWaitForNewData := fun e _ => pushType.contains e
    getExceptionBackend := fun _ _ => 0
    getHardwareAccessingElements := fun e _ => hw e
    getInternalElements := fun e _ => (hw e).filter (fun x => x != e)
    isCopyDecorator := fun _ => false
    replaceTransferElement := fun _ _ w => w
    abstractorReplaceTransferElement := fun impl _ w => (impl, w)
    preReadAndHandleExceptions := fun e w =>
      (hw e).foldl (fun w1 x => w1.setActiveException x none) (w.setActiveException e none)
    readTransfer := fun e w =>
      (if failing.contains e then some (Exc.runtime_error "read failed") else none, w)
    postRead := fun e _ w => (w.activeException e, w.setActiveException e none)
    preWriteAndHandleExceptions := fun e _ w =>
      (hw e).foldl (fun w1 x => w1.setActiveException x none) (w.setActiveException e none)
    writeTransfer := fun e _ w =>
      (if failing.contains e then some (Exc.runtime_error "write failed") else none, w)
    postWrite := fun e _ w =>
      (lowLevelElementException w (e :: hw e) none, w.setActiveException e none) }

/-- Three plain registers 1, 2, 3, each its own hardware-accessing element. -/
def plainBehaviour : Behaviour Unit := exampleBehaviour (fun e => [e]) [] [] [] []

/-- A group holding the plain registers 1, 2 and 3. -/
def plainGroup : TransferGroup :=
  { highLevelElements := [1, 2, 3], copyDecorators := [],
    lowLevelElementsAndExceptionFlags := [(1, false), (2, false), (3, false)],
    exceptionBackends := [0], readOnly := false }

/-- The cycle was cut short after the guards: by a failed `assert`, by
`std::terminate()`, or by an exception that the group does not collect. -/
def Outcome.aborted : Outcome → Bool
  | .assertFailed => true
  | .transferEscaped _ => true
  | .postEscaped _ => true
  | .terminated => true
  | _ => false

/-- The pre-phase guards of `read` pass: every referenced backend is open and every
high-level element is readable. -/
def ReadGuardsPass {X : Type} (B : Behaviour X) (g : TransferGroup) (w : World X) : Prop :=
  (∀ b ∈ g.exceptionBackends, B.backendIsOpen b w = true) ∧
    (∀ e ∈ g.highLevelElements, B.isReadable e w = true)

/-- The pre-phase guards of `write` pass: the group is not read-only, every referenced
backend is open and every high-level element passes the test of the accessor loop,
which calls `isReadable()`. -/
def WriteGuardsPass {X : Type} (B : Behaviour X) (g : TransferGroup) (w : World X) : Prop :=
  g.readOnly = false ∧
    (∀ b ∈ g.exceptionBackends, B.backendIsOpen b w = true) ∧
    (∀ e ∈ g.highLevelElements, B.isReadable e w = true)

/-- The element of a `preReadAndHandleExceptions` call. -/
def Event.preReadCall : Event → Option ElemId
  | .preRead e => some e
  | _ => none

/-- The element of a `readTransfer` call. -/
def Event.readTransferCall : Event → Option ElemId
  | .readTransfer e _ => some e
  | _ => none

/-- The element and the `updateDataBuffer` argument of a `postRead` call. -/
def Event.postReadCall : Event → Option (ElemId × Bool)
  | .postRead e u _ => some (e, u)
  | _ => none

/-- What a `postRead` call threw. -/
def Event.postReadThrown : Event → Option (Option Exc)
  | .postRead _ _ t => some t
  | _ => none

/-- The element and the version number of a `preWriteAndHandleExceptions` call. -/
def Event.preWriteCall : Event → Option (ElemId × VersionNumber)
  | .preWrite e v => some (e, v)
  | _ => none

/-- The element and the version number of a `writeTransfer` call. -/
def Event.writeTransferCall : Event → Option (ElemId × VersionNumber)
  | .writeTransfer e v _ => some (e, v)
  | _ => none

/-- The element and the version number of a `postWrite` call. -/
def Event.postWriteCall : Event → Option (ElemId × VersionNumber)
  | .postWrite e v _ => some (e, v)
  | _ => none

/-- The `_activeException` that a leaf carried when its transfer was over. -/
def Event.latched : Event → Option (Option Exc)
  | .readTransfer _ l => some l
  | .writeTransfer _ _ l => some l
  | _ => none

/-- Whether the event is a query of a backend or of a capability of an element. -/
def Event.isQuery : Event → Bool
  | .backendIsOpen _ _ => true
  | .backendReadDeviceInfo _ => true
  | .isReadable _ _ => true
  | .getName _ => true
  | _ => false

/-- The first exception in a list of possibly absent ones. -/
def firstSome : List (Option Exc) → Option Exc
  | [] => none
  | some ex :: _ => some ex
  | none :: rest => firstSome rest

/-- The first `bad_numeric_cast` in a list of thrown exceptions. -/
def firstBadNumericCast : List (Option Exc) → Option Exc
  | [] => none
  | some (Exc.bad_numeric_cast m) :: _ => some (Exc.bad_numeric_cast m)
  | _ :: rest => firstBadNumericCast rest

/-- The events of a pass of `runPostReads` over elements with what their `postRead`
threw. -/
def postReadEvents (updateDataBuffer : Bool) : List (ElemId × Option Exc) → List Event
  | [] => []
  | p :: ps =>
    Event.getHardwareAccessingElements p.1 :: Event.postRead p.1 updateDataBuffer p.2 ::
      postReadEvents updateDataBuffer ps

/-- The order in which `read` re-raises what it collected. -/
def readOutcome (firstDetectedRuntimeError badNumericCast badNumericCast2 : Option Exc) :
    Outcome :=
  match firstDetectedRuntimeError with
  | some ex => Outcome.rethrown ex
  | none =>
    match badNumericCast with
    | some ex => Outcome.rethrown ex
    | none =>
      match badNumericCast2 with
      | some ex => Outcome.rethrown ex
      | none => Outcome.returned

instance instDecidableReadGuardsPass {X : Type} (B : Behaviour X) (g : TransferGroup)
    (w : World X) : Decidable (ReadGuardsPass B g w) := by
  unfold ReadGuardsPass
  exact inferInstance

instance instDecidableWriteGuardsPass {X : Type} (B : Behaviour X) (g : TransferGroup)
    (w : World X) : Decidable (WriteGuardsPass B g w) := by
  unfold WriteGuardsPass
  exact inferInstance

/-- Hardware-accessing elements of an example with a shared leaf: the high-level
elements 10 and 11 both use leaf 1, the high-level element 12 uses leaf 2. -/
def sharedHw (e : ElemId) : List ElemId :=
  if e = 10 then [1] else if e = 11 then [1] else if e = 12 then [2] else [e]

/-- The elements of `sharedHw`; the transfers of leaf 2 fail with a runtime error. -/
def sharedBehaviour : Behaviour Unit := exampleBehaviour sharedHw [2] [] [] []

/-- The group of the accessors 10, 11 and 12 with the leaves 1 and 2. -/
def sharedGroup : TransferGroup :=
  { highLevelElements := [10, 11, 12], copyDecorators := [],
    lowLevelElementsAndExceptionFlags := [(1, false), (2, false)],
    exceptionBackends := [0], readOnly := false }

/-- A write-only register 5: writeable, not readable, not read-only. -/
def writeOnlyBehaviour : Behaviour Unit := exampleBehaviour (fun e => [e]) [] [5] [] []

/-- What `accessor.isReadOnly()` returned at the end of every successful `addAccessor`
call of a sequence of operations, in the order of the calls. -/
def readOnlyReports {X : Type} (B : Behaviour X) (cfg : Config) :
    GroupState X → List (Op X) → List Bool
  | _, [] => []
  | s, Op.addAccessor impl :: ops =>
    if (s.group.addAccessor B impl s.world).outcome = Outcome.returned then
      B.isReadOnly (s.group.addAccessor B impl s.world).impl
          (s.group.addAccessor B impl s.world).world ::
        readOnlyReports B cfg (s.step B cfg (Op.addAccessor impl)) ops
    else readOnlyReports B cfg (s.step B cfg (Op.addAccessor impl)) ops
  | s, Op.read :: ops => readOnlyReports B cfg (s.step B cfg Op.read) ops
  | s, Op.write v :: ops => readOnlyReports B cfg (s.step B cfg (Op.write v)) ops
  | s, Op.external f :: ops => readOnlyReports B cfg (s.step B cfg (Op.external f)) ops

/-- The plain registers with decorators: accessor 1 has the internal elements 20, a copy
decorator, and 7, which is none; accessor 21 is itself a copy decorator. -/
def decoratedBehaviour : Behaviour Unit :=
  { plainBehaviour with
    isCopyDecorator := fun e => e == 20 || e == 21
    getInternalElements := fun e _ => if e = 1 then [20, 7] else [] }

/-- The plain registers, where the abstractor that holds implementation 1 gives it up
for the new element 20 when it is offered element 3 as a replacement (element 3
accesses the same register and is in the group already). -/
def replacingBehaviour : Behaviour Unit :=
  { plainBehaviour with
    abstractorReplaceTransferElement := fun impl replacement w =>
      if impl = 1 ∧ replacement = 3 then (20, w) else (impl, w) }

/-- The plain registers, register 2 being read-only. -/
def readOnlyBehaviour : Behaviour Unit := exampleBehaviour (fun e => [e]) [] [] [2] []

/-- The read operations of the implementation that a `VoidRegisterAccessor` forwards
to.  They are declared in headers that are not among the sources, so they are
parameters: each returns what it throws or returns, and the state it leaves. -/
structure ReadOperations (X : Type) where
  /-- Models `_impl->read()`. -/
  read : ElemId → World X → Except Exc Unit × World X
  /-- Models `_impl->readNonBlocking()`. -/
  readNonBlocking : ElemId → World X → Except Exc Bool × World X
  /-- Models `_impl->readLatest()`. -/
  readLatest : ElemId → World X → Except Exc Bool × World X

/-- A `VoidRegisterAccessor`: the `_impl` held by its abstractor base class. -/
structure VoidRegisterAccessor where
  impl : ElemId
  deriving DecidableEq, Repr

/-- A call that a member function of `VoidRegisterAccessor` forwards to `_impl`
(`getAccessModeFlags()`, which every member function calls first, is left out). -/
inductive ImplCall where
  | isReadOnly
  | isReadable
  | read
  | readNonBlocking
  | readLatest
  deriving DecidableEq, Repr

/-- What a member function of `VoidRegisterAccessor` leaves behind: the value it
returns or the exception it throws, the state of the elements, and the calls it
forwarded to `_impl`. -/
structure CallResult (α : Type) (X : Type) where
  result : Except Exc α
  world : World X
  forwarded : List ImplCall

/-- Models the constructor `VoidRegisterAccessor::VoidRegisterAccessor(impl)`: the
accessor, or the exception thrown. -/
def VoidRegisterAccessor.new {X : Type} (B : Behaviour X) (impl : ElemId) (w : World X) :
    Except Exc VoidRegisterAccessor :=
  if !B.hasWaitForNewData impl w && !B.isWriteable impl w then
    Except.error (Exc.logic_error
      ("A VoidRegisterAccessor without wait_for_new_data does not make sense for non-writeable register "
        ++ B.getName impl w))
  else Except.ok ⟨impl⟩

/-- Models `VoidRegisterAccessor::isReadOnly()`. -/
def VoidRegisterAccessor.isReadOnly {X : Type} (B : Behaviour X) (a : VoidRegisterAccessor)
    (w : World X) : CallResult Bool X :=
  -- synchronous void accessors are never readable, hence they are never read-only
  if !B.hasWaitForNewData a.impl w then ⟨Except.ok false, w, []⟩
  else ⟨Except.ok (B.isReadOnly a.impl w), w, [ImplCall.isReadOnly]⟩

/-- Models `VoidRegisterAccessor::isReadable()`. -/
def VoidRegisterAccessor.isReadable {X : Type} (B : Behaviour X) (a : VoidRegisterAccessor)
    (w : World X) : CallResult Bool X :=
  -- synchronous void accessors are never readable
  if !B.hasWaitForNewData a.impl w then ⟨Except.ok false, w, []⟩
  else ⟨Except.ok (B.isReadable a.impl w), w, [ImplCall.isReadable]⟩

/-- Models `VoidRegisterAccessor::read()`. -/
def VoidRegisterAccessor.read {X : Type} (B : Behaviour X) (R : ReadOperations X)
    (a : VoidRegisterAccessor) (w : World X) : CallResult Unit X :=
  if !B.hasWaitForNewData a.impl w then
    ⟨Except.error
      (Exc.logic_error "A VoidRegisterAccessor without wait_for_new_data is not readable."),
      w, []⟩
  else ⟨(R.read a.impl w).1, (R.read a.impl w).2, [ImplCall.read]⟩

/-- Models `VoidRegisterAccessor::readNonBlocking()`. -/
def VoidRegisterAccessor.readNonBlocking {X : Type} (B : Behaviour X) (R : ReadOperations X)
    (a : VoidRegisterAccessor) (w : World X) : CallResult Bool X :=
  if !B.hasWaitForNewData a.impl w then
    ⟨Except.error
      (Exc.logic_error "A VoidRegisterAccessor without wait_for_new_data is not readable."),
      w, []⟩
  else ⟨(R.readNonBlocking a.impl w).1, (R.readNonBlocking a.impl w).2,
    [ImplCall.readNonBlocking]⟩

/-- Models `VoidRegisterAccessor::readLatest()`. -/
def VoidRegisterAccessor.readLatest {X : Type} (B : Behaviour X) (R : ReadOperations X)
    (a : VoidRegisterAccessor) (w : World X) : CallResult Bool X :=
  if !B.hasWaitForNewData a.impl w then
    ⟨Except.error
      (Exc.logic_error "A VoidRegisterAccessor without wait_for_new_data is not readable."),
      w, []⟩
  else ⟨(R.readLatest a.impl w).1, (R.readLatest a.impl w).2, [ImplCall.readLatest]⟩

/-- Read operations for the examples: a push-type element delivers its data at once. -/
def exampleReadOperations : ReadOperations Unit :=
  { read := fun _ w => (Except.ok (), w)
    readNonBlocking := fun _ w => (Except.ok true, w)
    readLatest := fun _ w => (Except.ok true, w) }

/-- The registers 1 to 5: register 2 is read-only, register 4 is read-only and
push-type (it has `wait_for_new_data`), register 5 is writeable and push-type. -/
def voidBehaviour : Behaviour Unit := exampleBehaviour (fun e => [e]) [] [] [2, 4] [4, 5]

/-- A call of a member function of a transfer element, as the called function sees it:
its arguments and, where the function can throw, what it threw. -/
inductive Call where
  /-- Models `preReadAndHandleExceptions(TransferType::read)` on `e`. -/
  | preRead (e : ElemId)
  /-- Models `readTransfer()` on `e`. -/
  | readTransfer (e : ElemId) (thrown : Option Exc)
  /-- Models `postRead(TransferType::read, updateDataBuffer)` on `e`. -/
  | postRead (e : ElemId) (updateDataBuffer : Bool) (thrown : Option Exc)
  /-- Models `preWriteAndHandleExceptions(TransferType::write, v)` on `e`. -/
  | preWrite (e : ElemId) (v : VersionNumber)
  /-- Models `writeTransfer(v)` on `e`. -/
  | writeTransfer (e : ElemId) (v : VersionNumber) (thrown : Option Exc)
  /-- Models `postWrite(TransferType::write, v)` on `e`. -/
  | postWrite (e : ElemId) (v : VersionNumber) (thrown : Option Exc)
  deriving DecidableEq, Repr

/-- The state of the elements without the record of their calls. -/
def World.base {X : Type} (w : World (X × List Call)) : World X :=
  { activeException := w.activeException, isInTransferGroup := w.isInTransferGroup,
    ext := w.ext.1 }

/-- The state of the elements together with a record of calls. -/
def World.withCalls {X : Type} (w : World X) (calls : List Call) : World (X × List Call) :=
  { activeException := w.activeException, isInTransferGroup := w.isInTransferGroup,
    ext := (w.ext, calls) }

/-- The record of calls kept in the state. -/
def World.calls {X : Type} (w : World (X × List Call)) : List Call := w.ext.2

/-- The elements of `B`, each keeping a record: a pre-call, a transfer or a post-call
does what it does in `B` and appends itself, with its arguments and with what it
threw, to the record kept in the state.  The entry is written by the called member
function, so that the record holds the calls that were made, whoever made them.  The
queries and the replacement functions are those of `B` and leave the record as it
is. -/
def recording {X : Type} (B : Behaviour X) : Behaviour (X × List Call) :=
  { backendIsOpen := fun b w => B.backendIsOpen b w.base
    backendReadDeviceInfo := fun b w => B.backendReadDeviceInfo b w.base
    getName := fun e w => B.getName e w.base
    isReadable := fun e w => B.isReadable e w.base
    isWriteable := fun e w => B.isWriteable e w.base
    isReadOnly := fun e w => B.isReadOnly e w.base
    hasWaitForNewData := fun e w => B.hasWaitForNewData e w.base
    getExceptionBackend := fun e w => B.getExceptionBackend e w.base
    getHardwareAccessingElements := fun e w => B.getHardwareAccessingElements e w.base
    getInternalElements := fun e w => B.getInternalElements e w.base
    isCopyDecorator := B.isCopyDecorator
    replaceTransferElement := fun e n w => (B.replaceTransferElement e n w.base).withCalls w.calls
    abstractorReplaceTransferElement := fun impl n w =>
      ((B.abstractorReplaceTransferElement impl n w.base).1,
        (B.abstractorReplaceTransferElement impl n w.base).2.withCalls w.calls)
    preReadAndHandleExceptions := fun e w =>
      (B.preReadAndHandleExceptions e w.base).withCalls (w.calls ++ [Call.preRead e])
    readTransfer := fun e w =>
      ((B.readTransfer e w.base).1,
        (B.readTransfer e w.base).2.withCalls
          (w.calls ++ [Call.readTransfer e (B.readTransfer e w.base).1]))
    postRead := fun e u w =>
      ((B.postRead e u w.base).1,
        (B.postRead e u w.base).2.withCalls
          (w.calls ++ [Call.postRead e u (B.postRead e u w.base).1]))
    preWriteAndHandleExceptions := fun e v w =>
      (B.preWriteAndHandleExceptions e v w.base).withCalls (w.calls ++ [Call.preWrite e v])
    writeTransfer := fun e v w =>
      ((B.writeTransfer e v w.base).1,
        (B.writeTransfer e v w.base).2.withCalls
          (w.calls ++ [Call.writeTransfer e v (B.writeTransfer e v w.base).1]))
    postWrite := fun e v w =>
      ((B.postWrite e v w.base).1,
        (B.postWrite e v w.base).2.withCalls
          (w.calls ++ [Call.postWrite e v (B.postWrite e v w.base).1])) }

/-- The calls that the elements of `B` record during `TransferGroup::read()`, started
with an empty record. -/
def readCalls {X : Type} (B : Behaviour X) (cfg : Config) (g : TransferGroup) (w : World X) :
    List Call :=
  (g.read (recording B) cfg (w.withCalls [])).world.calls

/-- The calls that the elements of `B` record during `TransferGroup::write(v)`, started
with an empty record. -/
def writeCalls {X : Type} (B : Behaviour X) (cfg : Config) (g : TransferGroup)
    (v : VersionNumber) (w : World X) : List Call :=
  (g.write (recording B) cfg v (w.withCalls [])).world.calls

/-- The state in which the loop of transfers of `read` starts when no assertion has
failed: the state after the two loops of pre-calls. -/
def TransferGroup.readTransferStart {X : Type} (B : Behaviour X) (cfg : Config)
    (g : TransferGroup) (w : World X) : World X :=
  (preReadAll B cfg g.copyDecorators (preReadAll B cfg g.highLevelElements w).world).world

/-- The state in which the loop of transfers of `write` starts when no assertion has
failed: the state after the loop of pre-calls. -/
def TransferGroup.writeTransferStart {X : Type} (B : Behaviour X) (cfg : Config)
    (g : TransferGroup) (v : VersionNumber) (w : World X) : World X :=
  (preWriteAll B cfg v g.highLevelElements w).world

/-- The element of a recorded `preReadAndHandleExceptions` call. -/
def Call.preReadCall : Call → Option ElemId
  | .preRead e => some e
  | _ => none

/-- The element of a recorded `readTransfer` call. -/
def Call.readTransferCall : Call → Option ElemId
  | .readTransfer e _ => some e
  | _ => none

/-- The element and the `updateDataBuffer` argument of a recorded `postRead` call. -/
def Call.postReadCall : Call → Option (ElemId × Bool)
  | .postRead e u _ => some (e, u)
  | _ => none

/-- What a recorded `postRead` call threw. -/
def Call.postReadThrown : Call → Option (Option Exc)
  | .postRead _ _ t => some t
  | _ => none

/-- The element and the version number of a recorded `preWriteAndHandleExceptions`
call. -/
def Call.preWriteCall : Call → Option (ElemId × VersionNumber)
  | .preWrite e v => some (e, v)
  | _ => none

/-- The element and the version number of a recorded `writeTransfer` call. -/
def Call.writeTransferCall : Call → Option (ElemId × VersionNumber)
  | .writeTransfer e v _ => some (e, v)
  | _ => none

/-- The element and the version number of a recorded `postWrite` call. -/
def Call.postWriteCall : Call → Option (ElemId × VersionNumber)
  | .postWrite e v _ => some (e, v)
  | _ => none

/-- What a recorded `postWrite` call threw. -/
def Call.postWriteThrown : Call → Option (Option Exc)
  | .postWrite _ _ t => some t
  | _ => none

/-- What a recorded `readTransfer` or `writeTransfer` call threw. -/
def Call.transferThrown : Call → Option (Option Exc)
  | .readTransfer _ t => some t
  | .writeTransfer _ _ t => some t
  | _ => none

/-- The plain registers; the transfers of register 2 are interrupted: they throw
`boost::thread_interrupted`. -/
def interruptedBehaviour : Behaviour Unit :=
  { plainBehaviour with
    readTransfer := fun e w => (if e = 2 then some Exc.thread_interrupted else none, w)
    writeTransfer := fun e _ w => (if e = 2 then some Exc.thread_interrupted else none, w) }

/-- The plain registers; the pre-calls of register 1 leave a `logic_error` in its
`_activeException`, those of the other registers leave none, the transfers succeed
and the post-calls throw nothing. -/
def preFailBehaviour : Behaviour Unit :=
  { plainBehaviour with
    preReadAndHandleExceptions := fun e w =>
      w.setActiveException e (if e = 1 then some (Exc.logic_error "pre") else none)
    preWriteAndHandleExceptions := fun e _ w =>
      w.setActiveException e (if e = 1 then some (Exc.logic_error "pre") else none)
    postRead := fun _ _ w => (none, w)
    postWrite := fun _ _ w => (none, w) }

/-- The cycle ended before the end of its loop of transfers: by a failed `assert` after
a pre-call, or by an exception that left a transfer. -/
def Outcome.cutInTransfers : Outcome → Bool
  | .assertFailed => true
  | .transferEscaped _ => true
  | _ => false

end ChimeraTK

namespace mtca4u

/-!
The sources of namespace `mtca4u`: `libdevMap/include/devMap.h` (`checkRegister`),
`fileparsers/src/DMapFileParser.cpp`, `devices/src/PcieDevice.cpp`,
`device_backends/src/BackendFactory.cc` and
`device_backends/include/AddressBasedMuxedDataAccessor.h`.

Strings that are parsed are lists of characters.  Values of the types `uint32_t` and
`uint8_t` are natural numbers, reduced modulo 2^32 and 2^8 where the source computes
with them.  What the sources take from headers and files that are not among them (the
operating system, the driver constants, the register map, the functions of
`parserUtilities`) is a parameter of the definition that uses it; the functions of
`Utilities.cc` are modelled from the spec, and say so.
-/

/-- Subtraction of two `uint32_t` values: the result wraps modulo 2^32. -/
def sub32 (a b : Nat) : Nat := (a % 2 ^ 32 + 2 ^ 32 - b % 2 ^ 32) % 2 ^ 32

/-- Addition of two `uint32_t` values: the result wraps modulo 2^32. -/
def add32 (a b : Nat) : Nat := (a + b) % 2 ^ 32

/-- The fields of `mapFile::mapElem` that `devMap.h` reads.  The structure is declared
in a header that is not among the sources; address and size are taken as `uint32_t`
values, like the variables they are combined with. -/
structure mapElem where
  reg_address : Nat
  reg_size : Nat
  reg_bar : Nat
  deriving DecidableEq, Repr

/-- The exceptions of `devMap.h`, by their identifier, and the exception that
`mapFile::getRegisterInfo` throws for a name it does not know. -/
inductive exdevMap where
  | EX_WRONG_PARAMETER (what : String)
  | EX_NOT_OPENED (what : String)
  | fromMapFile (what : String)
  deriving DecidableEq, Repr

/-- The values that `checkRegister` writes through its reference parameters. -/
structure CheckedRegister where
  retDataSize : Nat
  retRegOff : Nat
  retRegBar : Nat
  deriving DecidableEq, Repr

/-- Models `devMap<T>::RegisterAccessor::checkRegister(me, dataSize, addRegOffset,
retDataSize, retRegOff)`; `dataSize` is a `size_t`, `addRegOffset` a `uint32_t`.  The
bar is not a result of this overload: the callers use `me.reg_bar`; it is reported in
`retRegBar` as they pass it on, in a `uint8_t` parameter. -/
def devMap.RegisterAccessor.checkRegister (me : mapElem) (dataSize addRegOffset : Nat) :
    Except exdevMap CheckedRegister :=
  if addRegOffset % 4 ≠ 0 then
    Except.error (exdevMap.EX_WRONG_PARAMETER "Register offset must be dividable by 4")
  else if dataSize ≠ 0 then
    if dataSize % 4 ≠ 0 then
      Except.error (exdevMap.EX_WRONG_PARAMETER "Data size must be dividable by 4")
    else if dataSize > sub32 me.reg_size addRegOffset then
      Except.error (exdevMap.EX_WRONG_PARAMETER "Data size exceed register size")
    else
      Except.ok ⟨dataSize % 2 ^ 32, add32 me.reg_address addRegOffset, me.reg_bar % 2 ^ 8⟩
  else
    Except.ok ⟨me.reg_size % 2 ^ 32, add32 me.reg_address addRegOffset, me.reg_bar % 2 ^ 8⟩

/-- Models `devMap<T>::checkRegister(regName, dataSize, addRegOffset, retDataSize,
retRegOff, retRegBar)`.  `opened` says that `pdev` and `mapFile` are both set
(`checkPointersAreNotNull`); `getRegisterInfo` is `mapFile->getRegisterInfo`, which is
not among the sources: it delivers the entry of the register or throws. -/
def devMap.checkRegister (opened : Bool) (getRegisterInfo : String → Except exdevMap mapElem)
    (regName : String) (dataSize addRegOffset : Nat) : Except exdevMap CheckedRegister :=
  if !opened then
    Except.error (exdevMap.EX_NOT_OPENED "devMap has not been opened correctly")
  else
    match getRegisterInfo regName with
    | Except.error ex => Except.error ex
    | Except.ok me =>
      if addRegOffset % 4 ≠ 0 then
        Except.error (exdevMap.EX_WRONG_PARAMETER "Register offset must be dividable by 4")
      else if dataSize ≠ 0 then
        if dataSize % 4 ≠ 0 then
          Except.error (exdevMap.EX_WRONG_PARAMETER "Data size must be dividable by 4")
        else if dataSize > sub32 me.reg_size addRegOffset then
          Except.error (exdevMap.EX_WRONG_PARAMETER "Data size exceed register size")
        else
          Except.ok ⟨dataSize % 2 ^ 32, add32 me.reg_address addRegOffset, me.reg_bar % 2 ^ 8⟩
      else
        Except.ok ⟨me.reg_size % 2 ^ 32, add32 me.reg_address addRegOffset, me.reg_bar % 2 ^ 8⟩

/-- A map file with the single register `"WORD_STATUS"` at address 8, of 16 bytes, in
bar 1. -/
def exampleRegisterInfo (regName : String) : Except exdevMap mapElem :=
  if regName = "WORD_STATUS" then Except.ok ⟨8, 16, 1⟩
  else Except.error (exdevMap.fromMapFile "Cannot find register in map file")

/-- The C function `isspace` in the "C" locale: space, `\t`, `\n`, `\v`, `\f`, `\r`. -/
def isspace (c : Char) : Bool := c.toNat = 32 || (9 ≤ c.toNat && c.toNat ≤ 13)

/-- The lines that the loop `while (std::getline(file, line))` delivers for a file
content: the text between line feeds; text after the last line feed is a line of its
own, and nothing follows a final line feed.  The second argument is the line read so
far (reversed), if a character of it has been read. -/
def getLinesFrom : List Char → Option (List Char) → List (List Char)
  | [], none => []
  | [], some cur => [cur.reverse]
  | c :: cs, cur =>
    if c.toNat = 10 then (cur.getD []).reverse :: getLinesFrom cs none
    else getLinesFrom cs (some (c :: cur.getD []))

/-- The lines of a file content, see `getLinesFrom`. -/
def getLines (content : List Char) : List (List Char) := getLinesFrom content none

/-- The extraction `is >> s` of a `std::string` from a stream whose unread content is the
argument: leading whitespace is skipped, then the characters up to the next whitespace
are taken.  The extracted string and the unread rest, or `none` when the stream ends
before a character is found (the stream is then in the failed state). -/
def extractWord (s : List Char) : Option (List Char × List Char) :=
  match s.dropWhile isspace with
  | [] => none
  | c :: cs => some ((c :: cs).takeWhile (fun x => !isspace x),
      (c :: cs).dropWhile (fun x => !isspace x))

/-- The statement `is >> deviceInfo.deviceName >> deviceInfo.uri >> deviceInfo.mapFileName`
on a stream holding `line`: the three strings if the stream is good afterwards. -/
def extractThree (line : List Char) : Option (List Char × List Char × List Char) :=
  match extractWord line with
  | none => none
  | some (deviceName, rest1) =>
    match extractWord rest1 with
    | none => none
    | some (uri, rest2) =>
      match extractWord rest2 with
      | none => none
      | some (mapFileName, _) => some (deviceName, uri, mapFileName)

/-- Models `DeviceInfoMap::DeviceInfo`. -/
structure DeviceInfo where
  deviceName : List Char
  uri : List Char
  mapFileName : List Char
  dmapFileName : List Char
  dmapFileLineNumber : Nat
  deriving DecidableEq, Repr

/-- Models `DeviceInfoMap`: the name of the file it was made for and its entries. -/
structure DeviceInfoMap where
  dmapFileName : List Char
  entries : List DeviceInfo
  deriving DecidableEq, Repr

/-- Modelled from the spec: `DeviceInfoMap::insert` (its definition is not among the
sources; the header documents a vector storing the parsed contents of the file, and
the alias list of the tests is in file order): the entry is appended. -/
def DeviceInfoMap.insert (dmap : DeviceInfoMap) (deviceInfo : DeviceInfo) : DeviceInfoMap :=
  { dmap with entries := dmap.entries ++ [deviceInfo] }

/-- Models `DeviceInfoMap::getSize`. -/
def DeviceInfoMap.getSize (dmap : DeviceInfoMap) : Nat := dmap.entries.length

/-- The exceptions that `DMapFileParser::parse` throws, by their identifier, with the
message. -/
inductive DMapFileParserException where
  | EX_CANNOT_OPEN_DMAP_FILE (what : List Char)
  | EX_NO_DMAP_DATA (what : List Char)
  | EX_DMAP_FILE_PARSE_ERROR (what : List Char)
  deriving DecidableEq, Repr

/-- What `DMapFileParser::parse` takes from outside: the functions of
`parserUtilities`, which are not among the sources, and the file system. -/
structure ParserEnvironment where
  /-- Models `parserUtilities::convertToAbsolutePath`. -/
  convertToAbsolutePath : List Char → List Char
  /-- Models `parserUtilities::extractDirectory`. -/
  extractDirectory : List Char → List Char
  /-- Models `parserUtilities::concatenatePaths`. -/
  concatenatePaths : List Char → List Char → List Char
  /-- The content of the file at a path, `none` if the file cannot be opened. -/
  fileContent : List Char → Option (List Char)

/-- Models `DMapFileParser::raiseException(file_name, line, line_nr)`: the exception
thrown. -/
def DMapFileParser.raiseException (file_name line : List Char) (line_nr : Nat) :
    DMapFileParserException :=
  DMapFileParserException.EX_DMAP_FILE_PARSE_ERROR
    ("Error in dmap file: \"".toList ++ file_name ++ "\" in line (".toList ++
      Nat.toDigits 10 line_nr ++ ") \"".toList ++ line ++ "\"".toList)

/-- The loop `while (std::getline(file, line))` of `DMapFileParser::parse` over the lines
still to read, with the values of `line_nr` (a `uint32_t`) and of `dmap` before the
line is read. -/
def DMapFileParser.parseLines (env : ParserEnvironment) (file_name absPathToDMapFile : List Char) :
    List (List Char) → Nat → DeviceInfoMap → Except DMapFileParserException DeviceInfoMap
  | [], _, dmap => Except.ok dmap
  | line :: rest, line_nr, dmap =>
    -- line_nr++
    -- line.erase(line.begin(), std::find_if(line.begin(), line.end(), not isspace))
    if (line.dropWhile isspace).length = 0 then
      DMapFileParser.parseLines env file_name absPathToDMapFile rest (add32 line_nr 1) dmap
    else if (line.dropWhile isspace).head? = some '#' then
      DMapFileParser.parseLines env file_name absPathToDMapFile rest (add32 line_nr 1) dmap
    else
      match extractThree (line.dropWhile isspace) with
      | some (deviceName, uri, mapFileName) =>
        DMapFileParser.parseLines env file_name absPathToDMapFile rest (add32 line_nr 1)
          (dmap.insert
            { deviceName := deviceName
              uri := uri
              mapFileName :=
                env.concatenatePaths (env.extractDirectory absPathToDMapFile) mapFileName
              dmapFileName := absPathToDMapFile
              dmapFileLineNumber := add32 line_nr 1 })
      | none =>
        Except.error
          (DMapFileParser.raiseException file_name (line.dropWhile isspace) (add32 line_nr 1))

/-- Models `DMapFileParser::parse(file_name)`. -/
def DMapFileParser.parse (env : ParserEnvironment) (file_name : List Char) :
    Except DMapFileParserException DeviceInfoMap :=
  match env.fileContent (env.convertToAbsolutePath file_name) with
  | none =>
    Except.error (DMapFileParserException.EX_CANNOT_OPEN_DMAP_FILE
      ("Cannot open dmap file: \"".toList ++ env.convertToAbsolutePath file_name ++ "\"".toList))
  | some content =>
    match DMapFileParser.parseLines env file_name (env.convertToAbsolutePath file_name)
        (getLines content) 0 ⟨env.convertToAbsolutePath file_name, []⟩ with
    | Except.error ex => Except.error ex
    | Except.ok dmap =>
      if dmap.getSize = 0 then
        Except.error (DMapFileParserException.EX_NO_DMAP_DATA
          ("No data in in dmap file: \"".toList ++ file_name ++ "\"".toList))
      else Except.ok dmap

/-- Whether a line is one that the DMap syntax ignores: it is empty, consists of
whitespace only, or its first character that is not whitespace is `#`. -/
def ignoredLine : List Char → Bool
  | [] => true
  | c :: cs => if c = '#' then true else if isspace c then ignoredLine cs else false

/-- Scanner for the whitespace-separated tokens of a text: the token that starts at the
first character (empty if that is whitespace or the text is empty) and the tokens
after it. -/
def scanTokens : List Char → List Char × List (List Char)
  | [] => ([], [])
  | c :: cs =>
    if isspace c then
      ([], if (scanTokens cs).1 = [] then (scanTokens cs).2
        else (scanTokens cs).1 :: (scanTokens cs).2)
    else (c :: (scanTokens cs).1, (scanTokens cs).2)

/-- The whitespace-separated tokens of a text, in order. -/
def tokens (s : List Char) : List (List Char) :=
  if (scanTokens s).1 = [] then (scanTokens s).2 else (scanTokens s).1 :: (scanTokens s).2

/-- The entry that the DMap syntax gives for a line with its number, in the file at
`absPathToDMapFile`. -/
def entryOfLine (env : ParserEnvironment) (absPathToDMapFile : List Char)
    (p : Nat × List Char) : DeviceInfo :=
  { deviceName := (tokens p.2).getD 0 []
    uri := (tokens p.2).getD 1 []
    mapFileName :=
      env.concatenatePaths (env.extractDirectory absPathToDMapFile) ((tokens p.2).getD 2 [])
    dmapFileName := absPathToDMapFile
    dmapFileLineNumber := p.1 }

/-- The entries that the DMap syntax gives for the lines of a file, numbered from
`first`: one for every line that is not ignored, in file order. -/
def entriesOfLines (env : ParserEnvironment) (absPathToDMapFile : List Char) (first : Nat)
    (lines : List (List Char)) : List DeviceInfo :=
  ((lines.enumFrom first).filter (fun p => !ignoredLine p.2)).map
    (entryOfLine env absPathToDMapFile)

/-- An environment for the examples: paths are absolute already, the directory of every
file is `/etc/`, a map file is found in the directory, and the only file is
`/etc/devices.dmap` with the given content. -/
def exampleEnvironment (content : String) : ParserEnvironment :=
  { convertToAbsolutePath := fun path => path
    extractDirectory := fun _ => "/etc/".toList
    concatenatePaths := fun dir file => dir ++ file
    fileContent := fun path => if path = "/etc/devices.dmap".toList then some content.toList
      else none }

/-- The constants that `PcieDevice.cpp` takes from the driver headers `pciedev_io.h`,
`pcieuni_io_compat.h` and `llrfdrv_io_compat.h`, which are not among the sources. -/
structure DriverConstants where
  PCIEDEV_PHYSICAL_SLOT : Nat
  PCIEDEV_DRIVER_VERSION : Nat
  PCIEDEV_READ_DMA : Nat
  LLRFDRV_PHYSICAL_SLOT : Nat
  LLRFDRV_DRIVER_VERSION : Nat
  PCIEUNI_PHYSICAL_SLOT : Nat
  PCIEUNI_DRIVER_VERSION : Nat
  PCIEUNI_READ_DMA : Nat
  /-- The array `PCIEUNI_BAR_OFFSETS`, by index. -/
  PCIEUNI_BAR_OFFSETS : Nat → Int
  RW_D32 : Nat
  RW_DMA : Nat
  /-- The value of `sizeof(device_rw)`. -/
  sizeofDeviceRw : Nat
  /-- The value of `sizeof(device_ioctrl_dma)`. -/
  sizeofDeviceIoctrlDma : Nat
  /-- The default `O_RDWR` of the parameter `perm` of `open`. -/
  O_RDWR : Int

/-- The structure `device_rw` of the driver interface (`pciedev_io.h`, not among the
sources), with the fields that `PcieDevice.cpp` assigns. -/
structure device_rw where
  offset_rw : Nat
  data_rw : Int
  mode_rw : Nat
  barx_rw : Nat
  size_rw : Nat
  rsrvd_rw : Nat
  deriving DecidableEq, Repr

/-- A system call on the device file: the device I/O of `PcieDevice`. -/
inductive Syscall where
  | open (devName : String) (perm : Int)
  | close (fd : Int)
  | ioctl (fd : Int) (request : Nat)
  | read (fd : Int) (rw : device_rw)
  | write (fd : Int) (rw : device_rw)
  | pread (fd : Int) (sizeInBytes : Nat) (offset : Int)
  | pwrite (fd : Int) (sizeInBytes : Nat) (offset : Int)
  | ioctlDma (fd : Int) (request : Nat) (dma_size : Nat) (dma_offset : Nat)
  deriving DecidableEq, Repr

/-- The operating system with the driver behind the device file, in a state of type
`S`: what each system call returns, the data it delivers, and the state it leaves. -/
structure Kernel (S : Type) where
  /-- Models `::open(devName, perm)`. -/
  sysOpen : String → Int → S → Int × S
  /-- Models `::close(fd)`. -/
  sysClose : Int → S → S
  /-- Models `ioctl(fd, request, &ioctlData)`. -/
  sysIoctl : Int → Nat → S → Int × S
  /-- Models `::read(fd, &rw, sizeof(device_rw))`: the return value and the word that the
  driver leaves in `data_rw` (for a DMA request: the words it leaves in the buffer). -/
  sysRead : Int → device_rw → S → (Int × List Int) × S
  /-- Models `::write(fd, &rw, sizeof(device_rw))`. -/
  sysWrite : Int → device_rw → S → Int × S
  /-- Models `pread(fd, data, sizeInBytes, offset)`: the return value and the words read. -/
  sysPread : Int → Nat → Int → S → (Int × List Int) × S
  /-- Models `pwrite(fd, data, sizeInBytes, offset)`. -/
  sysPwrite : Int → (Nat → Int) → Nat → Int → S → Int × S
  /-- Models `ioctl(fd, _ioctlDMA, data)` with the DMA request at the start of `data`. -/
  sysIoctlDma : Int → Nat → Nat → Nat → S → (Int × List Int) × S
  /-- The text of `strerror_r(errno, ...)`. -/
  errnoText : S → String

/-- The identifiers of `PcieDeviceException`. -/
inductive PcieDeviceExceptionId where
  | EX_CANNOT_OPEN_DEVICE
  | EX_DEVICE_OPENED
  | EX_DEVICE_CLOSED
  | EX_READ_ERROR
  | EX_WRITE_ERROR
  | EX_DMA_READ_ERROR
  | EX_DMA_WRITE_ERROR
  | EX_INFO_READ_ERROR
  | EX_UNSUPPORTED_DRIVER
  deriving DecidableEq, Repr

/-- What a member function of `PcieDevice` can throw: a `PcieDeviceException` with its
message and identifier, or the `boost::bad_function_call` of an empty
`boost::function`. -/
inductive DeviceException where
  | PcieDeviceException (what : String) (id : PcieDeviceExceptionId)
  | bad_function_call
  deriving DecidableEq, Repr

/-- The member function bound to `_readFunction`. -/
inductive ReadFunction where
  | readWithStruct
  | directRead
  deriving DecidableEq, Repr

/-- The member function bound to `_writeFunction`. -/
inductive WriteFunction where
  | writeWithStruct
  | directWrite
  deriving DecidableEq, Repr

/-- The member function bound to `_readDMAFunction`. -/
inductive ReadDMAFunction where
  | readDMAViaIoctl
  | readDMAViaStruct
  deriving DecidableEq, Repr

/-- The data members of `PcieDevice` (with `_opened` and `_instance` of its base
class); an empty `boost::function` is `none`. -/
structure PcieDevice where
  opened : Bool
  instanceName : String
  deviceID : Int
  ioctlPhysicalSlot : Nat
  ioctlDriverVersion : Nat
  ioctlDMA : Nat
  readDMAFunction : Option ReadDMAFunction
  writeFunction : Option WriteFunction
  readFunction : Option ReadFunction
  deriving DecidableEq, Repr

/-- What a member function of `PcieDevice` leaves behind: the value it returns or the
exception it throws, the object, the state of the operating system, and the system
calls it made, in order. -/
structure DeviceResult (α : Type) (S : Type) where
  result : Except DeviceException α
  device : PcieDevice
  os : S
  syscalls : List Syscall

/-- The conversion `static_cast<int>(sizeInBytes)` of a `size_t` to a 32-bit `int`. -/
def castToInt (n : Nat) : Int :=
  if n % 2 ^ 32 < 2 ^ 31 then ((n % 2 ^ 32 : Nat) : Int) else ((n % 2 ^ 32 : Nat) : Int) - 2 ^ 32

/-- Models `PcieDevice::PcieDevice(host, instance, parameters)`. -/
def PcieDevice.new (instanceName : String) : PcieDevice :=
  { opened := false, instanceName := "/dev/" ++ instanceName, deviceID := 0,
    ioctlPhysicalSlot := 0, ioctlDriverVersion := 0, ioctlDMA := 0,
    readDMAFunction := none, writeFunction := none, readFunction := none }

/-- Models `PcieDevice::createErrorStringWithErrnoText(startText)`. -/
def PcieDevice.createErrorStringWithErrnoText {S : Type} (K : Kernel S) (dev : PcieDevice)
    (os : S) (startText : String) : String :=
  startText ++ dev.instanceName ++ ": " ++ K.errnoText os

/-- Models `PcieDevice::determineDriverAndConfigureIoctl()`; the message on `std::cerr`
is left out. -/
def PcieDevice.determineDriverAndConfigureIoctl {S : Type} (K : Kernel S) (C : DriverConstants)
    (dev : PcieDevice) (os : S) : DeviceResult Unit S :=
  -- determine the driver by trying the physical slot ioctl
  let r1 := K.sysIoctl dev.deviceID C.PCIEDEV_PHYSICAL_SLOT os
  if r1.1 ≥ 0 then
    -- it's the pciedev driver
    ⟨Except.ok (),
      { dev with
        ioctlPhysicalSlot := C.PCIEDEV_PHYSICAL_SLOT
        ioctlDriverVersion := C.PCIEDEV_DRIVER_VERSION
        ioctlDMA := C.PCIEDEV_READ_DMA
        readDMAFunction := some ReadDMAFunction.readDMAViaIoctl
        writeFunction := some WriteFunction.writeWithStruct
        readFunction := some ReadFunction.readWithStruct },
      r1.2, [Syscall.ioctl dev.deviceID C.PCIEDEV_PHYSICAL_SLOT]⟩
  else
    let r2 := K.sysIoctl dev.deviceID C.LLRFDRV_PHYSICAL_SLOT r1.2
    if r2.1 ≥ 0 then
      -- it's the llrf driver
      ⟨Except.ok (),
        { dev with
          ioctlPhysicalSlot := C.LLRFDRV_PHYSICAL_SLOT
          ioctlDriverVersion := C.LLRFDRV_DRIVER_VERSION
          ioctlDMA := 0
          readDMAFunction := some ReadDMAFunction.readDMAViaStruct
          writeFunction := some WriteFunction.writeWithStruct
          readFunction := some ReadFunction.readWithStruct },
        r2.2,
        [Syscall.ioctl dev.deviceID C.PCIEDEV_PHYSICAL_SLOT,
          Syscall.ioctl dev.deviceID C.LLRFDRV_PHYSICAL_SLOT]⟩
    else
      let r3 := K.sysIoctl dev.deviceID C.PCIEUNI_PHYSICAL_SLOT r2.2
      if r3.1 ≥ 0 then
        -- it's the pcieuni
        ⟨Except.ok (),
          { dev with
            ioctlPhysicalSlot := C.PCIEUNI_PHYSICAL_SLOT
            ioctlDriverVersion := C.PCIEUNI_DRIVER_VERSION
            ioctlDMA := C.PCIEUNI_READ_DMA
            readDMAFunction := some ReadDMAFunction.readDMAViaIoctl
            writeFunction := some WriteFunction.directWrite
            readFunction := some ReadFunction.directRead },
          r3.2,
          [Syscall.ioctl dev.deviceID C.PCIEDEV_PHYSICAL_SLOT,
            Syscall.ioctl dev.deviceID C.LLRFDRV_PHYSICAL_SLOT,
            Syscall.ioctl dev.deviceID C.PCIEUNI_PHYSICAL_SLOT]⟩
      else
        -- No working driver. Close the device and throw an exception.
        ⟨Except.error (DeviceException.PcieDeviceException
            ("Unsupported driver in device" ++ dev.instanceName)
            PcieDeviceExceptionId.EX_UNSUPPORTED_DRIVER),
          dev, K.sysClose dev.deviceID r3.2,
          [Syscall.ioctl dev.deviceID C.PCIEDEV_PHYSICAL_SLOT,
            Syscall.ioctl dev.deviceID C.LLRFDRV_PHYSICAL_SLOT,
            Syscall.ioctl dev.deviceID C.PCIEUNI_PHYSICAL_SLOT,
            Syscall.close dev.deviceID]⟩

/-- Models `PcieDevice::open(devName, perm, pConfig)`. -/
def PcieDevice.open {S : Type} (K : Kernel S) (C : DriverConstants) (dev : PcieDevice)
    (devName : String) (perm : Int) (os : S) : DeviceResult Unit S :=
  if dev.opened then
    ⟨Except.error (DeviceException.PcieDeviceException "Device already has been _Opened"
      PcieDeviceExceptionId.EX_DEVICE_OPENED), dev, os, []⟩
  else
    let dev1 := { dev with instanceName := devName }
    let r := K.sysOpen devName perm os
    let dev2 := { dev1 with deviceID := r.1 }
    if r.1 < 0 then
      ⟨Except.error (DeviceException.PcieDeviceException
          (dev2.createErrorStringWithErrnoText K r.2 "Cannot open device: ")
          PcieDeviceExceptionId.EX_CANNOT_OPEN_DEVICE),
        dev2, r.2, [Syscall.open devName perm]⟩
    else
      let d := dev2.determineDriverAndConfigureIoctl K C r.2
      match d.result with
      | Except.error ex => ⟨Except.error ex, d.device, d.os, Syscall.open devName perm :: d.syscalls⟩
      | Except.ok _ =>
        ⟨Except.ok (), { d.device with opened := true }, d.os,
          Syscall.open devName perm :: d.syscalls⟩

/-- Models `PcieDevice::close()`. -/
def PcieDevice.close {S : Type} (K : Kernel S) (dev : PcieDevice) (os : S) :
    DeviceResult Unit S :=
  if dev.opened then
    ⟨Except.ok (), { dev with opened := false }, K.sysClose dev.deviceID os,
      [Syscall.close dev.deviceID]⟩
  else ⟨Except.ok (), { dev with opened := false }, os, []⟩

/-- Models `PcieDevice::readInternal(bar, address, data)`: the word stored in `*data`. -/
def PcieDevice.readInternal {S : Type} (K : Kernel S) (C : DriverConstants) (dev : PcieDevice)
    (bar address : Nat) (os : S) : DeviceResult Int S :=
  if dev.opened = false then
    ⟨Except.error (DeviceException.PcieDeviceException "Device closed"
      PcieDeviceExceptionId.EX_DEVICE_CLOSED), dev, os, []⟩
  else
    let l_RW : device_rw :=
      { barx_rw := bar, mode_rw := C.RW_D32, offset_rw := address, size_rw := 0,
        data_rw := -1, rsrvd_rw := 0 }
    let r := K.sysRead dev.deviceID l_RW os
    if r.1.1 ≠ (C.sizeofDeviceRw : Int) then
      ⟨Except.error (DeviceException.PcieDeviceException
          (dev.createErrorStringWithErrnoText K r.2 "Cannot read data from device: ")
          PcieDeviceExceptionId.EX_READ_ERROR),
        dev, r.2, [Syscall.read dev.deviceID l_RW]⟩
    else ⟨Except.ok (r.1.2.headD (-1)), dev, r.2, [Syscall.read dev.deviceID l_RW]⟩

/-- Models `PcieDevice::directRead(bar, address, data, sizeInBytes)`: the words stored
in `data`. -/
def PcieDevice.directRead {S : Type} (K : Kernel S) (C : DriverConstants) (dev : PcieDevice)
    (bar address sizeInBytes : Nat) (os : S) : DeviceResult (List Int) S :=
  if dev.opened = false then
    ⟨Except.error (DeviceException.PcieDeviceException "Device closed"
      PcieDeviceExceptionId.EX_DEVICE_CLOSED), dev, os, []⟩
  else if bar > 5 then
    ⟨Except.error (DeviceException.PcieDeviceException
      ("Invalid bar number: " ++ String.singleton (Char.ofNat bar) ++ "\n")
      PcieDeviceExceptionId.EX_READ_ERROR), dev, os, []⟩
  else
    let virtualOffset : Int := C.PCIEUNI_BAR_OFFSETS bar + address
    let r := K.sysPread dev.deviceID sizeInBytes virtualOffset os
    if r.1.1 ≠ castToInt sizeInBytes then
      ⟨Except.error (DeviceException.PcieDeviceException
          (dev.createErrorStringWithErrnoText K r.2 "Cannot read data from device: ")
          PcieDeviceExceptionId.EX_READ_ERROR),
        dev, r.2, [Syscall.pread dev.deviceID sizeInBytes virtualOffset]⟩
    else ⟨Except.ok r.1.2, dev, r.2, [Syscall.pread dev.deviceID sizeInBytes virtualOffset]⟩

/-- Models `PcieDevice::writeInternal(bar, address, data)`; `word` is `*data`. -/
def PcieDevice.writeInternal {S : Type} (K : Kernel S) (C : DriverConstants) (dev : PcieDevice)
    (bar address : Nat) (word : Int) (os : S) : DeviceResult Unit S :=
  if dev.opened = false then
    ⟨Except.error (DeviceException.PcieDeviceException "Device closed"
      PcieDeviceExceptionId.EX_DEVICE_CLOSED), dev, os, []⟩
  else
    let l_RW : device_rw :=
      { barx_rw := bar, mode_rw := C.RW_D32, offset_rw := address, data_rw := word,
        rsrvd_rw := 0, size_rw := 0 }
    let r := K.sysWrite dev.deviceID l_RW os
    if r.1 ≠ (C.sizeofDeviceRw : Int) then
      ⟨Except.error (DeviceException.PcieDeviceException
          (dev.createErrorStringWithErrnoText K r.2 "Cannot write data to device: ")
          PcieDeviceExceptionId.EX_WRITE_ERROR),
        dev, r.2, [Syscall.write dev.deviceID l_RW]⟩
    else ⟨Except.ok (), dev, r.2, [Syscall.write dev.deviceID l_RW]⟩

/-- Models `PcieDevice::directWrite(bar, address, data, sizeInBytes)`; `data` is the
memory that the pointer refers to, by word index. -/
def PcieDevice.directWrite {S : Type} (K : Kernel S) (C : DriverConstants) (dev : PcieDevice)
    (bar address : Nat) (data : Nat → Int) (sizeInBytes : Nat) (os : S) : DeviceResult Unit S :=
  if dev.opened = false then
    ⟨Except.error (DeviceException.PcieDeviceException "Device closed"
      PcieDeviceExceptionId.EX_DEVICE_CLOSED), dev, os, []⟩
  else if bar > 5 then
    ⟨Except.error (DeviceException.PcieDeviceException
      ("Invalid bar number: " ++ String.singleton (Char.ofNat bar) ++ "\n")
      PcieDeviceExceptionId.EX_WRITE_ERROR), dev, os, []⟩
  else
    let virtualOffset : Int := C.PCIEUNI_BAR_OFFSETS bar + address
    let r := K.sysPwrite dev.deviceID data sizeInBytes virtualOffset os
    if r.1 ≠ castToInt sizeInBytes then
      ⟨Except.error (DeviceException.PcieDeviceException
          (dev.createErrorStringWithErrnoText K r.2 "Cannot write data to device: ")
          PcieDeviceExceptionId.EX_WRITE_ERROR),
        dev, r.2, [Syscall.pwrite dev.deviceID sizeInBytes virtualOffset]⟩
    else ⟨Except.ok (), dev, r.2, [Syscall.pwrite dev.deviceID sizeInBytes virtualOffset]⟩

/-- The loop of `PcieDevice::readWithStruct` from counter `i` on, with `count` rounds
left: `readInternal(bar, address + i * 4, data + i)`, the address in `uint32_t`
arithmetic. An exception of `readInternal` ends the loop. -/
def PcieDevice.readWithStructLoop {S : Type} (K : Kernel S) (C : DriverConstants)
    (dev : PcieDevice) (bar address : Nat) : Nat → Nat → S → DeviceResult (List Int) S
  | 0, _, os => ⟨Except.ok [], dev, os, []⟩
  | count + 1, i, os =>
    let r := dev.readInternal K C bar (add32 address (i * 4)) os
    match r.result with
    | Except.error ex => ⟨Except.error ex, dev, r.os, r.syscalls⟩
    | Except.ok word =>
      let rest := PcieDevice.readWithStructLoop K C dev bar address count (i + 1) r.os
      ⟨rest.result.map (fun words => word :: words), dev, rest.os, r.syscalls ++ rest.syscalls⟩

/-- Models `PcieDevice::readWithStruct(bar, address, data, sizeInBytes)`: the words
stored in `data`. The loop is run `sizeInBytes / 4` times; its counter is a `uint32_t`
in the source, where a count of `2 ^ 32` or more is never reached by the counter. -/
def PcieDevice.readWithStruct {S : Type} (K : Kernel S) (C : DriverConstants) (dev : PcieDevice)
    (bar address sizeInBytes : Nat) (os : S) : DeviceResult (List Int) S :=
  if sizeInBytes % 4 ≠ 0 then
    ⟨Except.error (DeviceException.PcieDeviceException "Wrong data size - must be dividable by 4"
      PcieDeviceExceptionId.EX_READ_ERROR), dev, os, []⟩
  else PcieDevice.readWithStructLoop K C dev bar address (sizeInBytes / 4) 0 os

/-- Models `PcieDevice::read(bar, address, data, sizeInBytes)`: the call of
`_readFunction`. -/
def PcieDevice.read {S : Type} (K : Kernel S) (C : DriverConstants) (dev : PcieDevice)
    (bar address sizeInBytes : Nat) (os : S) : DeviceResult (List Int) S :=
  match dev.readFunction with
  | none => ⟨Except.error DeviceException.bad_function_call, dev, os, []⟩
  | some ReadFunction.readWithStruct => dev.readWithStruct K C bar address sizeInBytes os
  | some ReadFunction.directRead => dev.directRead K C bar address sizeInBytes os

/-- The loop of `PcieDevice::writeWithStruct` from counter `i` on, with `count` rounds
left: `writeInternal(bar, address + i * 4, data + i)`. -/
def PcieDevice.writeWithStructLoop {S : Type} (K : Kernel S) (C : DriverConstants)
    (dev : PcieDevice) (bar address : Nat) (data : Nat → Int) :
    Nat → Nat → S → DeviceResult Unit S
  | 0, _, os => ⟨Except.ok (), dev, os, []⟩
  | count + 1, i, os =>
    let r := dev.writeInternal K C bar (add32 address (i * 4)) (data i) os
    match r.result with
    | Except.error ex => ⟨Except.error ex, dev, r.os, r.syscalls⟩
    | Except.ok _ =>
      let rest := PcieDevice.writeWithStructLoop K C dev bar address data count (i + 1) r.os
      ⟨rest.result, dev, rest.os, r.syscalls ++ rest.syscalls⟩

/-- Models `PcieDevice::writeWithStruct(bar, address, data, sizeInBytes)`, with the
loop as in `PcieDevice.readWithStruct`. -/
def PcieDevice.writeWithStruct {S : Type} (K : Kernel S) (C : DriverConstants) (dev : PcieDevice)
    (bar address : Nat) (data : Nat → Int) (sizeInBytes : Nat) (os : S) : DeviceResult Unit S :=
  if dev.opened = false then
    ⟨Except.error (DeviceException.PcieDeviceException "Device closed"
      PcieDeviceExceptionId.EX_DEVICE_CLOSED), dev, os, []⟩
  else if sizeInBytes % 4 ≠ 0 then
    ⟨Except.error (DeviceException.PcieDeviceException "Wrong data size - must be dividable by 4"
      PcieDeviceExceptionId.EX_WRITE_ERROR), dev, os, []⟩
  else PcieDevice.writeWithStructLoop K C dev bar address data (sizeInBytes / 4) 0 os

/-- Models `PcieDevice::write(bar, address, data, sizeInBytes)`: the call of
`_writeFunction`. -/
def PcieDevice.write {S : Type} (K : Kernel S) (C : DriverConstants) (dev : PcieDevice)
    (bar address : Nat) (data : Nat → Int) (sizeInBytes : Nat) (os : S) : DeviceResult Unit S :=
  match dev.writeFunction with
  | none => ⟨Except.error DeviceException.bad_function_call, dev, os, []⟩
  | some WriteFunction.writeWithStruct => dev.writeWithStruct K C bar address data sizeInBytes os
  | some WriteFunction.directWrite => dev.directWrite K C bar address data sizeInBytes os

/-- Models `PcieDevice::readDMAViaStruct(bar, address, data, sizeInBytes)`: the words
stored in `data`.  The `size_t` value `sizeInBytes` is stored in the 32-bit field
`size_rw`. -/
def PcieDevice.readDMAViaStruct {S : Type} (K : Kernel S) (C : DriverConstants)
    (dev : PcieDevice) (address sizeInBytes : Nat) (os : S) : DeviceResult (List Int) S :=
  if dev.opened = false then
    ⟨Except.error (DeviceException.PcieDeviceException "Device closed"
      PcieDeviceExceptionId.EX_DEVICE_CLOSED), dev, os, []⟩
  else
    let pl_RW : device_rw :=
      { data_rw := 0, barx_rw := 0, size_rw := sizeInBytes % 2 ^ 32, mode_rw := C.RW_DMA,
        offset_rw := address, rsrvd_rw := 0 }
    let r := K.sysRead dev.deviceID pl_RW os
    if r.1.1 ≠ (sizeInBytes : Int) then
      ⟨Except.error (DeviceException.PcieDeviceException
          (dev.createErrorStringWithErrnoText K r.2 "Cannot read data from device: ")
          PcieDeviceExceptionId.EX_DMA_READ_ERROR),
        dev, r.2, [Syscall.read dev.deviceID pl_RW]⟩
    else ⟨Except.ok r.1.2, dev, r.2, [Syscall.read dev.deviceID pl_RW]⟩

/-- Models `PcieDevice::readDMAViaIoctl(bar, address, data, sizeInBytes)`: the words
stored in `data`.  The `size_t` value `sizeInBytes` is stored in the 32-bit field
`dma_size` of the request. -/
def PcieDevice.readDMAViaIoctl {S : Type} (K : Kernel S) (C : DriverConstants)
    (dev : PcieDevice) (address sizeInBytes : Nat) (os : S) : DeviceResult (List Int) S :=
  if dev.opened = false then
    ⟨Except.error (DeviceException.PcieDeviceException "Device closed"
      PcieDeviceExceptionId.EX_DEVICE_CLOSED), dev, os, []⟩
  else if sizeInBytes < C.sizeofDeviceIoctrlDma then
    ⟨Except.error (DeviceException.PcieDeviceException "Reqested dma size is too small"
      PcieDeviceExceptionId.EX_DMA_READ_ERROR), dev, os, []⟩
  else
    let r := K.sysIoctlDma dev.deviceID dev.ioctlDMA (sizeInBytes % 2 ^ 32) address os
    if r.1.1 ≠ 0 then
      ⟨Except.error (DeviceException.PcieDeviceException
          (dev.createErrorStringWithErrnoText K r.2 "Cannot read data from device ")
          PcieDeviceExceptionId.EX_DMA_READ_ERROR),
        dev, r.2, [Syscall.ioctlDma dev.deviceID dev.ioctlDMA (sizeInBytes % 2 ^ 32) address]⟩
    else
      ⟨Except.ok r.1.2, dev, r.2,
        [Syscall.ioctlDma dev.deviceID dev.ioctlDMA (sizeInBytes % 2 ^ 32) address]⟩

/-- Models `PcieDevice::readDMA(bar, address, data, sizeInBytes)`: the call of
`_readDMAFunction`. -/
def PcieDevice.readDMA {S : Type} (K : Kernel S) (C : DriverConstants) (dev : PcieDevice)
    (address sizeInBytes : Nat) (os : S) : DeviceResult (List Int) S :=
  match dev.readDMAFunction with
  | none => ⟨Except.error DeviceException.bad_function_call, dev, os, []⟩
  | some ReadDMAFunction.readDMAViaIoctl => dev.readDMAViaIoctl K C address sizeInBytes os
  | some ReadDMAFunction.readDMAViaStruct => dev.readDMAViaStruct K C address sizeInBytes os

/-- The three driver variants that `determineDriverAndConfigureIoctl` can select. -/
inductive DriverVariant where
  | pciedev
  | llrf
  | pcieuni
  deriving DecidableEq, Repr

/-- The variant that `determineDriverAndConfigureIoctl` selects for the device file
`fd` in the state `os`: the first of the three physical slot requests that the driver
answers, if any. -/
def selectedVariant {S : Type} (K : Kernel S) (C : DriverConstants) (fd : Int) (os : S) :
    Option DriverVariant :=
  let r1 := K.sysIoctl fd C.PCIEDEV_PHYSICAL_SLOT os
  if r1.1 ≥ 0 then some DriverVariant.pciedev
  else
    let r2 := K.sysIoctl fd C.LLRFDRV_PHYSICAL_SLOT r1.2
    if r2.1 ≥ 0 then some DriverVariant.llrf
    else
      let r3 := K.sysIoctl fd C.PCIEUNI_PHYSICAL_SLOT r2.2
      if r3.1 ≥ 0 then some DriverVariant.pcieuni else none

/-- Example constants: distinct request codes, bars of the pcieuni driver 2 ^ 60 apart,
and structures of 24 bytes. -/
def exampleConstants : DriverConstants :=
  { PCIEDEV_PHYSICAL_SLOT := 1, PCIEDEV_DRIVER_VERSION := 2, PCIEDEV_READ_DMA := 3,
    LLRFDRV_PHYSICAL_SLOT := 4, LLRFDRV_DRIVER_VERSION := 5,
    PCIEUNI_PHYSICAL_SLOT := 6, PCIEUNI_DRIVER_VERSION := 7, PCIEUNI_READ_DMA := 8,
    PCIEUNI_BAR_OFFSETS := fun bar => (bar : Int) * 2 ^ 60,
    RW_D32 := 2, RW_DMA := 3, sizeofDeviceRw := 24, sizeofDeviceIoctrlDma := 24, O_RDWR := 2 }

/-- An example operating system without state, whose driver answers the physical slot
request `slotRequest` only, opens every file as descriptor 3, and serves every transfer
in full with words of value 7. -/
def exampleKernel (slotRequest : Nat) : Kernel Unit :=
  { sysOpen := fun _ _ os => (3, os)
    sysClose := fun _ os => os
    sysIoctl := fun _ request os => (if request = slotRequest then 0 else -1, os)
    sysRead := fun _ rw os =>
      ((if rw.mode_rw = exampleConstants.RW_DMA then (rw.size_rw : Int) else 24, [7]), os)
    sysWrite := fun _ _ os => (24, os)
    sysPread := fun _ sizeInBytes _ os =>
      ((castToInt sizeInBytes, List.replicate (sizeInBytes / 4) 7), os)
    sysPwrite := fun _ _ sizeInBytes _ os => (castToInt sizeInBytes, os)
    sysIoctlDma := fun _ _ sizeInBytes _ os => ((0, List.replicate (sizeInBytes / 4) 7), os)
    errnoText := fun _ => "Success" }

/-- The device `/dev/llrfdummys4` after `open()` on the example operating system whose
driver answers `slotRequest`. -/
def exampleOpenedDevice (slotRequest : Nat) : PcieDevice :=
  ((PcieDevice.new "llrfdummys4").open (exampleKernel slotRequest) exampleConstants
    "/dev/llrfdummys4" exampleConstants.O_RDWR ()).device

/-- Models `PcieDevice::open()`: `open(_instance)` with the default `perm`. -/
def PcieDevice.openInstance {S : Type} (K : Kernel S) (C : DriverConstants) (dev : PcieDevice)
    (os : S) : DeviceResult Unit S :=
  dev.open K C dev.instanceName C.O_RDWR os

/-- The functions that `determineDriverAndConfigureIoctl` binds for a driver variant. -/
def DriverVariant.readFunction : DriverVariant → ReadFunction
  | DriverVariant.pciedev => ReadFunction.readWithStruct
  | DriverVariant.llrf => ReadFunction.readWithStruct
  | DriverVariant.pcieuni => ReadFunction.directRead

/-- The write function that `determineDriverAndConfigureIoctl` binds for a driver
variant. -/
def DriverVariant.writeFunction : DriverVariant → WriteFunction
  | DriverVariant.pciedev => WriteFunction.writeWithStruct
  | DriverVariant.llrf => WriteFunction.writeWithStruct
  | DriverVariant.pcieuni => WriteFunction.directWrite

/-- On the device `dev`, `read` and `write` of `sizeInBytes` bytes at address 0 of bar 0
throw `EX_READ_ERROR` and `EX_WRITE_ERROR` for the wrong data size and make no system
call. -/
def RejectsSize {S : Type} (K : Kernel S) (C : DriverConstants) (dev : PcieDevice)
    (sizeInBytes : Nat) (os : S) : Prop :=
  (dev.read K C 0 0 sizeInBytes os).result =
    Except.error (DeviceException.PcieDeviceException
      "Wrong data size - must be dividable by 4" PcieDeviceExceptionId.EX_READ_ERROR) ∧
  (dev.read K C 0 0 sizeInBytes os).syscalls = [] ∧
  (dev.write K C 0 0 (fun _ => 1) sizeInBytes os).result =
    Except.error (DeviceException.PcieDeviceException
      "Wrong data size - must be dividable by 4" PcieDeviceExceptionId.EX_WRITE_ERROR) ∧
  (dev.write K C 0 0 (fun _ => 1) sizeInBytes os).syscalls = []

/-- The byte range `[retRegOff, retRegOff + retDataSize)` that `checkRegister` returned
lies inside the range `[reg_address, reg_address + reg_size)` of the register. -/
def CheckedRegister.insideRegister (r : CheckedRegister) (me : mapElem) : Prop :=
  me.reg_address ≤ r.retRegOff ∧ r.retRegOff + r.retDataSize ≤ me.reg_address + me.reg_size

instance (r : CheckedRegister) (me : mapElem) : Decidable (r.insideRegister me) :=
  inferInstanceAs (Decidable (_ ∧ _))

/-- The device of `exampleOpenedDevice` after `close()`. -/
def exampleClosedDevice (slotRequest : Nat) : PcieDevice :=
  ((exampleOpenedDevice slotRequest).close (exampleKernel slotRequest) ()).device

/-- The exception `PcieDeviceException("Device closed", EX_DEVICE_CLOSED)`. -/
def deviceClosed : DeviceException :=
  DeviceException.PcieDeviceException "Device closed" PcieDeviceExceptionId.EX_DEVICE_CLOSED

/-- The fields of `SequenceInfo` (`RegisterInfoMap::RegisterInfo`, declared in a header
that is not among the sources) that `AddressBasedMuxedDataAccessor.h` reads. -/
structure SequenceInfo where
  nElements : Nat
  nBytes : Nat
  address : Nat
  bar : Nat
  width : Nat
  nFractionalBits : Int
  signedFlag : Bool
  deriving DecidableEq, Repr

/-- The exceptions of the constructor of `MixedTypeMuxedDataAccessor` from the check for
sequences on, and the division by zero in the computation of `_nBlocks`, which the
language leaves undefined. -/
inductive MuxedAccessorFailure where
  | EMPTY_AREA (what : String)
  | divisionByZero
  deriving DecidableEq, Repr

/-- The loop `while(indexTemp < _converters.size())` of the constructor over the
sequence infos from `indexTemp` on, with the values of `wordSize` (a `size_t`) and of
`_sizeOneBlock` (a `uint32_t`) before the round; `_converters` has one entry for every
entry of `_sequenceInfos`. -/
def MixedTypeMuxedDataAccessor.sizeOneBlockLoop : List SequenceInfo → Nat → Nat → Nat
  | [], _, sizeOneBlock => sizeOneBlock
  | info :: rest, wordSize, sizeOneBlock =>
    -- wordSize += _sequenceInfos[indexTemp].nBytes
    let sizeOneBlock1 := if wordSize + info.nBytes > 4 then add32 sizeOneBlock 1 else sizeOneBlock
    let wordSize1 := if wordSize + info.nBytes > 4 then info.nBytes else wordSize + info.nBytes
    -- indexTemp++; if(indexTemp == _converters.size()) _sizeOneBlock++
    let sizeOneBlock2 := if rest.isEmpty then add32 sizeOneBlock1 1 else sizeOneBlock1
    MixedTypeMuxedDataAccessor.sizeOneBlockLoop rest wordSize1 sizeOneBlock2

/-- The value of `_sizeOneBlock` that the constructor computes: the size of one block in
32-bit words. -/
def MixedTypeMuxedDataAccessor.computeSizeOneBlock (sequenceInfos : List SequenceInfo) : Nat :=
  MixedTypeMuxedDataAccessor.sizeOneBlockLoop sequenceInfos 0 0

/-- What the constructor leaves in the members that the transfer functions use. -/
structure MixedTypeMuxedDataAccessor where
  areaInfo : SequenceInfo
  sequenceInfos : List SequenceInfo
  sizeOneBlock : Nat
  nBlocks : Nat
  /-- The size of `_ioBuffer`, in elements of type `int32_t`. -/
  ioBufferSize : Nat
  deriving DecidableEq, Repr

/-- Models the constructor of `MixedTypeMuxedDataAccessor` from the check for sequences
on (line 134), for the area info and the sequence infos that the lookup in the register
map has delivered. -/
def MixedTypeMuxedDataAccessor.new (dataRegionName : String) (areaInfo : SequenceInfo)
    (sequenceInfos : List SequenceInfo) : Except MuxedAccessorFailure MixedTypeMuxedDataAccessor :=
  -- check if no sequences were found
  if sequenceInfos.isEmpty then
    Except.error (MuxedAccessorFailure.EMPTY_AREA
      ("No sequences found for name \"" ++ dataRegionName ++ "\"."))
  else
    -- compute size of one block in bytes (one sample for all channels)
    let sizeOneBlock := MixedTypeMuxedDataAccessor.computeSizeOneBlock sequenceInfos
    -- compute number of blocks (number of samples for each channel)
    if sizeOneBlock = 0 then Except.error MuxedAccessorFailure.divisionByZero
    else
      Except.ok
        { areaInfo := areaInfo
          sequenceInfos := sequenceInfos
          sizeOneBlock := sizeOneBlock
          nBlocks := areaInfo.nBytes / 4 / sizeOneBlock
          ioBufferSize := areaInfo.nBytes }

/-- One access to `_ioBuffer` through `standOfMyioBuffer`: the sequence and the block
it serves, the offset of the pointer from the start of the buffer in bytes, and the
number of bytes accessed. -/
structure BufferAccess where
  sequenceIndex : Nat
  blockIndex : Nat
  offset : Nat
  nBytes : Nat
  deriving DecidableEq, Repr

/-- The loop over `sequenceIndex` in `fillSequences` and `fillIO_Buffer` for one block,
from `sequenceIndex` on with the pointer at `offset`: the accesses made, in order, and
the offset of the pointer afterwards.  The `switch` has the cases 1, 2 and 4 only; for
another `nBytes` nothing is accessed and the pointer stays. -/
def MixedTypeMuxedDataAccessor.traverseBlock (blockIndex : Nat) :
    List SequenceInfo → Nat → Nat → List BufferAccess × Nat
  | [], _, offset => ([], offset)
  | info :: rest, sequenceIndex, offset =>
    if info.nBytes = 1 ∨ info.nBytes = 2 ∨ info.nBytes = 4 then
      (⟨sequenceIndex, blockIndex, offset, info.nBytes⟩ ::
          (MixedTypeMuxedDataAccessor.traverseBlock blockIndex rest (sequenceIndex + 1)
            (offset + info.nBytes)).1,
        (MixedTypeMuxedDataAccessor.traverseBlock blockIndex rest (sequenceIndex + 1)
          (offset + info.nBytes)).2)
    else MixedTypeMuxedDataAccessor.traverseBlock blockIndex rest (sequenceIndex + 1) offset

/-- The loop over `blockIndex` in `fillSequences` and `fillIO_Buffer` with `count` blocks
left, from `blockIndex` on with the pointer at `offset`. -/
def MixedTypeMuxedDataAccessor.traverse (sequenceInfos : List SequenceInfo) :
    Nat → Nat → Nat → List BufferAccess × Nat
  | 0, _, offset => ([], offset)
  | count + 1, blockIndex, offset =>
    ((MixedTypeMuxedDataAccessor.traverseBlock blockIndex sequenceInfos 0 offset).1 ++
        (MixedTypeMuxedDataAccessor.traverse sequenceInfos count (blockIndex + 1)
          (MixedTypeMuxedDataAccessor.traverseBlock blockIndex sequenceInfos 0 offset).2).1,
      (MixedTypeMuxedDataAccessor.traverse sequenceInfos count (blockIndex + 1)
        (MixedTypeMuxedDataAccessor.traverseBlock blockIndex sequenceInfos 0 offset).2).2)

/-- Models `MixedTypeMuxedDataAccessor::fillSequences()`: the assignments to
`_sequences[sequenceIndex][blockIndex]` with the access that delivers the raw value, in
order, and the offset of `standOfMyioBuffer` at the end.  `rawAt offset nBytes` is the
value read through the pointer, `toCooked` the conversion of the converter of a
sequence (`FixedPointConverter` is not among the sources). -/
def MixedTypeMuxedDataAccessor.fillSequences {UserType : Type}
    (acc : MixedTypeMuxedDataAccessor) (rawAt : Nat → Nat → Nat)
    (toCooked : Nat → Nat → UserType) : List (BufferAccess × UserType) × Nat :=
  (((MixedTypeMuxedDataAccessor.traverse acc.sequenceInfos acc.nBlocks 0 0).1).map
      (fun a => (a, toCooked a.sequenceIndex (rawAt a.offset a.nBytes))),
    (MixedTypeMuxedDataAccessor.traverse acc.sequenceInfos acc.nBlocks 0 0).2)

/-- Models `MixedTypeMuxedDataAccessor::fillIO_Buffer()`: the writes through
`standOfMyioBuffer` with the raw value written, in order, and the offset of the pointer
at the end.  `sequences` is `_sequences`, `toRaw` the conversion of the converter of a
sequence. -/
def MixedTypeMuxedDataAccessor.fillIO_Buffer {UserType : Type}
    (acc : MixedTypeMuxedDataAccessor) (sequences : Nat → Nat → UserType)
    (toRaw : Nat → UserType → Nat) : List (BufferAccess × Nat) × Nat :=
  (((MixedTypeMuxedDataAccessor.traverse acc.sequenceInfos acc.nBlocks 0 0).1).map
      (fun a => (a, toRaw a.sequenceIndex (sequences a.sequenceIndex a.blockIndex))),
    (MixedTypeMuxedDataAccessor.traverse acc.sequenceInfos acc.nBlocks 0 0).2)

/-- The number of 32-bit words that the loop of the constructor counts for the sequence
infos, started with `wordSize`, without the wrap of the `uint32_t` counter. -/
def wordCount : List SequenceInfo → Nat → Nat
  | [], _ => 0
  | info :: rest, wordSize =>
    (if wordSize + info.nBytes > 4 then 1 else 0) + (if rest.isEmpty then 1 else 0) +
      wordCount rest (if wordSize + info.nBytes > 4 then info.nBytes else wordSize + info.nBytes)

/-- The sum of the `nBytes` of the sequence infos: the bytes of one block. -/
def sumBytes (sequenceInfos : List SequenceInfo) : Nat :=
  (sequenceInfos.map (fun info => info.nBytes)).sum

/-- A sequence info of `nBytes` bytes for the examples. -/
def exampleSequence (nBytes : Nat) : SequenceInfo :=
  { nElements := 1, nBytes := nBytes, address := 0, bar := 0, width := 8 * nBytes,
    nFractionalBits := 0, signedFlag := true }

/-- The fields of `Sdm` that `BackendFactory.cc` and the tests read; the structure is
declared in `Utilities.h`, which is not among the sources. -/
structure Sdm where
  Host : List Char
  Interface : List Char
  Instance : List Char
  Protocol : List Char
  Parameters : List (List Char)
  deriving DecidableEq, Repr

/-- The exception of `Utilities::parseSdm`, which `createBackendInternal` catches as
`SdmUriParseException` and the tests expect as `ChimeraTK::logic_error`. -/
inductive SdmUriParseException where
  | logic_error (what : String)
  deriving DecidableEq, Repr

/-- The functions of `Utilities` that `createBackendInternal` calls; `Utilities.cc` is
not among the sources. -/
structure SdmParsers where
  /-- Stands for `Utilities::parseSdm`. -/
  parseSdm : List Char → Except SdmUriParseException Sdm
  /-- Stands for `Utilities::parseDeviceString`, which does not throw. -/
  parseDeviceString : List Char → Sdm

/-- The exceptions of `BackendFactory`, by their identifier. -/
inductive BackendFactoryException where
  | UNKNOWN_ALIAS (what : String)
  | UNREGISTERED_DEVICE (what : String)
  deriving DecidableEq, Repr

/-- The order of `std::string`: lexicographic by character code. -/
def stringLess : List Char → List Char → Bool
  | [], [] => false
  | [], _ :: _ => true
  | _ :: _, [] => false
  | a :: as, b :: bs => a.toNat < b.toNat || (a = b && stringLess as bs)

/-- The order of `std::pair<std::string, std::string>`, the key of `creatorMap`. -/
def keyLess (a b : List Char × List Char) : Bool :=
  stringLess a.1 b.1 || (!stringLess b.1 a.1 && stringLess a.2 b.2)

/-- Models `BackendFactory`: `creatorMap` (declared in `BackendFactory.h`, which is not
among the sources) as the list of its entries in iteration order, and `_dMapFile`.  A
creator function takes `host`, `instance`, `parameters` and `mapFileName` and returns a
backend of type `B`. -/
structure BackendFactory (B : Type) where
  creatorMap : List ((List Char × List Char) ×
    (List Char → List Char → List (List Char) → List Char → B))
  dMapFile : List Char

/-- The assignment `creatorMap[key] = creatorFunction` on the entries of a map: the
value of an entry with an equivalent key is replaced, else the entry is inserted
before the first entry with a greater key. -/
def creatorMapAssign {B : Type} (key : List Char × List Char)
    (creatorFunction : List Char → List Char → List (List Char) → List Char → B) :
    List ((List Char × List Char) × (List Char → List Char → List (List Char) → List Char → B)) →
    List ((List Char × List Char) × (List Char → List Char → List (List Char) → List Char → B))
  | [] => [(key, creatorFunction)]
  | entry :: rest =>
    if keyLess key entry.1 then (key, creatorFunction) :: entry :: rest
    else if keyLess entry.1 key then entry :: creatorMapAssign key creatorFunction rest
    else (entry.1, creatorFunction) :: rest

/-- Models `BackendFactory::registerBackendType(interface, protocol, creatorFunction)`. -/
def BackendFactory.registerBackendType {B : Type} (factory : BackendFactory B)
    (interface protocol : List Char)
    (creatorFunction : List Char → List Char → List (List Char) → List Char → B) :
    BackendFactory B :=
  { factory with
    creatorMap := creatorMapAssign (interface, protocol) creatorFunction factory.creatorMap }

/-- Models the constructor `BackendFactory::BackendFactory()`; the arguments are the
functions `createInstance` of the four backends. -/
def BackendFactory.new {B : Type}
    (pcie dummy rebot logicalNameMapping :
      List Char → List Char → List (List Char) → List Char → B) : BackendFactory B :=
  ((((({ creatorMap := [], dMapFile := [] } : BackendFactory B).registerBackendType
    "pci".toList "".toList pcie).registerBackendType
    "pci".toList "pcie".toList pcie).registerBackendType
    "dummy".toList "".toList dummy).registerBackendType
    "rebot".toList "".toList rebot).registerBackendType
    "logicalNameMap".toList "".toList logicalNameMapping

/-- The loop over `creatorMap` in `createBackendInternal`: the creator of the first
entry whose key is the pair of `interface` and `protocol`. -/
def findCreator {B : Type} (interface protocol : List Char) :
    List ((List Char × List Char) × (List Char → List Char → List (List Char) → List Char → B)) →
    Option (List Char → List Char → List (List Char) → List Char → B)
  | [] => none
  | entry :: rest =>
    if entry.1.1 = interface ∧ entry.1.2 = protocol then some entry.2
    else findCreator interface protocol rest

/-- The `Sdm` that `createBackendInternal` works with: the result of `parseSdm`, or of
`parseDeviceString` when `parseSdm` throws. -/
def parsedSdm (U : SdmParsers) (uri : List Char) : Sdm :=
  match U.parseSdm uri with
  | Except.ok sdm => sdm
  | Except.error _ => U.parseDeviceString uri

/-- Models `BackendFactory::createBackendInternal(deviceInfo)`: the backend that the
creator returns. -/
def BackendFactory.createBackendInternal {B : Type} (U : SdmParsers)
    (factory : BackendFactory B) (deviceInfo : DeviceInfo) :
    Except BackendFactoryException B :=
  match findCreator (parsedSdm U deviceInfo.uri).Interface (parsedSdm U deviceInfo.uri).Protocol
      factory.creatorMap with
  | some creatorFunction =>
    Except.ok (creatorFunction (parsedSdm U deviceInfo.uri).Host
      (parsedSdm U deviceInfo.uri).Instance (parsedSdm U deviceInfo.uri).Parameters
      deviceInfo.mapFileName)
  | none => Except.error (BackendFactoryException.UNREGISTERED_DEVICE "Unregistered device.")

/-- A registration: the pair of interface and protocol with the creator function. -/
abbrev Registration (B : Type) :=
  (List Char × List Char) × (List Char → List Char → List (List Char) → List Char → B)

/-- The factory after a sequence of calls of `registerBackendType`. -/
def BackendFactory.registerAll {B : Type} (factory : BackendFactory B) :
    List (Registration B) → BackendFactory B
  | [] => factory
  | r :: rest => (factory.registerBackendType r.1.1 r.1.2 r.2).registerAll rest

/-- The creator registered last under a pair in a sequence of registrations. -/
def lastRegistered {B : Type} (key : List Char × List Char) :
    List (Registration B) → Option (List Char → List Char → List (List Char) → List Char → B)
  | [] => none
  | r :: rest =>
    match lastRegistered key rest with
    | some creatorFunction => some creatorFunction
    | none => if r.1 = key then some r.2 else none

/-- Modelled from the spec: the signature `sdm://` of a device URI, for
`Utilities::parseSdm`, which is not among the sources. -/
def sdmSignature : List Char := ['s', 'd', 'm', ':', '/', '/']

/-- Modelled from the spec: the characters that separate the fields of a device URI
after the host, for `Utilities::parseSdm`, which is not among the sources: `:` before
the instance, `;` before the protocol, `=` before the parameters. -/
def isSdmDelimiter (c : Char) : Bool := c = ':' || c = ';' || c = '='

/-- Modelled from the spec: the field that follows the delimiter `d` in the part of a
device URI after the host, for `Utilities::parseSdm`, which is not among the sources:
the text from the delimiter to the next delimiter or the end; `none` without the
delimiter. -/
def fieldAfter (d : Char) (subUri : List Char) : Option (List Char) :=
  if d ∈ subUri then
    some (((subUri.dropWhile (fun c => c != d)).drop 1).takeWhile (fun c => !isSdmDelimiter c))
  else none

/-- Modelled from the spec: `Utilities::parseSdm` (`Utilities.cc` is not among the
sources).  The spec gives the format `sdm://<host>/<interface>:<instance>;<protocol>`,
with parameters as `sdm://<host>/<interface>=<p1>,<p2>,...`, parsed into host,
interface, instance, protocol and parameters, and `logic_error` for a parsing error.
The errors are those of the tests: the signature is missing, a delimiter occurs more
than once after the signature, or no `/` ends the host. -/
def Utilities.parseSdm (sdmString : List Char) : Except SdmUriParseException Sdm :=
  if sdmString.take 6 ≠ sdmSignature then
    Except.error (SdmUriParseException.logic_error "Invalid sdm.")
  else if (sdmString.drop 6).count ':' > 1 ∨ (sdmString.drop 6).count ';' > 1 ∨
      (sdmString.drop 6).count '=' > 1 then
    Except.error (SdmUriParseException.logic_error "Invalid sdm.")
  else if '/' ∉ sdmString.drop 6 then
    Except.error (SdmUriParseException.logic_error "Invalid sdm.")
  else
    Except.ok
      { Host := (sdmString.drop 6).takeWhile (fun c => c != '/')
        Interface := (((sdmString.drop 6).dropWhile (fun c => c != '/')).drop 1).takeWhile
          (fun c => !isSdmDelimiter c)
        Instance :=
          (fieldAfter ':' (((sdmString.drop 6).dropWhile (fun c => c != '/')).drop 1)).getD []
        Protocol :=
          (fieldAfter ';' (((sdmString.drop 6).dropWhile (fun c => c != '/')).drop 1)).getD []
        Parameters :=
          match fieldAfter '=' (((sdmString.drop 6).dropWhile (fun c => c != '/')).drop 1) with
          | none => []
          | some text => text.splitOn ',' }

/-- Modelled from the spec: `Utilities::parseDeviceString` (`Utilities.cc` is not among
the sources).  The spec names the legacy strings `/dev/<name>` for the interface `pci`
and `*.map`, `*.mapp` for the interface `dummy`, in this order; every other string is
given the empty interface.  The spec fixes the interface only: the instance is taken to
be the name after `/dev/`, or the string itself for a map file, and the other fields are
left empty. -/
def Utilities.parseDeviceString (deviceString : List Char) : Sdm :=
  if deviceString.take 5 = "/dev/".toList ∧ 5 < deviceString.length then
    { Host := [], Interface := "pci".toList, Instance := deviceString.drop 5, Protocol := [],
      Parameters := [] }
  else if ".map".toList.isSuffixOf deviceString ∨ ".mapp".toList.isSuffixOf deviceString then
    { Host := [], Interface := "dummy".toList, Instance := deviceString, Protocol := [],
      Parameters := [] }
  else { Host := [], Interface := [], Instance := [], Protocol := [], Parameters := [] }

/-- The functions of `Utilities` as modelled from the spec. -/
def Utilities.parsers : SdmParsers :=
  { parseSdm := Utilities.parseSdm, parseDeviceString := Utilities.parseDeviceString }

/-- A creator for the examples: the backend is the record of the call, the name of the
backend type with the four arguments. -/
def exampleCreator (name : String) (host instanceName : List Char)
    (parameters : List (List Char)) (mapFileName : List Char) :
    String × String × String × List String × String :=
  (name, String.mk host, String.mk instanceName, parameters.map String.mk, String.mk mapFileName)

/-- The factory of the examples after its constructor. -/
def exampleFactory : BackendFactory (String × String × String × List String × String) :=
  BackendFactory.new (exampleCreator "PcieBackend") (exampleCreator "DummyBackend")
    (exampleCreator "RebotBackend") (exampleCreator "LogicalNameMappingBackend")

end mtca4u

namespace ChimeraTK

/-! Properties of the embedding. -/

theorem read_group {X : Type} (B : Behaviour X) (cfg : Config) (g : TransferGroup) (w : World X) :
    (g.read B cfg w).group = g.resetExceptionFlags := by
  unfold TransferGroup.read
  dsimp only
  repeat' split
  all_goals rfl

theorem write_group_readOnly {X : Type} (B : Behaviour X) (cfg : Config) (g : TransferGroup)
    (v : VersionNumber) (w : World X) : (g.write B cfg v w).group.readOnly = g.readOnly := by
  unfold TransferGroup.write
  dsimp only
  repeat' split
  all_goals rfl

theorem addAccessor_readOnly_mono {X : Type} (B : Behaviour X) (g : TransferGroup) (impl : ElemId)
    (w : World X) (h : g.readOnly = true) : (g.addAccessor B impl w).group.readOnly = true := by
  unfold TransferGroup.addAccessor
  split
  · exact h
  · split
    · exact h
    · simp [h]

theorem step_readOnly_mono {X : Type} (B : Behaviour X) (cfg : Config) (s : GroupState X)
    (op : Op X) (h : s.group.readOnly = true) : (s.step B cfg op).group.readOnly = true := by
  cases op with
  | addAccessor impl => exact addAccessor_readOnly_mono B s.group impl s.world h
  | read =>
    show (s.group.read B cfg s.world).group.readOnly = true
    rw [read_group]
    exact h
  | write v =>
    show (s.group.write B cfg v s.world).group.readOnly = true
    rw [write_group_readOnly]
    exact h
  | external f => exact h

theorem run_readOnly_mono {X : Type} (B : Behaviour X) (cfg : Config) (ops : List (Op X)) :
    ∀ s : GroupState X, s.group.readOnly = true → (s.run B cfg ops).group.readOnly = true := by
  induction ops with
  | nil => intro s h; exact h
  | cons op ops ih =>
    intro s h
    exact ih (s.step B cfg op) (step_readOnly_mono B cfg s op h)


theorem system_update_self {X : Type} (s : System X) (gid : Nat) :
    ({ groups := fun i => if i = gid then s.groups gid else s.groups i, world := s.world } :
      System X) = s := by
  cases s with
  | mk groups world =>
    congr
    funext i
    by_cases hi : i = gid
    · simp [hi]
    · simp [hi]

theorem checkBackends_none_iff {X : Type} (B : Behaviour X) (w : World X) (bs : List BackendId) :
    (checkBackends B w bs).1 = none ↔ ∀ b ∈ bs, B.backendIsOpen b w = true := by
  induction bs with
  | nil => simp [checkBackends]
  | cons b bs ih =>
    unfold checkBackends
    by_cases hb : B.backendIsOpen b w = true
    · simp [hb, ih]
    · simp [hb]

theorem checkBackends_events {X : Type} (B : Behaviour X) (w : World X) (bs : List BackendId)
    (h : (checkBackends B w bs).1 = none) :
    (checkBackends B w bs).2 = bs.map (fun b => Event.backendIsOpen b true) := by
  induction bs with
  | nil => simp [checkBackends]
  | cons b bs ih =>
    unfold checkBackends at h ⊢
    by_cases hb : B.backendIsOpen b w = true
    · simp only [hb, if_true] at h ⊢
      simp [ih h]
    · simp [hb] at h

theorem checkBackends_isQuery {X : Type} (B : Behaviour X) (w : World X) (bs : List BackendId) :
    ∀ ev ∈ (checkBackends B w bs).2, ev.isQuery = true := by
  induction bs with
  | nil => simp [checkBackends]
  | cons b bs ih =>
    unfold checkBackends
    by_cases hb : B.backendIsOpen b w = true
    · simp only [hb, if_true]
      intro ev hev
      rcases List.mem_cons.mp hev with h | h
      · rw [h]; rfl
      · exact ih ev h
    · simp [hb, Event.isQuery]

theorem checkBackends_some {X : Type} (B : Behaviour X) (w : World X) (bs : List BackendId)
    (ex : Exc) (h : (checkBackends B w bs).1 = some ex) : ∃ what, ex = Exc.logic_error what := by
  induction bs with
  | nil => simp [checkBackends] at h
  | cons b bs ih =>
    unfold checkBackends at h
    by_cases hb : B.backendIsOpen b w = true
    · simp only [hb, if_true] at h
      exact ih h
    · simp only [hb] at h
      exact ⟨_, (Option.some.inj h).symm⟩

theorem checkReadable_none_iff {X : Type} (B : Behaviour X) (w : World X) (es : List ElemId) :
    (checkReadable B w es).1 = none ↔ ∀ e ∈ es, B.isReadable e w = true := by
  induction es with
  | nil => simp [checkReadable]
  | cons e es ih =>
    unfold checkReadable
    by_cases he : B.isReadable e w = true
    · simp [he, ih]
    · simp [he]

theorem checkReadable_events {X : Type} (B : Behaviour X) (w : World X) (es : List ElemId)
    (h : (checkReadable B w es).1 = none) :
    (checkReadable B w es).2 = es.map (fun e => Event.isReadable e true) := by
  induction es with
  | nil => simp [checkReadable]
  | cons e es ih =>
    unfold checkReadable at h ⊢
    by_cases he : B.isReadable e w = true
    · simp only [he, if_true] at h ⊢
      simp [ih h]
    · simp [he] at h

theorem checkReadable_isQuery {X : Type} (B : Behaviour X) (w : World X) (es : List ElemId) :
    ∀ ev ∈ (checkReadable B w es).2, ev.isQuery = true := by
  induction es with
  | nil => simp [checkReadable]
  | cons e es ih =>
    unfold checkReadable
    by_cases he : B.isReadable e w = true
    · simp only [he, if_true]
      intro ev hev
      rcases List.mem_cons.mp hev with h | h
      · rw [h]; rfl
      · exact ih ev h
    · simp [he, Event.isQuery]

theorem checkReadable_some {X : Type} (B : Behaviour X) (w : World X) (es : List ElemId)
    (ex : Exc) (h : (checkReadable B w es).1 = some ex) : ∃ what, ex = Exc.logic_error what := by
  induction es with
  | nil => simp [checkReadable] at h
  | cons e es ih =>
    unfold checkReadable at h
    by_cases he : B.isReadable e w = true
    · simp only [he, if_true] at h
      exact ih h
    · simp only [he] at h
      exact ⟨_, (Option.some.inj h).symm⟩

theorem preWriteAll_events {X : Type} (B : Behaviour X) (cfg : Config) (v : VersionNumber)
    (es : List ElemId) :
    ∀ w : World X, (preWriteAll B cfg v es w).assertFailed = false →
      (preWriteAll B cfg v es w).events = es.map (fun e => Event.preWrite e v) := by
  induction es with
  | nil => intro w _; rfl
  | cons e es ih =>
    intro w h
    unfold preWriteAll at h ⊢
    split at h
    · cases h
    · rename_i hc
      rw [if_neg hc]
      simp only [List.map_cons]
      rw [ih _ h]


theorem transferLoop_trace {X : Type} (transfer : ElemId → World X → Option Exc × World X)
    (call : ElemId → Option Exc → Event) (es : List ElemId) :
    ∀ (w : World X) (first : Option Exc),
      (transferLoop transfer call es w first).escaped = none →
      ∃ tp : List (ElemId × Option Exc), tp.map Prod.fst = es ∧
        (transferLoop transfer call es w first).events = tp.map (fun p => call p.1 p.2) ∧
        (transferLoop transfer call es w first).firstDetectedRuntimeError =
          (match first with
            | some ex => some ex
            | none => firstSome (tp.map Prod.snd)) := by
  induction es with
  | nil =>
    intro w first _
    refine ⟨[], rfl, rfl, ?_⟩
    cases first <;> rfl
  | cons e es ih =>
    intro w first h
    unfold transferLoop at h ⊢
    split at h
    · cases h
    · rename_i hnone
      simp only [hnone] at h ⊢
      obtain ⟨tp, htp, hev, hfirst⟩ := ih _ _ h
      refine ⟨(e, (handleTransferException e (transfer e w)).2.activeException e) :: tp, ?_, ?_, ?_⟩
      · simp only [List.map_cons, htp]
      · simp only [List.map_cons]
        rw [hev]
      · rw [hfirst]
        cases first with
        | some ex => simp
        | none =>
          cases hl : (handleTransferException e (transfer e w)).2.activeException e with
          | none => simp [firstSome]
          | some ex => simp [firstSome]


theorem postWriteAll_trace {X : Type} (B : Behaviour X) (v : VersionNumber) (es : List ElemId) :
    ∀ (w : World X), (postWriteAll B v es w).escaped = none →
      ∃ th : List (ElemId × Option Exc), th.map Prod.fst = es ∧
        (postWriteAll B v es w).events = th.map (fun p => Event.postWrite p.1 v p.2) := by
  induction es with
  | nil =>
    intro w _
    exact ⟨[], rfl, rfl⟩
  | cons e es ih =>
    intro w h
    unfold postWriteAll at h ⊢
    split at h
    · rename_i hth
      simp only [hth] at h ⊢
      obtain ⟨th, h1, h2⟩ := ih _ h
      refine ⟨(e, none) :: th, ?_, ?_⟩
      · simp only [List.map_cons, h1]
      · rw [h2]; rfl
    · rename_i m hth
      simp only [hth] at h ⊢
      obtain ⟨th, h1, h2⟩ := ih _ h
      refine ⟨(e, some (Exc.runtime_error m)) :: th, ?_, ?_⟩
      · simp only [List.map_cons, h1]
      · rw [h2]; rfl
    · cases h


theorem resetExceptionFlags_leaves (g : TransferGroup) : g.resetExceptionFlags.leaves = g.leaves := by
  unfold TransferGroup.resetExceptionFlags TransferGroup.leaves
  simp [List.map_map, Function.comp]

theorem write_trace {X : Type} (B : Behaviour X) (cfg : Config) (g : TransferGroup)
    (v : VersionNumber) (w : World X) (h : (g.write B cfg v w).outcome.completed = true) :
    ∃ tp hp : List (ElemId × Option Exc),
      tp.map Prod.fst = g.leaves ∧ hp.map Prod.fst = g.highLevelElements ∧
      (g.write B cfg v w).events =
        g.exceptionBackends.map (fun b => Event.backendIsOpen b true) ++
        g.highLevelElements.map (fun e => Event.isReadable e true) ++
        g.highLevelElements.map (fun e => Event.preWrite e v) ++
        tp.map (fun p => Event.writeTransfer p.1 v p.2) ++
        hp.map (fun p => Event.postWrite p.1 v p.2) ∧
      (g.write B cfg v w).outcome =
        (match firstSome (tp.map Prod.snd) with
          | some ex => Outcome.rethrown ex
          | none => Outcome.returned) := by
  unfold TransferGroup.write at h ⊢
  dsimp only at h ⊢
  split at h
  · simp [Outcome.completed] at h
  rename_i hro
  split at h
  · simp [Outcome.completed] at h
  rename_i hc1
  split at h
  · simp [Outcome.completed] at h
  rename_i hc2
  split at h
  · simp [Outcome.completed] at h
  rename_i hp1
  split at h
  · simp [Outcome.completed] at h
  rename_i ht
  split at h
  · simp [Outcome.completed] at h
  rename_i hq
  simp only [Bool.not_eq_true] at hp1
  obtain ⟨tp, htp1, htp2, htp3⟩ := transferLoop_trace _ _ _ _ _ ht
  obtain ⟨hp, hhp1, hhp2⟩ := postWriteAll_trace _ _ _ _ hq
  simp only [] at htp3
  rw [resetExceptionFlags_leaves] at htp1
  refine ⟨tp, hp, htp1, hhp1, ?_, ?_⟩
  · simp only [hro, hc1, hc2, hp1, ht, hq, Bool.false_eq_true, if_false]
    rw [checkBackends_events _ _ _ hc1, checkReadable_events _ _ _ hc2,
      preWriteAll_events _ _ _ _ _ hp1, hhp2, htp2, htp3]
    cases firstSome (tp.map Prod.snd) <;> rfl
  · simp only [hro, hc1, hc2, hp1, ht, hq, Bool.false_eq_true, if_false]
    rw [htp3]
    cases firstSome (tp.map Prod.snd) <;> rfl

theorem read_guardFailed_iff {X : Type} (B : Behaviour X) (cfg : Config) (g : TransferGroup)
    (w : World X) :
    (∃ ex, (g.read B cfg w).outcome = Outcome.guardFailed ex) ↔ ¬ ReadGuardsPass B g w := by
  unfold ReadGuardsPass
  rw [← checkBackends_none_iff, ← checkReadable_none_iff]
  unfold TransferGroup.read
  dsimp only
  have e1 : g.resetExceptionFlags.exceptionBackends = g.exceptionBackends := rfl
  have e2 : g.resetExceptionFlags.highLevelElements = g.highLevelElements := rfl
  rw [e1, e2]
  split
  · rename_i ex hc1
    simp [hc1]
  rename_i hc1
  split
  · rename_i ex hc2
    simp [hc1, hc2]
  rename_i hc2
  refine iff_of_false ?_ ?_
  · rintro ⟨ex, hex⟩
    revert hex
    repeat' split
    all_goals simp
  · simp [hc1, hc2]

theorem write_guardFailed_iff {X : Type} (B : Behaviour X) (cfg : Config) (g : TransferGroup)
    (v : VersionNumber) (w : World X) :
    (∃ ex, (g.write B cfg v w).outcome = Outcome.guardFailed ex) ↔ ¬ WriteGuardsPass B g w := by
  unfold WriteGuardsPass
  rw [← checkBackends_none_iff, ← checkReadable_none_iff]
  unfold TransferGroup.write TransferGroup.isReadOnly
  dsimp only
  split
  · rename_i hro
    simp [hro]
  rename_i hro
  split
  · rename_i ex hc1
    simp [hc1]
  rename_i hc1
  split
  · rename_i ex hc2
    simp [hc1, hc2]
  rename_i hc2
  simp only [Bool.not_eq_true] at hro
  refine iff_of_false ?_ ?_
  · rintro ⟨ex, hex⟩
    revert hex
    repeat' split
    all_goals simp
  · simp [hc1, hc2, hro]

theorem completed_of_not_guardFailed (o : Outcome) (h1 : ∀ ex, o ≠ Outcome.guardFailed ex)
    (h2 : o.aborted = false) : o.completed = true := by
  cases o with
  | returned => rfl
  | guardFailed ex => exact absurd rfl (h1 ex)
  | assertFailed => cases h2
  | transferEscaped ex => cases h2
  | postEscaped ex => cases h2
  | terminated => cases h2
  | rethrown ex => rfl

theorem read_completed {X : Type} (B : Behaviour X) (cfg : Config) (g : TransferGroup)
    (w : World X) (hguard : ReadGuardsPass B g w)
    (hrun : (g.read B cfg w).outcome.aborted = false) :
    (g.read B cfg w).outcome.completed = true := by
  apply completed_of_not_guardFailed _ _ hrun
  intro ex hex
  exact ((read_guardFailed_iff B cfg g w).mp ⟨ex, hex⟩) hguard

theorem write_completed {X : Type} (B : Behaviour X) (cfg : Config) (g : TransferGroup)
    (v : VersionNumber) (w : World X) (hguard : WriteGuardsPass B g w)
    (hrun : (g.write B cfg v w).outcome.aborted = false) :
    (g.write B cfg v w).outcome.completed = true := by
  apply completed_of_not_guardFailed _ _ hrun
  intro ex hex
  exact ((write_guardFailed_iff B cfg g v w).mp ⟨ex, hex⟩) hguard


theorem filterMap_map_none {α β γ : Type} (f : β → Option γ) (k : α → β) (l : List α)
    (h : ∀ x, f (k x) = none) : (l.map k).filterMap f = [] := by
  induction l with
  | nil => rfl
  | cons a l ih => simp [List.filterMap_cons, h a, ih]

theorem filterMap_map_some {α β γ : Type} (f : β → Option γ) (k : α → β) (r : α → γ) (l : List α)
    (h : ∀ x, f (k x) = some (r x)) : (l.map k).filterMap f = l.map r := by
  induction l with
  | nil => rfl
  | cons a l ih => simp [List.filterMap_cons, h a, ih]

theorem postReadEvents_filterMap_none {γ : Type} (f : Event → Option γ) (u : Bool)
    (h1 : ∀ e, f (Event.getHardwareAccessingElements e) = none)
    (h2 : ∀ e t, f (Event.postRead e u t) = none) (l : List (ElemId × Option Exc)) :
    (postReadEvents u l).filterMap f = [] := by
  induction l with
  | nil => rfl
  | cons p l ih => simp [postReadEvents, List.filterMap_cons, h1, h2, ih]

theorem postReadEvents_filterMap_some {γ : Type} (f : Event → Option γ) (u : Bool)
    (r : ElemId × Option Exc → γ)
    (h1 : ∀ e, f (Event.getHardwareAccessingElements e) = none)
    (h2 : ∀ p : ElemId × Option Exc, f (Event.postRead p.1 u p.2) = some (r p))
    (l : List (ElemId × Option Exc)) :
    (postReadEvents u l).filterMap f = l.map r := by
  induction l with
  | nil => rfl
  | cons p l ih => simp [postReadEvents, List.filterMap_cons, h1, h2, ih]


theorem postReadEvents_preReadCall (u : Bool) (l : List (ElemId × Option Exc)) :
    (postReadEvents u l).filterMap Event.preReadCall = [] :=
  postReadEvents_filterMap_none Event.preReadCall u (fun _ => rfl) (fun _ _ => rfl) l

theorem postReadEvents_readTransferCall (u : Bool) (l : List (ElemId × Option Exc)) :
    (postReadEvents u l).filterMap Event.readTransferCall = [] :=
  postReadEvents_filterMap_none Event.readTransferCall u (fun _ => rfl) (fun _ _ => rfl) l

theorem postReadEvents_latched (u : Bool) (l : List (ElemId × Option Exc)) :
    (postReadEvents u l).filterMap Event.latched = [] :=
  postReadEvents_filterMap_none Event.latched u (fun _ => rfl) (fun _ _ => rfl) l

theorem postReadEvents_postReadCall (u : Bool) (l : List (ElemId × Option Exc)) :
    (postReadEvents u l).filterMap Event.postReadCall = l.map (fun p => (p.1, u)) :=
  postReadEvents_filterMap_some Event.postReadCall u (fun p => (p.1, u)) (fun _ => rfl)
    (fun _ => rfl) l

theorem postReadEvents_postReadThrown (u : Bool) (l : List (ElemId × Option Exc)) :
    (postReadEvents u l).filterMap Event.postReadThrown = l.map Prod.snd :=
  postReadEvents_filterMap_some Event.postReadThrown u Prod.snd (fun _ => rfl) (fun _ => rfl) l

theorem filterMap_fun_none {α γ : Type} (l : List α) :
    l.filterMap (fun _ => (none : Option γ)) = [] := by
  induction l with
  | nil => rfl
  | cons a l ih => simp [List.filterMap_cons, ih]

theorem filterMap_fun_some_self {α : Type} (l : List α) :
    l.filterMap (fun x => some x) = l := by
  induction l with
  | nil => rfl
  | cons a l ih => simp [List.filterMap_cons, ih]

theorem filterMap_fun_some {α γ : Type} (r : α → γ) (l : List α) :
    l.filterMap (fun x => some (r x)) = l.map r := by
  induction l with
  | nil => rfl
  | cons a l ih => simp [List.filterMap_cons, ih]

theorem write_filters {X : Type} (B : Behaviour X) (cfg : Config) (g : TransferGroup)
    (v : VersionNumber) (w : World X) (h : (g.write B cfg v w).outcome.completed = true) :
    ∃ tp hp : List (ElemId × Option Exc),
      tp.map Prod.fst = g.leaves ∧ hp.map Prod.fst = g.highLevelElements ∧
      (g.write B cfg v w).events.filterMap Event.preWriteCall =
        g.highLevelElements.map (fun e => (e, v)) ∧
      (g.write B cfg v w).events.filterMap Event.writeTransferCall =
        g.leaves.map (fun e => (e, v)) ∧
      (g.write B cfg v w).events.filterMap Event.latched = tp.map Prod.snd ∧
      (g.write B cfg v w).events.filterMap Event.postWriteCall =
        g.highLevelElements.map (fun e => (e, v)) ∧
      (g.write B cfg v w).outcome =
        (match firstSome (tp.map Prod.snd) with
          | some ex => Outcome.rethrown ex
          | none => Outcome.returned) := by
  obtain ⟨tp, hp, h1, h2, hev, hout⟩ := write_trace B cfg g v w h
  refine ⟨tp, hp, h1, h2, ?_, ?_, ?_, ?_, hout⟩
  · rw [hev]
    simp only [List.filterMap_append, List.filterMap_map, Function.comp_def,
      Event.preReadCall, Event.readTransferCall, Event.latched, Event.postReadCall,
      Event.postReadThrown, Event.preWriteCall, Event.writeTransferCall, Event.postWriteCall,
      postReadEvents_preReadCall, postReadEvents_readTransferCall, postReadEvents_latched,
      postReadEvents_postReadCall, postReadEvents_postReadThrown, filterMap_fun_none,
      filterMap_fun_some, filterMap_fun_some_self, List.append_nil, List.nil_append, List.map_append, List.map_map,
      List.map_id_fun, id_eq, List.map_id_fun', List.map_id']
  · rw [hev]
    simp only [List.filterMap_append, List.filterMap_map, Function.comp_def,
      Event.preReadCall, Event.readTransferCall, Event.latched, Event.postReadCall,
      Event.postReadThrown, Event.preWriteCall, Event.writeTransferCall, Event.postWriteCall,
      postReadEvents_preReadCall, postReadEvents_readTransferCall, postReadEvents_latched,
      postReadEvents_postReadCall, postReadEvents_postReadThrown, filterMap_fun_none,
      filterMap_fun_some, filterMap_fun_some_self, List.append_nil, List.nil_append, List.map_append, List.map_map,
      List.map_id_fun, id_eq, List.map_id_fun', List.map_id']
    rw [← h1]
    simp only [List.map_map, Function.comp_def]
  · rw [hev]
    simp only [List.filterMap_append, List.filterMap_map, Function.comp_def,
      Event.preReadCall, Event.readTransferCall, Event.latched, Event.postReadCall,
      Event.postReadThrown, Event.preWriteCall, Event.writeTransferCall, Event.postWriteCall,
      postReadEvents_preReadCall, postReadEvents_readTransferCall, postReadEvents_latched,
      postReadEvents_postReadCall, postReadEvents_postReadThrown, filterMap_fun_none,
      filterMap_fun_some, filterMap_fun_some_self, List.append_nil, List.nil_append, List.map_append, List.map_map,
      List.map_id_fun, id_eq, List.map_id_fun', List.map_id']
  · rw [hev]
    simp only [List.filterMap_append, List.filterMap_map, Function.comp_def,
      Event.preReadCall, Event.readTransferCall, Event.latched, Event.postReadCall,
      Event.postReadThrown, Event.preWriteCall, Event.writeTransferCall, Event.postWriteCall,
      postReadEvents_preReadCall, postReadEvents_readTransferCall, postReadEvents_latched,
      postReadEvents_postReadCall, postReadEvents_postReadThrown, filterMap_fun_none,
      filterMap_fun_some, filterMap_fun_some_self, List.append_nil, List.nil_append, List.map_append, List.map_map,
      List.map_id_fun, id_eq, List.map_id_fun', List.map_id']
    rw [← h2]
    simp only [List.map_map, Function.comp_def]


theorem length_eq_of_map_fst {α β : Type} (l : List (α × β)) (m : List α)
    (h : l.map Prod.fst = m) : (l.map Prod.snd).length = m.length := by
  rw [← h]
  simp

theorem preReadAll_no_assert {X : Type} (B : Behaviour X) (cfg : Config)
    (hassert : cfg.assertsEnabled = true →
      ∀ e w1, (B.preReadAndHandleExceptions e w1).activeException e = none)
    (es : List ElemId) : ∀ w : World X, (preReadAll B cfg es w).assertFailed = false := by
  induction es with
  | nil => intro w; rfl
  | cons e es ih =>
    intro w
    unfold preReadAll
    by_cases hc : cfg.assertsEnabled = true
    · simp only [hc, hassert hc e w, Option.isSome_none, Bool.and_false, Bool.false_eq_true,
        if_false]
      exact ih _
    · simp only [hc, Bool.false_and, Bool.false_eq_true, if_false]
      exact ih _

theorem preWriteAll_no_assert {X : Type} (B : Behaviour X) (cfg : Config) (v : VersionNumber)
    (hassert : cfg.assertsEnabled = true →
      ∀ e w1, (B.preWriteAndHandleExceptions e v w1).activeException e = none)
    (es : List ElemId) : ∀ w : World X, (preWriteAll B cfg v es w).assertFailed = false := by
  induction es with
  | nil => intro w; rfl
  | cons e es ih =>
    intro w
    unfold preWriteAll
    by_cases hc : cfg.assertsEnabled = true
    · simp only [hc, hassert hc e w, Option.isSome_none, Bool.and_false, Bool.false_eq_true,
        if_false]
      exact ih _
    · simp only [hc, Bool.false_and, Bool.false_eq_true, if_false]
      exact ih _

theorem handleTransferException_runtime {X : Type} (e : ElemId) (r : Option Exc × World X)
    (h : ∀ ex, r.1 = some ex → ex.isRuntimeError = true) :
    (handleTransferException e r).1 = none := by
  unfold handleTransferException
  cases hr : r.1 with
  | none => rfl
  | some ex => simp [h ex hr]

theorem handleTransferException_escaped {X : Type} (e : ElemId) (r : Option Exc × World X)
    (ex : Exc) (h : (handleTransferException e r).1 = some ex) :
    r.1 = some ex ∧ ex.isRuntimeError = false := by
  unfold handleTransferException at h
  cases hr : r.1 with
  | none => simp [hr] at h
  | some ex1 =>
    simp only [hr] at h
    by_cases hrt : ex1.isRuntimeError = true
    · simp [hrt] at h
    · simp only [hrt, Bool.false_eq_true, if_false] at h
      have : ex1 = ex := Option.some.inj h
      subst this
      exact ⟨rfl, by simpa using hrt⟩

theorem transferLoop_no_escape {X : Type} (transfer : ElemId → World X → Option Exc × World X)
    (call : ElemId → Option Exc → Event)
    (htr : ∀ e w1 ex, (transfer e w1).1 = some ex → ex.isRuntimeError = true)
    (es : List ElemId) :
    ∀ (w : World X) (first : Option Exc), (transferLoop transfer call es w first).escaped = none := by
  induction es with
  | nil => intro w first; rfl
  | cons e es ih =>
    intro w first
    unfold transferLoop
    have h := handleTransferException_runtime e (transfer e w) (htr e w)
    simp only [h]
    exact ih _ _

theorem transferLoop_escaped_not_runtime {X : Type}
    (transfer : ElemId → World X → Option Exc × World X) (call : ElemId → Option Exc → Event)
    (es : List ElemId) :
    ∀ (w : World X) (first : Option Exc) (ex : Exc),
      (transferLoop transfer call es w first).escaped = some ex → ex.isRuntimeError = false := by
  induction es with
  | nil => intro w first ex h; cases h
  | cons e es ih =>
    intro w first ex h
    unfold transferLoop at h
    split at h
    · rename_i ex1 hesc
      have : ex1 = ex := Option.some.inj h
      subst this
      exact (handleTransferException_escaped e _ _ hesc).2
    · exact ih _ _ _ h

theorem runPostReads_no_terminate {X : Type} (B : Behaviour X) (fd : Option Exc)
    (hpost : ∀ e u w1 ex, (B.postRead e u w1).1 = some ex →
      ex.isRuntimeError = true ∨ ex.isBadNumericCast = true)
    (es : List ElemId) :
    ∀ (w : World X) (bnc : Option Exc), (runPostReads B fd es w bnc).terminated = false := by
  induction es with
  | nil => intro w bnc; rfl
  | cons e es ih =>
    intro w bnc
    unfold runPostReads
    dsimp only
    split
    · exact ih _ _
    · exact ih _ _
    · exact ih _ _
    · rename_i ex hne1 hne2 hth
      exfalso
      rcases hpost _ _ _ _ hth with h | h
      · cases ex <;> simp [Exc.isRuntimeError] at h
        exact hne1 _ rfl
      · cases ex <;> simp [Exc.isBadNumericCast] at h
        exact hne2 _ rfl

theorem postWriteAll_no_escape {X : Type} (B : Behaviour X) (v : VersionNumber)
    (hpost : ∀ e w1 ex, (B.postWrite e v w1).1 = some ex → ex.isRuntimeError = true)
    (es : List ElemId) : ∀ w : World X, (postWriteAll B v es w).escaped = none := by
  induction es with
  | nil => intro w; rfl
  | cons e es ih =>
    intro w
    unfold postWriteAll
    split
    · exact ih _
    · exact ih _
    · rename_i ex hne1 hth
      exfalso
      have h := hpost _ _ _ hth
      cases ex <;> simp [Exc.isRuntimeError] at h
      exact hne1 _ rfl

theorem read_not_aborted {X : Type} (B : Behaviour X) (cfg : Config) (g : TransferGroup)
    (w : World X)
    (hassert : cfg.assertsEnabled = true →
      ∀ e w1, (B.preReadAndHandleExceptions e w1).activeException e = none)
    (htr : ∀ e w1 ex, (B.readTransfer e w1).1 = some ex → ex.isRuntimeError = true)
    (hpost : ∀ e u w1 ex, (B.postRead e u w1).1 = some ex →
      ex.isRuntimeError = true ∨ ex.isBadNumericCast = true) :
    (g.read B cfg w).outcome.aborted = false := by
  have hp := preReadAll_no_assert B cfg hassert
  have ht := transferLoop_no_escape B.readTransfer Event.readTransfer htr
  have hq := fun fd => runPostReads_no_terminate B fd hpost
  unfold TransferGroup.read
  dsimp only
  simp only [hp, ht, hq, Bool.false_eq_true, if_false]
  repeat' split
  all_goals rfl

theorem write_not_aborted {X : Type} (B : Behaviour X) (cfg : Config) (g : TransferGroup)
    (v : VersionNumber) (w : World X)
    (hassert : cfg.assertsEnabled = true →
      ∀ e w1, (B.preWriteAndHandleExceptions e v w1).activeException e = none)
    (htr : ∀ e w1 ex, (B.writeTransfer e v w1).1 = some ex → ex.isRuntimeError = true)
    (hpost : ∀ e w1 ex, (B.postWrite e v w1).1 = some ex → ex.isRuntimeError = true) :
    (g.write B cfg v w).outcome.aborted = false := by
  have hp := preWriteAll_no_assert B cfg v hassert
  have ht := transferLoop_no_escape (fun e => B.writeTransfer e v)
    (fun e => Event.writeTransfer e v) (fun e => htr e)
  have hq := postWriteAll_no_escape B v hpost
  unfold TransferGroup.write
  dsimp only
  simp only [hp, ht, hq, Bool.false_eq_true, if_false]
  repeat' split
  all_goals rfl

theorem read_transferEscaped_not_runtime {X : Type} (B : Behaviour X) (cfg : Config)
    (g : TransferGroup) (w : World X) (ex : Exc)
    (h : (g.read B cfg w).outcome = Outcome.transferEscaped ex) : ex.isRuntimeError = false := by
  unfold TransferGroup.read at h
  dsimp only at h
  split at h
  · cases h
  split at h
  · cases h
  split at h
  · cases h
  split at h
  · cases h
  split at h
  · rename_i ex1 ht
    have : ex1 = ex := by
      injection h with h1
    subst this
    exact transferLoop_escaped_not_runtime _ _ _ _ _ _ ht
  · revert h
    repeat' split
    all_goals intro h; cases h

theorem write_transferEscaped_not_runtime {X : Type} (B : Behaviour X) (cfg : Config)
    (g : TransferGroup) (v : VersionNumber) (w : World X) (ex : Exc)
    (h : (g.write B cfg v w).outcome = Outcome.transferEscaped ex) :
    ex.isRuntimeError = false := by
  unfold TransferGroup.write at h
  dsimp only at h
  split at h
  · cases h
  split at h
  · cases h
  split at h
  · cases h
  split at h
  · cases h
  split at h
  · rename_i ex1 ht
    have : ex1 = ex := by
      injection h with h1
    subst this
    exact transferLoop_escaped_not_runtime _ _ _ _ _ _ ht
  · revert h
    repeat' split
    all_goals intro h; cases h

theorem isQuery_filterMap_nil {γ : Type} (f : Event → Option γ)
    (hf : ∀ ev : Event, ev.isQuery = true → f ev = none) (l : List Event)
    (hl : ∀ ev ∈ l, ev.isQuery = true) : l.filterMap f = [] := by
  induction l with
  | nil => rfl
  | cons a l ih =>
    rw [List.filterMap_cons, hf a (hl a (List.mem_cons_self a l))]
    exact ih (fun ev hev => hl ev (List.mem_cons_of_mem a hev))

theorem count_pos_append_comm (a : ElemId) (l m : List ElemId) (h : a ∈ l) :
    1 ≤ (l ++ m).count a ∧ (l ++ m).count a = (m ++ l).count a := by
  rw [List.count_append, List.count_append]
  have : 0 < l.count a := List.count_pos_iff.mpr h
  omega

theorem mem_setInsert (a x : Nat) (l : List Nat) : x ∈ setInsert a l ↔ x = a ∨ x ∈ l := by
  induction l with
  | nil => simp [setInsert]
  | cons y ys ih =>
    unfold setInsert
    by_cases h1 : a < y
    · simp [h1]
    · by_cases h2 : a = y
      · subst h2
        simp
      · simp only [h1, h2, if_false, List.mem_cons, ih]
        constructor
        · rintro (h | h | h)
          · exact Or.inr (Or.inl h)
          · exact Or.inl h
          · exact Or.inr (Or.inr h)
        · rintro (h | h | h)
          · exact Or.inr (Or.inl h)
          · exact Or.inl h
          · exact Or.inr (Or.inr h)

theorem setInsert_pairwise (a : Nat) (l : List Nat) (h : l.Pairwise (fun x y => x < y)) :
    (setInsert a l).Pairwise (fun x y => x < y) := by
  induction l with
  | nil => simp [setInsert]
  | cons y ys ih =>
    unfold setInsert
    have hy := List.pairwise_cons.mp h
    by_cases h1 : a < y
    · simp only [h1, if_true]
      refine List.pairwise_cons.mpr ⟨?_, h⟩
      intro z hz
      rcases List.mem_cons.mp hz with hz | hz
      · rw [hz]; exact h1
      · exact Nat.lt_trans h1 (hy.1 z hz)
    · by_cases h2 : a = y
      · subst h2
        simp only [Nat.lt_irrefl, if_false, if_true]
        exact h
      · simp only [h1, h2, if_false]
        refine List.pairwise_cons.mpr ⟨?_, ih hy.2⟩
        intro z hz
        rcases (mem_setInsert a z ys).mp hz with hz | hz
        · rw [hz]; omega
        · exact hy.1 z hz

theorem mapInsert_keys (k : Nat) (flag : Bool) (m : List (Nat × Bool)) :
    (mapInsert k flag m).map Prod.fst = setInsert k (m.map Prod.fst) := by
  induction m with
  | nil => rfl
  | cons p ps ih =>
    unfold mapInsert
    simp only [List.map_cons]
    unfold setInsert
    by_cases h1 : k < p.1
    · simp [h1]
    · by_cases h2 : k = p.1
      · simp [h2]
      · simp [h1, h2, ih]

theorem foldl_mapInsert_sorted (hw : List ElemId) :
    ∀ m : List (ElemId × Bool), (m.map Prod.fst).Pairwise (fun x y => x < y) →
      ((hw.foldl (fun m1 hwElem => mapInsert hwElem false m1) m).map Prod.fst).Pairwise
        (fun x y => x < y) := by
  induction hw with
  | nil => intro m h; exact h
  | cons x xs ih =>
    intro m h
    simp only [List.foldl_cons]
    apply ih
    rw [mapInsert_keys]
    exact setInsert_pairwise x _ h

theorem rebuildLowLevelElements_sorted {X : Type} (B : Behaviour X) (w : World X)
    (hs : List ElemId) :
    ((rebuildLowLevelElements B w hs).map Prod.fst).Pairwise (fun x y => x < y) := by
  unfold rebuildLowLevelElements
  have key : ∀ (l : List ElemId) (m : List (ElemId × Bool)),
      (m.map Prod.fst).Pairwise (fun x y => x < y) →
      ((l.foldl (fun m hlElem => (B.getHardwareAccessingElements hlElem w).foldl
        (fun m1 hwElem => mapInsert hwElem false m1) m) m).map Prod.fst).Pairwise
        (fun x y => x < y) := by
    intro l
    induction l with
    | nil => intro m h; exact h
    | cons x xs ih =>
      intro m h
      simp only [List.foldl_cons]
      exact ih _ (foldl_mapInsert_sorted _ m h)
  exact key hs [] List.Pairwise.nil

theorem addAccessor_leaves_nodup {X : Type} (B : Behaviour X) (g : TransferGroup) (impl : ElemId)
    (w : World X) (hg : g.leaves.Nodup) : (g.addAccessor B impl w).group.leaves.Nodup := by
  unfold TransferGroup.addAccessor
  split
  · exact hg
  · split
    · exact hg
    · exact (rebuildLowLevelElements_sorted B _ _).imp (fun hlt => Nat.ne_of_lt hlt)

theorem write_group_leaves {X : Type} (B : Behaviour X) (cfg : Config) (g : TransferGroup)
    (v : VersionNumber) (w : World X) : (g.write B cfg v w).group.leaves = g.leaves := by
  unfold TransferGroup.write
  dsimp only
  repeat' split
  all_goals first | rfl | exact resetExceptionFlags_leaves g

theorem step_leaves_nodup {X : Type} (B : Behaviour X) (cfg : Config) (s : GroupState X)
    (op : Op X) (h : s.group.leaves.Nodup) : (s.step B cfg op).group.leaves.Nodup := by
  cases op with
  | addAccessor impl => exact addAccessor_leaves_nodup B s.group impl s.world h
  | read =>
    show (s.group.read B cfg s.world).group.leaves.Nodup
    rw [read_group, resetExceptionFlags_leaves]
    exact h
  | write v =>
    show (s.group.write B cfg v s.world).group.leaves.Nodup
    rw [write_group_leaves]
    exact h
  | external f => exact h

theorem run_leaves_nodup {X : Type} (B : Behaviour X) (cfg : Config) (ops : List (Op X)) :
    ∀ s : GroupState X, s.group.leaves.Nodup → (s.run B cfg ops).group.leaves.Nodup := by
  induction ops with
  | nil => intro s h; exact h
  | cons op ops ih =>
    intro s h
    exact ih (s.step B cfg op) (step_leaves_nodup B cfg s op h)

theorem addAccessor_rejected_group {X : Type} (B : Behaviour X) (g : TransferGroup)
    (impl : ElemId) (w : World X)
    (h : (g.addAccessor B impl w).outcome ≠ Outcome.returned) :
    (g.addAccessor B impl w).group = g ∧ (g.addAccessor B impl w).world = w ∧
      (g.addAccessor B impl w).impl = impl := by
  revert h
  unfold TransferGroup.addAccessor
  split
  · intro _; exact ⟨rfl, rfl, rfl⟩
  · split
    · intro _; exact ⟨rfl, rfl, rfl⟩
    · intro h; exact absurd rfl h

theorem addAccessor_returned_readOnly {X : Type} (B : Behaviour X) (g : TransferGroup)
    (impl : ElemId) (w : World X)
    (h : (g.addAccessor B impl w).outcome = Outcome.returned) :
    (g.addAccessor B impl w).group.readOnly =
      (B.isReadOnly (g.addAccessor B impl w).impl (g.addAccessor B impl w).world ||
        g.readOnly) := by
  revert h
  unfold TransferGroup.addAccessor
  split
  · intro h; cases h
  · split
    · intro h; cases h
    · intro _
      dsimp only
      cases B.isReadOnly _ _ <;> simp

theorem run_readOnly_reports {X : Type} (B : Behaviour X) (cfg : Config) (ops : List (Op X)) :
    ∀ s : GroupState X, (s.run B cfg ops).group.readOnly =
      (s.group.readOnly || (readOnlyReports B cfg s ops).any id) := by
  induction ops with
  | nil => intro s; simp [GroupState.run, readOnlyReports]
  | cons op ops ih =>
    intro s
    have hrun : s.run B cfg (op :: ops) = (s.step B cfg op).run B cfg ops := rfl
    rw [hrun, ih]
    cases op with
    | addAccessor impl =>
      by_cases hret : (s.group.addAccessor B impl s.world).outcome = Outcome.returned
      · have hrep : readOnlyReports B cfg s (Op.addAccessor impl :: ops) =
            B.isReadOnly (s.group.addAccessor B impl s.world).impl
                (s.group.addAccessor B impl s.world).world ::
              readOnlyReports B cfg (s.step B cfg (Op.addAccessor impl)) ops := by
          simp only [readOnlyReports, hret, if_true]
        have h1 : (s.step B cfg (Op.addAccessor impl)).group.readOnly =
            (B.isReadOnly (s.group.addAccessor B impl s.world).impl
              (s.group.addAccessor B impl s.world).world || s.group.readOnly) :=
          addAccessor_returned_readOnly B s.group impl s.world hret
        rw [h1, hrep]
        simp only [List.any_cons, id_eq]
        cases B.isReadOnly _ _ <;> cases s.group.readOnly <;> simp
      · have hrep : readOnlyReports B cfg s (Op.addAccessor impl :: ops) =
            readOnlyReports B cfg (s.step B cfg (Op.addAccessor impl)) ops := by
          simp only [readOnlyReports, hret, if_false]
        have h1 : (s.step B cfg (Op.addAccessor impl)).group = s.group :=
          (addAccessor_rejected_group B s.group impl s.world hret).1
        rw [h1, hrep]
    | read =>
      have hrep : readOnlyReports B cfg s (Op.read :: ops) =
          readOnlyReports B cfg (s.step B cfg Op.read) ops := by
        simp only [readOnlyReports]
      have h1 : (s.step B cfg Op.read).group.readOnly = s.group.readOnly := by
        show (s.group.read B cfg s.world).group.readOnly = s.group.readOnly
        rw [read_group]
        rfl
      rw [h1, hrep]
    | write v =>
      have hrep : readOnlyReports B cfg s (Op.write v :: ops) =
          readOnlyReports B cfg (s.step B cfg (Op.write v)) ops := by
        simp only [readOnlyReports]
      have h1 : (s.step B cfg (Op.write v)).group.readOnly = s.group.readOnly :=
        write_group_readOnly B cfg s.group v s.world
      rw [h1, hrep]
    | external f =>
      have hrep : readOnlyReports B cfg s (Op.external f :: ops) =
          readOnlyReports B cfg (s.step B cfg (Op.external f)) ops := by
        simp only [readOnlyReports]
      rw [hrep]
      rfl

theorem mem_mapInsert_keys (k x : Nat) (flag : Bool) (m : List (Nat × Bool)) :
    x ∈ (mapInsert k flag m).map Prod.fst ↔ x = k ∨ x ∈ m.map Prod.fst := by
  rw [mapInsert_keys, mem_setInsert]

theorem mapInsert_flags_false (k : Nat) (m : List (Nat × Bool))
    (h : ∀ p ∈ m, p.2 = false) : ∀ p ∈ mapInsert k false m, p.2 = false := by
  induction m with
  | nil =>
    intro p hp
    simp only [mapInsert, List.mem_singleton] at hp
    rw [hp]
  | cons q qs ih =>
    unfold mapInsert
    by_cases h1 : k < q.1
    · simp only [h1, if_true]
      intro p hp
      rcases List.mem_cons.mp hp with hp | hp
      · rw [hp]
      · exact h p hp
    · by_cases h2 : k = q.1
      · rw [if_neg h1, if_pos h2]
        exact h
      · simp only [h1, h2, if_false]
        intro p hp
        rcases List.mem_cons.mp hp with hp | hp
        · rw [hp]; exact h q (List.mem_cons_self q qs)
        · exact ih (fun r hr => h r (List.mem_cons_of_mem q hr)) p hp

theorem foldl_mapInsert_mem (hw : List ElemId) (x : ElemId) :
    ∀ m : List (ElemId × Bool),
      x ∈ (hw.foldl (fun m1 hwElem => mapInsert hwElem false m1) m).map Prod.fst ↔
        x ∈ hw ∨ x ∈ m.map Prod.fst := by
  induction hw with
  | nil => intro m; simp
  | cons y ys ih =>
    intro m
    simp only [List.foldl_cons]
    rw [ih, mem_mapInsert_keys, List.mem_cons]
    constructor
    · rintro (h | h | h)
      · exact Or.inl (Or.inr h)
      · exact Or.inl (Or.inl h)
      · exact Or.inr h
    · rintro ((h | h) | h)
      · exact Or.inr (Or.inl h)
      · exact Or.inl h
      · exact Or.inr (Or.inr h)

theorem foldl_mapInsert_flags (hw : List ElemId) :
    ∀ m : List (ElemId × Bool), (∀ p ∈ m, p.2 = false) →
      ∀ p ∈ hw.foldl (fun m1 hwElem => mapInsert hwElem false m1) m, p.2 = false := by
  induction hw with
  | nil => intro m h; exact h
  | cons y ys ih =>
    intro m h
    simp only [List.foldl_cons]
    exact ih _ (mapInsert_flags_false y m h)

theorem rebuildLowLevelElements_mem {X : Type} (B : Behaviour X) (w : World X)
    (hs : List ElemId) (x : ElemId) :
    x ∈ (rebuildLowLevelElements B w hs).map Prod.fst ↔
      ∃ h ∈ hs, x ∈ B.getHardwareAccessingElements h w := by
  unfold rebuildLowLevelElements
  have key : ∀ (l : List ElemId) (m : List (ElemId × Bool)),
      x ∈ (l.foldl (fun m hlElem => (B.getHardwareAccessingElements hlElem w).foldl
        (fun m1 hwElem => mapInsert hwElem false m1) m) m).map Prod.fst ↔
      (∃ h ∈ l, x ∈ B.getHardwareAccessingElements h w) ∨ x ∈ m.map Prod.fst := by
    intro l
    induction l with
    | nil => intro m; simp
    | cons y ys ih =>
      intro m
      simp only [List.foldl_cons]
      rw [ih, foldl_mapInsert_mem]
      constructor
      · rintro (⟨h, hh, hx⟩ | h | h)
        · exact Or.inl ⟨h, List.mem_cons_of_mem y hh, hx⟩
        · exact Or.inl ⟨y, List.mem_cons_self y ys, h⟩
        · exact Or.inr h
      · rintro (⟨h, hh, hx⟩ | h)
        · rcases List.mem_cons.mp hh with hh | hh
          · subst hh
            exact Or.inr (Or.inl hx)
          · exact Or.inl ⟨h, hh, hx⟩
        · exact Or.inr (Or.inr h)
  rw [key]
  simp

theorem rebuildLowLevelElements_flags {X : Type} (B : Behaviour X) (w : World X)
    (hs : List ElemId) : ∀ p ∈ rebuildLowLevelElements B w hs, p.2 = false := by
  unfold rebuildLowLevelElements
  have key : ∀ (l : List ElemId) (m : List (ElemId × Bool)), (∀ p ∈ m, p.2 = false) →
      ∀ p ∈ l.foldl (fun m hlElem => (B.getHardwareAccessingElements hlElem w).foldl
        (fun m1 hwElem => mapInsert hwElem false m1) m) m, p.2 = false := by
    intro l
    induction l with
    | nil => intro m h; exact h
    | cons y ys ih =>
      intro m h
      simp only [List.foldl_cons]
      exact ih _ (foldl_mapInsert_flags _ m h)
  exact key hs [] (fun p hp => absurd hp (List.not_mem_nil p))

theorem foldl_copyDecorators_mem (cd : ElemId → Bool) (l : List ElemId) (x : ElemId) :
    ∀ s : List ElemId,
      x ∈ l.foldl (fun s1 hwElem => if cd hwElem then setInsert hwElem s1 else s1) s ↔
        (x ∈ l ∧ cd x = true) ∨ x ∈ s := by
  induction l with
  | nil => intro s; simp
  | cons y ys ih =>
    intro s
    simp only [List.foldl_cons]
    rw [ih]
    by_cases hy : cd y = true
    · simp only [hy, if_true, mem_setInsert, List.mem_cons]
      constructor
      · rintro (h | h | h)
        · exact Or.inl ⟨Or.inr h.1, h.2⟩
        · exact Or.inl ⟨Or.inl h, by rw [h]; exact hy⟩
        · exact Or.inr h
      · rintro (⟨h | h, hc⟩ | h)
        · exact Or.inr (Or.inl h)
        · exact Or.inl ⟨h, hc⟩
        · exact Or.inr (Or.inr h)
    · simp only [hy, if_false, List.mem_cons, Bool.false_eq_true]
      constructor
      · rintro (h | h)
        · exact Or.inl ⟨Or.inr h.1, h.2⟩
        · exact Or.inr h
      · rintro (⟨h | h, hc⟩ | h)
        · rw [h] at hc; exact absurd hc hy
        · exact Or.inl ⟨h, hc⟩
        · exact Or.inr h

theorem rebuildCopyDecorators_mem {X : Type} (B : Behaviour X) (w : World X)
    (hs : List ElemId) (x : ElemId) :
    x ∈ rebuildCopyDecorators B w hs ↔
      B.isCopyDecorator x = true ∧
        (x ∈ hs ∨ ∃ h ∈ hs, x ∈ B.getInternalElements h w) := by
  unfold rebuildCopyDecorators
  have key : ∀ (l : List ElemId) (s : List ElemId),
      x ∈ l.foldl (fun s hlElem => (B.getInternalElements hlElem w).foldl
          (fun s1 hwElem => if B.isCopyDecorator hwElem then setInsert hwElem s1 else s1)
          (if B.isCopyDecorator hlElem then setInsert hlElem s else s)) s ↔
        (B.isCopyDecorator x = true ∧ (x ∈ l ∨ ∃ h ∈ l, x ∈ B.getInternalElements h w)) ∨
          x ∈ s := by
    intro l
    induction l with
    | nil => intro s; simp
    | cons y ys ih =>
      intro s
      simp only [List.foldl_cons]
      rw [ih, foldl_copyDecorators_mem]
      have hy : x ∈ (if B.isCopyDecorator y = true then setInsert y s else s) ↔
          (x = y ∧ B.isCopyDecorator x = true) ∨ x ∈ s := by
        by_cases hc : B.isCopyDecorator y = true
        · simp only [hc, if_true, mem_setInsert]
          constructor
          · rintro (h | h)
            · exact Or.inl ⟨h, by rw [h]; exact hc⟩
            · exact Or.inr h
          · rintro (h | h)
            · exact Or.inl h.1
            · exact Or.inr h
        · simp only [hc, if_false, Bool.false_eq_true]
          constructor
          · intro h; exact Or.inr h
          · rintro (h | h)
            · rw [h.1] at h; exact absurd h.2 hc
            · exact h
      rw [hy]
      constructor
      · rintro (⟨hc, h | ⟨h, hh, hx⟩⟩ | ⟨hx, hc⟩ | ⟨hx, hc⟩ | h)
        · exact Or.inl ⟨hc, Or.inl (List.mem_cons_of_mem y h)⟩
        · exact Or.inl ⟨hc, Or.inr ⟨h, List.mem_cons_of_mem y hh, hx⟩⟩
        · exact Or.inl ⟨hc, Or.inr ⟨y, List.mem_cons_self y ys, hx⟩⟩
        · exact Or.inl ⟨hc, Or.inl (by rw [hx]; exact List.mem_cons_self y ys)⟩
        · exact Or.inr h
      · rintro (⟨hc, h | ⟨h, hh, hx⟩⟩ | h)
        · rcases List.mem_cons.mp h with h | h
          · exact Or.inr (Or.inr (Or.inl ⟨h, hc⟩))
          · exact Or.inl ⟨hc, Or.inl h⟩
        · rcases List.mem_cons.mp hh with hh | hh
          · subst hh
            exact Or.inr (Or.inl ⟨hx, hc⟩)
          · exact Or.inl ⟨hc, Or.inr ⟨h, hh, hx⟩⟩
        · exact Or.inr (Or.inr (Or.inr h))
  rw [key]
  simp

theorem replaceInHighLevel_flags {X : Type} (B : Behaviour X)
    (hframe : ∀ e r w1, (B.replaceTransferElement e r w1).isInTransferGroup =
      w1.isInTransferGroup)
    (replacement : ElemId) (l : List ElemId) :
    ∀ w : World X, (replaceInHighLevel B replacement l w).isInTransferGroup =
      w.isInTransferGroup := by
  induction l with
  | nil => intro w; rfl
  | cons y ys ih =>
    intro w
    unfold replaceInHighLevel
    rw [ih, hframe]

theorem replaceWithList_flags {X : Type} (B : Behaviour X)
    (hframe : ∀ e r w1, (B.replaceTransferElement e r w1).isInTransferGroup =
      w1.isInTransferGroup)
    (hframe2 : ∀ e r w1, (B.abstractorReplaceTransferElement e r w1).2.isInTransferGroup =
      w1.isInTransferGroup)
    (hls : List ElemId) (l : List ElemId) :
    ∀ (impl : ElemId) (w : World X),
      (replaceWithList B hls l impl w).2.isInTransferGroup = w.isInTransferGroup := by
  induction l with
  | nil => intro impl w; rfl
  | cons y ys ih =>
    intro impl w
    unfold replaceWithList
    dsimp only
    rw [ih, replaceInHighLevel_flags B hframe, hframe2]

theorem replaceAll_flags {X : Type} (B : Behaviour X)
    (hframe : ∀ e r w1, (B.replaceTransferElement e r w1).isInTransferGroup =
      w1.isInTransferGroup)
    (hframe2 : ∀ e r w1, (B.abstractorReplaceTransferElement e r w1).2.isInTransferGroup =
      w1.isInTransferGroup)
    (hls : List ElemId) (l : List ElemId) :
    ∀ (impl : ElemId) (w : World X),
      (replaceAll B hls l impl w).2.isInTransferGroup = w.isInTransferGroup := by
  induction l with
  | nil => intro impl w; rfl
  | cons y ys ih =>
    intro impl w
    unfold replaceAll
    dsimp only
    rw [ih, replaceWithList_flags B hframe hframe2]

theorem handleTransferException_ext {X : Type} (e : ElemId) (r : Option Exc × World X) :
    (handleTransferException e r).2.ext = r.2.ext := by
  unfold handleTransferException
  cases r.1 with
  | none => rfl
  | some ex =>
    by_cases h : ex.isRuntimeError = true
    · simp only [h, if_true]
      rfl
    · simp only [h, Bool.false_eq_true, if_false]

/-- The wrapper around a transfer that no exception leaves: the transfer threw nothing
or a runtime error, the element carries the runtime error that was thrown, or what the
transfer left there if nothing was thrown, and no other element is touched. -/
theorem handleTransferException_kept {X : Type} (e : ElemId) (r : Option Exc × World X)
    (h : (handleTransferException e r).1 = none) :
    (∀ ex, r.1 = some ex → ex.isRuntimeError = true) ∧
    (handleTransferException e r).2.activeException e =
      (match r.1 with
        | some ex => some ex
        | none => r.2.activeException e) ∧
    ∀ l, l ≠ e → (handleTransferException e r).2.activeException l = r.2.activeException l := by
  unfold handleTransferException at h ⊢
  cases hr : r.1 with
  | none =>
    simp only [hr]
    exact ⟨fun ex hex => (by cases hex), trivial, fun _ _ => trivial⟩
  | some ex =>
    simp only [hr] at h ⊢
    by_cases hrt : ex.isRuntimeError = true
    · simp only [hrt, if_true]
      refine ⟨fun ex1 hex => ?_, ?_, fun l hl => ?_⟩
      · have : ex = ex1 := Option.some.inj hex
        rw [← this]
        exact hrt
      · simp [World.setActiveException]
      · simp [World.setActiveException, hl]
    · simp only [hrt, Bool.false_eq_true, if_false] at h
      cases h

/-- The loop of transfers over elements that record their calls, when no exception
leaves it.  For every element in turn (`q.1`) there is the exception that the element
carried when the wrapper was left (`q.2.1`, which the group tests) and what the
transfer threw (`q.2.2`, which the transfer recorded): the record grows by exactly
one call per element, what was thrown is a runtime error and is carried by the
element after the wrapper, and when the transfers
leave the `_activeException` fields to the wrapper and no element of the loop carries
an exception when the loop starts, the exception carried after the wrapper is the
one that the transfer threw. -/
theorem transferLoop_recorded {X : Type}
    (transfer : ElemId → World (X × List Call) → Option Exc × World (X × List Call))
    (call : ElemId → Option Exc → Event) (c : ElemId → Option Exc → Call)
    (hc : ∀ e w, (transfer e w).2.ext.2 = w.ext.2 ++ [c e (transfer e w).1])
    (es : List ElemId) :
    ∀ (w : World (X × List Call)) (first : Option Exc),
      (transferLoop transfer call es w first).escaped = none →
      ∃ tq : List (ElemId × Option Exc × Option Exc),
        tq.map (fun q => q.1) = es ∧
        (transferLoop transfer call es w first).events = tq.map (fun q => call q.1 q.2.1) ∧
        (transferLoop transfer call es w first).world.ext.2 =
          w.ext.2 ++ tq.map (fun q => c q.1 q.2.2) ∧
        (transferLoop transfer call es w first).firstDetectedRuntimeError =
          (match first with
            | some ex => some ex
            | none => firstSome (tq.map (fun q => q.2.1))) ∧
        (∀ q ∈ tq, ∀ ex, q.2.2 = some ex → ex.isRuntimeError = true ∧ q.2.1 = some ex) ∧
        ((∀ e w1, (transfer e w1).2.activeException = w1.activeException) → es.Nodup →
          (∀ l ∈ es, w.activeException l = none) → ∀ q ∈ tq, q.2.1 = q.2.2) := by
  induction es with
  | nil =>
    intro w first _
    refine ⟨[], rfl, rfl, ?_, ?_, ?_, ?_⟩
    · simp [transferLoop]
    · cases first <;> rfl
    · intro q hq
      cases hq
    · intro _ _ _ q hq
      cases hq
  | cons e es ih =>
    intro w first h
    unfold transferLoop at h ⊢
    split at h
    · cases h
    · rename_i hnone
      simp only [hnone] at h ⊢
      obtain ⟨tq, htq, hev, hlog, hfirst, hthrown, hbridge⟩ := ih _ _ h
      obtain ⟨k1, k2, k3⟩ := handleTransferException_kept e (transfer e w) hnone
      refine ⟨(e, (handleTransferException e (transfer e w)).2.activeException e,
        (transfer e w).1) :: tq, ?_, ?_, ?_, ?_, ?_, ?_⟩
      · simp only [List.map_cons, htq]
      · simp only [List.map_cons]
        rw [hev]
      · rw [hlog, handleTransferException_ext, hc]
        simp only [List.map_cons, List.append_assoc, List.singleton_append]
      · rw [hfirst]
        cases first with
        | some ex => simp
        | none =>
          cases hl : (handleTransferException e (transfer e w)).2.activeException e with
          | none => simp [firstSome]
          | some ex => simp [firstSome]
      · intro q hq ex hex
        rcases List.mem_cons.mp hq with hq | hq
        · rw [hq] at hex ⊢
          dsimp only at hex ⊢
          refine ⟨k1 ex hex, ?_⟩
          rw [k2, hex]
        · exact hthrown q hq ex hex
      · intro hT hnd hclear q hq
        have hnd1 := List.nodup_cons.mp hnd
        rcases List.mem_cons.mp hq with hq | hq
        · rw [hq]
          dsimp only
          rw [k2]
          cases hr : (transfer e w).1 with
          | some ex => rfl
          | none =>
            dsimp only
            rw [hT e w]
            exact hclear e (List.mem_cons_self e es)
        · refine hbridge hT hnd1.2 ?_ q hq
          intro l hl
          have hne : l ≠ e := fun heq => hnd1.1 (heq ▸ hl)
          rw [k3 l hne, hT e w]
          exact hclear l (List.mem_cons_of_mem e hl)

theorem preReadAll_recorded {X : Type} (B : Behaviour X) (cfg : Config) (es : List ElemId) :
    ∀ w : World (X × List Call), (preReadAll (recording B) cfg es w).assertFailed = false →
      (preReadAll (recording B) cfg es w).world.ext.2 = w.ext.2 ++ es.map Call.preRead := by
  induction es with
  | nil =>
    intro w _
    simp [preReadAll]
  | cons e es ih =>
    intro w h
    unfold preReadAll at h ⊢
    split at h
    · cases h
    · rename_i hc
      rw [if_neg hc]
      dsimp only
      rw [ih _ h]
      have hstep : ((recording B).preReadAndHandleExceptions e w).ext.2 =
          w.ext.2 ++ [Call.preRead e] := rfl
      rw [hstep]
      simp only [List.map_cons, List.append_assoc, List.singleton_append]

theorem preWriteAll_recorded {X : Type} (B : Behaviour X) (cfg : Config) (v : VersionNumber)
    (es : List ElemId) :
    ∀ w : World (X × List Call), (preWriteAll (recording B) cfg v es w).assertFailed = false →
      (preWriteAll (recording B) cfg v es w).world.ext.2 =
        w.ext.2 ++ es.map (fun e => Call.preWrite e v) := by
  induction es with
  | nil =>
    intro w _
    simp [preWriteAll]
  | cons e es ih =>
    intro w h
    unfold preWriteAll at h ⊢
    split at h
    · cases h
    · rename_i hc
      rw [if_neg hc]
      dsimp only
      rw [ih _ h]
      have hstep : ((recording B).preWriteAndHandleExceptions e v w).ext.2 =
          w.ext.2 ++ [Call.preWrite e v] := rfl
      rw [hstep]
      simp only [List.map_cons, List.append_assoc, List.singleton_append]

/-- A pass of `runPostReads` over elements that record their calls: the record grows
by one `postRead` call for each element of a starting part of the list, all with the
same `updateDataBuffer`; when the pass is not ended by `std::terminate()` that part is
the whole list, and the value returned is the first `bad_numeric_cast` that was
thrown. -/
theorem runPostReads_recorded {X : Type} (B : Behaviour X) (fd : Option Exc)
    (es : List ElemId) :
    ∀ (w : World (X × List Call)) (bnc : Option Exc),
      ∃ th : List (ElemId × Option Exc),
        (runPostReads (recording B) fd es w bnc).world.ext.2 =
          w.ext.2 ++ th.map (fun p => Call.postRead p.1 fd.isNone p.2) ∧
        th.map Prod.fst <+: es ∧
        ((runPostReads (recording B) fd es w bnc).terminated = false →
          th.map Prod.fst = es ∧
          (runPostReads (recording B) fd es w bnc).badNumericCast =
            (match bnc with
              | some ex => some ex
              | none => firstBadNumericCast (th.map Prod.snd))) := by
  induction es with
  | nil =>
    intro w bnc
    refine ⟨[], ?_, List.prefix_refl _, fun _ => ⟨rfl, ?_⟩⟩
    · simp [runPostReads]
    · cases bnc <;> rfl
  | cons e es ih =>
    intro w bnc
    have hstep : ∀ w1 : World (X × List Call),
        ((recording B).postRead e fd.isNone (w.setActiveException e
          (lowLevelElementException w ((recording B).getHardwareAccessingElements e w)
            none))).2.ext.2 =
          w.ext.2 ++ [Call.postRead e fd.isNone ((recording B).postRead e fd.isNone
            (w.setActiveException e (lowLevelElementException w
              ((recording B).getHardwareAccessingElements e w) none))).1] := fun _ => rfl
    unfold runPostReads
    dsimp only
    split
    · rename_i hth
      obtain ⟨th, h1, h2, h3⟩ := ih ((recording B).postRead e fd.isNone
        (w.setActiveException e (lowLevelElementException w
          ((recording B).getHardwareAccessingElements e w) none))).2 bnc
      refine ⟨(e, none) :: th, ?_, ?_, fun h => ⟨?_, ?_⟩⟩
      · rw [h1, hstep w, hth]
        simp only [List.map_cons, List.append_assoc, List.singleton_append]
      · simp only [List.map_cons]
        exact (List.prefix_cons_inj e).mpr h2
      · simp only [List.map_cons, (h3 h).1]
      · rw [(h3 h).2]
        cases bnc <;> rfl
    · rename_i m hth
      obtain ⟨th, h1, h2, h3⟩ := ih ((recording B).postRead e fd.isNone
        (w.setActiveException e (lowLevelElementException w
          ((recording B).getHardwareAccessingElements e w) none))).2 bnc
      refine ⟨(e, some (Exc.runtime_error m)) :: th, ?_, ?_, fun h => ⟨?_, ?_⟩⟩
      · rw [h1, hstep w, hth]
        simp only [List.map_cons, List.append_assoc, List.singleton_append]
      · simp only [List.map_cons]
        exact (List.prefix_cons_inj e).mpr h2
      · simp only [List.map_cons, (h3 h).1]
      · rw [(h3 h).2]
        cases bnc <;> rfl
    · rename_i m hth
      obtain ⟨th, h1, h2, h3⟩ := ih ((recording B).postRead e fd.isNone
        (w.setActiveException e (lowLevelElementException w
          ((recording B).getHardwareAccessingElements e w) none))).2
        (if bnc.isNone then some (Exc.bad_numeric_cast m) else bnc)
      refine ⟨(e, some (Exc.bad_numeric_cast m)) :: th, ?_, ?_, fun h => ⟨?_, ?_⟩⟩
      · rw [h1, hstep w, hth]
        simp only [List.map_cons, List.append_assoc, List.singleton_append]
      · simp only [List.map_cons]
        exact (List.prefix_cons_inj e).mpr h2
      · simp only [List.map_cons, (h3 h).1]
      · rw [(h3 h).2]
        cases bnc <;> rfl
    · rename_i ex hne1 hne2 hth
      refine ⟨[(e, some ex)], ?_, ?_, fun h => by cases h⟩
      · rw [hstep w, hth]
        rfl
      · simp only [List.map_cons, List.map_nil]
        exact ⟨es, rfl⟩

/-- The loop of `postWrite` calls over elements that record their calls: the record
grows by one `postWrite` call for each element of a starting part of the list; when
no exception leaves the loop that part is the whole list, and what the calls threw
are runtime errors. -/
theorem postWriteAll_recorded {X : Type} (B : Behaviour X) (v : VersionNumber)
    (es : List ElemId) :
    ∀ w : World (X × List Call),
      ∃ th : List (ElemId × Option Exc),
        (postWriteAll (recording B) v es w).world.ext.2 =
          w.ext.2 ++ th.map (fun p => Call.postWrite p.1 v p.2) ∧
        th.map Prod.fst <+: es ∧
        ((postWriteAll (recording B) v es w).escaped = none →
          th.map Prod.fst = es ∧ ∀ p ∈ th, ∀ ex, p.2 = some ex → ex.isRuntimeError = true) := by
  induction es with
  | nil =>
    intro w
    refine ⟨[], ?_, List.prefix_refl _, fun _ => ⟨rfl, fun p hp => by cases hp⟩⟩
    simp [postWriteAll]
  | cons e es ih =>
    intro w
    have hstep : ((recording B).postWrite e v w).2.ext.2 =
        w.ext.2 ++ [Call.postWrite e v ((recording B).postWrite e v w).1] := rfl
    unfold postWriteAll
    split
    · rename_i hth
      obtain ⟨th, h1, h2, h3⟩ := ih ((recording B).postWrite e v w).2
      refine ⟨(e, none) :: th, ?_, ?_, fun h => ⟨?_, ?_⟩⟩
      · dsimp only
        rw [h1, hstep, hth]
        simp only [List.map_cons, List.append_assoc, List.singleton_append]
      · simp only [List.map_cons]
        exact (List.prefix_cons_inj e).mpr h2
      · simp only [List.map_cons, (h3 h).1]
      · intro p hp ex hex
        rcases List.mem_cons.mp hp with hp | hp
        · rw [hp] at hex
          cases hex
        · exact (h3 h).2 p hp ex hex
    · rename_i m hth
      obtain ⟨th, h1, h2, h3⟩ := ih ((recording B).postWrite e v w).2
      refine ⟨(e, some (Exc.runtime_error m)) :: th, ?_, ?_, fun h => ⟨?_, ?_⟩⟩
      · dsimp only
        rw [h1, hstep, hth]
        simp only [List.map_cons, List.append_assoc, List.singleton_append]
      · simp only [List.map_cons]
        exact (List.prefix_cons_inj e).mpr h2
      · simp only [List.map_cons, (h3 h).1]
      · intro p hp ex hex
        rcases List.mem_cons.mp hp with hp | hp
        · rw [hp] at hex
          have : Exc.runtime_error m = ex := Option.some.inj hex
          rw [← this]
          rfl
        · exact (h3 h).2 p hp ex hex
    · rename_i ex hne1 hth
      refine ⟨[(e, some ex)], ?_, ?_, fun h => by cases h⟩
      · dsimp only
        rw [hstep, hth]
        rfl
      · simp only [List.map_cons, List.map_nil]
        exact ⟨es, rfl⟩

theorem preReadAll_filterMap_nil {X : Type} {γ : Type} (f : Event → Option γ)
    (hf : ∀ e, f (Event.preRead e) = none) (B : Behaviour X) (cfg : Config) (es : List ElemId) :
    ∀ w : World X, (preReadAll B cfg es w).events.filterMap f = [] := by
  induction es with
  | nil =>
    intro w
    rfl
  | cons e es ih =>
    intro w
    unfold preReadAll
    split
    · simp [hf]
    · simp only [List.filterMap_cons, hf]
      exact ih _

theorem preWriteAll_filterMap_nil {X : Type} {γ : Type} (f : Event → Option γ)
    (v : VersionNumber) (hf : ∀ e, f (Event.preWrite e v) = none) (B : Behaviour X)
    (cfg : Config) (es : List ElemId) :
    ∀ w : World X, (preWriteAll B cfg v es w).events.filterMap f = [] := by
  induction es with
  | nil =>
    intro w
    rfl
  | cons e es ih =>
    intro w
    unfold preWriteAll
    split
    · simp [hf]
    · simp only [List.filterMap_cons, hf]
      exact ih _

theorem runPostReads_filterMap_nil {X : Type} {γ : Type} (f : Event → Option γ)
    (hf1 : ∀ e, f (Event.getHardwareAccessingElements e) = none)
    (hf2 : ∀ e u t, f (Event.postRead e u t) = none) (B : Behaviour X) (fd : Option Exc)
    (es : List ElemId) :
    ∀ (w : World X) (bnc : Option Exc), (runPostReads B fd es w bnc).events.filterMap f = [] := by
  induction es with
  | nil =>
    intro w bnc
    rfl
  | cons e es ih =>
    intro w bnc
    unfold runPostReads
    dsimp only
    split
    · simp only [List.filterMap_append, List.filterMap_cons, hf1, hf2, List.filterMap_nil,
        List.nil_append]
      exact ih _ _
    · simp only [List.filterMap_append, List.filterMap_cons, hf1, hf2, List.filterMap_nil,
        List.nil_append]
      exact ih _ _
    · simp only [List.filterMap_append, List.filterMap_cons, hf1, hf2, List.filterMap_nil,
        List.nil_append]
      exact ih _ _
    · simp only [List.filterMap_cons, hf1, hf2, List.filterMap_nil]

theorem postWriteAll_filterMap_nil {X : Type} {γ : Type} (f : Event → Option γ)
    (v : VersionNumber) (hf : ∀ e t, f (Event.postWrite e v t) = none) (B : Behaviour X)
    (es : List ElemId) :
    ∀ w : World X, (postWriteAll B v es w).events.filterMap f = [] := by
  induction es with
  | nil =>
    intro w
    rfl
  | cons e es ih =>
    intro w
    unfold postWriteAll
    split
    · simp only [List.filterMap_cons, hf]
      exact ih _
    · simp only [List.filterMap_cons, hf]
      exact ih _
    · simp only [List.filterMap_cons, hf, List.filterMap_nil]

theorem isQuery_latched (ev : Event) (h : ev.isQuery = true) : Event.latched ev = none := by
  cases ev <;> first | rfl | cases h

theorem readResult_eq {X : Type} (o1 o2 o3 : Option Exc) (g1 : TransferGroup) (w1 : World X)
    (evs : List Event) :
    (match o1 with
      | some ex => (⟨Outcome.rethrown ex, g1, w1, evs⟩ : Result X)
      | none =>
        match o2 with
        | some ex => ⟨Outcome.rethrown ex, g1, w1, evs⟩
        | none =>
          match o3 with
          | some ex => ⟨Outcome.rethrown ex, g1, w1, evs⟩
          | none => ⟨Outcome.returned, g1, w1, evs⟩) =
      ⟨readOutcome o1 o2 o3, g1, w1, evs⟩ := by
  cases o1 <;> cases o2 <;> cases o3 <;> rfl

/-- The read cycle over elements that record their calls, when the guards pass, no
assertion fails and no exception leaves a transfer.  With the exception carried after
the wrapper (`q.2.1`) and the exception thrown (`q.2.2`) of every transfer, and with
what every `postRead` threw (`p.2`): the record grows by the pre-calls of the
high-level elements and of the copy decorators, one transfer per leaf, and the
`postRead` calls of a starting part of the copy decorators followed by the high-level
elements, which is all of them when the cycle is not cut short. -/
theorem read_recorded {X : Type} (B : Behaviour X) (cfg : Config) (g : TransferGroup)
    (w : World (X × List Call)) (hguard : ReadGuardsPass (recording B) g w)
    (h1 : (g.read (recording B) cfg w).outcome ≠ Outcome.assertFailed)
    (h2 : ∀ ex, (g.read (recording B) cfg w).outcome ≠ Outcome.transferEscaped ex) :
    ∃ (tq : List (ElemId × Option Exc × Option Exc)) (th : List (ElemId × Option Exc)),
      tq.map (fun q => q.1) = g.leaves ∧
      (∀ q ∈ tq, ∀ ex, q.2.2 = some ex → ex.isRuntimeError = true ∧ q.2.1 = some ex) ∧
      ((∀ e w1, (B.readTransfer e w1).2.activeException = w1.activeException) →
        g.leaves.Nodup →
        (∀ l ∈ g.leaves, (g.readTransferStart (recording B) cfg w).activeException l = none) →
        ∀ q ∈ tq, q.2.1 = q.2.2) ∧
      th.map Prod.fst <+: g.copyDecorators ++ g.highLevelElements ∧
      (g.read (recording B) cfg w).world.ext.2 =
        w.ext.2 ++ (g.highLevelElements.map Call.preRead ++ (g.copyDecorators.map Call.preRead ++
          (tq.map (fun q => Call.readTransfer q.1 q.2.2) ++
            th.map (fun p =>
              Call.postRead p.1 (firstSome (tq.map (fun q => q.2.1))).isNone p.2)))) ∧
      (g.read (recording B) cfg w).events.filterMap Event.latched = tq.map (fun q => q.2.1) ∧
      ((g.read (recording B) cfg w).outcome.aborted = false →
        th.map Prod.fst = g.copyDecorators ++ g.highLevelElements ∧
        (g.read (recording B) cfg w).outcome =
          readOutcome (firstSome (tq.map (fun q => q.2.1)))
            (firstBadNumericCast ((th.take g.copyDecorators.length).map Prod.snd))
            (firstBadNumericCast ((th.drop g.copyDecorators.length).map Prod.snd))) := by
  have hc1 := (checkBackends_none_iff (recording B) w g.exceptionBackends).mpr hguard.1
  have hc2 := (checkReadable_none_iff (recording B) w g.highLevelElements).mpr hguard.2
  have hq1 := isQuery_filterMap_nil Event.latched isQuery_latched _
    (checkBackends_isQuery (recording B) w g.exceptionBackends)
  have hq2 := isQuery_filterMap_nil Event.latched isQuery_latched _
    (checkReadable_isQuery (recording B) w g.highLevelElements)
  have hl1 := preReadAll_filterMap_nil Event.latched (fun _ => rfl) (recording B) cfg
    g.highLevelElements w
  have hl2 := preReadAll_filterMap_nil Event.latched (fun _ => rfl) (recording B) cfg
    g.copyDecorators (preReadAll (recording B) cfg g.highLevelElements w).world
  have e1 : g.resetExceptionFlags.exceptionBackends = g.exceptionBackends := rfl
  have e2 : g.resetExceptionFlags.highLevelElements = g.highLevelElements := rfl
  have e3 : g.resetExceptionFlags.copyDecorators = g.copyDecorators := rfl
  unfold TransferGroup.read at h1 h2 ⊢
  dsimp only at h1 h2 ⊢
  simp only [e1, e2, e3, resetExceptionFlags_leaves, hc1, hc2] at h1 h2 ⊢
  by_cases hp1 : (preReadAll (recording B) cfg g.highLevelElements w).assertFailed = true
  · exact absurd (by simp only [hp1, if_true]) h1
  simp only [hp1, Bool.false_eq_true, if_false] at h1 h2 ⊢
  by_cases hp2 : (preReadAll (recording B) cfg g.copyDecorators
      (preReadAll (recording B) cfg g.highLevelElements w).world).assertFailed = true
  · exact absurd (by simp only [hp2, if_true]) h1
  simp only [hp2, Bool.false_eq_true, if_false] at h1 h2 ⊢
  simp only [Bool.not_eq_true] at hp1 hp2
  cases ht : (transferLoop (recording B).readTransfer Event.readTransfer g.leaves
      (preReadAll (recording B) cfg g.copyDecorators
        (preReadAll (recording B) cfg g.highLevelElements w).world).world none).escaped with
  | some ex =>
    exact absurd (by simp only [ht]) (h2 ex)
  | none =>
    simp only [ht] at h1 h2 ⊢
    obtain ⟨tq, htq, hev, hlog, hfirst, hthrown, hbridge⟩ :=
      transferLoop_recorded (recording B).readTransfer Event.readTransfer Call.readTransfer
        (fun _ _ => rfl) g.leaves _ none ht
    simp only [] at hfirst
    have hlogp1 := preReadAll_recorded B cfg g.highLevelElements w hp1
    have hlogp2 := preReadAll_recorded B cfg g.copyDecorators _ hp2
    have hlat : ∀ l : List (ElemId × Option Exc × Option Exc),
        (l.map (fun q => Event.readTransfer q.1 q.2.1)).filterMap Event.latched =
          l.map (fun q => q.2.1) :=
      fun l => filterMap_map_some Event.latched _ _ l (fun _ => rfl)
    obtain ⟨th1, k1, k2, k3⟩ := runPostReads_recorded B
      (transferLoop (recording B).readTransfer Event.readTransfer g.leaves
        (preReadAll (recording B) cfg g.copyDecorators
          (preReadAll (recording B) cfg g.highLevelElements w).world).world
        none).firstDetectedRuntimeError g.copyDecorators
      (transferLoop (recording B).readTransfer Event.readTransfer g.leaves
        (preReadAll (recording B) cfg g.copyDecorators
          (preReadAll (recording B) cfg g.highLevelElements w).world).world none).world none
    have hn1 := runPostReads_filterMap_nil Event.latched (fun _ => rfl) (fun _ _ _ => rfl)
      (recording B)
      (transferLoop (recording B).readTransfer Event.readTransfer g.leaves
        (preReadAll (recording B) cfg g.copyDecorators
          (preReadAll (recording B) cfg g.highLevelElements w).world).world
        none).firstDetectedRuntimeError g.copyDecorators
      (transferLoop (recording B).readTransfer Event.readTransfer g.leaves
        (preReadAll (recording B) cfg g.copyDecorators
          (preReadAll (recording B) cfg g.highLevelElements w).world).world none).world none
    have hbridge1 : (∀ e w1, (B.readTransfer e w1).2.activeException = w1.activeException) →
        g.leaves.Nodup →
        (∀ l ∈ g.leaves,
          (g.readTransferStart (recording B) cfg w).activeException l = none) →
        ∀ q ∈ tq, q.2.1 = q.2.2 :=
      fun hT hnd hclear => hbridge (fun e w1 => hT e w1.base) hnd hclear
    by_cases hterm1 : (runPostReads (recording B)
        (transferLoop (recording B).readTransfer Event.readTransfer g.leaves
          (preReadAll (recording B) cfg g.copyDecorators
            (preReadAll (recording B) cfg g.highLevelElements w).world).world
          none).firstDetectedRuntimeError g.copyDecorators
        (transferLoop (recording B).readTransfer Event.readTransfer g.leaves
          (preReadAll (recording B) cfg g.copyDecorators
            (preReadAll (recording B) cfg g.highLevelElements w).world).world none).world
        none).terminated = true
    · simp only [hterm1, if_true]
      refine ⟨tq, th1, htq, hthrown, hbridge1, k2.trans (List.prefix_append _ _), ?_, ?_,
        fun h => by cases h⟩
      · rw [k1, hlog, hlogp2, hlogp1, hfirst]
        simp only [List.append_assoc]
      · simp only [List.filterMap_append, hq1, hq2, hl1, hl2, hn1, hev, hlat,
          List.nil_append, List.append_nil]
    · simp only [hterm1, Bool.false_eq_true, if_false]
      simp only [Bool.not_eq_true] at hterm1
      obtain ⟨k3a, k3b⟩ := k3 hterm1
      obtain ⟨th2, m1, m2, m3⟩ := runPostReads_recorded B
        (transferLoop (recording B).readTransfer Event.readTransfer g.leaves
          (preReadAll (recording B) cfg g.copyDecorators
            (preReadAll (recording B) cfg g.highLevelElements w).world).world
          none).firstDetectedRuntimeError g.highLevelElements
        (runPostReads (recording B)
          (transferLoop (recording B).readTransfer Event.readTransfer g.leaves
            (preReadAll (recording B) cfg g.copyDecorators
              (preReadAll (recording B) cfg g.highLevelElements w).world).world
            none).firstDetectedRuntimeError g.copyDecorators
          (transferLoop (recording B).readTransfer Event.readTransfer g.leaves
            (preReadAll (recording B) cfg g.copyDecorators
              (preReadAll (recording B) cfg g.highLevelElements w).world).world none).world
          none).world none
      have hn2 := runPostReads_filterMap_nil Event.latched (fun _ => rfl) (fun _ _ _ => rfl)
        (recording B)
        (transferLoop (recording B).readTransfer Event.readTransfer g.leaves
          (preReadAll (recording B) cfg g.copyDecorators
            (preReadAll (recording B) cfg g.highLevelElements w).world).world
          none).firstDetectedRuntimeError g.highLevelElements
        (runPostReads (recording B)
          (transferLoop (recording B).readTransfer Event.readTransfer g.leaves
            (preReadAll (recording B) cfg g.copyDecorators
              (preReadAll (recording B) cfg g.highLevelElements w).world).world
            none).firstDetectedRuntimeError g.copyDecorators
          (transferLoop (recording B).readTransfer Event.readTransfer g.leaves
            (preReadAll (recording B) cfg g.copyDecorators
              (preReadAll (recording B) cfg g.highLevelElements w).world).world none).world
          none).world none
      have hpre : (th1 ++ th2).map Prod.fst <+: g.copyDecorators ++ g.highLevelElements := by
        rw [List.map_append, k3a]
        exact (List.prefix_append_right_inj _).mpr m2
      have hlen : th1.length = g.copyDecorators.length := by
        rw [← k3a, List.length_map]
      by_cases hterm2 : (runPostReads (recording B)
          (transferLoop (recording B).readTransfer Event.readTransfer g.leaves
            (preReadAll (recording B) cfg g.copyDecorators
              (preReadAll (recording B) cfg g.highLevelElements w).world).world
            none).firstDetectedRuntimeError g.highLevelElements
          (runPostReads (recording B)
            (transferLoop (recording B).readTransfer Event.readTransfer g.leaves
              (preReadAll (recording B) cfg g.copyDecorators
                (preReadAll (recording B) cfg g.highLevelElements w).world).world
              none).firstDetectedRuntimeError g.copyDecorators
            (transferLoop (recording B).readTransfer Event.readTransfer g.leaves
              (preReadAll (recording B) cfg g.copyDecorators
                (preReadAll (recording B) cfg g.highLevelElements w).world).world none).world
            none).world none).terminated = true
      · simp only [hterm2, if_true]
        refine ⟨tq, th1 ++ th2, htq, hthrown, hbridge1, hpre, ?_, ?_, fun h => by cases h⟩
        · rw [m1, k1, hlog, hlogp2, hlogp1, hfirst]
          simp only [List.append_assoc, List.map_append]
        · simp only [List.filterMap_append, hq1, hq2, hl1, hl2, hn1, hn2, hev, hlat,
            List.nil_append, List.append_nil]
      · simp only [hterm2, Bool.false_eq_true, if_false]
        simp only [Bool.not_eq_true] at hterm2
        obtain ⟨m3a, m3b⟩ := m3 hterm2
        rw [readResult_eq]
        refine ⟨tq, th1 ++ th2, htq, hthrown, hbridge1, hpre, ?_, ?_, fun _ => ⟨?_, ?_⟩⟩
        · dsimp only
          rw [m1, k1, hlog, hlogp2, hlogp1, hfirst]
          simp only [List.append_assoc, List.map_append]
        · simp only [List.filterMap_append, hq1, hq2, hl1, hl2, hn1, hn2, hev, hlat,
            List.nil_append, List.append_nil]
        · rw [List.map_append, k3a, m3a]
        · dsimp only
          rw [← hlen, List.take_left, List.drop_left, k3b, m3b, hfirst]

/-- The write cycle over elements that record their calls, when the guards pass, no
assertion fails and no exception leaves a transfer.  With the exception carried after
the wrapper (`q.2.1`) and the exception thrown (`q.2.2`) of every transfer, and with
what every `postWrite` threw (`p.2`): the record grows by the pre-calls of the
high-level elements, one transfer per leaf, and the `postWrite` calls of a starting
part of the high-level elements, which is all of them when the cycle is not cut
short. -/
theorem write_recorded {X : Type} (B : Behaviour X) (cfg : Config) (g : TransferGroup)
    (v : VersionNumber) (w : World (X × List Call))
    (hguard : WriteGuardsPass (recording B) g w)
    (h1 : (g.write (recording B) cfg v w).outcome ≠ Outcome.assertFailed)
    (h2 : ∀ ex, (g.write (recording B) cfg v w).outcome ≠ Outcome.transferEscaped ex) :
    ∃ (tq : List (ElemId × Option Exc × Option Exc)) (th : List (ElemId × Option Exc)),
      tq.map (fun q => q.1) = g.leaves ∧
      (∀ q ∈ tq, ∀ ex, q.2.2 = some ex → ex.isRuntimeError = true ∧ q.2.1 = some ex) ∧
      ((∀ e w1, (B.writeTransfer e v w1).2.activeException = w1.activeException) →
        g.leaves.Nodup →
        (∀ l ∈ g.leaves,
          (g.writeTransferStart (recording B) cfg v w).activeException l = none) →
        ∀ q ∈ tq, q.2.1 = q.2.2) ∧
      th.map Prod.fst <+: g.highLevelElements ∧
      (g.write (recording B) cfg v w).world.ext.2 =
        w.ext.2 ++ (g.highLevelElements.map (fun e => Call.preWrite e v) ++
          (tq.map (fun q => Call.writeTransfer q.1 v q.2.2) ++
            th.map (fun p => Call.postWrite p.1 v p.2))) ∧
      (g.write (recording B) cfg v w).events.filterMap Event.latched =
        tq.map (fun q => q.2.1) ∧
      ((g.write (recording B) cfg v w).outcome.aborted = false →
        th.map Prod.fst = g.highLevelElements ∧
        (∀ p ∈ th, ∀ ex, p.2 = some ex → ex.isRuntimeError = true) ∧
        (g.write (recording B) cfg v w).outcome =
          (match firstSome (tq.map (fun q => q.2.1)) with
            | some ex => Outcome.rethrown ex
            | none => Outcome.returned)) := by
  have hro : g.isReadOnly = false := hguard.1
  have hc1 := (checkBackends_none_iff (recording B) w g.exceptionBackends).mpr hguard.2.1
  have hc2 := (checkReadable_none_iff (recording B) w g.highLevelElements).mpr hguard.2.2
  have hq1 := isQuery_filterMap_nil Event.latched isQuery_latched _
    (checkBackends_isQuery (recording B) w g.exceptionBackends)
  have hq2 := isQuery_filterMap_nil Event.latched isQuery_latched _
    (checkReadable_isQuery (recording B) w g.highLevelElements)
  have hl1 := preWriteAll_filterMap_nil Event.latched v (fun _ => rfl) (recording B) cfg
    g.highLevelElements w
  have e2 : g.resetExceptionFlags.highLevelElements = g.highLevelElements := rfl
  unfold TransferGroup.write at h1 h2 ⊢
  dsimp only at h1 h2 ⊢
  simp only [hro, Bool.false_eq_true, if_false, e2, resetExceptionFlags_leaves, hc1, hc2]
    at h1 h2 ⊢
  by_cases hp1 : (preWriteAll (recording B) cfg v g.highLevelElements w).assertFailed = true
  · exact absurd (by simp only [hp1, if_true]) h1
  simp only [hp1, Bool.false_eq_true, if_false] at h1 h2 ⊢
  simp only [Bool.not_eq_true] at hp1
  cases ht : (transferLoop (fun e => (recording B).writeTransfer e v)
      (fun e => Event.writeTransfer e v) g.leaves
      (preWriteAll (recording B) cfg v g.highLevelElements w).world none).escaped with
  | some ex =>
    exact absurd (by simp only [ht]) (h2 ex)
  | none =>
    simp only [ht] at h1 h2 ⊢
    obtain ⟨tq, htq, hev, hlog, hfirst, hthrown, hbridge⟩ :=
      transferLoop_recorded (fun e => (recording B).writeTransfer e v)
        (fun e => Event.writeTransfer e v) (fun e => Call.writeTransfer e v)
        (fun _ _ => rfl) g.leaves _ none ht
    simp only [] at hfirst
    have hlogp1 := preWriteAll_recorded B cfg v g.highLevelElements w hp1
    have hlat : ∀ l : List (ElemId × Option Exc × Option Exc),
        (l.map (fun q => Event.writeTransfer q.1 v q.2.1)).filterMap Event.latched =
          l.map (fun q => q.2.1) :=
      fun l => filterMap_map_some Event.latched _ _ l (fun _ => rfl)
    obtain ⟨th, k1, k2, k3⟩ := postWriteAll_recorded B v g.highLevelElements
      (transferLoop (fun e => (recording B).writeTransfer e v)
        (fun e => Event.writeTransfer e v) g.leaves
        (preWriteAll (recording B) cfg v g.highLevelElements w).world none).world
    have hn1 := postWriteAll_filterMap_nil Event.latched v (fun _ _ => rfl) (recording B)
      g.highLevelElements
      (transferLoop (fun e => (recording B).writeTransfer e v)
        (fun e => Event.writeTransfer e v) g.leaves
        (preWriteAll (recording B) cfg v g.highLevelElements w).world none).world
    have hbridge1 : (∀ e w1, (B.writeTransfer e v w1).2.activeException = w1.activeException) →
        g.leaves.Nodup →
        (∀ l ∈ g.leaves,
          (g.writeTransferStart (recording B) cfg v w).activeException l = none) →
        ∀ q ∈ tq, q.2.1 = q.2.2 :=
      fun hT hnd hclear => hbridge (fun e w1 => hT e w1.base) hnd hclear
    cases hesc : (postWriteAll (recording B) v g.highLevelElements
        (transferLoop (fun e => (recording B).writeTransfer e v)
          (fun e => Event.writeTransfer e v) g.leaves
          (preWriteAll (recording B) cfg v g.highLevelElements w).world none).world).escaped with
    | some ex =>
      simp only [hesc]
      refine ⟨tq, th, htq, hthrown, hbridge1, k2, ?_, ?_, fun h => by cases h⟩
      · rw [k1, hlog, hlogp1]
        simp only [List.append_assoc]
      · simp only [List.filterMap_append, hq1, hq2, hl1, hn1, hev, hlat,
          List.nil_append, List.append_nil]
    | none =>
      simp only [hesc]
      obtain ⟨k3a, k3b⟩ := k3 hesc
      rw [hfirst]
      cases hf : firstSome (tq.map (fun q => q.2.1)) with
      | some ex =>
        refine ⟨tq, th, htq, hthrown, hbridge1, k2, ?_, ?_, fun _ => ⟨k3a, k3b, ?_⟩⟩
        · dsimp only
          rw [k1, hlog, hlogp1]
          simp only [List.append_assoc]
        · simp only [List.filterMap_append, hq1, hq2, hl1, hn1, hev, hlat,
            List.nil_append, List.append_nil]
        · rw [hf]
      | none =>
        refine ⟨tq, th, htq, hthrown, hbridge1, k2, ?_, ?_, fun _ => ⟨k3a, k3b, ?_⟩⟩
        · dsimp only
          rw [k1, hlog, hlogp1]
          simp only [List.append_assoc]
        · simp only [List.filterMap_append, hq1, hq2, hl1, hn1, hev, hlat,
            List.nil_append, List.append_nil]
        · rw [hf]

theorem checkBackends_recording {X : Type} (B : Behaviour X) (w : World (X × List Call))
    (bs : List BackendId) : checkBackends (recording B) w bs = checkBackends B w.base bs := by
  induction bs with
  | nil => rfl
  | cons b bs ih =>
    unfold checkBackends
    rw [ih]
    rfl

theorem checkReadable_recording {X : Type} (B : Behaviour X) (w : World (X × List Call))
    (es : List ElemId) : checkReadable (recording B) w es = checkReadable B w.base es := by
  induction es with
  | nil => rfl
  | cons e es ih =>
    unfold checkReadable
    rw [ih]
    rfl

theorem preReadAll_recording {X : Type} (B : Behaviour X) (cfg : Config) (es : List ElemId) :
    ∀ w : World (X × List Call),
      (preReadAll (recording B) cfg es w).assertFailed = (preReadAll B cfg es w.base).assertFailed ∧
      (preReadAll (recording B) cfg es w).world.base = (preReadAll B cfg es w.base).world ∧
      (preReadAll (recording B) cfg es w).events = (preReadAll B cfg es w.base).events := by
  induction es with
  | nil =>
    intro w
    exact ⟨rfl, rfl, rfl⟩
  | cons e es ih =>
    intro w
    have hs : ((recording B).preReadAndHandleExceptions e w).base =
        B.preReadAndHandleExceptions e w.base := rfl
    have ha : ((recording B).preReadAndHandleExceptions e w).activeException e =
        (B.preReadAndHandleExceptions e w.base).activeException e := rfl
    obtain ⟨i1, i2, i3⟩ := ih ((recording B).preReadAndHandleExceptions e w)
    rw [hs] at i1 i2 i3
    unfold preReadAll
    rw [ha]
    split
    · exact ⟨rfl, hs, rfl⟩
    · exact ⟨i1, i2, by rw [i3]⟩

theorem preWriteAll_recording {X : Type} (B : Behaviour X) (cfg : Config) (v : VersionNumber)
    (es : List ElemId) :
    ∀ w : World (X × List Call),
      (preWriteAll (recording B) cfg v es w).assertFailed =
        (preWriteAll B cfg v es w.base).assertFailed ∧
      (preWriteAll (recording B) cfg v es w).world.base = (preWriteAll B cfg v es w.base).world ∧
      (preWriteAll (recording B) cfg v es w).events = (preWriteAll B cfg v es w.base).events := by
  induction es with
  | nil =>
    intro w
    exact ⟨rfl, rfl, rfl⟩
  | cons e es ih =>
    intro w
    have hs : ((recording B).preWriteAndHandleExceptions e v w).base =
        B.preWriteAndHandleExceptions e v w.base := rfl
    have ha : ((recording B).preWriteAndHandleExceptions e v w).activeException e =
        (B.preWriteAndHandleExceptions e v w.base).activeException e := rfl
    obtain ⟨i1, i2, i3⟩ := ih ((recording B).preWriteAndHandleExceptions e v w)
    rw [hs] at i1 i2 i3
    unfold preWriteAll
    rw [ha]
    split
    · exact ⟨rfl, hs, rfl⟩
    · exact ⟨i1, i2, by rw [i3]⟩

theorem handleTransferException_base {X : Type} (e : ElemId)
    (r : Option Exc × World (X × List Call)) :
    (handleTransferException e r).1 = (handleTransferException e (r.1, r.2.base)).1 ∧
    (handleTransferException e r).2.base = (handleTransferException e (r.1, r.2.base)).2 := by
  unfold handleTransferException
  cases r.1 with
  | none => exact ⟨rfl, rfl⟩
  | some ex =>
    cases h : ex.isRuntimeError
    · simp only [h, Bool.false_eq_true, if_false, and_self]
    · simp only [h, if_true, true_and]
      rfl

theorem transferLoop_recording {X : Type}
    (transfer : ElemId → World (X × List Call) → Option Exc × World (X × List Call))
    (plain : ElemId → World X → Option Exc × World X)
    (call : ElemId → Option Exc → Event)
    (hs : ∀ e w, ((transfer e w).1, (transfer e w).2.base) = plain e w.base)
    (es : List ElemId) :
    ∀ (w : World (X × List Call)) (first : Option Exc),
      (transferLoop transfer call es w first).escaped =
        (transferLoop plain call es w.base first).escaped ∧
      (transferLoop transfer call es w first).world.base =
        (transferLoop plain call es w.base first).world ∧
      (transferLoop transfer call es w first).events =
        (transferLoop plain call es w.base first).events ∧
      (transferLoop transfer call es w first).firstDetectedRuntimeError =
        (transferLoop plain call es w.base first).firstDetectedRuntimeError := by
  induction es with
  | nil =>
    intro w first
    exact ⟨rfl, rfl, rfl, rfl⟩
  | cons e es ih =>
    intro w first
    obtain ⟨b1, b2⟩ := handleTransferException_base e (transfer e w)
    rw [hs e w] at b1 b2
    have ha : (handleTransferException e (transfer e w)).2.activeException e =
        (handleTransferException e (plain e w.base)).2.activeException e := by
      rw [← b2]
      rfl
    unfold transferLoop
    dsimp only
    rw [b1, ha]
    cases hesc : (handleTransferException e (plain e w.base)).1 with
    | some ex =>
      dsimp only
      exact ⟨rfl, b2, rfl, rfl⟩
    | none =>
      dsimp only
      obtain ⟨i1, i2, i3, i4⟩ := ih (handleTransferException e (transfer e w)).2
        (if ((handleTransferException e (plain e w.base)).2.activeException e).isSome &&
            first.isNone then (handleTransferException e (plain e w.base)).2.activeException e
          else first)
      rw [b2] at i1 i2 i3 i4
      exact ⟨i1, i2, by rw [i3], i4⟩

theorem lowLevelElementException_base {X : Type} (w : World (X × List Call))
    (ls : List ElemId) :
    ∀ acc : Option Exc,
      lowLevelElementException w ls acc = lowLevelElementException w.base ls acc := by
  induction ls with
  | nil =>
    intro acc
    rfl
  | cons l ls ih =>
    intro acc
    unfold lowLevelElementException
    rw [ih, ih]
    rfl

theorem runPostReads_recording {X : Type} (B : Behaviour X) (fd : Option Exc)
    (es : List ElemId) :
    ∀ (w : World (X × List Call)) (bnc : Option Exc),
      (runPostReads (recording B) fd es w bnc).terminated =
        (runPostReads B fd es w.base bnc).terminated ∧
      (runPostReads (recording B) fd es w bnc).world.base =
        (runPostReads B fd es w.base bnc).world ∧
      (runPostReads (recording B) fd es w bnc).events =
        (runPostReads B fd es w.base bnc).events ∧
      (runPostReads (recording B) fd es w bnc).badNumericCast =
        (runPostReads B fd es w.base bnc).badNumericCast := by
  induction es with
  | nil =>
    intro w bnc
    exact ⟨rfl, rfl, rfl, rfl⟩
  | cons e es ih =>
    intro w bnc
    have h1 : ((recording B).postRead e fd.isNone (w.setActiveException e
        (lowLevelElementException w ((recording B).getHardwareAccessingElements e w) none))).1 =
        (B.postRead e fd.isNone (w.base.setActiveException e
          (lowLevelElementException w.base (B.getHardwareAccessingElements e w.base) none))).1 := by
      rw [← lowLevelElementException_base]
      rfl
    have h2 : ((recording B).postRead e fd.isNone (w.setActiveException e
        (lowLevelElementException w ((recording B).getHardwareAccessingElements e w)
          none))).2.base =
        (B.postRead e fd.isNone (w.base.setActiveException e
          (lowLevelElementException w.base (B.getHardwareAccessingElements e w.base) none))).2 := by
      rw [← lowLevelElementException_base]
      rfl
    unfold runPostReads
    dsimp only
    rw [h1]
    split
    · obtain ⟨i1, i2, i3, i4⟩ := ih ((recording B).postRead e fd.isNone
        (w.setActiveException e (lowLevelElementException w
          ((recording B).getHardwareAccessingElements e w) none))).2 bnc
      rw [h2] at i1 i2 i3 i4
      exact ⟨i1, i2, by rw [i3], i4⟩
    · obtain ⟨i1, i2, i3, i4⟩ := ih ((recording B).postRead e fd.isNone
        (w.setActiveException e (lowLevelElementException w
          ((recording B).getHardwareAccessingElements e w) none))).2 bnc
      rw [h2] at i1 i2 i3 i4
      exact ⟨i1, i2, by rw [i3], i4⟩
    · rename_i m hth
      obtain ⟨i1, i2, i3, i4⟩ := ih ((recording B).postRead e fd.isNone
        (w.setActiveException e (lowLevelElementException w
          ((recording B).getHardwareAccessingElements e w) none))).2
        (if bnc.isNone then some (Exc.bad_numeric_cast m) else bnc)
      rw [h2] at i1 i2 i3 i4
      exact ⟨i1, i2, by rw [i3], i4⟩
    · exact ⟨rfl, h2, rfl, rfl⟩

theorem postWriteAll_recording {X : Type} (B : Behaviour X) (v : VersionNumber)
    (es : List ElemId) :
    ∀ w : World (X × List Call),
      (postWriteAll (recording B) v es w).escaped = (postWriteAll B v es w.base).escaped ∧
      (postWriteAll (recording B) v es w).world.base = (postWriteAll B v es w.base).world ∧
      (postWriteAll (recording B) v es w).events = (postWriteAll B v es w.base).events := by
  induction es with
  | nil =>
    intro w
    exact ⟨rfl, rfl, rfl⟩
  | cons e es ih =>
    intro w
    have h1 : ((recording B).postWrite e v w).1 = (B.postWrite e v w.base).1 := rfl
    have h2 : ((recording B).postWrite e v w).2.base = (B.postWrite e v w.base).2 := rfl
    obtain ⟨i1, i2, i3⟩ := ih ((recording B).postWrite e v w).2
    rw [h2] at i1 i2 i3
    unfold postWriteAll
    rw [h1]
    split
    · exact ⟨i1, i2, by rw [i3]⟩
    · exact ⟨i1, i2, by rw [i3]⟩
    · exact ⟨rfl, h2, rfl⟩

/-- The record does not change the cycle: `read` over the elements of `B` that record
their calls ends as `read` over the elements of `B`, with the same calls seen by the
group and the same state of the elements. -/
theorem read_recording {X : Type} (B : Behaviour X) (cfg : Config) (g : TransferGroup)
    (w : World (X × List Call)) :
    (g.read (recording B) cfg w).outcome = (g.read B cfg w.base).outcome ∧
    (g.read (recording B) cfg w).events = (g.read B cfg w.base).events ∧
    (g.read (recording B) cfg w).world.base = (g.read B cfg w.base).world := by
  obtain ⟨a1, a2, a3⟩ := preReadAll_recording B cfg g.resetExceptionFlags.highLevelElements w
  obtain ⟨b1, b2, b3⟩ := preReadAll_recording B cfg g.resetExceptionFlags.copyDecorators
    (preReadAll (recording B) cfg g.resetExceptionFlags.highLevelElements w).world
  rw [a2] at b1 b2 b3
  obtain ⟨t1, t2, t3, t4⟩ := transferLoop_recording (recording B).readTransfer B.readTransfer
    Event.readTransfer (fun _ _ => rfl) g.resetExceptionFlags.leaves
    (preReadAll (recording B) cfg g.resetExceptionFlags.copyDecorators
      (preReadAll (recording B) cfg g.resetExceptionFlags.highLevelElements w).world).world none
  rw [b2] at t1 t2 t3 t4
  obtain ⟨q1, q2, q3, q4⟩ := runPostReads_recording B
    (transferLoop (recording B).readTransfer Event.readTransfer g.resetExceptionFlags.leaves
      (preReadAll (recording B) cfg g.resetExceptionFlags.copyDecorators
        (preReadAll (recording B) cfg g.resetExceptionFlags.highLevelElements w).world).world
      none).firstDetectedRuntimeError g.resetExceptionFlags.copyDecorators
    (transferLoop (recording B).readTransfer Event.readTransfer g.resetExceptionFlags.leaves
      (preReadAll (recording B) cfg g.resetExceptionFlags.copyDecorators
        (preReadAll (recording B) cfg g.resetExceptionFlags.highLevelElements w).world).world
      none).world none
  rw [t2, t4] at q1 q2 q3 q4
  obtain ⟨r1, r2, r3, r4⟩ := runPostReads_recording B
    (transferLoop B.readTransfer Event.readTransfer g.resetExceptionFlags.leaves
      (preReadAll B cfg g.resetExceptionFlags.copyDecorators
        (preReadAll B cfg g.resetExceptionFlags.highLevelElements w.base).world).world
      none).firstDetectedRuntimeError g.resetExceptionFlags.highLevelElements
    (runPostReads (recording B)
      (transferLoop B.readTransfer Event.readTransfer g.resetExceptionFlags.leaves
        (preReadAll B cfg g.resetExceptionFlags.copyDecorators
          (preReadAll B cfg g.resetExceptionFlags.highLevelElements w.base).world).world
        none).firstDetectedRuntimeError g.resetExceptionFlags.copyDecorators
      (transferLoop (recording B).readTransfer Event.readTransfer g.resetExceptionFlags.leaves
        (preReadAll (recording B) cfg g.resetExceptionFlags.copyDecorators
          (preReadAll (recording B) cfg g.resetExceptionFlags.highLevelElements w).world).world
        none).world none).world none
  rw [q2] at r1 r2 r3 r4
  unfold TransferGroup.read
  dsimp only
  rw [checkBackends_recording, checkReadable_recording, a1, a3, b1, b3, t1, t3, t4, q1, q3, q4,
    r1, r3, r4]
  repeat' split
  all_goals first
    | exact ⟨rfl, rfl, rfl⟩
    | exact ⟨rfl, rfl, a2⟩
    | exact ⟨rfl, rfl, b2⟩
    | exact ⟨rfl, rfl, t2⟩
    | exact ⟨rfl, rfl, q2⟩
    | exact ⟨rfl, rfl, r2⟩

/-- The record does not change the cycle: `write` over the elements of `B` that record
their calls ends as `write` over the elements of `B`, with the same calls seen by the
group and the same state of the elements. -/
theorem write_recording {X : Type} (B : Behaviour X) (cfg : Config) (g : TransferGroup)
    (v : VersionNumber) (w : World (X × List Call)) :
    (g.write (recording B) cfg v w).outcome = (g.write B cfg v w.base).outcome ∧
    (g.write (recording B) cfg v w).events = (g.write B cfg v w.base).events ∧
    (g.write (recording B) cfg v w).world.base = (g.write B cfg v w.base).world := by
  obtain ⟨a1, a2, a3⟩ := preWriteAll_recording B cfg v g.resetExceptionFlags.highLevelElements w
  obtain ⟨t1, t2, t3, t4⟩ := transferLoop_recording (fun e => (recording B).writeTransfer e v)
    (fun e => B.writeTransfer e v) (fun e => Event.writeTransfer e v) (fun _ _ => rfl)
    g.resetExceptionFlags.leaves
    (preWriteAll (recording B) cfg v g.resetExceptionFlags.highLevelElements w).world none
  rw [a2] at t1 t2 t3 t4
  obtain ⟨q1, q2, q3⟩ := postWriteAll_recording B v g.resetExceptionFlags.highLevelElements
    (transferLoop (fun e => (recording B).writeTransfer e v)
      (fun e => Event.writeTransfer e v) g.resetExceptionFlags.leaves
      (preWriteAll (recording B) cfg v g.resetExceptionFlags.highLevelElements w).world
      none).world
  rw [t2] at q1 q2 q3
  unfold TransferGroup.write
  dsimp only
  rw [checkBackends_recording, checkReadable_recording, a1, a3, t1, t3, t4, q1, q3]
  repeat' split
  all_goals first
    | exact ⟨rfl, rfl, rfl⟩
    | exact ⟨rfl, rfl, a2⟩
    | exact ⟨rfl, rfl, t2⟩
    | exact ⟨rfl, rfl, q2⟩

/-- The calls recorded by the elements during a read cycle that passes the guards and
reaches the end of its loop of transfers, with the exception carried after the
wrapper (`q.2.1`) and the exception thrown (`q.2.2`) of every transfer, and with what
every `postRead` threw (`p.2`). -/
theorem readCalls_spec {X : Type} (B : Behaviour X) (cfg : Config) (g : TransferGroup)
    (w : World X) (hguard : ReadGuardsPass B g w)
    (h1 : (g.read B cfg w).outcome ≠ Outcome.assertFailed)
    (h2 : ∀ ex, (g.read B cfg w).outcome ≠ Outcome.transferEscaped ex) :
    ∃ (tq : List (ElemId × Option Exc × Option Exc)) (th : List (ElemId × Option Exc)),
      tq.map (fun q => q.1) = g.leaves ∧
      (∀ q ∈ tq, ∀ ex, q.2.2 = some ex → ex.isRuntimeError = true ∧ q.2.1 = some ex) ∧
      ((∀ e w1, (B.readTransfer e w1).2.activeException = w1.activeException) →
        g.leaves.Nodup →
        (∀ l ∈ g.leaves, (g.readTransferStart B cfg w).activeException l = none) →
        ∀ q ∈ tq, q.2.1 = q.2.2) ∧
      th.map Prod.fst <+: g.copyDecorators ++ g.highLevelElements ∧
      readCalls B cfg g w =
        g.highLevelElements.map Call.preRead ++ (g.copyDecorators.map Call.preRead ++
          (tq.map (fun q => Call.readTransfer q.1 q.2.2) ++
            th.map (fun p =>
              Call.postRead p.1 (firstSome (tq.map (fun q => q.2.1))).isNone p.2))) ∧
      (g.read B cfg w).events.filterMap Event.latched = tq.map (fun q => q.2.1) ∧
      ((g.read B cfg w).outcome.aborted = false →
        th.map Prod.fst = g.copyDecorators ++ g.highLevelElements ∧
        (g.read B cfg w).outcome =
          readOutcome (firstSome (tq.map (fun q => q.2.1)))
            (firstBadNumericCast ((th.take g.copyDecorators.length).map Prod.snd))
            (firstBadNumericCast ((th.drop g.copyDecorators.length).map Prod.snd))) := by
  obtain ⟨s1, s2, _⟩ := read_recording B cfg g (w.withCalls [])
  have hb : (w.withCalls ([] : List Call)).base = w := rfl
  rw [hb] at s1 s2
  have hstart : (g.readTransferStart (recording B) cfg (w.withCalls [])).activeException =
      (g.readTransferStart B cfg w).activeException := by
    unfold TransferGroup.readTransferStart
    obtain ⟨_, a2, _⟩ := preReadAll_recording B cfg g.highLevelElements (w.withCalls [])
    obtain ⟨_, b2, _⟩ := preReadAll_recording B cfg g.copyDecorators
      (preReadAll (recording B) cfg g.highLevelElements (w.withCalls [])).world
    rw [a2, hb] at b2
    rw [← b2]
    rfl
  obtain ⟨tq, th, r1, r2, r3, r4, r5, r6, r7⟩ := read_recorded B cfg g (w.withCalls []) hguard
    (by rw [s1]; exact h1) (by rw [s1]; exact h2)
  rw [s2] at r6
  rw [s1] at r7
  rw [hstart] at r3
  refine ⟨tq, th, r1, r2, r3, r4, ?_, r6, r7⟩
  unfold readCalls World.calls
  rw [r5]
  rfl

/-- The calls recorded by the elements during a write cycle that passes the guards and
reaches the end of its loop of transfers, with the exception carried after the
wrapper (`q.2.1`) and the exception thrown (`q.2.2`) of every transfer, and with what
every `postWrite` threw (`p.2`). -/
theorem writeCalls_spec {X : Type} (B : Behaviour X) (cfg : Config) (g : TransferGroup)
    (v : VersionNumber) (w : World X) (hguard : WriteGuardsPass B g w)
    (h1 : (g.write B cfg v w).outcome ≠ Outcome.assertFailed)
    (h2 : ∀ ex, (g.write B cfg v w).outcome ≠ Outcome.transferEscaped ex) :
    ∃ (tq : List (ElemId × Option Exc × Option Exc)) (th : List (ElemId × Option Exc)),
      tq.map (fun q => q.1) = g.leaves ∧
      (∀ q ∈ tq, ∀ ex, q.2.2 = some ex → ex.isRuntimeError = true ∧ q.2.1 = some ex) ∧
      ((∀ e w1, (B.writeTransfer e v w1).2.activeException = w1.activeException) →
        g.leaves.Nodup →
        (∀ l ∈ g.leaves, (g.writeTransferStart B cfg v w).activeException l = none) →
        ∀ q ∈ tq, q.2.1 = q.2.2) ∧
      th.map Prod.fst <+: g.highLevelElements ∧
      writeCalls B cfg g v w =
        g.highLevelElements.map (fun e => Call.preWrite e v) ++
          (tq.map (fun q => Call.writeTransfer q.1 v q.2.2) ++
            th.map (fun p => Call.postWrite p.1 v p.2)) ∧
      (g.write B cfg v w).events.filterMap Event.latched = tq.map (fun q => q.2.1) ∧
      ((g.write B cfg v w).outcome.aborted = false →
        th.map Prod.fst = g.highLevelElements ∧
        (∀ p ∈ th, ∀ ex, p.2 = some ex → ex.isRuntimeError = true) ∧
        (g.write B cfg v w).outcome =
          (match firstSome (tq.map (fun q => q.2.1)) with
            | some ex => Outcome.rethrown ex
            | none => Outcome.returned)) := by
  obtain ⟨s1, s2, _⟩ := write_recording B cfg g v (w.withCalls [])
  have hb : (w.withCalls ([] : List Call)).base = w := rfl
  rw [hb] at s1 s2
  have hstart : (g.writeTransferStart (recording B) cfg v (w.withCalls [])).activeException =
      (g.writeTransferStart B cfg v w).activeException := by
    unfold TransferGroup.writeTransferStart
    obtain ⟨_, a2, _⟩ := preWriteAll_recording B cfg v g.highLevelElements (w.withCalls [])
    rw [hb] at a2
    rw [← a2]
    rfl
  obtain ⟨tq, th, r1, r2, r3, r4, r5, r6, r7⟩ := write_recorded B cfg g v (w.withCalls [])
    hguard (by rw [s1]; exact h1) (by rw [s1]; exact h2)
  rw [s2] at r6
  rw [s1] at r7
  rw [hstart] at r3
  refine ⟨tq, th, r1, r2, r3, r4, ?_, r6, r7⟩
  unfold writeCalls World.calls
  rw [r5]
  rfl

theorem readLog_filters (calls : List Call) (A C : List ElemId)
    (tq : List (ElemId × Option Exc × Option Exc)) (th : List (ElemId × Option Exc)) (u : Bool)
    (h : calls = A.map Call.preRead ++ (C.map Call.preRead ++
      (tq.map (fun q => Call.readTransfer q.1 q.2.2) ++
        th.map (fun p => Call.postRead p.1 u p.2)))) :
    calls.filterMap Call.preReadCall = A ++ C ∧
    calls.filterMap Call.readTransferCall = tq.map (fun q => q.1) ∧
    calls.filterMap Call.transferThrown = tq.map (fun q => q.2.2) ∧
    calls.filterMap Call.postReadCall = th.map (fun p => (p.1, u)) ∧
    calls.filterMap Call.postReadThrown = th.map Prod.snd := by
  subst h
  refine ⟨?_, ?_, ?_, ?_, ?_⟩
  · simp only [List.filterMap_append, List.filterMap_map, Function.comp_def,
      Call.preReadCall, filterMap_fun_none, filterMap_fun_some_self, List.append_nil]
  · simp only [List.filterMap_append, List.filterMap_map, Function.comp_def,
      Call.readTransferCall, filterMap_fun_none, filterMap_fun_some, List.append_nil,
      List.nil_append]
  · simp only [List.filterMap_append, List.filterMap_map, Function.comp_def,
      Call.transferThrown, filterMap_fun_none, filterMap_fun_some, List.append_nil,
      List.nil_append]
  · simp only [List.filterMap_append, List.filterMap_map, Function.comp_def,
      Call.postReadCall, filterMap_fun_none, filterMap_fun_some, List.append_nil,
      List.nil_append]
  · simp only [List.filterMap_append, List.filterMap_map, Function.comp_def,
      Call.postReadThrown, filterMap_fun_none, filterMap_fun_some, List.append_nil,
      List.nil_append]

theorem writeLog_filters (calls : List Call) (A : List ElemId) (v : VersionNumber)
    (tq : List (ElemId × Option Exc × Option Exc)) (th : List (ElemId × Option Exc))
    (h : calls = A.map (fun e => Call.preWrite e v) ++
      (tq.map (fun q => Call.writeTransfer q.1 v q.2.2) ++
        th.map (fun p => Call.postWrite p.1 v p.2))) :
    calls.filterMap Call.preWriteCall = A.map (fun e => (e, v)) ∧
    calls.filterMap Call.writeTransferCall = tq.map (fun q => (q.1, v)) ∧
    calls.filterMap Call.transferThrown = tq.map (fun q => q.2.2) ∧
    calls.filterMap Call.postWriteCall = th.map (fun p => (p.1, v)) ∧
    calls.filterMap Call.postWriteThrown = th.map Prod.snd := by
  subst h
  refine ⟨?_, ?_, ?_, ?_, ?_⟩
  · simp only [List.filterMap_append, List.filterMap_map, Function.comp_def,
      Call.preWriteCall, filterMap_fun_none, filterMap_fun_some, List.append_nil]
  · simp only [List.filterMap_append, List.filterMap_map, Function.comp_def,
      Call.writeTransferCall, filterMap_fun_none, filterMap_fun_some, List.append_nil,
      List.nil_append]
  · simp only [List.filterMap_append, List.filterMap_map, Function.comp_def,
      Call.transferThrown, filterMap_fun_none, filterMap_fun_some, List.append_nil,
      List.nil_append]
  · simp only [List.filterMap_append, List.filterMap_map, Function.comp_def,
      Call.postWriteCall, filterMap_fun_none, filterMap_fun_some, List.append_nil,
      List.nil_append]
  · simp only [List.filterMap_append, List.filterMap_map, Function.comp_def,
      Call.postWriteThrown, filterMap_fun_none, filterMap_fun_some, List.append_nil,
      List.nil_append]

theorem not_cutInTransfers_cases (o : Outcome) (h : o.cutInTransfers = false) :
    o ≠ Outcome.assertFailed ∧ ∀ ex, o ≠ Outcome.transferEscaped ex := by
  constructor
  · intro ho
    rw [ho] at h
    cases h
  · intro ex ho
    rw [ho] at h
    cases h

theorem not_aborted_not_cut (o : Outcome) (h : o.aborted = false) : o.cutInTransfers = false := by
  cases o <;> first | rfl | cases h

theorem completed_not_aborted (o : Outcome) (h : o.completed = true) : o.aborted = false := by
  cases o <;> first | rfl | cases h

theorem completed_not_guardFailed (o : Outcome) (h : o.completed = true) :
    ¬ ∃ ex, o = Outcome.guardFailed ex := by
  rintro ⟨ex, hex⟩
  rw [hex] at h
  cases h

/-! The claims. -/

/-- C1: when the high-level implementation of the accessor already has its
in-transfer-group flag set, `addAccessor` raises `logic_error` and mutates nothing:
the abstractor still holds the same implementation, and the whole system is as
before, that is every field of the group called, every field of every other group
(among them the one the accessor belongs to) and the state of every element. -/
theorem addAccessor_already_in_group {X : Type} (B : Behaviour X) (s : System X) (gid : Nat)
    (impl : ElemId) (h : s.world.isInTransferGroup impl = true) :
    s.addAccessor B gid impl =
      (Outcome.guardFailed (Exc.logic_error
        "The given accessor is already in a TransferGroup and cannot be added to another."),
        impl, s) := by
  unfold System.addAccessor TransferGroup.addAccessor
  simp only [h, if_true]
  rw [system_update_self]

/-- Witness for C1: register 1 is added to group 0 and then offered to group 1. -/
theorem addAccessor_already_in_group_witness :
    (System.addAccessor plainBehaviour ⟨fun _ => TransferGroup.empty, World.initial⟩ 0 1).1
        = Outcome.returned ∧
      System.addAccessor plainBehaviour
        (System.addAccessor plainBehaviour ⟨fun _ => TransferGroup.empty, World.initial⟩ 0 1).2.2
        1 1 =
      (Outcome.guardFailed (Exc.logic_error
        "The given accessor is already in a TransferGroup and cannot be added to another."),
        1, (System.addAccessor plainBehaviour ⟨fun _ => TransferGroup.empty, World.initial⟩ 0
          1).2.2) :=
  ⟨by decide, addAccessor_already_in_group plainBehaviour _ 1 1 (by decide)⟩

/-- C2: when the access mode flags of the accessor contain `wait_for_new_data`,
`addAccessor` raises `logic_error`, every field of the group is as before, the
abstractor holds the same implementation and no element changed; in particular the
in-transfer-group flag of the accessor is what it was. -/
theorem addAccessor_wait_for_new_data {X : Type} (B : Behaviour X) (g : TransferGroup)
    (impl : ElemId) (w : World X) (h : B.hasWaitForNewData impl w = true) :
    (∃ what, (g.addAccessor B impl w).outcome = Outcome.guardFailed (Exc.logic_error what)) ∧
      (g.addAccessor B impl w).group = g ∧
      (g.addAccessor B impl w).impl = impl ∧
      (g.addAccessor B impl w).world = w ∧
      (g.addAccessor B impl w).world.isInTransferGroup impl = w.isInTransferGroup impl := by
  unfold TransferGroup.addAccessor
  by_cases hf : w.isInTransferGroup impl = true
  · rw [if_pos hf]
    exact ⟨⟨_, rfl⟩, rfl, rfl, rfl, rfl⟩
  · rw [if_neg hf, if_pos h]
    exact ⟨⟨_, rfl⟩, rfl, rfl, rfl, rfl⟩

/-- Witness for C2: register 2 has `wait_for_new_data` and is offered to a group that
already holds registers 1 and 3. -/
theorem addAccessor_wait_for_new_data_witness :
    (∃ what, (TransferGroup.addAccessor (exampleBehaviour (fun e => [e]) [] [] [] [2])
        plainGroup 2 World.initial).outcome = Outcome.guardFailed (Exc.logic_error what)) ∧
      (TransferGroup.addAccessor (exampleBehaviour (fun e => [e]) [] [] [] [2])
        plainGroup 2 World.initial).group = plainGroup ∧
      (TransferGroup.addAccessor (exampleBehaviour (fun e => [e]) [] [] [] [2])
        plainGroup 2 World.initial).impl = 2 ∧
      (TransferGroup.addAccessor (exampleBehaviour (fun e => [e]) [] [] [] [2])
        plainGroup 2 World.initial).world = World.initial ∧
      (TransferGroup.addAccessor (exampleBehaviour (fun e => [e]) [] [] [] [2])
        plainGroup 2 World.initial).world.isInTransferGroup 2 = World.initial.isInTransferGroup 2 :=
  addAccessor_wait_for_new_data (exampleBehaviour (fun e => [e]) [] [] [] [2]) plainGroup 2
    World.initial (by decide)

/-- C3: once a read-only accessor has been added to a group with success, then after
any further operations on the group and its elements, `write` raises `logic_error`
before doing anything else: it makes no call on any element or backend (no
`preWrite`, `writeTransfer` or `postWrite`, no backend query), and the group and the
elements are as they were. -/
theorem write_read_only_group {X : Type} (B : Behaviour X) (cfg : Config) (g : TransferGroup)
    (impl : ElemId) (w : World X) (ops : List (Op X)) (v : VersionNumber)
    (hadd : (g.addAccessor B impl w).outcome = Outcome.returned)
    (hro : B.isReadOnly (g.addAccessor B impl w).impl (g.addAccessor B impl w).world = true) :
    ((GroupState.run B cfg ⟨(g.addAccessor B impl w).group, (g.addAccessor B impl w).world⟩
        ops).group.write B cfg v
        (GroupState.run B cfg ⟨(g.addAccessor B impl w).group, (g.addAccessor B impl w).world⟩
          ops).world) =
      ⟨Outcome.guardFailed
        (Exc.logic_error "TransferGroup::write() called, but the TransferGroup is read-only."),
        (GroupState.run B cfg ⟨(g.addAccessor B impl w).group, (g.addAccessor B impl w).world⟩
          ops).group,
        (GroupState.run B cfg ⟨(g.addAccessor B impl w).group, (g.addAccessor B impl w).world⟩
          ops).world, []⟩ := by
  have h0 : (g.addAccessor B impl w).group.readOnly = true := by
    revert hadd hro
    unfold TransferGroup.addAccessor
    split
    · intro hadd; cases hadd
    · split
      · intro hadd; cases hadd
      · intro _ hro
        simp only [] at hro ⊢
        simp [hro]
  have h1 := run_readOnly_mono B cfg ops
    ⟨(g.addAccessor B impl w).group, (g.addAccessor B impl w).world⟩ h0
  unfold TransferGroup.write TransferGroup.isReadOnly
  simp only [h1, if_true]

/-- Witness for C3: the read-only register 2 is added to an empty group, then the
plain register 1 is added and the group is read. -/
theorem write_read_only_group_witness :
    ((GroupState.run (exampleBehaviour (fun e => [e]) [] [] [2] []) ⟨true⟩
        ⟨(TransferGroup.addAccessor (exampleBehaviour (fun e => [e]) [] [] [2] [])
            TransferGroup.empty 2 World.initial).group,
          (TransferGroup.addAccessor (exampleBehaviour (fun e => [e]) [] [] [2] [])
            TransferGroup.empty 2 World.initial).world⟩
        [Op.addAccessor 1, Op.read]).group.write (exampleBehaviour (fun e => [e]) [] [] [2] [])
        ⟨true⟩ 7
        (GroupState.run (exampleBehaviour (fun e => [e]) [] [] [2] []) ⟨true⟩
          ⟨(TransferGroup.addAccessor (exampleBehaviour (fun e => [e]) [] [] [2] [])
              TransferGroup.empty 2 World.initial).group,
            (TransferGroup.addAccessor (exampleBehaviour (fun e => [e]) [] [] [2] [])
              TransferGroup.empty 2 World.initial).world⟩
          [Op.addAccessor 1, Op.read]).world) =
      ⟨Outcome.guardFailed
        (Exc.logic_error "TransferGroup::write() called, but the TransferGroup is read-only."),
        (GroupState.run (exampleBehaviour (fun e => [e]) [] [] [2] []) ⟨true⟩
          ⟨(TransferGroup.addAccessor (exampleBehaviour (fun e => [e]) [] [] [2] [])
              TransferGroup.empty 2 World.initial).group,
            (TransferGroup.addAccessor (exampleBehaviour (fun e => [e]) [] [] [2] [])
              TransferGroup.empty 2 World.initial).world⟩
          [Op.addAccessor 1, Op.read]).group,
        (GroupState.run (exampleBehaviour (fun e => [e]) [] [] [2] []) ⟨true⟩
          ⟨(TransferGroup.addAccessor (exampleBehaviour (fun e => [e]) [] [] [2] [])
              TransferGroup.empty 2 World.initial).group,
            (TransferGroup.addAccessor (exampleBehaviour (fun e => [e]) [] [] [2] [])
              TransferGroup.empty 2 World.initial).world⟩
          [Op.addAccessor 1, Op.read]).world, []⟩ :=
  write_read_only_group (exampleBehaviour (fun e => [e]) [] [] [2] []) ⟨true⟩
    TransferGroup.empty 2 World.initial [Op.addAccessor 1, Op.read] 7 (by decide) (by decide)


/-- C4, counterexample: the registers 1, 2 and 3 form a group whose guards pass, with
the leaves 1, 2 and 3.  When the transfer of register 2 throws
`boost::thread_interrupted`, which the wrapper does not keep, `read` and `write` end
with that exception and register 3 is never transferred.  When, with `assert`
compiled in, the pre-call of register 1 leaves an exception behind, the cycle ends in
the failed assertion and no register is transferred. -/
theorem transfers_cut_short :
    ReadGuardsPass interruptedBehaviour plainGroup World.initial ∧
    WriteGuardsPass interruptedBehaviour plainGroup World.initial ∧
    plainGroup.leaves = [1, 2, 3] ∧
    (plainGroup.read interruptedBehaviour ⟨true⟩ World.initial).outcome =
      Outcome.transferEscaped Exc.thread_interrupted ∧
    (readCalls interruptedBehaviour ⟨true⟩ plainGroup World.initial).filterMap
      Call.readTransferCall = [1, 2] ∧
    (plainGroup.write interruptedBehaviour ⟨true⟩ 7 World.initial).outcome =
      Outcome.transferEscaped Exc.thread_interrupted ∧
    (writeCalls interruptedBehaviour ⟨true⟩ plainGroup 7 World.initial).filterMap
      Call.writeTransferCall = [(1, 7), (2, 7)] ∧
    ReadGuardsPass preFailBehaviour plainGroup World.initial ∧
    WriteGuardsPass preFailBehaviour plainGroup World.initial ∧
    (plainGroup.read preFailBehaviour ⟨true⟩ World.initial).outcome = Outcome.assertFailed ∧
    (readCalls preFailBehaviour ⟨true⟩ plainGroup World.initial).filterMap
      Call.readTransferCall = [] ∧
    (plainGroup.write preFailBehaviour ⟨true⟩ 7 World.initial).outcome = Outcome.assertFailed ∧
    (writeCalls preFailBehaviour ⟨true⟩ plainGroup 7 World.initial).filterMap
      Call.writeTransferCall = [] := by
  decide

/-- C4, amended: a runtime error of a transfer never leaves `read` or `write` from the
loop of transfers.  In a read cycle that passes the guards and reaches the end of its
loop of transfers (no assertion fails after a pre-call and no exception other than a
runtime error leaves a transfer), the `readTransfer` calls that the elements record
are exactly the leaves of the group, in iteration order: one call on each leaf, none
on any other element.  The same holds for `writeTransfer` in a write cycle.  Leaves
whose transfer fails with a runtime error and leaves shared by several accessors make
no difference. -/
theorem transfer_once_per_leaf {X : Type} (B : Behaviour X) (cfg : Config) (g : TransferGroup)
    (v : VersionNumber) (w : World X) (hL : g.leaves.Nodup) :
    (∀ ex, (g.read B cfg w).outcome = Outcome.transferEscaped ex → ex.isRuntimeError = false) ∧
    (∀ ex, (g.write B cfg v w).outcome = Outcome.transferEscaped ex →
      ex.isRuntimeError = false) ∧
    (ReadGuardsPass B g w → (g.read B cfg w).outcome.cutInTransfers = false →
      (readCalls B cfg g w).filterMap Call.readTransferCall = g.leaves ∧
      ∀ e : ElemId, ((readCalls B cfg g w).filterMap Call.readTransferCall).count e =
        if e ∈ g.leaves then 1 else 0) ∧
    (WriteGuardsPass B g w → (g.write B cfg v w).outcome.cutInTransfers = false →
      (writeCalls B cfg g v w).filterMap Call.writeTransferCall =
        g.leaves.map (fun e => (e, v)) ∧
      ∀ e : ElemId,
        (((writeCalls B cfg g v w).filterMap Call.writeTransferCall).map Prod.fst).count e =
          if e ∈ g.leaves then 1 else 0) := by
  refine ⟨fun ex h => read_transferEscaped_not_runtime B cfg g w ex h,
    fun ex h => write_transferEscaped_not_runtime B cfg g v w ex h, ?_, ?_⟩
  · intro hguard hrun
    obtain ⟨h1, h2⟩ := not_cutInTransfers_cases _ hrun
    obtain ⟨tq, th, r1, _, _, _, r5, _, _⟩ := readCalls_spec B cfg g w hguard h1 h2
    obtain ⟨_, f2, _, _, _⟩ := readLog_filters _ _ _ _ _ _ r5
    have ht : (readCalls B cfg g w).filterMap Call.readTransferCall = g.leaves := by
      rw [f2, r1]
    refine ⟨ht, fun e => ?_⟩
    rw [ht]
    exact List.count_eq_of_nodup hL
  · intro hguard hrun
    obtain ⟨h1, h2⟩ := not_cutInTransfers_cases _ hrun
    obtain ⟨tq, th, r1, _, _, _, r5, _, _⟩ := writeCalls_spec B cfg g v w hguard h1 h2
    obtain ⟨_, f2, _, _, _⟩ := writeLog_filters _ _ _ _ _ r5
    have ht : (writeCalls B cfg g v w).filterMap Call.writeTransferCall =
        g.leaves.map (fun e => (e, v)) := by
      rw [f2, ← r1]
      simp only [List.map_map, Function.comp_def]
    refine ⟨ht, fun e => ?_⟩
    rw [ht]
    simp only [List.map_map, Function.comp_def, List.map_id_fun', id_eq]
    exact List.count_eq_of_nodup hL

/-- Witness for C4: the accessors 10 and 11 share leaf 1, and the transfers of leaf 2
fail with a runtime error. -/
theorem transfer_once_per_leaf_witness :
    ((readCalls sharedBehaviour ⟨true⟩ sharedGroup World.initial).filterMap
        Call.readTransferCall = [1, 2] ∧
      ∀ e : ElemId, ((readCalls sharedBehaviour ⟨true⟩ sharedGroup World.initial).filterMap
        Call.readTransferCall).count e = if e ∈ sharedGroup.leaves then 1 else 0) ∧
    ((writeCalls sharedBehaviour ⟨true⟩ sharedGroup 7 World.initial).filterMap
        Call.writeTransferCall = [(1, 7), (2, 7)] ∧
      ∀ e : ElemId, (((writeCalls sharedBehaviour ⟨true⟩ sharedGroup 7 World.initial).filterMap
        Call.writeTransferCall).map Prod.fst).count e =
          if e ∈ sharedGroup.leaves then 1 else 0) ∧
    (readCalls sharedBehaviour ⟨true⟩ sharedGroup World.initial).filterMap
      Call.transferThrown = [none, some (Exc.runtime_error "read failed")] :=
  ⟨(transfer_once_per_leaf sharedBehaviour ⟨true⟩ sharedGroup 7 World.initial
      (by decide)).2.2.1 (by decide) (by decide),
    (transfer_once_per_leaf sharedBehaviour ⟨true⟩ sharedGroup 7 World.initial
      (by decide)).2.2.2 (by decide) (by decide),
    by decide⟩

/-- C8: when some referenced exception backend is not open or some high-level element
is not readable, `read` raises `logic_error`; it has then only queried backends and
elements (no `preRead`, `readTransfer` or `postRead` call on any element), and the
state of every element is as before, so that no exception has been latched. -/
theorem read_guard_failure {X : Type} (B : Behaviour X) (cfg : Config) (g : TransferGroup)
    (w : World X)
    (h : (∃ b ∈ g.exceptionBackends, B.backendIsOpen b w = false) ∨
      (∃ e ∈ g.highLevelElements, B.isReadable e w = false)) :
    (∃ what, (g.read B cfg w).outcome = Outcome.guardFailed (Exc.logic_error what)) ∧
    (g.read B cfg w).world = w ∧
    (∀ e, (g.read B cfg w).world.activeException e = w.activeException e) ∧
    (∀ ev ∈ (g.read B cfg w).events, ev.isQuery = true) ∧
    (g.read B cfg w).events.filterMap Event.preReadCall = [] ∧
    (g.read B cfg w).events.filterMap Event.readTransferCall = [] ∧
    (g.read B cfg w).events.filterMap Event.postReadCall = [] := by
  have key : (∃ what, (g.read B cfg w).outcome = Outcome.guardFailed (Exc.logic_error what)) ∧
      (g.read B cfg w).world = w ∧ (∀ ev ∈ (g.read B cfg w).events, ev.isQuery = true) := by
    unfold TransferGroup.read
    dsimp only
    have e1 : g.resetExceptionFlags.exceptionBackends = g.exceptionBackends := rfl
    have e2 : g.resetExceptionFlags.highLevelElements = g.highLevelElements := rfl
    rw [e1, e2]
    split
    · rename_i ex hc1
      obtain ⟨what, hwhat⟩ := checkBackends_some B w _ ex hc1
      exact ⟨⟨what, by rw [hwhat]⟩, rfl, checkBackends_isQuery B w _⟩
    rename_i hc1
    split
    · rename_i ex hc2
      obtain ⟨what, hwhat⟩ := checkReadable_some B w _ ex hc2
      refine ⟨⟨what, by rw [hwhat]⟩, rfl, ?_⟩
      intro ev hev
      rcases List.mem_append.mp hev with h1 | h1
      · exact checkBackends_isQuery B w _ ev h1
      · exact checkReadable_isQuery B w _ ev h1
    rename_i hc2
    exfalso
    rcases h with ⟨b, hb, hopen⟩ | ⟨e, he, hread⟩
    · have := (checkBackends_none_iff B w _).mp hc1 b hb
      rw [hopen] at this
      cases this
    · have := (checkReadable_none_iff B w _).mp hc2 e he
      rw [hread] at this
      cases this
  obtain ⟨hout, hworld, hq⟩ := key
  refine ⟨hout, hworld, fun e => by rw [hworld], hq, ?_, ?_, ?_⟩
  · exact isQuery_filterMap_nil _ (fun ev hev => by cases ev <;> first | rfl | cases hev) _ hq
  · exact isQuery_filterMap_nil _ (fun ev hev => by cases ev <;> first | rfl | cases hev) _ hq
  · exact isQuery_filterMap_nil _ (fun ev hev => by cases ev <;> first | rfl | cases hev) _ hq

/-- Witness for C8: a group holding the write-only register 5, which is not readable. -/
theorem read_guard_failure_witness :
    (TransferGroup.read writeOnlyBehaviour ⟨true⟩
        (TransferGroup.addAccessor writeOnlyBehaviour TransferGroup.empty 5 World.initial).group
        (TransferGroup.addAccessor writeOnlyBehaviour TransferGroup.empty 5 World.initial).world
      ).outcome = Outcome.guardFailed (Exc.logic_error "/REGis not readable!") ∧
    (TransferGroup.read writeOnlyBehaviour ⟨true⟩
        (TransferGroup.addAccessor writeOnlyBehaviour TransferGroup.empty 5 World.initial).group
        (TransferGroup.addAccessor writeOnlyBehaviour TransferGroup.empty 5 World.initial).world
      ).events.filterMap Event.preReadCall = [] :=
  ⟨by decide,
    (read_guard_failure writeOnlyBehaviour ⟨true⟩
      (TransferGroup.addAccessor writeOnlyBehaviour TransferGroup.empty 5 World.initial).group
      (TransferGroup.addAccessor writeOnlyBehaviour TransferGroup.empty 5 World.initial).world
      (Or.inr ⟨5, by decide, by decide⟩)).2.2.2.2.1⟩


/-- C9: the accessor loop in the guard phase of `write` tests `isReadable()`.  A group
holding only the write-only register 5 (writeable, not readable, not read-only, backend
open) is refused by `write` with the `logic_error` "is not readable!", and nothing is
written: there is no `preWrite`, `writeTransfer` or `postWrite` call. -/
theorem write_refuses_write_only_accessor :
    (TransferGroup.addAccessor writeOnlyBehaviour TransferGroup.empty 5 World.initial).outcome =
      Outcome.returned ∧
    (TransferGroup.addAccessor writeOnlyBehaviour TransferGroup.empty 5 World.initial).group =
      { highLevelElements := [5], copyDecorators := [],
        lowLevelElementsAndExceptionFlags := [(5, false)], exceptionBackends := [0],
        readOnly := false } ∧
    writeOnlyBehaviour.isWriteable 5
      (TransferGroup.addAccessor writeOnlyBehaviour TransferGroup.empty 5 World.initial).world =
      true ∧
    writeOnlyBehaviour.backendIsOpen 0
      (TransferGroup.addAccessor writeOnlyBehaviour TransferGroup.empty 5 World.initial).world =
      true ∧
    (TransferGroup.write writeOnlyBehaviour ⟨true⟩
        (TransferGroup.addAccessor writeOnlyBehaviour TransferGroup.empty 5 World.initial).group 7
        (TransferGroup.addAccessor writeOnlyBehaviour TransferGroup.empty 5 World.initial).world
      ).outcome = Outcome.guardFailed (Exc.logic_error "/REGis not readable!") ∧
    (TransferGroup.write writeOnlyBehaviour ⟨true⟩
        (TransferGroup.addAccessor writeOnlyBehaviour TransferGroup.empty 5 World.initial).group 7
        (TransferGroup.addAccessor writeOnlyBehaviour TransferGroup.empty 5 World.initial).world
      ).events = [Event.backendIsOpen 0 true, Event.isReadable 5 false, Event.getName 5] := by
  decide

/-- C10: in every completed read cycle (one that ends normally or by re-raising a
collected error) the record that the elements keep of their calls has all `preRead`
calls before all `postRead` calls, and it holds as many `preRead` calls as `postRead`
calls, and at least one, on every high-level element.  In every completed write
cycle the same holds for `preWrite` and `postWrite`. -/
theorem pre_post_balanced {X : Type} (B : Behaviour X) (cfg : Config) (g : TransferGroup)
    (v : VersionNumber) (w : World X) :
    ((g.read B cfg w).outcome.completed = true →
      ∃ before after : List Call, readCalls B cfg g w = before ++ after ∧
        before.filterMap Call.postReadCall = [] ∧ after.filterMap Call.preReadCall = [] ∧
        ∀ a ∈ g.highLevelElements,
          1 ≤ ((readCalls B cfg g w).filterMap Call.preReadCall).count a ∧
          ((readCalls B cfg g w).filterMap Call.preReadCall).count a =
            (((readCalls B cfg g w).filterMap Call.postReadCall).map Prod.fst).count a) ∧
    ((g.write B cfg v w).outcome.completed = true →
      ∃ before after : List Call, writeCalls B cfg g v w = before ++ after ∧
        before.filterMap Call.postWriteCall = [] ∧ after.filterMap Call.preWriteCall = [] ∧
        ∀ a ∈ g.highLevelElements,
          1 ≤ (((writeCalls B cfg g v w).filterMap Call.preWriteCall).map Prod.fst).count a ∧
          (((writeCalls B cfg g v w).filterMap Call.preWriteCall).map Prod.fst).count a =
            (((writeCalls B cfg g v w).filterMap Call.postWriteCall).map Prod.fst).count a) := by
  constructor
  · intro h
    have hrun := completed_not_aborted _ h
    have hguard : ReadGuardsPass B g w :=
      not_not.mp (fun hn => completed_not_guardFailed _ h
        ((read_guardFailed_iff B cfg g w).mpr hn))
    obtain ⟨h1, h2⟩ := not_cutInTransfers_cases _ (not_aborted_not_cut _ hrun)
    obtain ⟨tq, th, _, _, _, _, r5, _, r7⟩ := readCalls_spec B cfg g w hguard h1 h2
    obtain ⟨r7a, _⟩ := r7 hrun
    obtain ⟨f1, _, _, f4, _⟩ := readLog_filters _ _ _ _ _ _ r5
    refine ⟨g.highLevelElements.map Call.preRead ++ g.copyDecorators.map Call.preRead,
      tq.map (fun q => Call.readTransfer q.1 q.2.2) ++
        th.map (fun p =>
          Call.postRead p.1 (firstSome (tq.map (fun q => q.2.1))).isNone p.2), ?_, ?_, ?_, ?_⟩
    · rw [r5]
      simp only [List.append_assoc]
    · simp only [List.filterMap_append, List.filterMap_map, Function.comp_def,
        Call.postReadCall, filterMap_fun_none, List.append_nil]
    · simp only [List.filterMap_append, List.filterMap_map, Function.comp_def,
        Call.preReadCall, filterMap_fun_none, List.append_nil]
    · intro a ha
      rw [f1, f4]
      simp only [List.map_map, Function.comp_def]
      have hfst : th.map (fun p => p.1) = g.copyDecorators ++ g.highLevelElements := r7a
      rw [hfst]
      exact count_pos_append_comm a _ _ ha
  · intro h
    have hrun := completed_not_aborted _ h
    have hguard : WriteGuardsPass B g w :=
      not_not.mp (fun hn => completed_not_guardFailed _ h
        ((write_guardFailed_iff B cfg g v w).mpr hn))
    obtain ⟨h1, h2⟩ := not_cutInTransfers_cases _ (not_aborted_not_cut _ hrun)
    obtain ⟨tq, th, _, _, _, _, r5, _, r7⟩ := writeCalls_spec B cfg g v w hguard h1 h2
    obtain ⟨r7a, _, _⟩ := r7 hrun
    obtain ⟨f1, _, _, f4, _⟩ := writeLog_filters _ _ _ _ _ r5
    refine ⟨g.highLevelElements.map (fun e => Call.preWrite e v),
      tq.map (fun q => Call.writeTransfer q.1 v q.2.2) ++
        th.map (fun p => Call.postWrite p.1 v p.2), r5, ?_, ?_, ?_⟩
    · simp only [List.filterMap_map, Function.comp_def, Call.postWriteCall,
        filterMap_fun_none]
    · simp only [List.filterMap_append, List.filterMap_map, Function.comp_def,
        Call.preWriteCall, filterMap_fun_none, List.append_nil]
    · intro a ha
      rw [f1, f4]
      simp only [List.map_map, Function.comp_def, List.map_id_fun', id_eq]
      have hfst : th.map (fun p => p.1) = g.highLevelElements := r7a
      rw [hfst]
      exact ⟨List.count_pos_iff.mpr ha, rfl⟩

/-- Witness for C10: a read cycle and a write cycle that end by re-raising the runtime
error of leaf 2. -/
theorem pre_post_balanced_witness :
    (∃ before after : List Call,
      readCalls sharedBehaviour ⟨true⟩ sharedGroup World.initial = before ++ after ∧
        before.filterMap Call.postReadCall = [] ∧ after.filterMap Call.preReadCall = [] ∧
        ∀ a ∈ sharedGroup.highLevelElements,
          1 ≤ ((readCalls sharedBehaviour ⟨true⟩ sharedGroup World.initial).filterMap
            Call.preReadCall).count a ∧
          ((readCalls sharedBehaviour ⟨true⟩ sharedGroup World.initial).filterMap
            Call.preReadCall).count a =
            (((readCalls sharedBehaviour ⟨true⟩ sharedGroup World.initial).filterMap
              Call.postReadCall).map Prod.fst).count a) ∧
    (∃ before after : List Call,
      writeCalls sharedBehaviour ⟨true⟩ sharedGroup 7 World.initial = before ++ after ∧
        before.filterMap Call.postWriteCall = [] ∧ after.filterMap Call.preWriteCall = [] ∧
        ∀ a ∈ sharedGroup.highLevelElements,
          1 ≤ (((writeCalls sharedBehaviour ⟨true⟩ sharedGroup 7 World.initial).filterMap
            Call.preWriteCall).map Prod.fst).count a ∧
          (((writeCalls sharedBehaviour ⟨true⟩ sharedGroup 7 World.initial).filterMap
            Call.preWriteCall).map Prod.fst).count a =
            (((writeCalls sharedBehaviour ⟨true⟩ sharedGroup 7 World.initial).filterMap
              Call.postWriteCall).map Prod.fst).count a) :=
  ⟨(pre_post_balanced sharedBehaviour ⟨true⟩ sharedGroup 7 World.initial).1 (by decide),
    (pre_post_balanced sharedBehaviour ⟨true⟩ sharedGroup 7 World.initial).2 (by decide)⟩

/-- C11: after every sequence of operations on a fresh group (`addAccessor` calls,
successful or rejected, with reads, writes and outside activity in between),
`isReadOnly()` is true iff `accessor.isReadOnly()` was true at the end of at least one
successful `addAccessor`.  A rejected `addAccessor` leaves the flag (and the group) as
it was, and a flag that is true stays true. -/
theorem isReadOnly_iff_read_only_added {X : Type} (B : Behaviour X) (cfg : Config)
    (w : World X) (ops : List (Op X)) :
    ((GroupState.run B cfg ⟨TransferGroup.empty, w⟩ ops).group.isReadOnly = true ↔
      true ∈ readOnlyReports B cfg ⟨TransferGroup.empty, w⟩ ops) ∧
    (∀ (g : TransferGroup) (impl : ElemId) (w1 : World X),
      (g.addAccessor B impl w1).outcome ≠ Outcome.returned →
        (g.addAccessor B impl w1).group = g) ∧
    (∀ (s : GroupState X) (ops1 : List (Op X)), s.group.isReadOnly = true →
      (s.run B cfg ops1).group.isReadOnly = true) := by
  refine ⟨?_, ?_, ?_⟩
  · unfold TransferGroup.isReadOnly
    rw [run_readOnly_reports]
    simp [TransferGroup.empty]
  · intro g impl w1 h
    exact (addAccessor_rejected_group B g impl w1 h).1
  · intro s ops1 h
    exact run_readOnly_mono B cfg ops1 s h

/-- Witness for C11: register 1 is added, the read-only register 2 is added, register 2
is offered again and rejected, register 3 is added. -/
theorem isReadOnly_iff_read_only_added_witness :
    readOnlyReports readOnlyBehaviour ⟨true⟩ ⟨TransferGroup.empty, World.initial⟩
        [Op.addAccessor 1, Op.addAccessor 2, Op.addAccessor 2, Op.addAccessor 3] =
      [false, true, false] ∧
    (GroupState.run readOnlyBehaviour ⟨true⟩ ⟨TransferGroup.empty, World.initial⟩
      [Op.addAccessor 1, Op.addAccessor 2, Op.addAccessor 2, Op.addAccessor 3]).group.isReadOnly =
      true :=
  ⟨by decide,
    (isReadOnly_iff_read_only_added readOnlyBehaviour ⟨true⟩ World.initial
      [Op.addAccessor 1, Op.addAccessor 2, Op.addAccessor 2, Op.addAccessor 3]).1.mpr
      (by decide)⟩

/-- C12, counterexample: element 3 is in the group; the accessor holding implementation 1
is added with success, and during the replacement step its abstractor takes the new
element 20 as implementation.  After the call the accessor holds element 20, whose
in-transfer-group flag is not set, and the element 1 that carries the flag is not a
high-level element of the group. -/
theorem addAccessor_replaced_impl_not_flagged :
    (TransferGroup.addAccessor replacingBehaviour
        (TransferGroup.addAccessor replacingBehaviour TransferGroup.empty 3 World.initial).group 1
        (TransferGroup.addAccessor replacingBehaviour TransferGroup.empty 3 World.initial).world
      ).outcome = Outcome.returned ∧
    (TransferGroup.addAccessor replacingBehaviour
        (TransferGroup.addAccessor replacingBehaviour TransferGroup.empty 3 World.initial).group 1
        (TransferGroup.addAccessor replacingBehaviour TransferGroup.empty 3 World.initial).world
      ).impl = 20 ∧
    (TransferGroup.addAccessor replacingBehaviour
        (TransferGroup.addAccessor replacingBehaviour TransferGroup.empty 3 World.initial).group 1
        (TransferGroup.addAccessor replacingBehaviour TransferGroup.empty 3 World.initial).world
      ).group.highLevelElements = [3, 20] ∧
    (TransferGroup.addAccessor replacingBehaviour
        (TransferGroup.addAccessor replacingBehaviour TransferGroup.empty 3 World.initial).group 1
        (TransferGroup.addAccessor replacingBehaviour TransferGroup.empty 3 World.initial).world
      ).world.isInTransferGroup 20 = false ∧
    (TransferGroup.addAccessor replacingBehaviour
        (TransferGroup.addAccessor replacingBehaviour TransferGroup.empty 3 World.initial).group 1
        (TransferGroup.addAccessor replacingBehaviour TransferGroup.empty 3 World.initial).world
      ).world.isInTransferGroup 1 = true ∧
    1 ∉ (TransferGroup.addAccessor replacingBehaviour
        (TransferGroup.addAccessor replacingBehaviour TransferGroup.empty 3 World.initial).group 1
        (TransferGroup.addAccessor replacingBehaviour TransferGroup.empty 3 World.initial).world
      ).group.highLevelElements :=
  ⟨by decide, by decide, by decide, by decide, by decide, by decide⟩

/-- C12, amended: after every successful `addAccessor`, the implementation that the
accessor held when the call started has its in-transfer-group flag set (the
replacement step leaving the flags alone), the exception backend it reported then is
in the backend set of the group, the implementation that the accessor holds after the
call is a high-level element of the group, and every element that was a high-level
element before the call still is one. -/
theorem addAccessor_success_membership {X : Type} (B : Behaviour X) (g : TransferGroup)
    (impl : ElemId) (w : World X) (h : (g.addAccessor B impl w).outcome = Outcome.returned) :
    ((∀ e r w1, (B.replaceTransferElement e r w1).isInTransferGroup = w1.isInTransferGroup) →
      (∀ e r w1, (B.abstractorReplaceTransferElement e r w1).2.isInTransferGroup =
        w1.isInTransferGroup) →
      (g.addAccessor B impl w).world.isInTransferGroup impl = true) ∧
    B.getExceptionBackend impl (w.setInTransferGroup impl true) ∈
      (g.addAccessor B impl w).group.exceptionBackends ∧
    (g.addAccessor B impl w).impl ∈ (g.addAccessor B impl w).group.highLevelElements ∧
    (∀ e ∈ g.highLevelElements, e ∈ (g.addAccessor B impl w).group.highLevelElements) := by
  revert h
  unfold TransferGroup.addAccessor
  split
  · intro h; cases h
  · split
    · intro h; cases h
    · intro _
      dsimp only
      refine ⟨?_, ?_, ?_, ?_⟩
      · intro hf1 hf2
        rw [replaceAll_flags B hf1 hf2]
        simp [World.setInTransferGroup]
      · exact (mem_setInsert _ _ _).mpr (Or.inl rfl)
      · exact (mem_setInsert _ _ _).mpr (Or.inl rfl)
      · intro e he
        exact (mem_setInsert _ _ _).mpr (Or.inr he)

/-- Witness for C12, amended: the run of the counterexample; element 1, which the
accessor held at the call, carries the flag, and element 20, which it holds
afterwards, is a high-level element next to element 3. -/
theorem addAccessor_success_membership_witness :
    (TransferGroup.addAccessor replacingBehaviour
        (TransferGroup.addAccessor replacingBehaviour TransferGroup.empty 3 World.initial).group 1
        (TransferGroup.addAccessor replacingBehaviour TransferGroup.empty 3 World.initial).world
      ).world.isInTransferGroup 1 = true ∧
    (TransferGroup.addAccessor replacingBehaviour
        (TransferGroup.addAccessor replacingBehaviour TransferGroup.empty 3 World.initial).group 1
        (TransferGroup.addAccessor replacingBehaviour TransferGroup.empty 3 World.initial).world
      ).impl ∈
      (TransferGroup.addAccessor replacingBehaviour
        (TransferGroup.addAccessor replacingBehaviour TransferGroup.empty 3 World.initial).group 1
        (TransferGroup.addAccessor replacingBehaviour TransferGroup.empty 3 World.initial).world
      ).group.highLevelElements :=
  ⟨(addAccessor_success_membership replacingBehaviour
      (TransferGroup.addAccessor replacingBehaviour TransferGroup.empty 3 World.initial).group 1
      (TransferGroup.addAccessor replacingBehaviour TransferGroup.empty 3 World.initial).world
      (by decide)).1 (fun _ _ _ => rfl)
      (fun e r w1 => by
        show (if e = 1 ∧ r = 3 then ((20 : ElemId), w1) else (e, w1)).2.isInTransferGroup =
          w1.isInTransferGroup
        split <;> rfl),
    (addAccessor_success_membership replacingBehaviour
      (TransferGroup.addAccessor replacingBehaviour TransferGroup.empty 3 World.initial).group 1
      (TransferGroup.addAccessor replacingBehaviour TransferGroup.empty 3 World.initial).world
      (by decide)).2.2.1⟩

/-- C13: after every successful `addAccessor`, the keys of the leaf map are exactly the
elements returned by `getHardwareAccessingElements()` of the high-level elements of the
group, evaluated after the replacement step; every key occurs once; and every
per-leaf exception flag is false. -/
theorem addAccessor_leaf_map {X : Type} (B : Behaviour X) (g : TransferGroup) (impl : ElemId)
    (w : World X) (h : (g.addAccessor B impl w).outcome = Outcome.returned) :
    (∀ x : ElemId, x ∈ (g.addAccessor B impl w).group.leaves ↔
      ∃ hl ∈ (g.addAccessor B impl w).group.highLevelElements,
        x ∈ B.getHardwareAccessingElements hl (g.addAccessor B impl w).world) ∧
    (g.addAccessor B impl w).group.leaves.Nodup ∧
    (∀ p ∈ (g.addAccessor B impl w).group.lowLevelElementsAndExceptionFlags, p.2 = false) := by
  revert h
  unfold TransferGroup.addAccessor
  split
  · intro h; cases h
  · split
    · intro h; cases h
    · intro _
      refine ⟨?_, ?_, ?_⟩
      · intro x
        exact rebuildLowLevelElements_mem B _ _ x
      · exact (rebuildLowLevelElements_sorted B _ _).imp (fun hlt => Nat.ne_of_lt hlt)
      · exact rebuildLowLevelElements_flags B _ _

/-- Witness for C13: accessor 11 is added to the group of accessor 10; both use leaf 1. -/
theorem addAccessor_leaf_map_witness :
    (TransferGroup.addAccessor sharedBehaviour
        (TransferGroup.addAccessor sharedBehaviour TransferGroup.empty 10 World.initial).group 11
        (TransferGroup.addAccessor sharedBehaviour TransferGroup.empty 10 World.initial).world
      ).group.lowLevelElementsAndExceptionFlags = [(1, false)] ∧
    (TransferGroup.addAccessor sharedBehaviour
        (TransferGroup.addAccessor sharedBehaviour TransferGroup.empty 10 World.initial).group 11
        (TransferGroup.addAccessor sharedBehaviour TransferGroup.empty 10 World.initial).world
      ).group.leaves.Nodup :=
  ⟨by decide,
    (addAccessor_leaf_map sharedBehaviour
      (TransferGroup.addAccessor sharedBehaviour TransferGroup.empty 10 World.initial).group 11
      (TransferGroup.addAccessor sharedBehaviour TransferGroup.empty 10 World.initial).world
      (by decide)).2.1⟩

/-- C14: after every successful `addAccessor`, an element is in the copy-decorator set
iff it is a copy decorator and is either a high-level element of the group or returned
by `getInternalElements()` of one (evaluated after the replacement step); in
particular the set holds no element that is not a copy decorator. -/
theorem addAccessor_copy_decorators {X : Type} (B : Behaviour X) (g : TransferGroup)
    (impl : ElemId) (w : World X) (h : (g.addAccessor B impl w).outcome = Outcome.returned) :
    (∀ x : ElemId, x ∈ (g.addAccessor B impl w).group.copyDecorators ↔
      B.isCopyDecorator x = true ∧
        (x ∈ (g.addAccessor B impl w).group.highLevelElements ∨
          ∃ hl ∈ (g.addAccessor B impl w).group.highLevelElements,
            x ∈ B.getInternalElements hl (g.addAccessor B impl w).world)) ∧
    (∀ x ∈ (g.addAccessor B impl w).group.copyDecorators, B.isCopyDecorator x = true) := by
  revert h
  unfold TransferGroup.addAccessor
  split
  · intro h; cases h
  · split
    · intro h; cases h
    · intro _
      refine ⟨fun x => rebuildCopyDecorators_mem B _ _ x, fun x hx => ?_⟩
      exact ((rebuildCopyDecorators_mem B _ _ x).mp hx).1

/-- Witness for C14: the copy decorator 21 is added to the group of accessor 1, whose
internal elements are the copy decorator 20 and the plain element 7. -/
theorem addAccessor_copy_decorators_witness :
    (TransferGroup.addAccessor decoratedBehaviour
        (TransferGroup.addAccessor decoratedBehaviour TransferGroup.empty 1 World.initial).group
        21
        (TransferGroup.addAccessor decoratedBehaviour TransferGroup.empty 1 World.initial).world
      ).group.copyDecorators = [20, 21] ∧
    ∀ x ∈ (TransferGroup.addAccessor decoratedBehaviour
        (TransferGroup.addAccessor decoratedBehaviour TransferGroup.empty 1 World.initial).group
        21
        (TransferGroup.addAccessor decoratedBehaviour TransferGroup.empty 1 World.initial).world
      ).group.copyDecorators, decoratedBehaviour.isCopyDecorator x = true :=
  ⟨by decide,
    (addAccessor_copy_decorators decoratedBehaviour
      (TransferGroup.addAccessor decoratedBehaviour TransferGroup.empty 1 World.initial).group 21
      (TransferGroup.addAccessor decoratedBehaviour TransferGroup.empty 1 World.initial).world
      (by decide)).2⟩

/-- C15: constructing a `VoidRegisterAccessor` from an implementation raises
`logic_error` iff the access mode flags of the implementation lack `wait_for_new_data`
and the implementation is not writeable; in every other case the construction succeeds
and the accessor holds the implementation. -/
theorem VoidRegisterAccessor_new_iff {X : Type} (B : Behaviour X) (impl : ElemId)
    (w : World X) :
    ((∃ what, VoidRegisterAccessor.new B impl w = Except.error (Exc.logic_error what)) ↔
      (B.hasWaitForNewData impl w = false ∧ B.isWriteable impl w = false)) ∧
    ((B.hasWaitForNewData impl w = true ∨ B.isWriteable impl w = true) →
      VoidRegisterAccessor.new B impl w = Except.ok ⟨impl⟩) ∧
    (∀ ex, VoidRegisterAccessor.new B impl w = Except.error ex →
      ∃ what, ex = Exc.logic_error what) := by
  unfold VoidRegisterAccessor.new
  cases hf : B.hasWaitForNewData impl w <;> cases hw : B.isWriteable impl w <;> simp

/-- Witness for C15: the read-only register 2 without `wait_for_new_data` is refused;
the writeable register 1 and the read-only push-type register 4 are accepted. -/
theorem VoidRegisterAccessor_new_iff_witness :
    VoidRegisterAccessor.new voidBehaviour 2 World.initial =
      Except.error (Exc.logic_error
        "A VoidRegisterAccessor without wait_for_new_data does not make sense for non-writeable register /REG") ∧
    VoidRegisterAccessor.new voidBehaviour 1 World.initial = Except.ok ⟨1⟩ ∧
    VoidRegisterAccessor.new voidBehaviour 4 World.initial = Except.ok ⟨4⟩ :=
  ⟨rfl,
    (VoidRegisterAccessor_new_iff voidBehaviour 1 World.initial).2.1 (Or.inr (by decide)),
    (VoidRegisterAccessor_new_iff voidBehaviour 4 World.initial).2.1 (Or.inl (by decide))⟩

/-- C16: for a `VoidRegisterAccessor` whose implementation lacks `wait_for_new_data`,
`isReadable()` and `isReadOnly()` return false and `read()`, `readNonBlocking()` and
`readLatest()` raise `logic_error`, all without a call forwarded to the implementation
and without a change of state; with `wait_for_new_data` each of the five operations
forwards one call to the implementation and passes on what it returns or throws. -/
theorem VoidRegisterAccessor_read_rules {X : Type} (B : Behaviour X) (R : ReadOperations X)
    (a : VoidRegisterAccessor) (w : World X) :
    (B.hasWaitForNewData a.impl w = false →
      a.isReadable B w = ⟨Except.ok false, w, []⟩ ∧
      a.isReadOnly B w = ⟨Except.ok false, w, []⟩ ∧
      a.read B R w = ⟨Except.error (Exc.logic_error
        "A VoidRegisterAccessor without wait_for_new_data is not readable."), w, []⟩ ∧
      a.readNonBlocking B R w = ⟨Except.error (Exc.logic_error
        "A VoidRegisterAccessor without wait_for_new_data is not readable."), w, []⟩ ∧
      a.readLatest B R w = ⟨Except.error (Exc.logic_error
        "A VoidRegisterAccessor without wait_for_new_data is not readable."), w, []⟩) ∧
    (B.hasWaitForNewData a.impl w = true →
      a.isReadable B w = ⟨Except.ok (B.isReadable a.impl w), w, [ImplCall.isReadable]⟩ ∧
      a.isReadOnly B w = ⟨Except.ok (B.isReadOnly a.impl w), w, [ImplCall.isReadOnly]⟩ ∧
      a.read B R w = ⟨(R.read a.impl w).1, (R.read a.impl w).2, [ImplCall.read]⟩ ∧
      a.readNonBlocking B R w =
        ⟨(R.readNonBlocking a.impl w).1, (R.readNonBlocking a.impl w).2,
          [ImplCall.readNonBlocking]⟩ ∧
      a.readLatest B R w =
        ⟨(R.readLatest a.impl w).1, (R.readLatest a.impl w).2, [ImplCall.readLatest]⟩) := by
  constructor
  · intro h
    simp [VoidRegisterAccessor.isReadable, VoidRegisterAccessor.isReadOnly,
      VoidRegisterAccessor.read, VoidRegisterAccessor.readNonBlocking,
      VoidRegisterAccessor.readLatest, h]
  · intro h
    simp [VoidRegisterAccessor.isReadable, VoidRegisterAccessor.isReadOnly,
      VoidRegisterAccessor.read, VoidRegisterAccessor.readNonBlocking,
      VoidRegisterAccessor.readLatest, h]

/-- Witness for C16: the accessor of the writeable register 1 is not readable and its
`read()` is refused; the accessor of the push-type register 4 forwards. -/
theorem VoidRegisterAccessor_read_rules_witness :
    (VoidRegisterAccessor.read voidBehaviour exampleReadOperations ⟨1⟩ World.initial).forwarded =
      [] ∧
    (VoidRegisterAccessor.isReadable voidBehaviour ⟨1⟩ World.initial).result = Except.ok false ∧
    (VoidRegisterAccessor.isReadOnly voidBehaviour ⟨4⟩ World.initial).result = Except.ok true ∧
    (VoidRegisterAccessor.readLatest voidBehaviour exampleReadOperations ⟨4⟩
      World.initial).forwarded = [ImplCall.readLatest] :=
  ⟨congrArg CallResult.forwarded
      ((VoidRegisterAccessor_read_rules voidBehaviour exampleReadOperations ⟨1⟩
        World.initial).1 (by decide)).2.2.1,
    congrArg CallResult.result
      ((VoidRegisterAccessor_read_rules voidBehaviour exampleReadOperations ⟨1⟩
        World.initial).1 (by decide)).1,
    congrArg CallResult.result
      ((VoidRegisterAccessor_read_rules voidBehaviour exampleReadOperations ⟨4⟩
        World.initial).2 (by decide)).2.1,
    congrArg CallResult.forwarded
      ((VoidRegisterAccessor_read_rules voidBehaviour exampleReadOperations ⟨4⟩
        World.initial).2 (by decide)).2.2.2.2⟩

end ChimeraTK

namespace mtca4u

/-! Properties of the embedding of the `mtca4u` sources. -/

theorem sub32_of_le (a b : Nat) (ha : a < 2 ^ 32) (hb : b ≤ a) : sub32 a b = a - b := by
  unfold sub32
  have hb2 : b < 2 ^ 32 := Nat.lt_of_le_of_lt hb ha
  rw [Nat.mod_eq_of_lt ha, Nat.mod_eq_of_lt hb2]
  omega

theorem sub32_of_lt (a b : Nat) (hb : b < 2 ^ 32) (hab : a < b) :
    sub32 a b = a + 2 ^ 32 - b := by
  unfold sub32
  have ha : a < 2 ^ 32 := Nat.lt_trans hab hb
  rw [Nat.mod_eq_of_lt ha, Nat.mod_eq_of_lt hb]
  omega

theorem sub32_lt (a b : Nat) : sub32 a b < 2 ^ 32 := by
  unfold sub32
  exact Nat.mod_lt _ (by decide)

theorem add32_of_lt (a b : Nat) (h : a + b < 2 ^ 32) : add32 a b = a + b := by
  unfold add32
  exact Nat.mod_eq_of_lt h

theorem isspace_hash : isspace '#' = false := by decide

theorem dropWhile_head_not {p : Char → Bool} (s : List Char) (c : Char) (cs : List Char)
    (h : s.dropWhile p = c :: cs) : p c = false := by
  induction s with
  | nil => simp at h
  | cons a as ih =>
    by_cases ha : p a = true
    · rw [List.dropWhile_cons_of_pos ha] at h
      exact ih h
    · rw [List.dropWhile_cons_of_neg ha] at h
      injection h with h1 h2
      subst h1
      simpa using ha

theorem ignoredLine_eq (line : List Char) :
    ignoredLine line =
      (decide ((line.dropWhile isspace).length = 0) ||
        decide ((line.dropWhile isspace).head? = some '#')) := by
  induction line with
  | nil => rfl
  | cons c cs ih =>
    unfold ignoredLine
    by_cases hc : c = '#'
    · subst hc
      simp [isspace_hash]
    · by_cases hs : isspace c = true
      · rw [if_neg hc, if_pos hs, ih, List.dropWhile_cons_of_pos hs]
      · rw [if_neg hc, if_neg hs, List.dropWhile_cons_of_neg hs]
        simp [hc]

theorem ignoredLine_iff (line : List Char) :
    ignoredLine line = true ↔
      ((∀ c ∈ line, isspace c = true) ∨
        ∃ pre post, line = pre ++ '#' :: post ∧ ∀ c ∈ pre, isspace c = true) := by
  induction line with
  | nil => simp [ignoredLine]
  | cons c cs ih =>
    unfold ignoredLine
    by_cases hc : c = '#'
    · subst hc
      simp only [if_true, true_iff]
      exact Or.inr ⟨[], cs, rfl, fun c hc => absurd hc (List.not_mem_nil c)⟩
    · by_cases hs : isspace c = true
      · rw [if_neg hc, if_pos hs, ih]
        constructor
        · rintro (h | ⟨pre, post, h1, h2⟩)
          · left
            intro x hx
            rcases List.mem_cons.mp hx with hx | hx
            · rw [hx]; exact hs
            · exact h x hx
          · right
            refine ⟨c :: pre, post, by rw [h1]; rfl, ?_⟩
            intro x hx
            rcases List.mem_cons.mp hx with hx | hx
            · rw [hx]; exact hs
            · exact h2 x hx
        · rintro (h | ⟨pre, post, h1, h2⟩)
          · left
            intro x hx
            exact h x (List.mem_cons_of_mem c hx)
          · cases pre with
            | nil =>
              simp only [List.nil_append] at h1
              injection h1 with h3 h4
              exact absurd h3 hc
            | cons a as =>
              simp only [List.cons_append] at h1
              injection h1 with h3 h4
              right
              exact ⟨as, post, h4, fun x hx => h2 x (List.mem_cons_of_mem a hx)⟩
      · rw [if_neg hc, if_neg hs]
        simp only [Bool.false_eq_true, false_iff, not_or, not_exists, not_and]
        constructor
        · intro h
          exact hs (h c (List.mem_cons_self c cs))
        · intro pre post h1 h2
          cases pre with
          | nil =>
            simp only [List.nil_append] at h1
            injection h1 with h3 h4
            exact hc h3
          | cons a as =>
            simp only [List.cons_append] at h1
            injection h1 with h3 h4
            subst h3
            exact hs (h2 c (List.mem_cons_self c as))

theorem scanTokens_fst (s : List Char) :
    (scanTokens s).1 = s.takeWhile (fun x => !isspace x) := by
  induction s with
  | nil => rfl
  | cons c cs ih =>
    unfold scanTokens
    by_cases hs : isspace c = true
    · rw [if_pos hs]
      simp [hs]
    · rw [if_neg hs]
      simp [hs, ih]

theorem scanTokens_snd (s : List Char) :
    (scanTokens s).2 = tokens (s.dropWhile (fun x => !isspace x)) := by
  induction s with
  | nil => rfl
  | cons c cs ih =>
    by_cases hs : isspace c = true
    · have hd : (c :: cs).dropWhile (fun x => !isspace x) = c :: cs := by
        simp [hs]
      rw [hd]
      unfold tokens
      have h1 : (scanTokens (c :: cs)).1 = [] := by
        rw [scanTokens_fst]
        simp [hs]
      rw [if_pos h1]
    · have hd : (c :: cs).dropWhile (fun x => !isspace x) =
          cs.dropWhile (fun x => !isspace x) := by
        simp [hs]
      rw [hd, ← ih]
      rw [scanTokens]
      rw [if_neg hs]

theorem tokens_cons_space (c : Char) (cs : List Char) (hs : isspace c = true) :
    tokens (c :: cs) = tokens cs := by
  unfold tokens
  have h1 : scanTokens (c :: cs) = ([], if (scanTokens cs).1 = [] then (scanTokens cs).2
      else (scanTokens cs).1 :: (scanTokens cs).2) := by
    rw [scanTokens]
    rw [if_pos hs]
  rw [h1]
  simp

theorem tokens_dropWhile_space (s : List Char) : tokens (s.dropWhile isspace) = tokens s := by
  induction s with
  | nil => rfl
  | cons c cs ih =>
    by_cases hs : isspace c = true
    · rw [List.dropWhile_cons_of_pos hs, ih, tokens_cons_space c cs hs]
    · rw [List.dropWhile_cons_of_neg hs]

theorem tokens_cons_nonspace (c : Char) (cs : List Char) (hs : isspace c = false) :
    tokens (c :: cs) = (c :: cs).takeWhile (fun x => !isspace x) ::
      tokens ((c :: cs).dropWhile (fun x => !isspace x)) := by
  have h1 : (scanTokens (c :: cs)).1 ≠ [] := by
    rw [scanTokens_fst]
    simp [hs]
  have h2 : tokens (c :: cs) = (scanTokens (c :: cs)).1 :: (scanTokens (c :: cs)).2 := by
    unfold tokens
    rw [if_neg h1]
  rw [h2, scanTokens_fst, scanTokens_snd]

theorem extractWord_tokens (s : List Char) :
    (tokens s = [] → extractWord s = none) ∧
    (∀ t ts, tokens s = t :: ts → ∃ rest, extractWord s = some (t, rest) ∧ tokens rest = ts) := by
  unfold extractWord
  cases hr : s.dropWhile isspace with
  | nil =>
    have ht : tokens s = [] := by
      rw [← tokens_dropWhile_space, hr]
      rfl
    refine ⟨fun _ => rfl, ?_⟩
    intro t ts h
    rw [ht] at h
    cases h
  | cons c cs =>
    have hc : isspace c = false := dropWhile_head_not s c cs hr
    have ht : tokens s = (c :: cs).takeWhile (fun x => !isspace x) ::
        tokens ((c :: cs).dropWhile (fun x => !isspace x)) := by
      rw [← tokens_dropWhile_space, hr]
      exact tokens_cons_nonspace c cs hc
    refine ⟨?_, ?_⟩
    · intro h
      rw [ht] at h
      cases h
    · intro t ts h
      rw [ht] at h
      injection h with h1 h2
      subst h1
      exact ⟨_, rfl, h2⟩

theorem extractThree_tokens (line : List Char) (h : 3 ≤ (tokens line).length) :
    extractThree line =
      some ((tokens line).getD 0 [], (tokens line).getD 1 [], (tokens line).getD 2 []) := by
  cases h0 : tokens line with
  | nil => rw [h0] at h; simp at h
  | cons t0 ts0 =>
    obtain ⟨r1, he1, hr1⟩ := (extractWord_tokens line).2 t0 ts0 h0
    cases h1 : ts0 with
    | nil => rw [h0, h1] at h; simp at h
    | cons t1 ts1 =>
      obtain ⟨r2, he2, hr2⟩ := (extractWord_tokens r1).2 t1 ts1 (by rw [hr1, h1])
      cases h2 : ts1 with
      | nil => rw [h0, h1, h2] at h; simp at h
      | cons t2 ts2 =>
        obtain ⟨r3, he3, _⟩ := (extractWord_tokens r2).2 t2 ts2 (by rw [hr2, h2])
        unfold extractThree
        simp only [he1, he2, he3]
        rfl

theorem extractThree_none (line : List Char) (h : (tokens line).length < 3) :
    extractThree line = none := by
  unfold extractThree
  cases h0 : tokens line with
  | nil => rw [(extractWord_tokens line).1 h0]
  | cons t0 ts0 =>
    obtain ⟨r1, he1, hr1⟩ := (extractWord_tokens line).2 t0 ts0 h0
    simp only [he1]
    cases h1 : ts0 with
    | nil => rw [(extractWord_tokens r1).1 (by rw [hr1, h1])]
    | cons t1 ts1 =>
      obtain ⟨r2, he2, hr2⟩ := (extractWord_tokens r1).2 t1 ts1 (by rw [hr1, h1])
      simp only [he2]
      cases h2 : ts1 with
      | nil => rw [(extractWord_tokens r2).1 (by rw [hr2, h2])]
      | cons t2 ts2 =>
        rw [h0, h1, h2] at h
        simp only [List.length_cons] at h
        omega

theorem parseLines_ignored (env : ParserEnvironment) (file_name absPath : List Char)
    (line : List Char) (rest : List (List Char)) (line_nr : Nat) (dmap : DeviceInfoMap)
    (h : ignoredLine line = true) :
    DMapFileParser.parseLines env file_name absPath (line :: rest) line_nr dmap =
      DMapFileParser.parseLines env file_name absPath rest (add32 line_nr 1) dmap := by
  rw [ignoredLine_eq] at h
  rw [DMapFileParser.parseLines]
  by_cases h1 : (line.dropWhile isspace).length = 0
  · rw [if_pos h1]
  · rw [if_neg h1]
    have h2 : (line.dropWhile isspace).head? = some '#' := by
      simpa [h1] using h
    rw [if_pos h2]

theorem parseLines_entry (env : ParserEnvironment) (file_name absPath : List Char)
    (line : List Char) (rest : List (List Char)) (line_nr : Nat) (dmap : DeviceInfoMap)
    (h : ignoredLine line = false) (ht : 3 ≤ (tokens line).length) :
    DMapFileParser.parseLines env file_name absPath (line :: rest) line_nr dmap =
      DMapFileParser.parseLines env file_name absPath rest (add32 line_nr 1)
        (dmap.insert (entryOfLine env absPath (add32 line_nr 1, line))) := by
  rw [ignoredLine_eq] at h
  rw [DMapFileParser.parseLines]
  have h1 : ¬ (line.dropWhile isspace).length = 0 := by
    intro h1
    simp [h1] at h
  have h2 : ¬ (line.dropWhile isspace).head? = some '#' := by
    intro h2
    simp [h2] at h
  rw [if_neg h1, if_neg h2]
  have ht2 : 3 ≤ (tokens (line.dropWhile isspace)).length := by
    rw [tokens_dropWhile_space]
    exact ht
  rw [extractThree_tokens _ ht2, tokens_dropWhile_space]
  rfl

theorem parseLines_error (env : ParserEnvironment) (file_name absPath : List Char)
    (line : List Char) (rest : List (List Char)) (line_nr : Nat) (dmap : DeviceInfoMap)
    (h : ignoredLine line = false) (ht : (tokens line).length < 3) :
    DMapFileParser.parseLines env file_name absPath (line :: rest) line_nr dmap =
      Except.error (DMapFileParser.raiseException file_name (line.dropWhile isspace)
        (add32 line_nr 1)) := by
  rw [ignoredLine_eq] at h
  rw [DMapFileParser.parseLines]
  have h1 : ¬ (line.dropWhile isspace).length = 0 := by
    intro h1
    simp [h1] at h
  have h2 : ¬ (line.dropWhile isspace).head? = some '#' := by
    intro h2
    simp [h2] at h
  rw [if_neg h1, if_neg h2]
  have ht2 : (tokens (line.dropWhile isspace)).length < 3 := by
    rw [tokens_dropWhile_space]
    exact ht
  rw [extractThree_none _ ht2]

theorem add32_add32_one (n k : Nat) : add32 (add32 n 1) k = add32 n (k + 1) := by
  unfold add32
  rw [Nat.add_mod, Nat.mod_mod, ← Nat.add_mod]
  congr 1
  omega

theorem add32_zero_of_lt (n : Nat) (h : n < 2 ^ 32) : add32 n 0 = n := by
  unfold add32
  exact Nat.mod_eq_of_lt h

theorem parseLines_skip (env : ParserEnvironment) (file_name absPath : List Char)
    (pre : List (List Char)) :
    ∀ (rest : List (List Char)) (line_nr : Nat) (dmap : DeviceInfoMap),
      (∀ line ∈ pre, ignoredLine line = true) →
      DMapFileParser.parseLines env file_name absPath (pre ++ rest) (add32 line_nr 0) dmap =
        DMapFileParser.parseLines env file_name absPath rest (add32 line_nr pre.length)
          dmap := by
  induction pre with
  | nil => intro rest line_nr dmap _; rfl
  | cons l ls ih =>
    intro rest line_nr dmap h
    rw [List.cons_append, parseLines_ignored env file_name absPath l (ls ++ rest) _ dmap
      (h l (List.mem_cons_self l ls))]
    have h1 : add32 (add32 line_nr 0) 1 = add32 (add32 line_nr 1) 0 := by
      unfold add32
      simp
    rw [h1, ih rest (add32 line_nr 1) dmap (fun x hx => h x (List.mem_cons_of_mem l hx)),
      add32_add32_one]
    rfl

theorem entriesOfLines_cons (env : ParserEnvironment) (absPath : List Char) (first : Nat)
    (line : List Char) (rest : List (List Char)) :
    entriesOfLines env absPath first (line :: rest) =
      (if ignoredLine line = true then [] else [entryOfLine env absPath (first, line)]) ++
        entriesOfLines env absPath (first + 1) rest := by
  unfold entriesOfLines
  rw [List.enumFrom_cons]
  by_cases h : ignoredLine line = true
  · simp [h, List.filter_cons]
  · simp [h, List.filter_cons]

theorem parseLines_ok (env : ParserEnvironment) (file_name absPath : List Char)
    (lines : List (List Char)) :
    ∀ (line_nr : Nat) (dmap : DeviceInfoMap),
      (∀ line ∈ lines, ignoredLine line = false → 3 ≤ (tokens line).length) →
      line_nr + lines.length < 2 ^ 32 →
      DMapFileParser.parseLines env file_name absPath lines line_nr dmap =
        Except.ok ⟨dmap.dmapFileName,
          dmap.entries ++ entriesOfLines env absPath (line_nr + 1) lines⟩ := by
  induction lines with
  | nil =>
    intro line_nr dmap _ _
    simp [DMapFileParser.parseLines, entriesOfLines]
  | cons l ls ih =>
    intro line_nr dmap h hlen
    simp only [List.length_cons] at hlen
    have hadd : add32 line_nr 1 = line_nr + 1 := add32_of_lt _ _ (by omega)
    have hrest : ∀ line ∈ ls, ignoredLine line = false → 3 ≤ (tokens line).length :=
      fun x hx => h x (List.mem_cons_of_mem l hx)
    rw [entriesOfLines_cons]
    by_cases hi : ignoredLine l = true
    · rw [parseLines_ignored env file_name absPath l ls line_nr dmap hi, hadd,
        ih (line_nr + 1) dmap hrest (by omega), if_pos hi]
      rfl
    · have hi2 : ignoredLine l = false := by simpa using hi
      rw [parseLines_entry env file_name absPath l ls line_nr dmap hi2
        (h l (List.mem_cons_self l ls) hi2), hadd,
        ih (line_nr + 1) _ hrest (by omega), if_neg hi]
      simp [DeviceInfoMap.insert]

theorem entriesOfLines_ne_nil (env : ParserEnvironment) (absPath : List Char)
    (lines : List (List Char)) :
    ∀ first : Nat, (∃ line ∈ lines, ignoredLine line = false) →
      entriesOfLines env absPath first lines ≠ [] := by
  induction lines with
  | nil =>
    intro first h
    obtain ⟨l, hl, _⟩ := h
    exact absurd hl (List.not_mem_nil l)
  | cons l ls ih =>
    intro first h
    rw [entriesOfLines_cons]
    by_cases hi : ignoredLine l = true
    · rw [if_pos hi, List.nil_append]
      apply ih
      obtain ⟨x, hx, hxi⟩ := h
      rcases List.mem_cons.mp hx with hx | hx
      · rw [hx, hi] at hxi
        cases hxi
      · exact ⟨x, hx, hxi⟩
    · rw [if_neg hi]
      simp

/-- The function objects after `determineDriverAndConfigureIoctl`: it returns exactly
when a variant is selected, and then `_readFunction` and `_writeFunction` are the
functions of that variant. -/
theorem determineDriver_bound {S : Type} (K : Kernel S) (C : DriverConstants) (dev : PcieDevice)
    (os : S) :
    (∀ v, selectedVariant K C dev.deviceID os = some v →
      (dev.determineDriverAndConfigureIoctl K C os).result = Except.ok () ∧
      (dev.determineDriverAndConfigureIoctl K C os).device.readFunction = some v.readFunction ∧
      (dev.determineDriverAndConfigureIoctl K C os).device.writeFunction = some v.writeFunction ∧
      (dev.determineDriverAndConfigureIoctl K C os).device.deviceID = dev.deviceID) ∧
    (selectedVariant K C dev.deviceID os = none →
      ∃ ex, (dev.determineDriverAndConfigureIoctl K C os).result = Except.error ex) := by
  unfold selectedVariant PcieDevice.determineDriverAndConfigureIoctl
  dsimp only
  by_cases h1 : (K.sysIoctl dev.deviceID C.PCIEDEV_PHYSICAL_SLOT os).1 ≥ 0
  · rw [if_pos h1, if_pos h1]
    refine ⟨?_, fun h => by cases h⟩
    intro v hv
    cases hv
    exact ⟨rfl, rfl, rfl, rfl⟩
  · rw [if_neg h1, if_neg h1]
    by_cases h2 : (K.sysIoctl dev.deviceID C.LLRFDRV_PHYSICAL_SLOT
        (K.sysIoctl dev.deviceID C.PCIEDEV_PHYSICAL_SLOT os).2).1 ≥ 0
    · rw [if_pos h2, if_pos h2]
      refine ⟨?_, fun h => by cases h⟩
      intro v hv
      cases hv
      exact ⟨rfl, rfl, rfl, rfl⟩
    · rw [if_neg h2, if_neg h2]
      by_cases h3 : (K.sysIoctl dev.deviceID C.PCIEUNI_PHYSICAL_SLOT
          (K.sysIoctl dev.deviceID C.LLRFDRV_PHYSICAL_SLOT
            (K.sysIoctl dev.deviceID C.PCIEDEV_PHYSICAL_SLOT os).2).2).1 ≥ 0
      · rw [if_pos h3, if_pos h3]
        refine ⟨?_, fun h => by cases h⟩
        intro v hv
        cases hv
        exact ⟨rfl, rfl, rfl, rfl⟩
      · rw [if_neg h3, if_neg h3]
        exact ⟨fun v hv => (by cases hv), fun _ => ⟨_, rfl⟩⟩

/-- An `open` that returns leaves the device opened, on the descriptor that `::open`
gave, with the functions of a variant that `determineDriverAndConfigureIoctl` can
select. -/
theorem open_ok_bound {S : Type} (K : Kernel S) (C : DriverConstants) (dev : PcieDevice)
    (devName : String) (perm : Int) (os : S)
    (h : (dev.open K C devName perm os).result = Except.ok ()) :
    (dev.open K C devName perm os).device.opened = true ∧
    ∃ v, selectedVariant K C (K.sysOpen devName perm os).1 (K.sysOpen devName perm os).2 = some v ∧
      (dev.open K C devName perm os).device.readFunction = some v.readFunction ∧
      (dev.open K C devName perm os).device.writeFunction = some v.writeFunction := by
  unfold PcieDevice.open at h ⊢
  dsimp only at h ⊢
  by_cases ho : dev.opened = true
  · rw [if_pos ho] at h
    cases h
  · rw [if_neg ho] at h ⊢
    by_cases hfd : (K.sysOpen devName perm os).1 < 0
    · rw [if_pos hfd] at h
      cases h
    · rw [if_neg hfd] at h ⊢
      have hb := determineDriver_bound K C
        { dev with instanceName := devName, deviceID := (K.sysOpen devName perm os).1 }
        (K.sysOpen devName perm os).2
      cases hsel : selectedVariant K C (K.sysOpen devName perm os).1 (K.sysOpen devName perm os).2 with
      | none =>
        obtain ⟨ex, hex⟩ := hb.2 hsel
        rw [hex] at h
        cases h
      | some v =>
        obtain ⟨h1, h2, h3, _⟩ := hb.1 v hsel
        rw [h1]
        exact ⟨rfl, v, rfl, h2, h3⟩

/-- The variants with `readWithStruct`: a `read` whose size is not a multiple of 4
throws `EX_READ_ERROR` and makes no system call. -/
theorem read_readWithStruct_unaligned {S : Type} (K : Kernel S) (C : DriverConstants)
    (dev : PcieDevice) (bar address sizeInBytes : Nat) (os : S)
    (hf : dev.readFunction = some ReadFunction.readWithStruct) (hs : sizeInBytes % 4 ≠ 0) :
    (dev.read K C bar address sizeInBytes os).result =
      Except.error (DeviceException.PcieDeviceException
        "Wrong data size - must be dividable by 4" PcieDeviceExceptionId.EX_READ_ERROR) ∧
    (dev.read K C bar address sizeInBytes os).syscalls = [] ∧
    (dev.read K C bar address sizeInBytes os).os = os := by
  unfold PcieDevice.read
  rw [hf]
  dsimp only
  unfold PcieDevice.readWithStruct
  rw [if_pos hs]
  exact ⟨rfl, rfl, rfl⟩

/-- The variants with `writeWithStruct`: a `write` on an opened device whose size is
not a multiple of 4 throws `EX_WRITE_ERROR` and makes no system call. -/
theorem write_writeWithStruct_unaligned {S : Type} (K : Kernel S) (C : DriverConstants)
    (dev : PcieDevice) (bar address : Nat) (data : Nat → Int) (sizeInBytes : Nat) (os : S)
    (ho : dev.opened = true)
    (hf : dev.writeFunction = some WriteFunction.writeWithStruct) (hs : sizeInBytes % 4 ≠ 0) :
    (dev.write K C bar address data sizeInBytes os).result =
      Except.error (DeviceException.PcieDeviceException
        "Wrong data size - must be dividable by 4" PcieDeviceExceptionId.EX_WRITE_ERROR) ∧
    (dev.write K C bar address data sizeInBytes os).syscalls = [] ∧
    (dev.write K C bar address data sizeInBytes os).os = os := by
  unfold PcieDevice.write
  rw [hf]
  dsimp only
  unfold PcieDevice.writeWithStruct
  have ho2 : ¬ dev.opened = false := by rw [ho]; decide
  rw [if_neg ho2, if_pos hs]
  exact ⟨rfl, rfl, rfl⟩

/-- The variant with `directRead`: a `read` on an opened device with a bar of at most 5
calls `pread` with the size as given, whatever the size, and returns when `pread`
reports that many bytes. -/
theorem read_directRead_io {S : Type} (K : Kernel S) (C : DriverConstants)
    (dev : PcieDevice) (bar address sizeInBytes : Nat) (os : S)
    (ho : dev.opened = true) (hf : dev.readFunction = some ReadFunction.directRead)
    (hbar : bar ≤ 5) :
    (dev.read K C bar address sizeInBytes os).syscalls =
      [Syscall.pread dev.deviceID sizeInBytes (C.PCIEUNI_BAR_OFFSETS bar + address)] ∧
    ((K.sysPread dev.deviceID sizeInBytes (C.PCIEUNI_BAR_OFFSETS bar + address) os).1.1 =
        castToInt sizeInBytes →
      (dev.read K C bar address sizeInBytes os).result =
        Except.ok (K.sysPread dev.deviceID sizeInBytes
          (C.PCIEUNI_BAR_OFFSETS bar + address) os).1.2) := by
  unfold PcieDevice.read
  rw [hf]
  dsimp only
  unfold PcieDevice.directRead
  have ho2 : ¬ dev.opened = false := by rw [ho]; decide
  have hb : ¬ bar > 5 := by omega
  rw [if_neg ho2, if_neg hb]
  dsimp only
  by_cases hr : (K.sysPread dev.deviceID sizeInBytes (C.PCIEUNI_BAR_OFFSETS bar + address) os).1.1 =
      castToInt sizeInBytes
  · rw [if_neg (not_not.mpr hr)]
    exact ⟨rfl, fun _ => rfl⟩
  · rw [if_pos hr]
    exact ⟨rfl, fun h => absurd h hr⟩

/-- The variant with `directWrite`: a `write` on an opened device with a bar of at most
5 calls `pwrite` with the size as given, whatever the size, and returns when `pwrite`
reports that many bytes. -/
theorem write_directWrite_io {S : Type} (K : Kernel S) (C : DriverConstants)
    (dev : PcieDevice) (bar address : Nat) (data : Nat → Int) (sizeInBytes : Nat) (os : S)
    (ho : dev.opened = true) (hf : dev.writeFunction = some WriteFunction.directWrite)
    (hbar : bar ≤ 5) :
    (dev.write K C bar address data sizeInBytes os).syscalls =
      [Syscall.pwrite dev.deviceID sizeInBytes (C.PCIEUNI_BAR_OFFSETS bar + address)] ∧
    ((K.sysPwrite dev.deviceID data sizeInBytes (C.PCIEUNI_BAR_OFFSETS bar + address) os).1 =
        castToInt sizeInBytes →
      (dev.write K C bar address data sizeInBytes os).result = Except.ok ()) := by
  unfold PcieDevice.write
  rw [hf]
  dsimp only
  unfold PcieDevice.directWrite
  have ho2 : ¬ dev.opened = false := by rw [ho]; decide
  have hb : ¬ bar > 5 := by omega
  rw [if_neg ho2, if_neg hb]
  dsimp only
  by_cases hr : (K.sysPwrite dev.deviceID data sizeInBytes
      (C.PCIEUNI_BAR_OFFSETS bar + address) os).1 = castToInt sizeInBytes
  · rw [if_neg (not_not.mpr hr)]
    exact ⟨rfl, fun _ => rfl⟩
  · rw [if_pos hr]
    exact ⟨rfl, fun h => absurd h hr⟩

theorem parseLines_all_ignored (env : ParserEnvironment) (file_name absPath : List Char)
    (lines : List (List Char)) :
    ∀ (line_nr : Nat) (dmap : DeviceInfoMap),
      (∀ line ∈ lines, ignoredLine line = true) →
      DMapFileParser.parseLines env file_name absPath lines line_nr dmap = Except.ok dmap := by
  induction lines with
  | nil =>
    intro line_nr dmap _
    rfl
  | cons l ls ih =>
    intro line_nr dmap h
    rw [parseLines_ignored env file_name absPath l ls line_nr dmap
      (h l (List.mem_cons_self l ls))]
    exact ih _ dmap (fun x hx => h x (List.mem_cons_of_mem l hx))

theorem parseLines_first_bad (env : ParserEnvironment) (file_name absPath : List Char)
    (bad : List Char) (rest : List (List Char)) (hbad : ignoredLine bad = false)
    (hbt : (tokens bad).length < 3) (pre : List (List Char)) :
    ∀ (line_nr : Nat) (dmap : DeviceInfoMap),
      (∀ line ∈ pre, ignoredLine line = false → 3 ≤ (tokens line).length) →
      DMapFileParser.parseLines env file_name absPath (pre ++ bad :: rest) line_nr dmap =
        Except.error (DMapFileParser.raiseException file_name (bad.dropWhile isspace)
          (add32 line_nr (pre.length + 1))) := by
  induction pre with
  | nil =>
    intro line_nr dmap _
    exact parseLines_error env file_name absPath bad rest line_nr dmap hbad hbt
  | cons l ls ih =>
    intro line_nr dmap h
    have hrest : ∀ line ∈ ls, ignoredLine line = false → 3 ≤ (tokens line).length :=
      fun x hx => h x (List.mem_cons_of_mem l hx)
    rw [List.cons_append, List.length_cons]
    by_cases hi : ignoredLine l = true
    · rw [parseLines_ignored env file_name absPath l _ line_nr dmap hi,
        ih (add32 line_nr 1) dmap hrest, add32_add32_one]
    · have hi2 : ignoredLine l = false := by simpa using hi
      rw [parseLines_entry env file_name absPath l _ line_nr dmap hi2
        (h l (List.mem_cons_self l ls) hi2),
        ih (add32 line_nr 1) _ hrest, add32_add32_one]

/-- The accepted requests that stay inside the register: a data size other than 0, an
offset that is not beyond the size of the register, and a register that ends below
2^32. -/
theorem checkRegister_inside (me : mapElem) (dataSize addRegOffset : Nat)
    (r : CheckedRegister) (hS : me.reg_size < 2 ^ 32)
    (hend : me.reg_address + me.reg_size < 2 ^ 32)
    (hd : dataSize ≠ 0) (hoff : addRegOffset ≤ me.reg_size)
    (h : devMap.RegisterAccessor.checkRegister me dataSize addRegOffset = Except.ok r) :
    r.insideRegister me := by
  unfold devMap.RegisterAccessor.checkRegister at h
  by_cases h1 : addRegOffset % 4 ≠ 0
  · rw [if_pos h1] at h
    cases h
  · rw [if_neg h1, if_pos hd] at h
    by_cases h2 : dataSize % 4 ≠ 0
    · rw [if_pos h2] at h
      cases h
    · rw [if_neg h2] at h
      by_cases h3 : dataSize > sub32 me.reg_size addRegOffset
      · rw [if_pos h3] at h
        cases h
      · rw [if_neg h3] at h
        rw [sub32_of_le _ _ hS hoff] at h3
        have hlt : dataSize < 2 ^ 32 := by omega
        have hadd : add32 me.reg_address addRegOffset = me.reg_address + addRegOffset :=
          add32_of_lt _ _ (by omega)
        rw [Nat.mod_eq_of_lt hlt, hadd] at h
        cases h
        unfold CheckedRegister.insideRegister
        dsimp only
        omega

/-- After `close()` the device is not opened and its function objects are as before. -/
theorem close_device {S : Type} (K : Kernel S) (dev : PcieDevice) (os : S) :
    (dev.close K os).device = { dev with opened := false } ∧
    (dev.close K os).result = Except.ok () := by
  unfold PcieDevice.close
  split <;> exact ⟨rfl, rfl⟩

/-- On a device that is not opened, `write` with a bound function throws
`EX_DEVICE_CLOSED` and makes no system call. -/
theorem write_closed {S : Type} (K : Kernel S) (C : DriverConstants) (dev : PcieDevice)
    (bar address : Nat) (data : Nat → Int) (sizeInBytes : Nat) (os : S)
    (hc : dev.opened = false) (f : WriteFunction) (hf : dev.writeFunction = some f) :
    (dev.write K C bar address data sizeInBytes os).result = Except.error deviceClosed ∧
    (dev.write K C bar address data sizeInBytes os).syscalls = [] ∧
    (dev.write K C bar address data sizeInBytes os).os = os := by
  unfold PcieDevice.write
  rw [hf]
  cases f with
  | writeWithStruct =>
    dsimp only
    unfold PcieDevice.writeWithStruct
    rw [if_pos hc]
    exact ⟨rfl, rfl, rfl⟩
  | directWrite =>
    dsimp only
    unfold PcieDevice.directWrite
    rw [if_pos hc]
    exact ⟨rfl, rfl, rfl⟩

/-- On a device that is not opened, `readDMA` with a bound function throws
`EX_DEVICE_CLOSED` and makes no system call. -/
theorem readDMA_closed {S : Type} (K : Kernel S) (C : DriverConstants) (dev : PcieDevice)
    (address sizeInBytes : Nat) (os : S)
    (hc : dev.opened = false) (f : ReadDMAFunction) (hf : dev.readDMAFunction = some f) :
    (dev.readDMA K C address sizeInBytes os).result = Except.error deviceClosed ∧
    (dev.readDMA K C address sizeInBytes os).syscalls = [] ∧
    (dev.readDMA K C address sizeInBytes os).os = os := by
  unfold PcieDevice.readDMA
  rw [hf]
  cases f with
  | readDMAViaIoctl =>
    dsimp only
    unfold PcieDevice.readDMAViaIoctl
    rw [if_pos hc]
    exact ⟨rfl, rfl, rfl⟩
  | readDMAViaStruct =>
    dsimp only
    unfold PcieDevice.readDMAViaStruct
    rw [if_pos hc]
    exact ⟨rfl, rfl, rfl⟩

/-- On a device that is not opened, `read` through `directRead` throws
`EX_DEVICE_CLOSED` and makes no system call. -/
theorem read_directRead_closed {S : Type} (K : Kernel S) (C : DriverConstants)
    (dev : PcieDevice) (bar address sizeInBytes : Nat) (os : S)
    (hc : dev.opened = false) (hf : dev.readFunction = some ReadFunction.directRead) :
    (dev.read K C bar address sizeInBytes os).result = Except.error deviceClosed ∧
    (dev.read K C bar address sizeInBytes os).syscalls = [] ∧
    (dev.read K C bar address sizeInBytes os).os = os := by
  unfold PcieDevice.read
  rw [hf]
  dsimp only
  unfold PcieDevice.directRead
  rw [if_pos hc]
  exact ⟨rfl, rfl, rfl⟩

/-- On a device that is not opened, `read` through `readWithStruct` makes no system
call; it throws `EX_DEVICE_CLOSED` for a size that is a multiple of 4 other than 0,
throws `EX_READ_ERROR` for a size that is not a multiple of 4, and returns for the
size 0. -/
theorem read_readWithStruct_closed {S : Type} (K : Kernel S) (C : DriverConstants)
    (dev : PcieDevice) (bar address sizeInBytes : Nat) (os : S)
    (hc : dev.opened = false) (hf : dev.readFunction = some ReadFunction.readWithStruct) :
    (dev.read K C bar address sizeInBytes os).syscalls = [] ∧
    (dev.read K C bar address sizeInBytes os).os = os ∧
    (sizeInBytes % 4 = 0 → sizeInBytes ≠ 0 →
      (dev.read K C bar address sizeInBytes os).result = Except.error deviceClosed) ∧
    (sizeInBytes % 4 ≠ 0 →
      (dev.read K C bar address sizeInBytes os).result =
        Except.error (DeviceException.PcieDeviceException
          "Wrong data size - must be dividable by 4" PcieDeviceExceptionId.EX_READ_ERROR)) ∧
    (sizeInBytes = 0 → (dev.read K C bar address sizeInBytes os).result = Except.ok []) := by
  unfold PcieDevice.read
  rw [hf]
  dsimp only
  unfold PcieDevice.readWithStruct
  by_cases hs : sizeInBytes % 4 ≠ 0
  · rw [if_pos hs]
    refine ⟨rfl, rfl, fun h => absurd h hs, fun _ => rfl, fun h => ?_⟩
    subst h
    exact absurd rfl hs
  · rw [if_neg hs]
    cases hq : sizeInBytes / 4 with
    | zero =>
      have h0 : sizeInBytes = 0 := by omega
      refine ⟨rfl, rfl, fun _ h => absurd h0 h, fun h => absurd h hs, fun _ => rfl⟩
    | succ n =>
      have hne : sizeInBytes ≠ 0 := by
        intro h
        subst h
        simp at hq
      have hloop : PcieDevice.readWithStructLoop K C dev bar address (n + 1) 0 os =
          ⟨Except.error deviceClosed, dev, os, []⟩ := by
        rw [PcieDevice.readWithStructLoop]
        dsimp only
        unfold PcieDevice.readInternal
        rw [if_pos hc]
        rfl
      rw [hloop]
      exact ⟨rfl, rfl, fun _ _ => rfl, fun h => absurd h hs, fun h => absurd h hne⟩

/-- An `open` on an opened device throws `EX_DEVICE_OPENED`, makes no system call and
leaves the device as it was. -/
theorem open_opened {S : Type} (K : Kernel S) (C : DriverConstants) (dev : PcieDevice)
    (devName : String) (perm : Int) (os : S) (ho : dev.opened = true) :
    (dev.open K C devName perm os).result =
      Except.error (DeviceException.PcieDeviceException "Device already has been _Opened"
        PcieDeviceExceptionId.EX_DEVICE_OPENED) ∧
    (dev.open K C devName perm os).device = dev ∧
    (dev.open K C devName perm os).syscalls = [] ∧
    (dev.open K C devName perm os).os = os := by
  unfold PcieDevice.open
  rw [if_pos ho]
  exact ⟨rfl, rfl, rfl, rfl⟩

theorem sizeOneBlockLoop_eq (sequenceInfos : List SequenceInfo) :
    ∀ (wordSize sizeOneBlock : Nat), sizeOneBlock < 2 ^ 32 →
      MixedTypeMuxedDataAccessor.sizeOneBlockLoop sequenceInfos wordSize sizeOneBlock =
        (sizeOneBlock + wordCount sequenceInfos wordSize) % 2 ^ 32 := by
  induction sequenceInfos with
  | nil =>
    intro wordSize sizeOneBlock h
    simp only [MixedTypeMuxedDataAccessor.sizeOneBlockLoop, wordCount, Nat.add_zero]
    exact (Nat.mod_eq_of_lt h).symm
  | cons info rest ih =>
    intro wordSize sizeOneBlock h
    have hM : (2 : Nat) ^ 32 = 4294967296 := by norm_num
    have hadd : ∀ n : Nat, add32 n 1 < 2 ^ 32 := fun n => Nat.mod_lt _ (by norm_num)
    rw [MixedTypeMuxedDataAccessor.sizeOneBlockLoop, wordCount]
    by_cases h1 : wordSize + info.nBytes > 4
    · by_cases h2 : rest.isEmpty = true
      · simp only [h1, h2, if_true]
        rw [ih _ _ (hadd _)]
        unfold add32
        rw [hM]
        omega
      · simp only [h1, h2, if_true, if_false, Bool.false_eq_true]
        rw [ih _ _ (hadd _)]
        unfold add32
        rw [hM]
        omega
    · by_cases h2 : rest.isEmpty = true
      · simp only [h1, h2, if_true, if_false]
        rw [ih _ _ (hadd _)]
        unfold add32
        rw [hM]
        omega
      · simp only [h1, h2, if_true, if_false, Bool.false_eq_true]
        rw [ih _ _ h]
        rw [hM]
        omega

theorem sumBytes_cons (info : SequenceInfo) (rest : List SequenceInfo) :
    sumBytes (info :: rest) = info.nBytes + sumBytes rest := by
  simp [sumBytes]

theorem wordCount_bounds (sequenceInfos : List SequenceInfo) :
    ∀ wordSize : Nat, wordSize ≤ 4 → (∀ info ∈ sequenceInfos, info.nBytes ≤ 4) →
      sequenceInfos ≠ [] →
      1 ≤ wordCount sequenceInfos wordSize ∧
      wordCount sequenceInfos wordSize ≤ sequenceInfos.length + 1 ∧
      wordSize + sumBytes sequenceInfos ≤ 4 * wordCount sequenceInfos wordSize := by
  induction sequenceInfos with
  | nil =>
    intro wordSize _ _ hne
    exact absurd rfl hne
  | cons info rest ih =>
    intro wordSize hw hb _
    have hi : info.nBytes ≤ 4 := hb info (List.mem_cons_self info rest)
    have hrest : ∀ x ∈ rest, x.nBytes ≤ 4 := fun x hx => hb x (List.mem_cons_of_mem info hx)
    rw [wordCount, sumBytes_cons, List.length_cons]
    cases rest with
    | nil =>
      simp only [List.isEmpty_nil, if_true, wordCount, sumBytes, List.map_nil, List.sum_nil,
        List.length_nil]
      by_cases h1 : wordSize + info.nBytes > 4
      · rw [if_pos h1]
        omega
      · rw [if_neg h1]
        omega
    | cons b rest2 =>
      have hne2 : b :: rest2 ≠ [] := List.cons_ne_nil b rest2
      have he : (b :: rest2).isEmpty = false := rfl
      rw [he]
      simp only [Bool.false_eq_true, if_false, Nat.add_zero]
      by_cases h1 : wordSize + info.nBytes > 4
      · rw [if_pos h1, if_pos h1]
        obtain ⟨i1, i2, i3⟩ := ih info.nBytes hi hrest hne2
        simp only [List.length_cons] at i2 ⊢
        omega
      · rw [if_neg h1, if_neg h1]
        obtain ⟨i1, i2, i3⟩ := ih (wordSize + info.nBytes) (by omega) hrest hne2
        simp only [List.length_cons] at i2 ⊢
        omega

theorem wordCount_zero_le_length (sequenceInfos : List SequenceInfo)
    (hb : ∀ info ∈ sequenceInfos, info.nBytes ≤ 4) :
    wordCount sequenceInfos 0 ≤ sequenceInfos.length := by
  cases sequenceInfos with
  | nil => simp [wordCount]
  | cons info rest =>
    have hi : info.nBytes ≤ 4 := hb info (List.mem_cons_self info rest)
    have h1 : ¬ 0 + info.nBytes > 4 := by omega
    rw [wordCount, if_neg h1, if_neg h1, List.length_cons]
    cases rest with
    | nil => simp [wordCount]
    | cons b rest2 =>
      have := (wordCount_bounds (b :: rest2) (0 + info.nBytes) (by omega)
        (fun x hx => hb x (List.mem_cons_of_mem info hx)) (List.cons_ne_nil b rest2)).2.1
      have he : (b :: rest2).isEmpty = false := rfl
      rw [he]
      simp only [Bool.false_eq_true, if_false, List.length_cons] at this ⊢
      omega

/-- The value of `_sizeOneBlock` for fewer than 2^32 sequences of at most 4 bytes: the
number of words counted, which is at least 1 and at least a quarter of the bytes of a
block. -/
theorem computeSizeOneBlock_eq (sequenceInfos : List SequenceInfo)
    (hne : sequenceInfos ≠ []) (hb : ∀ info ∈ sequenceInfos, info.nBytes ≤ 4)
    (hlen : sequenceInfos.length < 2 ^ 32) :
    MixedTypeMuxedDataAccessor.computeSizeOneBlock sequenceInfos = wordCount sequenceInfos 0 ∧
    1 ≤ wordCount sequenceInfos 0 ∧
    sumBytes sequenceInfos ≤ 4 * wordCount sequenceInfos 0 := by
  have h1 := wordCount_bounds sequenceInfos 0 (by omega) hb hne
  have h2 := wordCount_zero_le_length sequenceInfos hb
  refine ⟨?_, h1.1, by omega⟩
  unfold MixedTypeMuxedDataAccessor.computeSizeOneBlock
  rw [sizeOneBlockLoop_eq sequenceInfos 0 0 (by norm_num), Nat.zero_add]
  exact Nat.mod_eq_of_lt (by omega)

/-- One block of sequences of 1, 2 or 4 bytes: the pointer advances by the bytes of a
block, and the accesses lie between its start and its end. -/
theorem traverseBlock_spec (blockIndex : Nat) (sequenceInfos : List SequenceInfo) :
    ∀ (sequenceIndex offset : Nat),
      (∀ info ∈ sequenceInfos, info.nBytes = 1 ∨ info.nBytes = 2 ∨ info.nBytes = 4) →
      (MixedTypeMuxedDataAccessor.traverseBlock blockIndex sequenceInfos sequenceIndex offset).2 =
        offset + sumBytes sequenceInfos ∧
      (((MixedTypeMuxedDataAccessor.traverseBlock blockIndex sequenceInfos sequenceIndex
        offset).1).map (fun a => a.nBytes)).sum = sumBytes sequenceInfos ∧
      ∀ a ∈ (MixedTypeMuxedDataAccessor.traverseBlock blockIndex sequenceInfos sequenceIndex
          offset).1,
        offset ≤ a.offset ∧ a.offset + a.nBytes ≤ offset + sumBytes sequenceInfos := by
  induction sequenceInfos with
  | nil =>
    intro sequenceIndex offset _
    simp [MixedTypeMuxedDataAccessor.traverseBlock, sumBytes]
  | cons info rest ih =>
    intro sequenceIndex offset hb
    have hi := hb info (List.mem_cons_self info rest)
    obtain ⟨i1, i2, i3⟩ := ih (sequenceIndex + 1) (offset + info.nBytes)
      (fun x hx => hb x (List.mem_cons_of_mem info hx))
    rw [MixedTypeMuxedDataAccessor.traverseBlock, if_pos hi, sumBytes_cons]
    refine ⟨?_, ?_, ?_⟩
    · show (MixedTypeMuxedDataAccessor.traverseBlock blockIndex rest (sequenceIndex + 1)
        (offset + info.nBytes)).2 = _
      rw [i1]
      omega
    · simp only [List.map_cons, List.sum_cons]
      rw [i2]
    · intro a ha
      rcases List.mem_cons.mp ha with ha | ha
      · subst ha
        dsimp only
        omega
      · have := i3 a ha
        omega

theorem traverse_spec (sequenceInfos : List SequenceInfo)
    (hb : ∀ info ∈ sequenceInfos, info.nBytes = 1 ∨ info.nBytes = 2 ∨ info.nBytes = 4)
    (count : Nat) :
    ∀ (blockIndex offset : Nat),
      (MixedTypeMuxedDataAccessor.traverse sequenceInfos count blockIndex offset).2 =
        offset + count * sumBytes sequenceInfos ∧
      (((MixedTypeMuxedDataAccessor.traverse sequenceInfos count blockIndex offset).1).map
        (fun a => a.nBytes)).sum = count * sumBytes sequenceInfos ∧
      ∀ a ∈ (MixedTypeMuxedDataAccessor.traverse sequenceInfos count blockIndex offset).1,
        offset ≤ a.offset ∧ a.offset + a.nBytes ≤ offset + count * sumBytes sequenceInfos := by
  induction count with
  | zero =>
    intro blockIndex offset
    simp [MixedTypeMuxedDataAccessor.traverse]
  | succ n ih =>
    intro blockIndex offset
    obtain ⟨b1, b2, b3⟩ := traverseBlock_spec blockIndex sequenceInfos 0 offset hb
    obtain ⟨i1, i2, i3⟩ := ih (blockIndex + 1)
      (MixedTypeMuxedDataAccessor.traverseBlock blockIndex sequenceInfos 0 offset).2
    rw [b1] at i1 i2 i3
    rw [MixedTypeMuxedDataAccessor.traverse]
    dsimp only
    rw [b1]
    have hmul : (n + 1) * sumBytes sequenceInfos = n * sumBytes sequenceInfos +
        sumBytes sequenceInfos := Nat.succ_mul n _
    refine ⟨?_, ?_, ?_⟩
    · rw [i1]
      omega
    · rw [List.map_append, List.sum_append, b2, i2]
      omega
    · intro a ha
      rcases List.mem_append.mp ha with ha | ha
      · have := b3 a ha
        omega
      · have := i3 a ha
        omega

theorem stringLess_irrefl (a : List Char) : stringLess a a = false := by
  induction a with
  | nil => rfl
  | cons c cs ih => simp [stringLess, ih]

theorem stringLess_eq_of_not (a : List Char) :
    ∀ b : List Char, stringLess a b = false → stringLess b a = false → a = b := by
  induction a with
  | nil =>
    intro b h1 _
    cases b with
    | nil => rfl
    | cons d ds => simp [stringLess] at h1
  | cons c cs ih =>
    intro b h1 h2
    cases b with
    | nil => simp [stringLess] at h2
    | cons d ds =>
      simp only [stringLess, Bool.or_eq_false_iff, decide_eq_false_iff_not, Nat.not_lt,
        Bool.and_eq_false_imp, decide_eq_true_eq] at h1 h2
      have hcd : c = d := Char.ext (UInt32.ext (Nat.le_antisymm h2.1 h1.1))
      subst hcd
      rw [ih ds (h1.2 rfl) (h2.2 rfl)]

theorem keyLess_irrefl (a : List Char × List Char) : keyLess a a = false := by
  simp [keyLess, stringLess_irrefl]

theorem keyLess_eq_of_not (a b : List Char × List Char) (h1 : keyLess a b = false)
    (h2 : keyLess b a = false) : a = b := by
  unfold keyLess at h1 h2
  simp only [Bool.or_eq_false_iff, Bool.and_eq_false_imp, Bool.not_eq_true',
    Bool.not_eq_eq_eq_not, Bool.not_true] at h1 h2
  have e1 : a.1 = b.1 := stringLess_eq_of_not a.1 b.1 h1.1 h2.1
  have e2 : a.2 = b.2 := stringLess_eq_of_not a.2 b.2 (h1.2 h2.1) (h2.2 h1.1)
  exact Prod.ext e1 e2

/-- The loop of `createBackendInternal` after an assignment to `creatorMap`: the new
creator under the assigned key, the same creator as before under every other key. -/
theorem findCreator_assign {B : Type} (key : List Char × List Char)
    (creatorFunction : List Char → List Char → List (List Char) → List Char → B)
    (interface protocol : List Char) (m : List (Registration B)) :
    findCreator interface protocol (creatorMapAssign key creatorFunction m) =
      if key = (interface, protocol) then some creatorFunction
      else findCreator interface protocol m := by
  have hkey : ∀ k : List Char × List Char,
      (k.1 = interface ∧ k.2 = protocol) ↔ k = (interface, protocol) := by
    intro k
    constructor
    · intro h
      exact Prod.ext h.1 h.2
    · intro h
      rw [h]
      exact ⟨rfl, rfl⟩
  induction m with
  | nil =>
    simp only [creatorMapAssign, findCreator, hkey]
  | cons entry rest ih =>
    rw [creatorMapAssign]
    by_cases h1 : keyLess key entry.1 = true
    · rw [if_pos h1]
      rw [findCreator]
      simp only [hkey]
    · rw [if_neg h1]
      by_cases h2 : keyLess entry.1 key = true
      · rw [if_pos h2]
        rw [findCreator, ih, findCreator]
        simp only [hkey]
        by_cases hk : key = (interface, protocol)
        · have hne : ¬ entry.1 = (interface, protocol) := by
            intro he
            rw [he, hk, keyLess_irrefl] at h2
            cases h2
          simp only [hne, hk, if_true, if_false]
        · simp only [hk, if_false]
      · rw [if_neg h2]
        have he : entry.1 = key :=
          (keyLess_eq_of_not key entry.1 (by simpa using h1) (by simpa using h2)).symm
        rw [findCreator, findCreator]
        simp only [hkey]
        by_cases hk : key = (interface, protocol)
        · rw [if_pos (he.trans hk), if_pos hk]
        · rw [if_neg (fun h => hk (he.symm.trans h)), if_neg hk,
            if_neg (fun h => hk (he.symm.trans h))]

/-- The loop of `createBackendInternal` after a sequence of registrations: the creator
registered last under the pair, or the one that the factory had before. -/
theorem findCreator_registerAll {B : Type} (interface protocol : List Char)
    (regs : List (Registration B)) :
    ∀ factory : BackendFactory B,
      findCreator interface protocol (factory.registerAll regs).creatorMap =
        match lastRegistered (interface, protocol) regs with
        | some creatorFunction => some creatorFunction
        | none => findCreator interface protocol factory.creatorMap := by
  induction regs with
  | nil =>
    intro factory
    rfl
  | cons r rest ih =>
    intro factory
    rw [BackendFactory.registerAll, ih, lastRegistered]
    cases hl : lastRegistered (interface, protocol) rest with
    | some c => rfl
    | none =>
      dsimp only
      unfold BackendFactory.registerBackendType
      dsimp only
      rw [findCreator_assign]
      by_cases hk : r.1 = (interface, protocol)
      · have hk2 : (r.1.1, r.1.2) = (interface, protocol) := by
          rw [← hk]
        rw [if_pos hk, if_pos hk2]
      · have hk2 : ¬ (r.1.1, r.1.2) = (interface, protocol) := by
          intro h
          exact hk h
        rw [if_neg hk, if_neg hk2]

theorem lastRegistered_eq_none {B : Type} (key : List Char × List Char)
    (regs : List (Registration B)) :
    lastRegistered key regs = none ↔ ∀ r ∈ regs, r.1 ≠ key := by
  induction regs with
  | nil => simp [lastRegistered]
  | cons r rest ih =>
    rw [lastRegistered]
    cases hl : lastRegistered key rest with
    | some c =>
      simp only [false_iff, reduceCtorEq]
      intro h
      have h2 : lastRegistered key rest = none :=
        ih.mpr (fun x hx => h x (List.mem_cons_of_mem r hx))
      rw [hl] at h2
      cases h2
    | none =>
      dsimp only
      have hrest := ih.mp hl
      by_cases hk : r.1 = key
      · rw [if_pos hk]
        simp only [false_iff, reduceCtorEq]
        intro h
        exact h r (List.mem_cons_self r rest) hk
      · rw [if_neg hk]
        simp only [true_iff]
        intro x hx
        rcases List.mem_cons.mp hx with hx | hx
        · rw [hx]
          exact hk
        · exact hrest x hx

theorem lastRegistered_append {B : Type} (key : List Char × List Char)
    (creatorFunction : List Char → List Char → List (List Char) → List Char → B)
    (post : List (Registration B)) (hpost : ∀ r ∈ post, r.1 ≠ key)
    (pre : List (Registration B)) :
    lastRegistered key (pre ++ (key, creatorFunction) :: post) = some creatorFunction := by
  induction pre with
  | nil =>
    rw [List.nil_append, lastRegistered, (lastRegistered_eq_none key post).mpr hpost]
    simp
  | cons r rest ih =>
    rw [List.cons_append, lastRegistered, ih]

theorem takeWhile_append_stop {α : Type} (p : α → Bool) (l r : List α) (b : α)
    (hl : ∀ a ∈ l, p a = true) (hb : p b = false) : (l ++ b :: r).takeWhile p = l := by
  induction l with
  | nil => simp [List.takeWhile, hb]
  | cons a as ih =>
    rw [List.cons_append, List.takeWhile_cons_of_pos (hl a (List.mem_cons_self a as)),
      ih (fun x hx => hl x (List.mem_cons_of_mem a hx))]

theorem dropWhile_append_stop {α : Type} (p : α → Bool) (l r : List α) (b : α)
    (hl : ∀ a ∈ l, p a = true) (hb : p b = false) : (l ++ b :: r).dropWhile p = b :: r := by
  induction l with
  | nil => simp [List.dropWhile, hb]
  | cons a as ih =>
    rw [List.cons_append, List.dropWhile_cons_of_pos (hl a (List.mem_cons_self a as)),
      ih (fun x hx => hl x (List.mem_cons_of_mem a hx))]

theorem takeWhile_all {α : Type} (p : α → Bool) (l : List α) (hl : ∀ a ∈ l, p a = true) :
    l.takeWhile p = l := by
  induction l with
  | nil => rfl
  | cons a as ih =>
    rw [List.takeWhile_cons_of_pos (hl a (List.mem_cons_self a as)),
      ih (fun x hx => hl x (List.mem_cons_of_mem a hx))]

theorem count_delimiter_zero (l : List Char) (hl : ∀ c ∈ l, isSdmDelimiter c = false)
    (d : Char) (hd : isSdmDelimiter d = true) : l.count d = 0 := by
  rw [List.count_eq_zero]
  intro h
  have := hl d h
  rw [hd] at this
  cases this

theorem ne_delimiter (l : List Char) (hl : ∀ c ∈ l, isSdmDelimiter c = false)
    (d : Char) (hd : isSdmDelimiter d = true) : ∀ c ∈ l, (c != d) = true := by
  intro c hc
  have h := hl c hc
  simp only [bne_iff_ne, ne_eq]
  intro hcd
  rw [hcd, hd] at h
  cases h

theorem not_delimiter (l : List Char) (hl : ∀ c ∈ l, isSdmDelimiter c = false) :
    ∀ c ∈ l, (!isSdmDelimiter c) = true := by
  intro c hc
  rw [hl c hc]
  rfl

/-- The fields that `parseSdm` finds in the part after the host with an instance and a
protocol. -/
theorem fields_instance_protocol (interface inst protocol : List Char)
    (hi : ∀ c ∈ interface, isSdmDelimiter c = false)
    (hin : ∀ c ∈ inst, isSdmDelimiter c = false)
    (hp : ∀ c ∈ protocol, isSdmDelimiter c = false) :
    (interface ++ ':' :: (inst ++ ';' :: protocol)).takeWhile (fun c => !isSdmDelimiter c) =
      interface ∧
    fieldAfter ':' (interface ++ ':' :: (inst ++ ';' :: protocol)) = some inst ∧
    fieldAfter ';' (interface ++ ':' :: (inst ++ ';' :: protocol)) = some protocol ∧
    fieldAfter '=' (interface ++ ':' :: (inst ++ ';' :: protocol)) = none := by
  refine ⟨?_, ?_, ?_, ?_⟩
  · exact takeWhile_append_stop _ _ _ _ (not_delimiter interface hi) (by decide)
  · unfold fieldAfter
    rw [if_pos (by simp)]
    rw [dropWhile_append_stop _ _ _ _ (ne_delimiter interface hi ':' (by decide)) (by decide)]
    rw [List.drop_one, List.tail_cons]
    rw [takeWhile_append_stop _ _ _ _ (not_delimiter inst hin) (by decide)]
  · unfold fieldAfter
    rw [if_pos (by simp)]
    have hsplit : interface ++ ':' :: (inst ++ ';' :: protocol) =
        (interface ++ ':' :: inst) ++ ';' :: protocol := by simp
    rw [hsplit, dropWhile_append_stop _ _ _ _ (by
      intro c hc
      rcases List.mem_append.mp hc with h | h
      · exact ne_delimiter interface hi ';' (by decide) c h
      · rcases List.mem_cons.mp h with h | h
        · subst h
          decide
        · exact ne_delimiter inst hin ';' (by decide) c h) (by decide)]
    rw [List.drop_one, List.tail_cons, takeWhile_all _ _ (not_delimiter protocol hp)]
  · unfold fieldAfter
    rw [if_neg]
    intro h
    rcases List.mem_append.mp h with h | h
    · have := hi _ h
      revert this
      decide
    · rcases List.mem_cons.mp h with h | h
      · revert h
        decide
      · rcases List.mem_append.mp h with h | h
        · have := hin _ h
          revert this
          decide
        · rcases List.mem_cons.mp h with h | h
          · revert h
            decide
          · have := hp _ h
            revert this
            decide

theorem mem_intercalate_comma (params : List (List Char)) :
    ∀ c ∈ [','].intercalate params, c = ',' ∨ ∃ p ∈ params, c ∈ p := by
  induction params with
  | nil =>
    intro c hc
    simp [List.intercalate] at hc
  | cons a rest ih =>
    intro c hc
    cases rest with
    | nil =>
      have hone : [','].intercalate [a] = a := by
        simp [List.intercalate, List.intersperse]
      rw [hone] at hc
      exact Or.inr ⟨a, List.mem_singleton.mpr rfl, hc⟩
    | cons b rest2 =>
      have hstep : [','].intercalate (a :: b :: rest2) =
          a ++ ',' :: [','].intercalate (b :: rest2) := by
        simp [List.intercalate, List.intersperse]
      rw [hstep] at hc
      rcases List.mem_append.mp hc with h | h
      · exact Or.inr ⟨a, List.mem_cons_self a _, h⟩
      · rcases List.mem_cons.mp h with h | h
        · exact Or.inl h
        · rcases ih c h with h2 | ⟨p, hp, hcp⟩
          · exact Or.inl h2
          · exact Or.inr ⟨p, List.mem_cons_of_mem a hp, hcp⟩

/-- The fields that `parseSdm` finds in the part after the host with parameters. -/
theorem fields_parameters (interface : List Char) (params : List (List Char))
    (hi : ∀ c ∈ interface, isSdmDelimiter c = false) (hne : params ≠ [])
    (hp : ∀ p ∈ params, ∀ c ∈ p, c ≠ ',' ∧ isSdmDelimiter c = false) :
    (interface ++ '=' :: [','].intercalate params).takeWhile (fun c => !isSdmDelimiter c) =
      interface ∧
    fieldAfter ':' (interface ++ '=' :: [','].intercalate params) = none ∧
    fieldAfter ';' (interface ++ '=' :: [','].intercalate params) = none ∧
    fieldAfter '=' (interface ++ '=' :: [','].intercalate params) =
      some ([','].intercalate params) ∧
    ([','].intercalate params).splitOn ',' = params := by
  have htext : ∀ c ∈ [','].intercalate params, isSdmDelimiter c = false := by
    intro c hc
    rcases mem_intercalate_comma params c hc with h | ⟨p, hpp, hcp⟩
    · subst h
      decide
    · exact (hp p hpp c hcp).2
  have hnot : ∀ d : Char, isSdmDelimiter d = true → d ≠ '=' →
      d ∉ interface ++ '=' :: [','].intercalate params := by
    intro d hd hde h
    rcases List.mem_append.mp h with h | h
    · have := hi d h
      rw [hd] at this
      cases this
    · rcases List.mem_cons.mp h with h | h
      · exact hde h
      · have := htext d h
        rw [hd] at this
        cases this
  refine ⟨?_, ?_, ?_, ?_, ?_⟩
  · exact takeWhile_append_stop _ _ _ _ (not_delimiter interface hi) (by decide)
  · unfold fieldAfter
    rw [if_neg (hnot ':' (by decide) (by decide))]
  · unfold fieldAfter
    rw [if_neg (hnot ';' (by decide) (by decide))]
  · unfold fieldAfter
    rw [if_pos (by simp)]
    rw [dropWhile_append_stop _ _ _ _ (ne_delimiter interface hi '=' (by decide)) (by decide)]
    rw [List.drop_one, List.tail_cons, takeWhile_all _ _ (not_delimiter _ htext)]
  · exact List.splitOn_intercalate params ',' (fun l hl h => (hp l hl ',' h).1 rfl) hne

/-- The map of creators that the constructor of the factory leaves, in iteration
order. -/
theorem new_creatorMap {B : Type}
    (pcie dummy rebot logicalNameMapping :
      List Char → List Char → List (List Char) → List Char → B) :
    (BackendFactory.new pcie dummy rebot logicalNameMapping).creatorMap =
      [(("dummy".toList, "".toList), dummy),
        (("logicalNameMap".toList, "".toList), logicalNameMapping),
        (("pci".toList, "".toList), pcie),
        (("pci".toList, "pcie".toList), pcie),
        (("rebot".toList, "".toList), rebot)] := rfl

/-- The loop of `createBackendInternal` finds no creator for the empty interface in a
map that has no key with an empty interface. -/
theorem findCreator_empty_interface {B : Type} (protocol : List Char)
    (m : List (Registration B)) (hm : ∀ e ∈ m, e.1.1 ≠ []) :
    findCreator [] protocol m = none := by
  induction m with
  | nil => rfl
  | cons e rest ih =>
    rw [findCreator, if_neg (fun h => hm e (List.mem_cons_self e rest) h.1)]
    exact ih (fun x hx => hm x (List.mem_cons_of_mem e hx))

theorem dev_form_iff (deviceString : List Char) :
    (deviceString.take 5 = "/dev/".toList ∧ 5 < deviceString.length) ↔
      ∃ name : List Char, name ≠ [] ∧ deviceString = "/dev/".toList ++ name := by
  constructor
  · intro h
    refine ⟨deviceString.drop 5, ?_, ?_⟩
    · intro hd
      have := congrArg List.length hd
      simp only [List.length_drop, List.length_nil] at this
      omega
    · rw [← h.1]
      exact (List.take_append_drop 5 deviceString).symm
  · intro h
    obtain ⟨name, hne, hs⟩ := h
    subst hs
    refine ⟨rfl, ?_⟩
    have : 0 < name.length := List.length_pos.mpr hne
    have h5 : "/dev/".toList.length = 5 := rfl
    rw [List.length_append, h5]
    omega

/-! The claims on the `mtca4u` sources. -/

/-- C17: a size that is not a multiple of 4 on a device opened with the pcieuni
driver. `open` selects the pcieuni variant and leaves the device opened;
`read(0, 0, data, 3)` then calls `pread` for 3 bytes and returns normally, and
`write(0, 0, data, 3)` calls `pwrite` for 3 bytes and returns normally. On the same
operating system with the pciedev or the llrf driver, the same `read` and `write`
throw `EX_READ_ERROR` and `EX_WRITE_ERROR` and make no system call. -/
theorem read_write_unaligned_pcieuni :
    selectedVariant (exampleKernel 6) exampleConstants 3 () = some DriverVariant.pcieuni ∧
    (exampleOpenedDevice 6).opened = true ∧
    ((exampleOpenedDevice 6).read (exampleKernel 6) exampleConstants 0 0 3 ()).result =
      Except.ok [] ∧
    ((exampleOpenedDevice 6).read (exampleKernel 6) exampleConstants 0 0 3 ()).syscalls =
      [Syscall.pread 3 3 0] ∧
    ((exampleOpenedDevice 6).write (exampleKernel 6) exampleConstants 0 0 (fun _ => 1) 3 ()).result =
      Except.ok () ∧
    ((exampleOpenedDevice 6).write (exampleKernel 6) exampleConstants 0 0 (fun _ => 1) 3 ()).syscalls =
      [Syscall.pwrite 3 3 0] ∧
    (exampleOpenedDevice 1).opened = true ∧
    RejectsSize (exampleKernel 1) exampleConstants (exampleOpenedDevice 1) 3 () ∧
    (exampleOpenedDevice 4).opened = true ∧
    RejectsSize (exampleKernel 4) exampleConstants (exampleOpenedDevice 4) 3 () :=
  ⟨by decide, by decide, rfl, by decide, rfl, by decide,
    by decide, ⟨rfl, by decide, rfl, by decide⟩, by decide, ⟨rfl, by decide, rfl, by decide⟩⟩

/-- C18, counterexample: on a register at address 8, of 16 bytes, with the bar number
269, `devMap::checkRegister` accepts 4 bytes at offset 4 and returns the bar 13, not
269: the bar is returned in a `uint8_t`.  On a register at address 2^32 - 8, of 16
bytes, both versions accept 4 bytes at offset 8 and return the offset 0, not
`A + addRegOffset` = 2^32: the sum is a `uint32_t`.  On the register at address 8, of
16 bytes, in bar 1, both versions accept `dataSize = 4` at `addRegOffset = 20`,
although 4 is greater than 16 - 20: the difference is formed in `uint32_t` and
wraps. -/
theorem checkRegister_truncates_results :
    devMap.checkRegister true (fun _ => Except.ok ⟨8, 16, 269⟩) "WORD" 4 4 =
      Except.ok ⟨4, 12, 13⟩ ∧
    devMap.checkRegister true (fun _ => Except.ok ⟨2 ^ 32 - 8, 16, 1⟩) "WORD" 4 8 =
      Except.ok ⟨4, 0, 1⟩ ∧
    devMap.RegisterAccessor.checkRegister ⟨2 ^ 32 - 8, 16, 1⟩ 4 8 = Except.ok ⟨4, 0, 1⟩ ∧
    (4 : Int) > 16 - 20 ∧
    devMap.checkRegister true exampleRegisterInfo "WORD_STATUS" 4 20 = Except.ok ⟨4, 28, 1⟩ ∧
    devMap.RegisterAccessor.checkRegister ⟨8, 16, 1⟩ 4 20 = Except.ok ⟨4, 28, 1⟩ :=
  ⟨rfl, rfl, rfl, by decide, rfl, rfl⟩

/-- C18, amended: for a register with address `A`, size `S` (a 32-bit value) and bar
`B`, `devMap::checkRegister` on an opened `devMap` that knows the register, and
`RegisterAccessor::checkRegister`, raise `EX_WRONG_PARAMETER` if `addRegOffset` is not
a multiple of 4, or if `dataSize` is non-zero and not a multiple of 4, or if
`addRegOffset ≤ S` and `dataSize` is non-zero and greater than `S - addRegOffset`;
otherwise, for `addRegOffset ≤ S`, they return the offset `A + addRegOffset` modulo
2^32, the bar `B` modulo 2^8 and the data size `dataSize`, or `S` when `dataSize` is
0: the offset `A + addRegOffset` and the bar `B` when these are below 2^32 and 2^8.
Nothing is stated of the third test and of the result for `addRegOffset > S`. -/
theorem checkRegister_result (me : mapElem) (getRegisterInfo : String → Except exdevMap mapElem)
    (regName : String) (dataSize addRegOffset : Nat)
    (hS : me.reg_size < 2 ^ 32) (hreg : getRegisterInfo regName = Except.ok me) :
    ((addRegOffset % 4 ≠ 0 ∨ (dataSize ≠ 0 ∧ dataSize % 4 ≠ 0)) →
      (∃ what, devMap.RegisterAccessor.checkRegister me dataSize addRegOffset =
        Except.error (exdevMap.EX_WRONG_PARAMETER what)) ∧
      (∃ what, devMap.checkRegister true getRegisterInfo regName dataSize addRegOffset =
        Except.error (exdevMap.EX_WRONG_PARAMETER what))) ∧
    (addRegOffset ≤ me.reg_size → dataSize ≠ 0 → dataSize > me.reg_size - addRegOffset →
      (∃ what, devMap.RegisterAccessor.checkRegister me dataSize addRegOffset =
        Except.error (exdevMap.EX_WRONG_PARAMETER what)) ∧
      (∃ what, devMap.checkRegister true getRegisterInfo regName dataSize addRegOffset =
        Except.error (exdevMap.EX_WRONG_PARAMETER what))) ∧
    (addRegOffset ≤ me.reg_size →
      ¬ (addRegOffset % 4 ≠ 0 ∨
        (dataSize ≠ 0 ∧ (dataSize % 4 ≠ 0 ∨ dataSize > me.reg_size - addRegOffset))) →
      devMap.RegisterAccessor.checkRegister me dataSize addRegOffset =
        Except.ok ⟨if dataSize = 0 then me.reg_size else dataSize,
          (me.reg_address + addRegOffset) % 2 ^ 32, me.reg_bar % 2 ^ 8⟩ ∧
      devMap.checkRegister true getRegisterInfo regName dataSize addRegOffset =
        Except.ok ⟨if dataSize = 0 then me.reg_size else dataSize,
          (me.reg_address + addRegOffset) % 2 ^ 32, me.reg_bar % 2 ^ 8⟩ ∧
      (me.reg_address + addRegOffset < 2 ^ 32 → me.reg_bar < 2 ^ 8 →
        devMap.RegisterAccessor.checkRegister me dataSize addRegOffset =
          Except.ok ⟨if dataSize = 0 then me.reg_size else dataSize,
            me.reg_address + addRegOffset, me.reg_bar⟩ ∧
        devMap.checkRegister true getRegisterInfo regName dataSize addRegOffset =
          Except.ok ⟨if dataSize = 0 then me.reg_size else dataSize,
            me.reg_address + addRegOffset, me.reg_bar⟩)) := by
  have hSm : me.reg_size % 2 ^ 32 = me.reg_size := Nat.mod_eq_of_lt hS
  have herr : (addRegOffset % 4 ≠ 0 ∨
      (dataSize ≠ 0 ∧ (dataSize % 4 ≠ 0 ∨ dataSize > sub32 me.reg_size addRegOffset))) →
      (∃ what, devMap.RegisterAccessor.checkRegister me dataSize addRegOffset =
        Except.error (exdevMap.EX_WRONG_PARAMETER what)) ∧
      (∃ what, devMap.checkRegister true getRegisterInfo regName dataSize addRegOffset =
        Except.error (exdevMap.EX_WRONG_PARAMETER what)) := by
    intro hc
    unfold devMap.checkRegister devMap.RegisterAccessor.checkRegister
    simp only [hreg, Bool.not_true, Bool.false_eq_true, if_false]
    by_cases h1 : addRegOffset % 4 ≠ 0
    · rw [if_pos h1]
      exact ⟨⟨_, rfl⟩, ⟨_, rfl⟩⟩
    · rcases hc with hc | ⟨hd, hc⟩
      · exact absurd hc h1
      · rw [if_neg h1, if_pos hd]
        by_cases h2 : dataSize % 4 ≠ 0
        · rw [if_pos h2]
          exact ⟨⟨_, rfl⟩, ⟨_, rfl⟩⟩
        · rcases hc with hc | hc
          · exact absurd hc h2
          · rw [if_neg h2, if_pos hc]
            exact ⟨⟨_, rfl⟩, ⟨_, rfl⟩⟩
  have hok : addRegOffset ≤ me.reg_size →
      ¬ (addRegOffset % 4 ≠ 0 ∨
        (dataSize ≠ 0 ∧ (dataSize % 4 ≠ 0 ∨ dataSize > me.reg_size - addRegOffset))) →
      devMap.RegisterAccessor.checkRegister me dataSize addRegOffset =
        Except.ok ⟨if dataSize = 0 then me.reg_size else dataSize,
          (me.reg_address + addRegOffset) % 2 ^ 32, me.reg_bar % 2 ^ 8⟩ ∧
      devMap.checkRegister true getRegisterInfo regName dataSize addRegOffset =
        Except.ok ⟨if dataSize = 0 then me.reg_size else dataSize,
          (me.reg_address + addRegOffset) % 2 ^ 32, me.reg_bar % 2 ^ 8⟩ := by
    intro hle hc
    have hsub := sub32_of_le me.reg_size addRegOffset hS hle
    have h1 : ¬ addRegOffset % 4 ≠ 0 := fun h => hc (Or.inl h)
    unfold devMap.checkRegister devMap.RegisterAccessor.checkRegister
    simp only [hreg, Bool.not_true, Bool.false_eq_true, if_false]
    rw [if_neg h1, hsub]
    unfold add32
    by_cases hd : dataSize ≠ 0
    · have h2 : ¬ dataSize % 4 ≠ 0 := fun h => hc (Or.inr ⟨hd, Or.inl h⟩)
      have h3 : ¬ dataSize > me.reg_size - addRegOffset :=
        fun h => hc (Or.inr ⟨hd, Or.inr h⟩)
      have hlt : dataSize < 2 ^ 32 :=
        Nat.lt_of_le_of_lt (Nat.le_of_not_gt h3) (Nat.lt_of_le_of_lt (Nat.sub_le _ _) hS)
      rw [if_pos hd, if_neg h2, if_neg h3, Nat.mod_eq_of_lt hlt, if_neg hd]
      exact ⟨rfl, rfl⟩
    · rw [if_neg hd, hSm]
      have hd0 : dataSize = 0 := by
        by_contra h
        exact hd h
      rw [if_pos hd0]
      exact ⟨rfl, rfl⟩
  refine ⟨?_, ?_, ?_⟩
  · intro hc
    rcases hc with hc | ⟨hd, hc⟩
    · exact herr (Or.inl hc)
    · exact herr (Or.inr ⟨hd, Or.inl hc⟩)
  · intro hle hd hgt
    refine herr (Or.inr ⟨hd, Or.inr ?_⟩)
    rw [sub32_of_le me.reg_size addRegOffset hS hle]
    exact hgt
  · intro hle hc
    obtain ⟨k1, k2⟩ := hok hle hc
    refine ⟨k1, k2, fun ha hb => ?_⟩
    rw [k1, k2, Nat.mod_eq_of_lt ha, Nat.mod_eq_of_lt hb]
    exact ⟨rfl, rfl⟩

/-- Witness for C18: the register at address 8, of 16 bytes, in bar 1; 8 bytes at
offset 4 are accepted, 16 bytes at offset 4 and an offset of 2 are refused, and a data
size of 0 yields the 16 bytes of the register. -/
theorem checkRegister_result_witness :
    devMap.checkRegister true exampleRegisterInfo "WORD_STATUS" 8 4 = Except.ok ⟨8, 12, 1⟩ ∧
    devMap.checkRegister true exampleRegisterInfo "WORD_STATUS" 0 0 = Except.ok ⟨16, 8, 1⟩ ∧
    (∃ what, devMap.checkRegister true exampleRegisterInfo "WORD_STATUS" 16 4 =
      Except.error (exdevMap.EX_WRONG_PARAMETER what)) ∧
    (∃ what, devMap.RegisterAccessor.checkRegister ⟨8, 16, 1⟩ 4 2 =
      Except.error (exdevMap.EX_WRONG_PARAMETER what)) :=
  ⟨(((checkRegister_result ⟨8, 16, 1⟩ exampleRegisterInfo "WORD_STATUS" 8 4 (by decide)
      rfl).2.2 (by decide) (by decide)).2.2 (by decide) (by decide)).2,
    (((checkRegister_result ⟨8, 16, 1⟩ exampleRegisterInfo "WORD_STATUS" 0 0 (by decide)
      rfl).2.2 (by decide) (by decide)).2.2 (by decide) (by decide)).2,
    ((checkRegister_result ⟨8, 16, 1⟩ exampleRegisterInfo "WORD_STATUS" 16 4 (by decide)
      rfl).2.1 (by decide) (by decide) (by decide)).2,
    ((checkRegister_result ⟨8, 16, 1⟩ exampleRegisterInfo "WORD_STATUS" 4 2 (by decide)
      rfl).1 (by decide)).1⟩

/-- C19: a line is an ignored one (`ignoredLine`) iff it is empty or consists of
whitespace only, or its first character that is not whitespace is `#`.  Whatever the
rest of the file, the line number and the entries read so far are, the loop of
`DMapFileParser::parse` passes over such a line, and over any block of such lines,
adding no entry and raising no error: it goes on with the lines that follow, the
entries unchanged and the line counter advanced by the number of lines passed. -/
theorem parse_ignores_blank_and_comment_lines (env : ParserEnvironment)
    (file_name absPath : List Char) (pre rest : List (List Char)) (line_nr : Nat)
    (dmap : DeviceInfoMap)
    (hpre : ∀ line ∈ pre, (∀ c ∈ line, isspace c = true) ∨
      ∃ p q, line = p ++ '#' :: q ∧ ∀ c ∈ p, isspace c = true)
    (hn : line_nr < 2 ^ 32) :
    (∀ line : List Char, ignoredLine line = true ↔
      ((∀ c ∈ line, isspace c = true) ∨
        ∃ p q, line = p ++ '#' :: q ∧ ∀ c ∈ p, isspace c = true)) ∧
    (∀ line ∈ pre, ∀ (others : List (List Char)) (n : Nat) (d : DeviceInfoMap),
      DMapFileParser.parseLines env file_name absPath (line :: others) n d =
        DMapFileParser.parseLines env file_name absPath others (add32 n 1) d) ∧
    DMapFileParser.parseLines env file_name absPath (pre ++ rest) line_nr dmap =
      DMapFileParser.parseLines env file_name absPath rest (add32 line_nr pre.length) dmap := by
  have hign : ∀ line ∈ pre, ignoredLine line = true :=
    fun line hl => (ignoredLine_iff line).mpr (hpre line hl)
  refine ⟨ignoredLine_iff, ?_, ?_⟩
  · intro line hl others n d
    exact parseLines_ignored env file_name absPath line others n d (hign line hl)
  · have h := parseLines_skip env file_name absPath pre rest line_nr dmap hign
    rw [add32_zero_of_lt line_nr hn] at h
    exact h

/-- Witness for C19: an empty line, a line of blanks and a tab, and an indented comment
stand before the line of a device; the loop passes them and reads the device in line
4. -/
theorem parse_ignores_blank_and_comment_lines_witness :
    DMapFileParser.parseLines (exampleEnvironment "") "devices.dmap".toList
        "/etc/devices.dmap".toList
        (["".toList, "  \t ".toList, "  # PCIE1 sdm://./pci:pcieunis6".toList] ++
          ["PCIE0 sdm://./pci:pcieunis6 mtcadummy.map".toList])
        0 ⟨"/etc/devices.dmap".toList, []⟩ =
      DMapFileParser.parseLines (exampleEnvironment "") "devices.dmap".toList
        "/etc/devices.dmap".toList ["PCIE0 sdm://./pci:pcieunis6 mtcadummy.map".toList]
        (add32 0 3) ⟨"/etc/devices.dmap".toList, []⟩ :=
  (parse_ignores_blank_and_comment_lines (exampleEnvironment "") "devices.dmap".toList
    "/etc/devices.dmap".toList
    ["".toList, "  \t ".toList, "  # PCIE1 sdm://./pci:pcieunis6".toList]
    ["PCIE0 sdm://./pci:pcieunis6 mtcadummy.map".toList] 0 ⟨"/etc/devices.dmap".toList, []⟩
    (fun line hl => (ignoredLine_iff line).mp (by
      simp only [List.mem_cons, List.mem_singleton, List.not_mem_nil, or_false] at hl
      rcases hl with h | h | h <;> (subst h; decide)))
    (by decide)).2.2

/-- C20, counterexample: in a file that holds a comment and an empty line only, every
line that is not ignored has three tokens (there is none), and `parse` returns no map:
it raises `EX_NO_DMAP_DATA`. -/
theorem parse_no_entries_raises :
    (∀ line ∈ getLines "# devices\n\n".toList,
      ignoredLine line = false → 3 ≤ (tokens line).length) ∧
    DMapFileParser.parse (exampleEnvironment "# devices\n\n") "/etc/devices.dmap".toList =
      Except.error (DMapFileParserException.EX_NO_DMAP_DATA
        "No data in in dmap file: \"/etc/devices.dmap\"".toList) :=
  ⟨by decide, rfl⟩

/-- C20, amended: for every DMap file with fewer than 2^32 lines, of which at least one
is not ignored, and in which every line that is not ignored has at least three
whitespace-separated tokens, `parse` returns the map of the absolute path of the file
with one entry for every line that is not ignored, in file order: `deviceName` is the
first token, `uri` the second, `mapFileName` is
`concatenatePaths(extractDirectory(absolute path), third token)`, `dmapFileName` the
absolute path, and `dmapFileLineNumber` the number of the line in the file, counted
from 1 with the ignored lines. -/
theorem parse_entries (env : ParserEnvironment) (file_name content : List Char)
    (hopen : env.fileContent (env.convertToAbsolutePath file_name) = some content)
    (htok : ∀ line ∈ getLines content, ignoredLine line = false → 3 ≤ (tokens line).length)
    (hne : ∃ line ∈ getLines content, ignoredLine line = false)
    (hlen : (getLines content).length < 2 ^ 32) :
    DMapFileParser.parse env file_name =
      Except.ok ⟨env.convertToAbsolutePath file_name,
        ((List.enumFrom 1 (getLines content)).filter (fun p => !ignoredLine p.2)).map
          (fun p =>
            { deviceName := (tokens p.2).getD 0 []
              uri := (tokens p.2).getD 1 []
              mapFileName := env.concatenatePaths
                (env.extractDirectory (env.convertToAbsolutePath file_name))
                ((tokens p.2).getD 2 [])
              dmapFileName := env.convertToAbsolutePath file_name
              dmapFileLineNumber := p.1 })⟩ := by
  unfold DMapFileParser.parse
  simp only [hopen]
  rw [parseLines_ok env file_name _ (getLines content) 0 _ htok (by omega)]
  have hne2 := entriesOfLines_ne_nil env (env.convertToAbsolutePath file_name)
    (getLines content) 1 hne
  simp only [List.nil_append, Nat.zero_add, DeviceInfoMap.getSize]
  rw [if_neg (by
    intro h
    exact hne2 (List.length_eq_zero.mp h))]
  rfl

/-- Witness for C20, amended: a file with a comment, two devices and an empty line
between them. -/
theorem parse_entries_witness :
    DMapFileParser.parse
        (exampleEnvironment
          "# devices\nPCIE0 sdm://./pci:pcieunis6 mtcadummy.map\n\n  DUMMYD0\tsdm://./dummy=goodMapFile.map  goodMapFile.map extra\n")
        "/etc/devices.dmap".toList =
      Except.ok ⟨"/etc/devices.dmap".toList,
        [⟨"PCIE0".toList, "sdm://./pci:pcieunis6".toList, "/etc/mtcadummy.map".toList,
            "/etc/devices.dmap".toList, 2⟩,
          ⟨"DUMMYD0".toList, "sdm://./dummy=goodMapFile.map".toList,
            "/etc/goodMapFile.map".toList, "/etc/devices.dmap".toList, 4⟩]⟩ :=
  (parse_entries
    (exampleEnvironment
      "# devices\nPCIE0 sdm://./pci:pcieunis6 mtcadummy.map\n\n  DUMMYD0\tsdm://./dummy=goodMapFile.map  goodMapFile.map extra\n")
    "/etc/devices.dmap".toList
    "# devices\nPCIE0 sdm://./pci:pcieunis6 mtcadummy.map\n\n  DUMMYD0\tsdm://./dummy=goodMapFile.map  goodMapFile.map extra\n".toList
    rfl (by decide) (by decide) (by decide)).trans rfl

/-- C21: for a DMap file that can be opened, (1) if `bad` is the first line that is not
ignored and has fewer than three whitespace-separated tokens (every line before it is
ignored or has three tokens), `parse` returns no map and throws
`EX_DMAP_FILE_PARSE_ERROR` with the message
`Error in dmap file: "<file_name>" in line (<n>) "<line>"`, where `<file_name>` is the
name as given, `<n>` the number of the line in the file (a `uint32_t`, counted from 1
with the ignored lines) and `<line>` the line without its leading whitespace; (2) if
every line of the file is ignored, `parse` throws `EX_NO_DMAP_DATA`. -/
theorem parse_error_first_bad_line (env : ParserEnvironment) (file_name content : List Char)
    (hopen : env.fileContent (env.convertToAbsolutePath file_name) = some content) :
    (∀ (pre : List (List Char)) (bad : List Char) (rest : List (List Char)),
      getLines content = pre ++ bad :: rest →
      (∀ line ∈ pre, ignoredLine line = false → 3 ≤ (tokens line).length) →
      ignoredLine bad = false → (tokens bad).length < 3 →
      DMapFileParser.parse env file_name =
        Except.error (DMapFileParserException.EX_DMAP_FILE_PARSE_ERROR
          ("Error in dmap file: \"".toList ++ file_name ++ "\" in line (".toList ++
            Nat.toDigits 10 ((pre.length + 1) % 2 ^ 32) ++ ") \"".toList ++
            bad.dropWhile isspace ++ "\"".toList))) ∧
    ((∀ line ∈ getLines content, ignoredLine line = true) →
      DMapFileParser.parse env file_name =
        Except.error (DMapFileParserException.EX_NO_DMAP_DATA
          ("No data in in dmap file: \"".toList ++ file_name ++ "\"".toList))) := by
  refine ⟨?_, ?_⟩
  · intro pre bad rest hlines hpre hbad hbt
    unfold DMapFileParser.parse
    simp only [hopen]
    rw [hlines, parseLines_first_bad env file_name _ bad rest hbad hbt pre 0 _ hpre]
    simp only [DMapFileParser.raiseException, add32, Nat.zero_add]
  · intro hall
    unfold DMapFileParser.parse
    simp only [hopen]
    rw [parseLines_all_ignored env file_name _ (getLines content) 0 _ hall]
    rfl

/-- Witness for C21: the third line of the file has two tokens only and a line with
three tokens after it; a file of a comment and a blank line has no data. -/
theorem parse_error_first_bad_line_witness :
    DMapFileParser.parse
        (exampleEnvironment
          "# devices\nPCIE0 sdm://./pci:pcieunis6 mtcadummy.map\n  DUMMYD0 sdm://./dummy\nPCIE1 a b\n")
        "/etc/devices.dmap".toList =
      Except.error (DMapFileParserException.EX_DMAP_FILE_PARSE_ERROR
        "Error in dmap file: \"/etc/devices.dmap\" in line (3) \"DUMMYD0 sdm://./dummy\"".toList) ∧
    DMapFileParser.parse (exampleEnvironment "# devices\n \t\n") "/etc/devices.dmap".toList =
      Except.error (DMapFileParserException.EX_NO_DMAP_DATA
        "No data in in dmap file: \"/etc/devices.dmap\"".toList) :=
  ⟨((parse_error_first_bad_line
      (exampleEnvironment
        "# devices\nPCIE0 sdm://./pci:pcieunis6 mtcadummy.map\n  DUMMYD0 sdm://./dummy\nPCIE1 a b\n")
      "/etc/devices.dmap".toList
      "# devices\nPCIE0 sdm://./pci:pcieunis6 mtcadummy.map\n  DUMMYD0 sdm://./dummy\nPCIE1 a b\n".toList
      rfl).1
      ["# devices".toList, "PCIE0 sdm://./pci:pcieunis6 mtcadummy.map".toList]
      "  DUMMYD0 sdm://./dummy".toList ["PCIE1 a b".toList]
      (by decide) (by decide) (by decide) (by decide)).trans rfl,
    ((parse_error_first_bad_line (exampleEnvironment "# devices\n \t\n")
      "/etc/devices.dmap".toList "# devices\n \t\n".toList rfl).2 (by decide)).trans rfl⟩

/-- C22: for a factory that has seen the registrations `regs` (those of its constructor
among them), in this order, and a device info whose URI is parsed to an `Sdm` (by
`parseSdm`, or by `parseDeviceString` when that throws):  if a creator was registered
under the pair of the parsed interface and protocol, `createBackendInternal` returns
what the creator registered last under that pair returns for the parsed host, instance
and parameters and the map file name of the entry;  it throws `UNREGISTERED_DEVICE` iff
no registration was made under that pair;  and the creator registered last under a
pair is the one of the last registration with that pair, whatever was registered under
it before. -/
theorem createBackendInternal_registered {B : Type} (U : SdmParsers) (dMapFile : List Char)
    (regs : List (Registration B)) (deviceInfo : DeviceInfo) :
    (∀ creatorFunction,
      lastRegistered ((parsedSdm U deviceInfo.uri).Interface,
        (parsedSdm U deviceInfo.uri).Protocol) regs = some creatorFunction →
      ((⟨[], dMapFile⟩ : BackendFactory B).registerAll regs).createBackendInternal U deviceInfo =
        Except.ok (creatorFunction (parsedSdm U deviceInfo.uri).Host
          (parsedSdm U deviceInfo.uri).Instance (parsedSdm U deviceInfo.uri).Parameters
          deviceInfo.mapFileName)) ∧
    (((⟨[], dMapFile⟩ : BackendFactory B).registerAll regs).createBackendInternal U deviceInfo =
        Except.error (BackendFactoryException.UNREGISTERED_DEVICE "Unregistered device.") ↔
      ∀ r ∈ regs, r.1 ≠ ((parsedSdm U deviceInfo.uri).Interface,
        (parsedSdm U deviceInfo.uri).Protocol)) ∧
    (∀ (key : List Char × List Char) (pre post : List (Registration B)) creatorFunction,
      (∀ r ∈ post, r.1 ≠ key) →
      lastRegistered key (pre ++ (key, creatorFunction) :: post) = some creatorFunction) := by
  have hfind := findCreator_registerAll (parsedSdm U deviceInfo.uri).Interface
    (parsedSdm U deviceInfo.uri).Protocol regs (⟨[], dMapFile⟩ : BackendFactory B)
  refine ⟨?_, ?_, ?_⟩
  · intro creatorFunction hl
    rw [hl] at hfind
    unfold BackendFactory.createBackendInternal
    rw [hfind]
  · rw [← lastRegistered_eq_none]
    unfold BackendFactory.createBackendInternal
    rw [hfind]
    cases hl : lastRegistered ((parsedSdm U deviceInfo.uri).Interface,
        (parsedSdm U deviceInfo.uri).Protocol) regs with
    | none => simp [findCreator]
    | some c => simp
  · intro key pre post creatorFunction hpost
    exact lastRegistered_append key creatorFunction post hpost pre

/-- Witness for C22: after the registrations of the constructor, the pair of `pci` and
the empty protocol is registered again with another creator; the URI
`sdm://./pci:pcieunidummys6` then reaches that creator, and the URI
`sdm://./pci:pcieunidummys6;undefined` reaches none. -/
theorem createBackendInternal_registered_witness :
    ((⟨[], []⟩ : BackendFactory (String × String × String × List String × String)).registerAll
        [(("pci".toList, "".toList), exampleCreator "PcieBackend"),
          (("pci".toList, "pcie".toList), exampleCreator "PcieBackend"),
          (("dummy".toList, "".toList), exampleCreator "DummyBackend"),
          (("pci".toList, "".toList), exampleCreator "OtherBackend")]).createBackendInternal
        Utilities.parsers
        ⟨"PCIE0".toList, "sdm://./pci:pcieunidummys6".toList, "/etc/mtcadummy.map".toList,
          "/etc/devices.dmap".toList, 1⟩ =
      Except.ok ("OtherBackend", ".", "pcieunidummys6", [], "/etc/mtcadummy.map") ∧
    ((⟨[], []⟩ : BackendFactory (String × String × String × List String × String)).registerAll
        [(("pci".toList, "".toList), exampleCreator "PcieBackend"),
          (("dummy".toList, "".toList), exampleCreator "DummyBackend")]).createBackendInternal
        Utilities.parsers
        ⟨"PCIE0".toList, "sdm://./pci:pcieunidummys6;undefined".toList,
          "/etc/mtcadummy.map".toList, "/etc/devices.dmap".toList, 1⟩ =
      Except.error (BackendFactoryException.UNREGISTERED_DEVICE "Unregistered device.") :=
  ⟨((createBackendInternal_registered Utilities.parsers []
      [(("pci".toList, "".toList), exampleCreator "PcieBackend"),
        (("pci".toList, "pcie".toList), exampleCreator "PcieBackend"),
        (("dummy".toList, "".toList), exampleCreator "DummyBackend"),
        (("pci".toList, "".toList), exampleCreator "OtherBackend")]
      ⟨"PCIE0".toList, "sdm://./pci:pcieunidummys6".toList, "/etc/mtcadummy.map".toList,
        "/etc/devices.dmap".toList, 1⟩).1 (exampleCreator "OtherBackend") rfl).trans rfl,
    (createBackendInternal_registered Utilities.parsers []
      [(("pci".toList, "".toList), exampleCreator "PcieBackend"),
        (("dummy".toList, "".toList), exampleCreator "DummyBackend")]
      ⟨"PCIE0".toList, "sdm://./pci:pcieunidummys6;undefined".toList,
        "/etc/mtcadummy.map".toList, "/etc/devices.dmap".toList, 1⟩).2.1.mpr
      (fun r hr => by
        simp only [List.mem_cons, List.mem_singleton, List.not_mem_nil, or_false] at hr
        rcases hr with h | h <;> (subst h; decide))⟩

/-- C23: for a host without `/` and fields without `:`, `;` and `=`, `parseSdm` on
`sdm://<host>/<interface>:<instance>;<protocol>` returns the four fields with an empty
parameter list; on `sdm://<host>/<interface>=<p1>,<p2>,...`, with at least one parameter
and no `,` in a parameter, it returns the host, the interface and the parameters in
order, with an empty instance and protocol; and
`sdm://./pci:pcieunidummys6;undefined` gives the host `.`, the interface `pci`, the
instance `pcieunidummys6`, the protocol `undefined` and no parameters. -/
theorem parseSdm_well_formed (host interface : List Char)
    (hhost : ∀ c ∈ host, c ≠ '/' ∧ isSdmDelimiter c = false)
    (hi : ∀ c ∈ interface, isSdmDelimiter c = false) :
    (∀ inst protocol : List Char, (∀ c ∈ inst, isSdmDelimiter c = false) →
      (∀ c ∈ protocol, isSdmDelimiter c = false) →
      Utilities.parseSdm
          (sdmSignature ++ (host ++ '/' :: (interface ++ ':' :: (inst ++ ';' :: protocol)))) =
        Except.ok ⟨host, interface, inst, protocol, []⟩) ∧
    (∀ params : List (List Char), params ≠ [] →
      (∀ p ∈ params, ∀ c ∈ p, c ≠ ',' ∧ isSdmDelimiter c = false) →
      Utilities.parseSdm
          (sdmSignature ++ (host ++ '/' :: (interface ++ '=' :: [','].intercalate params))) =
        Except.ok ⟨host, interface, [], [], params⟩) ∧
    Utilities.parseSdm "sdm://./pci:pcieunidummys6;undefined".toList =
      Except.ok ⟨".".toList, "pci".toList, "pcieunidummys6".toList, "undefined".toList, []⟩ := by
  have hhd : ∀ c ∈ host, isSdmDelimiter c = false := fun c hc => (hhost c hc).2
  have hhs : ∀ c ∈ host, (c != '/') = true := by
    intro c hc
    simp only [bne_iff_ne, ne_eq]
    exact (hhost c hc).1
  have htake : ∀ r : List Char, (sdmSignature ++ r).take 6 = sdmSignature := fun _ => rfl
  have hdrop : ∀ r : List Char, (sdmSignature ++ r).drop 6 = r := fun _ => rfl
  have hcount : ∀ (d : Char) (r : List Char), isSdmDelimiter d = true →
      (host ++ '/' :: r).count d = r.count d := by
    intro d r hd
    rw [List.count_append, count_delimiter_zero host hhd d hd, Nat.zero_add,
      List.count_cons_of_ne]
    intro h
    rw [h] at hd
    revert hd
    decide
  refine ⟨?_, ?_, rfl⟩
  · intro inst protocol hin hp
    obtain ⟨f1, f2, f3, f4⟩ := fields_instance_protocol interface inst protocol hi hin hp
    have c1 : (interface ++ ':' :: (inst ++ ';' :: protocol)).count ':' = 1 := by
      simp [List.count_append, List.count_cons, count_delimiter_zero interface hi,
        count_delimiter_zero inst hin, count_delimiter_zero protocol hp, isSdmDelimiter]
    have c2 : (interface ++ ':' :: (inst ++ ';' :: protocol)).count ';' = 1 := by
      simp [List.count_append, List.count_cons, count_delimiter_zero interface hi,
        count_delimiter_zero inst hin, count_delimiter_zero protocol hp, isSdmDelimiter]
    have c3 : (interface ++ ':' :: (inst ++ ';' :: protocol)).count '=' = 0 := by
      simp [List.count_append, List.count_cons, count_delimiter_zero interface hi,
        count_delimiter_zero inst hin, count_delimiter_zero protocol hp, isSdmDelimiter]
    unfold Utilities.parseSdm
    rw [htake, hdrop, if_neg (not_not.mpr rfl), hcount ':' _ (by decide),
      hcount ';' _ (by decide), hcount '=' _ (by decide), c1, c2, c3,
      if_neg (by omega), if_neg (not_not.mpr (by simp)),
      takeWhile_append_stop _ _ _ _ hhs (by decide),
      dropWhile_append_stop _ _ _ _ hhs (by decide), List.drop_one, List.tail_cons,
      f1, f2, f3, f4]
    rfl
  · intro params hne hp
    obtain ⟨f1, f2, f3, f4, f5⟩ := fields_parameters interface params hi hne hp
    have htext : ∀ c ∈ [','].intercalate params, isSdmDelimiter c = false := by
      intro c hc
      rcases mem_intercalate_comma params c hc with h | ⟨p, hpp, hcp⟩
      · subst h
        decide
      · exact (hp p hpp c hcp).2
    have c1 : (interface ++ '=' :: [','].intercalate params).count ':' = 0 := by
      simp [List.count_append, List.count_cons, count_delimiter_zero interface hi,
        count_delimiter_zero _ htext, isSdmDelimiter]
    have c2 : (interface ++ '=' :: [','].intercalate params).count ';' = 0 := by
      simp [List.count_append, List.count_cons, count_delimiter_zero interface hi,
        count_delimiter_zero _ htext, isSdmDelimiter]
    have c3 : (interface ++ '=' :: [','].intercalate params).count '=' = 1 := by
      simp [List.count_append, List.count_cons, count_delimiter_zero interface hi,
        count_delimiter_zero _ htext, isSdmDelimiter]
    unfold Utilities.parseSdm
    rw [htake, hdrop, if_neg (not_not.mpr rfl), hcount ':' _ (by decide),
      hcount ';' _ (by decide), hcount '=' _ (by decide), c1, c2, c3,
      if_neg (by omega), if_neg (not_not.mpr (by simp)),
      takeWhile_append_stop _ _ _ _ hhs (by decide),
      dropWhile_append_stop _ _ _ _ hhs (by decide), List.drop_one, List.tail_cons,
      f1, f2, f3, f4]
    dsimp only
    rw [f5]
    rfl

/-- Witness for C23: the URI of the rebot backend with three parameters, and the URI
with instance and protocol of the tests. -/
theorem parseSdm_well_formed_witness :
    Utilities.parseSdm "sdm://localhost/rebot=mskrebot,5001,mtcadummy.map".toList =
      Except.ok ⟨"localhost".toList, "rebot".toList, [], [],
        ["mskrebot".toList, "5001".toList, "mtcadummy.map".toList]⟩ ∧
    Utilities.parseSdm "sdm://./pci:pcieunidummys6;undefined".toList =
      Except.ok ⟨".".toList, "pci".toList, "pcieunidummys6".toList, "undefined".toList, []⟩ :=
  ⟨(parseSdm_well_formed "localhost".toList "rebot".toList (by decide) (by decide)).2.1
      ["mskrebot".toList, "5001".toList, "mtcadummy.map".toList] (by decide) (by decide),
    (parseSdm_well_formed ".".toList "pci".toList (by decide) (by decide)).1
      "pcieunidummys6".toList "undefined".toList (by decide) (by decide)⟩

/-- C24: `parseSdm` raises `logic_error` for every string that is empty, is shorter than
the signature `sdm://`, does not start with it, contains more than one `;`, more than
one `:` after the signature (the signature has one of its own), more than one `=`, or
no `/` after the signature to end the host. -/
theorem parseSdm_invalid (sdmString : List Char)
    (h : sdmString = [] ∨ sdmString.length < 6 ∨ ¬ sdmSignature <+: sdmString ∨
      1 < sdmString.count ';' ∨ 1 < (sdmString.drop 6).count ':' ∨
      1 < sdmString.count '=' ∨ '/' ∉ sdmString.drop 6) :
    ∃ what, Utilities.parseSdm sdmString =
      Except.error (SdmUriParseException.logic_error what) := by
  unfold Utilities.parseSdm
  by_cases hsig : sdmString.take 6 ≠ sdmSignature
  · rw [if_pos hsig]
    exact ⟨_, rfl⟩
  · rw [if_neg hsig]
    have hsig2 : sdmString.take 6 = sdmSignature := not_not.mp hsig
    have hs : sdmSignature ++ sdmString.drop 6 = sdmString := by
      rw [← hsig2]
      exact List.take_append_drop 6 sdmString
    have hcount : ∀ d : Char, d ≠ ':' → d ≠ '/' → d ≠ 's' → d ≠ 'd' → d ≠ 'm' →
        sdmString.count d = (sdmString.drop 6).count d := by
      intro d h1 h2 h3 h4 h5
      have hz : sdmSignature.count d = 0 := by
        rw [List.count_eq_zero]
        intro hm
        simp only [sdmSignature, List.mem_cons, List.mem_singleton, List.not_mem_nil,
          or_false] at hm
        rcases hm with hm | hm | hm | hm | hm | hm
        · exact h3 hm
        · exact h4 hm
        · exact h5 hm
        · exact h1 hm
        · exact h2 hm
        · exact h2 hm
      conv_lhs => rw [← hs]
      rw [List.count_append, hz, Nat.zero_add]
    have hlen : 6 ≤ sdmString.length := by
      have := congrArg List.length hs
      simp only [List.length_append, sdmSignature, List.length_cons, List.length_nil] at this
      omega
    rcases h with h | h | h | h | h | h | h
    · subst h
      simp at hlen
    · omega
    · exact absurd ⟨sdmString.drop 6, hs⟩ h
    · rw [hcount ';' (by decide) (by decide) (by decide) (by decide) (by decide)] at h
      rw [if_pos (Or.inr (Or.inl h))]
      exact ⟨_, rfl⟩
    · rw [if_pos (Or.inl h)]
      exact ⟨_, rfl⟩
    · rw [hcount '=' (by decide) (by decide) (by decide) (by decide) (by decide)] at h
      rw [if_pos (Or.inr (Or.inr h))]
      exact ⟨_, rfl⟩
    · by_cases hc : (sdmString.drop 6).count ':' > 1 ∨ (sdmString.drop 6).count ';' > 1 ∨
          (sdmString.drop 6).count '=' > 1
      · rw [if_pos hc]
        exact ⟨_, rfl⟩
      · rw [if_neg hc, if_pos h]
        exact ⟨_, rfl⟩

/-- Witness for C24: the invalid strings of the tests, each with the reason for which it
is refused. -/
theorem parseSdm_invalid_witness :
    (∃ what, Utilities.parseSdm "".toList =
      Except.error (SdmUriParseException.logic_error what)) ∧
    (∃ what, Utilities.parseSdm "sdm:".toList =
      Except.error (SdmUriParseException.logic_error what)) ∧
    (∃ what, Utilities.parseSdm "://./pci:pcieunidummys6;".toList =
      Except.error (SdmUriParseException.logic_error what)) ∧
    (∃ what, Utilities.parseSdm "sdm://./pci:pcieunidummys6;;".toList =
      Except.error (SdmUriParseException.logic_error what)) ∧
    (∃ what, Utilities.parseSdm "sdm://./pci::pcieunidummys6;".toList =
      Except.error (SdmUriParseException.logic_error what)) ∧
    (∃ what, Utilities.parseSdm "sdm://./dummy=goodMapFile.map=MapFile.map".toList =
      Except.error (SdmUriParseException.logic_error what)) ∧
    (∃ what, Utilities.parseSdm "sdm://.pci:pcieunidummys6;".toList =
      Except.error (SdmUriParseException.logic_error what)) :=
  ⟨parseSdm_invalid _ (Or.inl rfl),
    parseSdm_invalid _ (Or.inr (Or.inl (by decide))),
    parseSdm_invalid _ (Or.inr (Or.inr (Or.inl (by
      intro h
      obtain ⟨t, ht⟩ := h
      have h1 : (sdmSignature ++ t).head? = some 's' := rfl
      have h2 := congrArg List.head? ht
      rw [h1] at h2
      revert h2
      decide)))),
    parseSdm_invalid _ (Or.inr (Or.inr (Or.inr (Or.inl (by decide))))),
    parseSdm_invalid _ (Or.inr (Or.inr (Or.inr (Or.inr (Or.inl (by decide)))))),
    parseSdm_invalid _ (Or.inr (Or.inr (Or.inr (Or.inr (Or.inr (Or.inl (by decide))))))),
    parseSdm_invalid _ (Or.inr (Or.inr (Or.inr (Or.inr (Or.inr (Or.inr (by decide)))))))⟩

/-- C25: `parseDeviceString` returns an `Sdm` for every string, with the rules taken in
the order given: `/dev/<name>` with a non-empty name gives the interface `pci`; a
string not of that form that ends in `.map` or `.mapp` gives the interface `dummy`;
every other string gives the empty interface, as do `/mtcadummys0`, `/dev` and
`testfile.mappp`.  When `parseSdm` refuses the URI of a device info and
`parseDeviceString` gives it the empty interface, `createBackendInternal` of the
factory as constructed throws `UNREGISTERED_DEVICE`; so does every factory in which no
creator is registered under an empty interface, whichever functions parse the URI. -/
theorem parseDeviceString_classifies :
    (∀ name : List Char, name ≠ [] →
      (Utilities.parseDeviceString ("/dev/".toList ++ name)).Interface = "pci".toList) ∧
    (∀ deviceString : List Char,
      (¬ ∃ name : List Char, name ≠ [] ∧ deviceString = "/dev/".toList ++ name) →
      (".map".toList <:+ deviceString ∨ ".mapp".toList <:+ deviceString) →
      (Utilities.parseDeviceString deviceString).Interface = "dummy".toList) ∧
    (∀ deviceString : List Char,
      (¬ ∃ name : List Char, name ≠ [] ∧ deviceString = "/dev/".toList ++ name) →
      ¬ ".map".toList <:+ deviceString → ¬ ".mapp".toList <:+ deviceString →
      (Utilities.parseDeviceString deviceString).Interface = []) ∧
    (Utilities.parseDeviceString "/mtcadummys0".toList).Interface = [] ∧
    (Utilities.parseDeviceString "/dev".toList).Interface = [] ∧
    (Utilities.parseDeviceString "testfile.mappp".toList).Interface = [] ∧
    (∀ (B : Type) (pcie dummy rebot logicalNameMapping :
        List Char → List Char → List (List Char) → List Char → B) (deviceInfo : DeviceInfo),
      (∃ what, Utilities.parseSdm deviceInfo.uri =
        Except.error (SdmUriParseException.logic_error what)) →
      (Utilities.parseDeviceString deviceInfo.uri).Interface = [] →
      (BackendFactory.new pcie dummy rebot logicalNameMapping).createBackendInternal
          Utilities.parsers deviceInfo =
        Except.error (BackendFactoryException.UNREGISTERED_DEVICE "Unregistered device.")) ∧
    (∀ (B : Type) (U : SdmParsers) (factory : BackendFactory B) (deviceInfo : DeviceInfo),
      (parsedSdm U deviceInfo.uri).Interface = [] →
      (∀ e ∈ factory.creatorMap, e.1.1 ≠ []) →
      factory.createBackendInternal U deviceInfo =
        Except.error (BackendFactoryException.UNREGISTERED_DEVICE "Unregistered device.")) := by
  have hgen : ∀ (B : Type) (U : SdmParsers) (factory : BackendFactory B)
      (deviceInfo : DeviceInfo), (parsedSdm U deviceInfo.uri).Interface = [] →
      (∀ e ∈ factory.creatorMap, e.1.1 ≠ []) →
      factory.createBackendInternal U deviceInfo =
        Except.error (BackendFactoryException.UNREGISTERED_DEVICE "Unregistered device.") := by
    intro B U factory deviceInfo hi hm
    unfold BackendFactory.createBackendInternal
    rw [hi, findCreator_empty_interface _ _ hm]
  refine ⟨?_, ?_, ?_, by decide, by decide, by decide, ?_, hgen⟩
  · intro name hne
    unfold Utilities.parseDeviceString
    rw [if_pos ((dev_form_iff _).mpr ⟨name, hne, rfl⟩)]
  · intro deviceString hdev hsuf
    unfold Utilities.parseDeviceString
    rw [if_neg (fun h => hdev ((dev_form_iff _).mp h))]
    rw [if_pos (by
      rcases hsuf with h | h
      · exact Or.inl (List.isSuffixOf_iff_suffix.mpr h)
      · exact Or.inr (List.isSuffixOf_iff_suffix.mpr h))]
  · intro deviceString hdev h1 h2
    unfold Utilities.parseDeviceString
    rw [if_neg (fun h => hdev ((dev_form_iff _).mp h))]
    rw [if_neg (by
      intro h
      rcases h with h | h
      · exact h1 (List.isSuffixOf_iff_suffix.mp h)
      · exact h2 (List.isSuffixOf_iff_suffix.mp h))]
  · intro B pcie dummy rebot logicalNameMapping deviceInfo hsdm hi
    apply hgen
    · obtain ⟨what, hw⟩ := hsdm
      unfold parsedSdm
      show (match Utilities.parseSdm deviceInfo.uri with
        | Except.ok sdm => sdm
        | Except.error _ => Utilities.parseDeviceString deviceInfo.uri).Interface = []
      rw [hw]
      exact hi
    · rw [new_creatorMap]
      intro e he
      simp only [List.mem_cons, List.mem_singleton, List.not_mem_nil, or_false] at he
      rcases he with h | h | h | h | h <;> (subst h; dsimp only; decide)

/-- Witness for C25: the strings of the tests, and the device info with the URI
`/mtcadummys0`, which the factory of the examples refuses. -/
theorem parseDeviceString_classifies_witness :
    (Utilities.parseDeviceString "/dev/mtcadummys0".toList).Interface = "pci".toList ∧
    (Utilities.parseDeviceString "testfile.map".toList).Interface = "dummy".toList ∧
    (Utilities.parseDeviceString "testfile.mapp".toList).Interface = "dummy".toList ∧
    (Utilities.parseDeviceString "no.map.here".toList).Interface = [] ∧
    exampleFactory.createBackendInternal Utilities.parsers
        ⟨"OLD".toList, "/mtcadummys0".toList, "/etc/mtcadummy.map".toList,
          "/etc/devices.dmap".toList, 7⟩ =
      Except.error (BackendFactoryException.UNREGISTERED_DEVICE "Unregistered device.") :=
  ⟨parseDeviceString_classifies.1 "mtcadummys0".toList (by decide),
    parseDeviceString_classifies.2.1 "testfile.map".toList
      (by
        intro h
        obtain ⟨name, _, hs⟩ := h
        have h1 : ("/dev/".toList ++ name).head? = some '/' := rfl
        have h2 := congrArg List.head? hs
        rw [h1] at h2
        revert h2
        decide)
      (Or.inl ⟨"testfile".toList, rfl⟩),
    parseDeviceString_classifies.2.1 "testfile.mapp".toList
      (by
        intro h
        obtain ⟨name, _, hs⟩ := h
        have h1 : ("/dev/".toList ++ name).head? = some '/' := rfl
        have h2 := congrArg List.head? hs
        rw [h1] at h2
        revert h2
        decide)
      (Or.inr ⟨"testfile".toList, rfl⟩),
    parseDeviceString_classifies.2.2.1 "no.map.here".toList
      (by
        intro h
        obtain ⟨name, _, hs⟩ := h
        have h1 : ("/dev/".toList ++ name).head? = some '/' := rfl
        have h2 := congrArg List.head? hs
        rw [h1] at h2
        revert h2
        decide)
      (by
        intro h
        have := List.isSuffixOf_iff_suffix.mpr h
        revert this
        decide)
      (by
        intro h
        have := List.isSuffixOf_iff_suffix.mpr h
        revert this
        decide),
    parseDeviceString_classifies.2.2.2.2.2.2.1 _ _ _ _ _
      ⟨"OLD".toList, "/mtcadummys0".toList, "/etc/mtcadummy.map".toList,
        "/etc/devices.dmap".toList, 7⟩ ⟨_, rfl⟩ (by decide)⟩

/-- C28: two requests that `checkRegister` accepts for the register at address 8, of 16
bytes, in bar 1 (bytes 8 to 23).  With `dataSize = 0` and `addRegOffset = 4` both
versions return the offset 12 and the full size 16, the bytes 12 to 27; with
`dataSize = 4` and `addRegOffset = 20`, where `reg_size - addRegOffset` wraps to
2^32 - 4, they return the offset 28 and the size 4, the bytes 28 to 31.  Neither range
lies inside the register. -/
theorem checkRegister_accepts_beyond_register :
    devMap.RegisterAccessor.checkRegister ⟨8, 16, 1⟩ 0 4 = Except.ok ⟨16, 12, 1⟩ ∧
    devMap.checkRegister true exampleRegisterInfo "WORD_STATUS" 0 4 = Except.ok ⟨16, 12, 1⟩ ∧
    ¬ (CheckedRegister.insideRegister ⟨16, 12, 1⟩ ⟨8, 16, 1⟩) ∧
    sub32 16 20 = 2 ^ 32 - 4 ∧
    devMap.RegisterAccessor.checkRegister ⟨8, 16, 1⟩ 4 20 = Except.ok ⟨4, 28, 1⟩ ∧
    devMap.checkRegister true exampleRegisterInfo "WORD_STATUS" 4 20 = Except.ok ⟨4, 28, 1⟩ ∧
    ¬ (CheckedRegister.insideRegister ⟨4, 28, 1⟩ ⟨8, 16, 1⟩) :=
  ⟨rfl, rfl, by decide, by decide, rfl, rfl, by decide⟩

/-- C29: for a non-empty list of fewer than 2^32 sequence infos whose `nBytes` are each
1, 2 or 4, the constructor computes `_sizeOneBlock >= 1` and returns with
`_nBlocks = areaInfo.nBytes / 4 / _sizeOneBlock`; `fillSequences` and `fillIO_Buffer`
then move the pointer from the start of the buffer by exactly
`_nBlocks * (sum of the nBytes)` bytes, which are the bytes they access, each access
lying before that end; and this number is at most `areaInfo.nBytes`. -/
theorem fill_traverses_within_area (dataRegionName : String) (areaInfo : SequenceInfo)
    (sequenceInfos : List SequenceInfo) (hne : sequenceInfos ≠ [])
    (hb : ∀ info ∈ sequenceInfos, info.nBytes = 1 ∨ info.nBytes = 2 ∨ info.nBytes = 4)
    (hlen : sequenceInfos.length < 2 ^ 32) :
    1 ≤ MixedTypeMuxedDataAccessor.computeSizeOneBlock sequenceInfos ∧
    ∃ acc : MixedTypeMuxedDataAccessor,
      MixedTypeMuxedDataAccessor.new dataRegionName areaInfo sequenceInfos = Except.ok acc ∧
      acc.sizeOneBlock = MixedTypeMuxedDataAccessor.computeSizeOneBlock sequenceInfos ∧
      acc.nBlocks = areaInfo.nBytes / 4 / acc.sizeOneBlock ∧
      (∀ (rawAt : Nat → Nat → Nat) (toCooked : Nat → Nat → Int),
        (acc.fillSequences rawAt toCooked).2 = acc.nBlocks * sumBytes sequenceInfos ∧
        (((acc.fillSequences rawAt toCooked).1).map (fun p => p.1.nBytes)).sum =
          acc.nBlocks * sumBytes sequenceInfos ∧
        ∀ p ∈ (acc.fillSequences rawAt toCooked).1,
          p.1.offset + p.1.nBytes ≤ acc.nBlocks * sumBytes sequenceInfos) ∧
      (∀ (sequences : Nat → Nat → Int) (toRaw : Nat → Int → Nat),
        (acc.fillIO_Buffer sequences toRaw).2 = acc.nBlocks * sumBytes sequenceInfos ∧
        (((acc.fillIO_Buffer sequences toRaw).1).map (fun p => p.1.nBytes)).sum =
          acc.nBlocks * sumBytes sequenceInfos ∧
        ∀ p ∈ (acc.fillIO_Buffer sequences toRaw).1,
          p.1.offset + p.1.nBytes ≤ acc.nBlocks * sumBytes sequenceInfos) ∧
      acc.nBlocks * sumBytes sequenceInfos ≤ areaInfo.nBytes := by
  have hb4 : ∀ info ∈ sequenceInfos, info.nBytes ≤ 4 := by
    intro info hi
    rcases hb info hi with h | h | h <;> omega
  obtain ⟨hs, h1, hsum⟩ := computeSizeOneBlock_eq sequenceInfos hne hb4 hlen
  have hpos : 1 ≤ MixedTypeMuxedDataAccessor.computeSizeOneBlock sequenceInfos := by
    rw [hs]
    exact h1
  have hempty : sequenceInfos.isEmpty = false := by
    cases sequenceInfos with
    | nil => exact absurd rfl hne
    | cons a l => rfl
  have hnz : ¬ MixedTypeMuxedDataAccessor.computeSizeOneBlock sequenceInfos = 0 := by omega
  refine ⟨hpos, ⟨areaInfo, sequenceInfos,
    MixedTypeMuxedDataAccessor.computeSizeOneBlock sequenceInfos,
    areaInfo.nBytes / 4 / MixedTypeMuxedDataAccessor.computeSizeOneBlock sequenceInfos,
    areaInfo.nBytes⟩, ?_, rfl, rfl, ?_, ?_, ?_⟩
  · unfold MixedTypeMuxedDataAccessor.new
    rw [hempty]
    simp only [Bool.false_eq_true, if_false]
    rw [if_neg hnz]
  · intro rawAt toCooked
    obtain ⟨t1, t2, t3⟩ := traverse_spec sequenceInfos hb
      (areaInfo.nBytes / 4 / MixedTypeMuxedDataAccessor.computeSizeOneBlock sequenceInfos) 0 0
    rw [Nat.zero_add] at t1 t3
    unfold MixedTypeMuxedDataAccessor.fillSequences
    dsimp only
    refine ⟨t1, ?_, ?_⟩
    · rw [List.map_map]
      exact t2
    · intro p hp
      obtain ⟨a, ha, hap⟩ := List.mem_map.mp hp
      subst hap
      exact (t3 a ha).2
  · intro sequences toRaw
    obtain ⟨t1, t2, t3⟩ := traverse_spec sequenceInfos hb
      (areaInfo.nBytes / 4 / MixedTypeMuxedDataAccessor.computeSizeOneBlock sequenceInfos) 0 0
    rw [Nat.zero_add] at t1 t3
    unfold MixedTypeMuxedDataAccessor.fillIO_Buffer
    dsimp only
    refine ⟨t1, ?_, ?_⟩
    · rw [List.map_map]
      exact t2
    · intro p hp
      obtain ⟨a, ha, hap⟩ := List.mem_map.mp hp
      subst hap
      exact (t3 a ha).2
  · dsimp only
    rw [hs]
    have hw : 0 < wordCount sequenceInfos 0 := h1
    calc areaInfo.nBytes / 4 / wordCount sequenceInfos 0 * sumBytes sequenceInfos
        ≤ areaInfo.nBytes / 4 / wordCount sequenceInfos 0 * (4 * wordCount sequenceInfos 0) :=
          Nat.mul_le_mul_left _ hsum
      _ = areaInfo.nBytes / 4 / wordCount sequenceInfos 0 * wordCount sequenceInfos 0 * 4 := by
          rw [Nat.mul_comm 4 (wordCount sequenceInfos 0), Nat.mul_assoc]
      _ ≤ areaInfo.nBytes / 4 * 4 := Nat.mul_le_mul_right 4 (Nat.div_mul_le_self _ _)
      _ ≤ areaInfo.nBytes := Nat.div_mul_le_self _ _

/-- Witness for C29: sequences of 1, 2, 4, 2 and 1 bytes in an area of 100 bytes: a
block takes 3 words, the area holds 8 blocks, and 80 bytes are traversed. -/
theorem fill_traverses_within_area_witness :
    MixedTypeMuxedDataAccessor.computeSizeOneBlock
      [exampleSequence 1, exampleSequence 2, exampleSequence 4, exampleSequence 2,
        exampleSequence 1] = 3 ∧
    ∃ acc : MixedTypeMuxedDataAccessor,
      MixedTypeMuxedDataAccessor.new "DMA" (exampleSequence 100)
        [exampleSequence 1, exampleSequence 2, exampleSequence 4, exampleSequence 2,
          exampleSequence 1] = Except.ok acc ∧
      acc.nBlocks = 8 ∧
      (acc.fillSequences (fun _ _ => 0) (fun _ raw => (raw : Int))).2 = 80 := by
  obtain ⟨_, acc, hacc, _, _, hfill, _, _⟩ :=
    fill_traverses_within_area "DMA" (exampleSequence 100)
      [exampleSequence 1, exampleSequence 2, exampleSequence 4, exampleSequence 2,
        exampleSequence 1]
      (by decide) (by decide) (by decide)
  refine ⟨by decide, acc, hacc, ?_, ?_⟩
  · have h : MixedTypeMuxedDataAccessor.new "DMA" (exampleSequence 100)
        [exampleSequence 1, exampleSequence 2, exampleSequence 4, exampleSequence 2,
          exampleSequence 1] =
        Except.ok ⟨exampleSequence 100, [exampleSequence 1, exampleSequence 2,
          exampleSequence 4, exampleSequence 2, exampleSequence 1], 3, 8, 100⟩ := rfl
    rw [h] at hacc
    cases hacc
    rfl
  · have h : MixedTypeMuxedDataAccessor.new "DMA" (exampleSequence 100)
        [exampleSequence 1, exampleSequence 2, exampleSequence 4, exampleSequence 2,
          exampleSequence 1] =
        Except.ok ⟨exampleSequence 100, [exampleSequence 1, exampleSequence 2,
          exampleSequence 4, exampleSequence 2, exampleSequence 1], 3, 8, 100⟩ := rfl
    rw [h] at hacc
    cases hacc
    rw [(hfill (fun _ _ => 0) (fun _ raw => (raw : Int))).1]
    decide

/-- C30: the device `/dev/llrfdummys4` of the pciedev driver, opened with success and
then closed.  `read(0, 0, data, 0)` returns normally and `read(0, 0, data, 3)` throws
`EX_READ_ERROR`, not `EX_DEVICE_CLOSED`; `read(0, 0, data, 4)`, `write` and `readDMA`
throw `EX_DEVICE_CLOSED`; none of the calls makes a system call.  `open` on the opened
device throws `EX_DEVICE_OPENED` and leaves it opened. -/
theorem read_closed_device_size :
    (exampleOpenedDevice 1).opened = true ∧
    (exampleClosedDevice 1).opened = false ∧
    ((exampleClosedDevice 1).read (exampleKernel 1) exampleConstants 0 0 0 ()).result =
      Except.ok [] ∧
    ((exampleClosedDevice 1).read (exampleKernel 1) exampleConstants 0 0 0 ()).syscalls = [] ∧
    ((exampleClosedDevice 1).read (exampleKernel 1) exampleConstants 0 0 3 ()).result =
      Except.error (DeviceException.PcieDeviceException
        "Wrong data size - must be dividable by 4" PcieDeviceExceptionId.EX_READ_ERROR) ∧
    ((exampleClosedDevice 1).read (exampleKernel 1) exampleConstants 0 0 3 ()).syscalls = [] ∧
    ((exampleClosedDevice 1).read (exampleKernel 1) exampleConstants 0 0 4 ()).result =
      Except.error deviceClosed ∧
    ((exampleClosedDevice 1).read (exampleKernel 1) exampleConstants 0 0 4 ()).syscalls = [] ∧
    ((exampleClosedDevice 1).write (exampleKernel 1) exampleConstants 0 0 (fun _ => 1) 0 ()).result =
      Except.error deviceClosed ∧
    ((exampleClosedDevice 1).write (exampleKernel 1) exampleConstants 0 0 (fun _ => 1) 0 ()).syscalls =
      [] ∧
    ((exampleClosedDevice 1).readDMA (exampleKernel 1) exampleConstants 0 0 ()).result =
      Except.error deviceClosed ∧
    ((exampleClosedDevice 1).readDMA (exampleKernel 1) exampleConstants 0 0 ()).syscalls = [] ∧
    ((exampleOpenedDevice 1).open (exampleKernel 1) exampleConstants "/dev/llrfdummys4"
        exampleConstants.O_RDWR ()).result =
      Except.error (DeviceException.PcieDeviceException "Device already has been _Opened"
        PcieDeviceExceptionId.EX_DEVICE_OPENED) ∧
    ((exampleOpenedDevice 1).open (exampleKernel 1) exampleConstants "/dev/llrfdummys4"
        exampleConstants.O_RDWR ()).device.opened = true :=
  ⟨by decide, by decide, rfl, by decide, rfl, by decide, rfl, by decide, rfl, by decide,
    rfl, by decide, rfl, by decide⟩

end mtca4u
